import Mathlib

/-! # MissionController (QGroundControl) — verification development

Shallow embedding of `src/MissionManager/MissionController.cc`.

Conventions of the embedding

* Every `QObject` (visual item, line segment) carries an object identity `oid : Nat`,
  standing for its address; `new` takes the next unused identity from the controller's
  allocation counter.
* C++ `double` values are represented by rationals (`Rat`).  Where a result depends on the
  rounding of the operations, in `_normalizeLat`, `_normalizeLon`, the centre computed by
  `_addMissionSettings` and the altitudes of `_calcPrevWaypointValues`, every operation is
  followed by `roundDouble`, the rounding to the nearest binary64 value; elsewhere the exact
  value stands for the double.  The conversion `int x = d` is truncation toward zero
  (`doubleToInt`).
* C++ `int` values are represented by `Int` (no list in this program comes near `2^31`
  entries, so wrap-around never arises there); the sum `(int)param1 + 1` of the text loader
  is taken in 32-bit `int` (`toInt32`).
* Undefined behaviour of the C++ code (null dereference, out-of-range `get`) is
  represented by the result `none`.
* `QString& errorString` is threaded explicitly through the loaders.
* The dirty flag of the list `_visualItems` points to is a field of the controller state; it
  follows the calls of `setDirty` in the file and the changes of the list's content.
* The values `_recalcAltitudeRangeBearing` stores in the items and in the mission totals of
  the controller are kept in a state of their own (`MetricsState`), indexed by object
  identity; within `_recalcWaypointLines` only the definedness of that call is recorded.
-/

namespace QGC

/-! ## Data model -/

/-- A geographic coordinate (`QGeoCoordinate`): latitude, longitude, altitude. -/
structure QGeoCoordinate where
  latitude : Rat
  longitude : Rat
  altitude : Rat
deriving DecidableEq, Repr

/-- The dynamic type of a visual mission item, as tested by `qobject_cast` and
`isSimpleItem()`. -/
inductive ItemKind where
  | simple      -- SimpleMissionItem
  | survey      -- SurveyMissionItem
  | fwLanding   -- FixedWingLandingComplexItem
  | settings    -- MissionSettingsComplexItem
deriving DecidableEq, Repr

/-- MAV_CMD_NAV_WAYPOINT. -/
def MAV_CMD_NAV_WAYPOINT : Int := 16
/-- MAV_CMD_NAV_TAKEOFF. -/
def MAV_CMD_NAV_TAKEOFF : Int := 22
/-- MAV_CMD_NAV_VTOL_TAKEOFF. -/
def MAV_CMD_NAV_VTOL_TAKEOFF : Int := 84
/-- MAV_CMD_DO_JUMP. -/
def MAV_CMD_DO_JUMP : Int := 177

/-- A visual mission item (`VisualMissionItem` and its subclasses), reduced to the state
that `MissionController.cc` reads or writes.  The values of the virtual accessors
`specifiesCoordinate()`, `isStandaloneCoordinate()`, `coordinate()`, `exitCoordinate()`
are stored as fields. -/
structure VisualItem where
  /-- object identity (address of the C++ object) -/
  oid : Nat
  kind : ItemKind
  sequenceNumber : Int
  /-- number of underlying mission commands the item spans, see `lastSequenceNumber` -/
  span : Int
  /-- `missionItem().command()` of a simple item -/
  command : Int
  /-- `missionItem().frame()` of a simple item -/
  frame : Int
  param1 : Rat
  param2 : Rat
  param3 : Rat
  param4 : Rat
  /-- `missionItem().doJumpId()` of a simple item -/
  doJumpId : Int
  specifiesCoordinate : Bool
  isStandaloneCoordinate : Bool
  coordinate : QGeoCoordinate
  exitCoordinate : QGeoCoordinate
  /-- `childItems()`: identities of the child items -/
  childItems : List Nat
  isCurrentItem : Bool
  showHomePosition : Bool
deriving DecidableEq, Repr

namespace VisualItem

/-- Modelled from the spec: `isSimpleItem()` is a virtual accessor of the item classes, outside
`MissionController.cc`; the spec's variant *Simple* is the dynamic type `SimpleMissionItem`, so
the accessor holds exactly when `qobject_cast<SimpleMissionItem*>` succeeds. -/
def isSimpleItem (v : VisualItem) : Bool := v.kind = ItemKind.simple

/-- Whether `qobject_cast<MissionSettingsComplexItem*>` succeeds. -/
def isSettingsItem (v : VisualItem) : Bool := v.kind = ItemKind.settings

/-- Modelled from the spec: `lastSequenceNumber()` is a virtual accessor implemented in the
item classes, outside `MissionController.cc`.  The spec gives "sequence consumed by its last
internal step — equals `sequenceNumber` for single-step items" and "an item spanning N
underlying commands consumes N sequence numbers": the last number is the first plus
`span - 1`. -/
def lastSequenceNumber (v : VisualItem) : Int := v.sequenceNumber + v.span - 1

/-- Modelled from the spec: `setSequenceNumber(n)` is implemented in the item classes, outside
`MissionController.cc`; it stores the field `sequenceNumber` that the spec lists for every
item. -/
def setSequenceNumber (v : VisualItem) (n : Int) : VisualItem := { v with sequenceNumber := n }

end VisualItem

/-- Conversion `int x = d` of a `double` holding `d`: truncation toward zero. -/
def doubleToInt (d : Rat) : Int := Int.tdiv d.num d.den

/-! ## Recalculation: sequence pass -/

/-- The loop of `_recalcSequence`, entered with the running `sequenceNumber`. -/
def _recalcSequenceFrom (sequenceNumber : Int) : List VisualItem → List VisualItem
  | [] => []
  | item :: rest =>
    let item1 := item.setSequenceNumber sequenceNumber
    item1 :: _recalcSequenceFrom (item1.lastSequenceNumber + 1) rest

/-- Method `MissionController::_recalcSequence`: "Setup ascending sequence numbers for all visual
items". -/
def _recalcSequence (visualItems : List VisualItem) : List VisualItem :=
  _recalcSequenceFrom 0 visualItems

/-! ## Recalculation: child-item pass -/

/-- The loop of `_recalcChildItems` over the items that follow `currentParentItem`.
`following` holds the items already visited since `currentParentItem` (they come after it in
the list); the loop returns the visited part of the list with the updated `childItems`.
A coordinate-specifying item has its `childItems` cleared and becomes the current parent;
otherwise a simple item is appended to the current parent's `childItems`. -/
def _recalcChildItemsLoop (currentParentItem : VisualItem) (following : List VisualItem) :
    List VisualItem → List VisualItem
  | [] => currentParentItem :: following
  | item :: rest =>
    if item.specifiesCoordinate then
      (currentParentItem :: following) ++
        _recalcChildItemsLoop { item with childItems := [] } [] rest
    else if item.isSimpleItem then
      _recalcChildItemsLoop
        { currentParentItem with childItems := currentParentItem.childItems ++ [item.oid] }
        (following ++ [item]) rest
    else
      _recalcChildItemsLoop currentParentItem (following ++ [item]) rest

/-- Method `MissionController::_recalcChildItems`.  `_visualItems->get(0)` on an empty list is
undefined behaviour (`none`). -/
def _recalcChildItems : List VisualItem → Option (List VisualItem)
  | [] => none
  | first :: rest => some (_recalcChildItemsLoop { first with childItems := [] } [] rest)

/-! ## Recalculation: segment cache -/

/-- Key of the segment cache (`VisualItemPair`): the identities of the two end items. -/
abbrev VisualItemPair := Nat × Nat

/-- A line segment object (`CoordinateVector`) with its identity and the two end
coordinates it was constructed with. -/
structure CoordinateVector where
  oid : Nat
  coordinate1 : QGeoCoordinate
  coordinate2 : QGeoCoordinate
deriving DecidableEq, Repr

/-- The segment cache `QHash<VisualItemPair, CoordinateVector*>`, as an association list. -/
abbrev CoordVectHashTable := List (VisualItemPair × CoordinateVector)

namespace CoordVectHashTable

/-- Lookup `value(key)`: the entry stored under `key`, if any. -/
def find (t : CoordVectHashTable) (key : VisualItemPair) : Option CoordinateVector :=
  (List.find? (fun e => e.1 = key) t).map Prod.snd

/-- Test `contains(key)`. -/
def contains (t : CoordVectHashTable) (key : VisualItemPair) : Bool :=
  (find t key).isSome

/-- The table left by `take(key)` or `remove(key)`: every entry under `key` is gone. -/
def remove (t : CoordVectHashTable) (key : VisualItemPair) : CoordVectHashTable :=
  List.filter (fun e => e.1 ≠ key) t

/-- Assignment `table[key] = value`: replaces the entry under `key` or adds one. -/
def set (t : CoordVectHashTable) (key : VisualItemPair) (value : CoordinateVector) :
    CoordVectHashTable :=
  remove t key ++ [(key, value)]

/-- The keys of the table. -/
def keys (t : CoordVectHashTable) : List VisualItemPair := List.map Prod.fst t

/-- The stored segment objects, `values()`. -/
def values (t : CoordVectHashTable) : List CoordinateVector := List.map Prod.snd t

end CoordVectHashTable

/-- Local variables of the loop of `_recalcWaypointLines`, with the allocation counter. -/
structure LinesLoopState where
  firstCoordinateItem : Bool
  lastCoordinateItem : VisualItem
  linkBackToHome : Bool
  old_table : CoordVectHashTable
  linesTable : CoordVectHashTable
  nextObj : Nat
deriving DecidableEq, Repr

/-- One iteration of the loop of `_recalcWaypointLines` at `item`.  `settingsItem` is the
result of `qobject_cast<MissionSettingsComplexItem*>` on item 0 (`none` for a null pointer);
`showHomePosition` is the local constant of that name. -/
def _recalcWaypointLinesStep (settingsItem : Option Nat) (showHomePosition : Bool)
    (s : LinesLoopState) (item : VisualItem) : LinesLoopState :=
  let linkBackToHome :=
    if s.firstCoordinateItem && item.isSimpleItem &&
        (item.command == MAV_CMD_NAV_TAKEOFF || item.command == MAV_CMD_NAV_VTOL_TAKEOFF) then
      true
    else s.linkBackToHome
  let s := { s with linkBackToHome := linkBackToHome }
  if item.specifiesCoordinate then
    if !item.isStandaloneCoordinate then
      let pair : VisualItemPair := (s.lastCoordinateItem.oid, item.oid)
      let s1 : LinesLoopState :=
        if some s.lastCoordinateItem.oid ≠ settingsItem || (showHomePosition && linkBackToHome) then
          match s.old_table.find pair with
          | some linevect =>
            -- this segment already exists: move it from the old table to the new one
            { s with linesTable := s.linesTable.set pair linevect
                     old_table := s.old_table.remove pair }
          | none =>
            -- create a new segment
            let linevect : CoordinateVector :=
              { oid := s.nextObj
                coordinate1 :=
                  if s.lastCoordinateItem.isSimpleItem then s.lastCoordinateItem.coordinate
                  else s.lastCoordinateItem.exitCoordinate
                coordinate2 := item.coordinate }
            { s with linesTable := s.linesTable.set pair linevect
                     nextObj := s.nextObj + 1 }
        else s
      { s1 with firstCoordinateItem := false, lastCoordinateItem := item }
    else s
  else s

/-- Whether `_recalcAltitudeRangeBearing` runs without dereferencing a null pointer: it returns
at once on an empty list and otherwise calls `settingsItem->showHomePosition()` on the result
of the cast of item 0.  (The metrics it computes are floating-point values stored in fields
that are not part of `VisualItem` here.) -/
def _recalcAltitudeRangeBearingDefined : List VisualItem → Bool
  | [] => true
  | first :: _ => first.isSettingsItem

/-! ## Collaborators declared outside `MissionController.cc` -/

/-- Command metadata (`MissionCommandUIInfo`): what `setCommand` and
`setDefaultsForCommand` establish for a command.  The table is not part of this file and is
taken as a parameter. -/
structure CommandInfo where
  specifiesCoordinate : Bool
  isStandaloneCoordinate : Bool
  frame : Int
  param1 : Rat
  param2 : Rat
  param3 : Rat
  param4 : Rat
  altitude : Rat
deriving DecidableEq, Repr

/-- The vehicle (`Vehicle`), reduced to what the controller asks of it. -/
structure Vehicle where
  homePositionAvailable : Bool
  homePosition : QGeoCoordinate
  isOfflineEditingVehicle : Bool
  sendHomePositionToVehicle : Bool
  firmwareType : Int
  vehicleType : Int
  cruiseSpeed : Rat
  hoverSpeed : Rat
  vtol : Bool
  multiRotor : Bool
deriving DecidableEq, Repr

/-- Application settings written by the V2 loader (`SettingsManager::appSettings()`). -/
structure AppSettings where
  offlineEditingVehicleType : Rat
  offlineEditingCruiseSpeed : Rat
  offlineEditingHoverSpeed : Rat
deriving DecidableEq, Repr

/-- Type tags of `QJsonValue::Type` used in key validation. -/
inductive QJsonType where
  | Null | Bool | Double | String | Array | Object
deriving DecidableEq, Repr

/-- A JSON value (`QJsonValue`). -/
inductive QJsonValue where
  | null
  | bool (b : Bool)
  | double (d : Rat)
  | string (s : String)
  | array (a : List QJsonValue)
  | object (o : List (String × QJsonValue))

/-- One entry of a key validation list (`JsonHelper::KeyValidateInfo`). -/
structure KeyValidateInfo where
  key : String
  type : QJsonType
  required : Bool
deriving DecidableEq, Repr

/-- The functions and tables the controller calls but that are defined in other files of the
repository (item classes, `JsonHelper`, application globals).  They are parameters of the
embedding.  A loader that fails returns the text it stores in `errorString`. -/
structure Env where
  /-- state of a freshly constructed `SimpleMissionItem` -/
  newSimpleMissionItem : VisualItem
  /-- state of a freshly constructed `SurveyMissionItem` -/
  newSurveyMissionItem : VisualItem
  /-- state of a freshly constructed `FixedWingLandingComplexItem` -/
  newFixedWingLandingComplexItem : VisualItem
  /-- state of a freshly constructed `MissionSettingsComplexItem` -/
  newMissionSettingsComplexItem : VisualItem
  /-- command metadata table -/
  commandInfo : Int → CommandInfo
  /-- value of `qgcApp()->lastKnownHomePosition()` -/
  lastKnownHomePosition : QGeoCoordinate
  /-- value of `qgcApp()->applicationName()` -/
  applicationName : String
  /-- function `JsonHelper::validateKeys` -/
  validateKeys : QJsonValue → List KeyValidateInfo → Except String Unit
  /-- function `JsonHelper::validateQGCJsonFile`, yielding the file version -/
  validateQGCJsonFile : QJsonValue → String → Int → Int → Except String Int
  /-- function `JsonHelper::loadGeoCoordinate` -/
  loadGeoCoordinate : QJsonValue → Bool → Except String QGeoCoordinate
  /-- method `SimpleMissionItem::load(json, sequenceNumber, errorString)` -/
  simpleLoad : VisualItem → QJsonValue → Int → Except String VisualItem
  /-- method `SurveyMissionItem::load(json, sequenceNumber, errorString)` -/
  surveyLoad : VisualItem → QJsonValue → Int → Except String VisualItem
  /-- method `FixedWingLandingComplexItem::load(json, sequenceNumber, errorString)` -/
  fwLandingLoad : VisualItem → QJsonValue → Int → Except String VisualItem
  /-- method `MissionSettingsComplexItem::load(json, sequenceNumber, errorString)` -/
  settingsLoad : VisualItem → QJsonValue → Int → Except String VisualItem
  /-- method `SimpleMissionItem::load(QTextStream&)` applied to one line of a text file -/
  simpleLoadStream : VisualItem → String → Option VisualItem
  /-- function `JsonHelper::saveGeoCoordinate` -/
  saveGeoCoordinate : QGeoCoordinate → Bool → QJsonValue
  /-- method `VisualMissionItem::save(missionItems)`: the entries the item appends to the array -/
  itemSave : VisualItem → List QJsonValue
  /-- constant `JsonHelper::jsonVersionKey` -/
  jsonVersionKey : String
  /-- constant `JsonHelper::jsonGroundStationKey` -/
  jsonGroundStationKey : String
  /-- constant `JsonHelper::jsonGroundStationValue` -/
  jsonGroundStationValue : String
  /-- constant `JsonHelper::jsonFileTypeKey` -/
  jsonFileTypeKey : String
  /-- constant `VisualMissionItem::jsonTypeKey` -/
  jsonTypeKey : String
  /-- constant `VisualMissionItem::jsonTypeSimpleItemValue` -/
  jsonTypeSimpleItemValue : String
  /-- constant `VisualMissionItem::jsonTypeComplexItemValue` -/
  jsonTypeComplexItemValue : String
  /-- constant `ComplexMissionItem::jsonComplexItemTypeKey` -/
  jsonComplexItemTypeKey : String
  /-- constant `SurveyMissionItem::jsonComplexItemTypeValue` -/
  surveyComplexItemTypeValue : String
  /-- constant `FixedWingLandingComplexItem::jsonComplexItemTypeValue` -/
  fwLandingComplexItemTypeValue : String
  /-- constant `MissionSettingsComplexItem::jsonComplexItemTypeValue` -/
  settingsComplexItemTypeValue : String
  /-- method `MissionSettingsComplexItem::scanForMissionSettings(visualItems, scanIndex, vehicle)`:
  the list it leaves when it returns true, `none` when it returns false -/
  scanForMissionSettings : List VisualItem → Nat → Option (List VisualItem)
  /-- value of `simpleItem->cameraSection()->available()` -/
  cameraSectionAvailable : VisualItem → Bool
  /-- method `SimpleMissionItem::scanForSections(visualItems, scanIndex, vehicle)`: the list it
  leaves -/
  scanForSections : List VisualItem → Nat → List VisualItem

namespace VisualItem

/-- Modelled from the spec: `setCoordinate` of a single-point item (simple item, settings
item) is implemented in the item classes, outside `MissionController.cc`.  A simple item has an
"optional single coordinate" and the settings item holds "the planned home position": entry
and exit coordinate coincide. -/
def setCoordinate (v : VisualItem) (c : QGeoCoordinate) : VisualItem :=
  { v with coordinate := c, exitCoordinate := c }

/-- Modelled from the spec: `setCoordinate` of a survey item is implemented in
`SurveyMissionItem`, outside `MissionController.cc`; a complex item has an "entry coordinate,
exit coordinate (may differ from entry)", and the setter stores the entry coordinate. -/
def setEntryCoordinate (v : VisualItem) (c : QGeoCoordinate) : VisualItem :=
  { v with coordinate := c }

/-- Modelled from the spec: `setCommand` of a simple item is implemented in
`SimpleMissionItem`, outside `MissionController.cc`.  It stores the "command code"; the
capabilities `specifiesCoordinate` and `isStandaloneCoordinate` of a simple item are those the
command metadata gives for the command. -/
def setCommand (env : Env) (v : VisualItem) (command : Int) : VisualItem :=
  { v with command := command
           specifiesCoordinate := (env.commandInfo command).specifiesCoordinate
           isStandaloneCoordinate := (env.commandInfo command).isStandaloneCoordinate }

/-- Modelled from the spec: `setDefaultsForCommand` of a simple item is implemented in
`SimpleMissionItem`, outside `MissionController.cc`; the "numeric parameters", the "coordinate
frame" and the altitude take the defaults of the command metadata. -/
def setDefaultsForCommand (env : Env) (v : VisualItem) : VisualItem :=
  let info := env.commandInfo v.command
  { v with frame := info.frame
           param1 := info.param1
           param2 := info.param2
           param3 := info.param3
           param4 := info.param4
           coordinate := { v.coordinate with altitude := info.altitude }
           exitCoordinate := { v.exitCoordinate with altitude := info.altitude } }

/-- Modelled from the spec: `missionItem().setParam7` is implemented in `MissionItem`, outside
`MissionController.cc`; parameter 7 of the "7 numeric parameters" of a simple item is the
altitude of its coordinate. -/
def setParam7 (v : VisualItem) (altitude : Rat) : VisualItem :=
  { v with coordinate := { v.coordinate with altitude := altitude }
           exitCoordinate := { v.exitCoordinate with altitude := altitude } }

end VisualItem

/-- Allocation `new SimpleMissionItem(...)` at identity `oid`. -/
def Env.allocSimple (env : Env) (oid : Nat) : VisualItem :=
  { env.newSimpleMissionItem with oid := oid, kind := ItemKind.simple }

/-- Allocation `new SurveyMissionItem(...)` at identity `oid`. -/
def Env.allocSurvey (env : Env) (oid : Nat) : VisualItem :=
  { env.newSurveyMissionItem with oid := oid, kind := ItemKind.survey }

/-- Allocation `new FixedWingLandingComplexItem(...)` at identity `oid`. -/
def Env.allocFwLanding (env : Env) (oid : Nat) : VisualItem :=
  { env.newFixedWingLandingComplexItem with oid := oid, kind := ItemKind.fwLanding }

/-- Allocation `new MissionSettingsComplexItem(...)` at identity `oid`. -/
def Env.allocSettings (env : Env) (oid : Nat) : VisualItem :=
  { env.newMissionSettingsComplexItem with oid := oid, kind := ItemKind.settings }

/-- Method `QmlObjectListModel::insert(i, object)` on the underlying `QList`: the object is
placed at position `i`, and appended when `i` is past the end. -/
def listInsert (l : List VisualItem) (i : Nat) (x : VisualItem) : List VisualItem :=
  l.take i ++ x :: l.drop i

/-! ## Double arithmetic -/

/-- The power `2^e` for an integer exponent `e`. -/
def pow2 (e : Int) : Rat :=
  if 0 ≤ e then ((2 ^ e.toNat : Nat) : Rat) else 1 / ((2 ^ (-e).toNat : Nat) : Rat)

/-- The position of the leading binary digit of `n`, found in at most `fuel` halvings. -/
def log2Fuel : Nat → Nat → Nat
  | 0, _ => 0
  | fuel + 1, n => if n < 2 then 0 else log2Fuel fuel (n / 2) + 1

/-- The position of the leading binary digit of `n`: the `k` with `2^k ≤ n < 2^(k+1)`, for
`n` other than 0. -/
def natLog2 (n : Nat) : Nat := log2Fuel n n

/-- The exponent `e` with `2^e ≤ |q| < 2^(e+1)`, for `q` other than 0. -/
def binadeExponent (q : Rat) : Int :=
  let e0 : Int := (natLog2 q.num.natAbs : Int) - (natLog2 q.den : Int)
  if pow2 e0 ≤ |q| then e0 else e0 - 1

/-- The integer nearest to `q`; of the two nearest integers the even one when `q` lies
halfway between them. -/
def roundHalfEven (q : Rat) : Int :=
  let f : Int := ⌊q⌋
  if q - f < 1 / 2 then f
  else if 1 / 2 < q - f then f + 1
  else if f % 2 = 0 then f else f + 1

/-- The value of the C++ type `double` (IEEE 754 binary64) nearest to `q`, ties to even: the
result of an arithmetic operation whose exact result is `q`.  A double is a whole multiple
of `2^(e-52)`, where `e` is the exponent of its binade and at least -1022.  Magnitudes
beyond the greatest finite double, which the operation would turn into an infinity, are
outside the model. -/
def roundDouble (q : Rat) : Rat :=
  if q = 0 then 0
  else
    let e := max (binadeExponent q) (-1022)
    (roundHalfEven (q / pow2 (e - 52)) : Rat) * pow2 (e - 52)

/-- Whether `q` is a whole multiple of `2^-k`. -/
def onGrid (k : Nat) (q : Rat) : Bool := 2 ^ k % q.den == 0

/-! ## Mission settings item -/

/-- Function `_normalizeLat`: "Normalize latitude to range: 0 to 180, S to N".  The body is
`return lat + 90.0`, a sum of doubles. -/
def _normalizeLat (lat : Rat) : Rat := roundDouble (lat + 90)

/-- Function `_normalizeLon`: "Normalize longitude to range: 0 to 360, W to E".  The body is
`return lon + 180.0`, a sum of doubles. -/
def _normalizeLon (lon : Rat) : Rat := roundDouble (lon + 180)

/-- Local variables of the bounding-box loop of `_addMissionSettings`. -/
structure BoundsLoopState where
  north : Rat
  south : Rat
  east : Rat
  west : Rat
  firstCoordSet : Bool
deriving DecidableEq, Repr

/-- One iteration of the bounding-box loop of `_addMissionSettings`. -/
def _addMissionSettingsStep (b : BoundsLoopState) (item : VisualItem) : BoundsLoopState :=
  if item.specifiesCoordinate then
    if b.firstCoordSet then
      let lat := _normalizeLat item.coordinate.latitude
      let lon := _normalizeLon item.coordinate.longitude
      { b with north := max b.north lat
               south := min b.south lat
               east := max b.east lon
               west := min b.west lon }
    else
      { firstCoordSet := true
        north := _normalizeLat item.coordinate.latitude
        south := _normalizeLat item.coordinate.latitude
        east := _normalizeLon item.coordinate.longitude
        west := _normalizeLon item.coordinate.longitude }
  else b

/-- Function `_addMissionSettings`: "Add the Mission Settings complex item to the front of the
items".  The new settings item gets identity `oid`; `visualItems` is the list before the
call.  The coordinate is `QGeoCoordinate((south + ((north - south) / 2)) - 90.0, (west +
((east - west) / 2)) - 180.0, 0.0)`, each of the four operations on doubles rounding its
result. -/
def _addMissionSettings (env : Env) (visualItems : List VisualItem) (addToCenter : Bool)
    (oid : Nat) : List VisualItem :=
  let settingsItem := env.allocSettings oid
  let b : BoundsLoopState :=
    if visualItems.length + 1 > 1 && addToCenter then
      visualItems.foldl _addMissionSettingsStep
        { north := 0, south := 0, east := 0, west := 0, firstCoordSet := false }
    else { north := 0, south := 0, east := 0, west := 0, firstCoordSet := false }
  let homePositionSet := b.firstCoordSet
  let settingsItem :=
    if homePositionSet then
      settingsItem.setCoordinate
        { latitude :=
            roundDouble (roundDouble (b.south + roundDouble (roundDouble (b.north - b.south) / 2))
              - 90)
          longitude :=
            roundDouble (roundDouble (b.west + roundDouble (roundDouble (b.east - b.west) / 2))
              - 180)
          altitude := 0 }
    else settingsItem.setCoordinate env.lastKnownHomePosition
  settingsItem :: visualItems

/-! ## The controller -/

/-- State of a `MissionController`.  `nextObj` is the allocation counter for object
identities; `released` lists the segment objects handed to `qDeleteAll` by the last run of
`_recalcWaypointLines`. -/
structure MissionController where
  /-- member `_visualItems`; `none` is the null pointer it holds before `start` -/
  visualItems : Option (List VisualItem)
  /-- member `_linesTable` -/
  linesTable : CoordVectHashTable
  /-- member `_waypointLines` -/
  waypointLines : List CoordinateVector
  /-- member `_editMode` -/
  editMode : Bool
  /-- member `_activeVehicle` -/
  activeVehicle : Vehicle
  /-- member `_missionItemsRequested` -/
  missionItemsRequested : Bool
  nextObj : Nat
  released : List CoordinateVector
  /-- the application settings object reached through `qgcApp()->toolbox()->settingsManager()` -/
  appSettings : AppSettings
  /-- value of `_visualItems->dirty()`, the dirty flag of the list `_visualItems` points to -/
  dirty : Bool
deriving DecidableEq, Repr

namespace MissionController

/-- Modelled from the spec: `QmlObjectListModel::setDirty(dirty)` is implemented outside
`MissionController.cc`; it stores the dirty flag of the list ("marks the plan dirty", "clears
dirty"). -/
def setDirty (c : MissionController) (dirty : Bool) : MissionController :=
  { c with dirty := dirty }

/-- Modelled from the spec: `QmlObjectListModel::insert`, `append` and `removeAt` are implemented
outside `MissionController.cc`.  They change the content of the list, and "any mutation
operation (`insert`, `remove`, `removeAll`, ...) marks the plan dirty": each of them raises the
dirty flag of the list.  A list created by `new QmlObjectListModel` starts with the flag
lowered.  The notifications by which an item raises the flag of the list that holds it are
not part of the model. -/
def contentChanged (c : MissionController) : MissionController :=
  c.setDirty true

end MissionController

/-- The loop of `_recalcWaypointLines` over the items after item 0 (`first`), started from
the previous cache `old_table`: the local variables when the loop is left. -/
def _recalcWaypointLinesLoop (first : VisualItem) (rest : List VisualItem)
    (old_table : CoordVectHashTable) (nextObj : Nat) : LinesLoopState :=
  let settingsItem : Option Nat := if first.isSettingsItem then some first.oid else none
  let showHomePosition := false -- FIXME: settingsItem->showHomePosition();
  rest.foldl (_recalcWaypointLinesStep settingsItem showHomePosition)
    { firstCoordinateItem := true
      lastCoordinateItem := first
      linkBackToHome := false
      old_table := old_table
      linesTable := []
      nextObj := nextObj }

/-- Method `MissionController::_recalcWaypointLines`: the segment cache is rebuilt from the
previous one, the entries left in the old table are released, and
`_recalcAltitudeRangeBearing` is called at the end.  Reading item 0 of an empty list and the
null dereference in `_recalcAltitudeRangeBearing` are undefined behaviour (`none`). -/
def _recalcWaypointLines (c : MissionController) : Option MissionController :=
  match c.visualItems with
  | none => none
  | some [] => none
  | some (first :: rest) =>
    let final := _recalcWaypointLinesLoop first rest c.linesTable c.nextObj
    if _recalcAltitudeRangeBearingDefined (first :: rest) then
      some { c with linesTable := final.linesTable
                    waypointLines := final.linesTable.values
                    released := final.old_table.values
                    nextObj := final.nextObj }
    else none

/-- Method `MissionController::_recalcAll`: sequence pass, child pass, segment pass. -/
def _recalcAll (c : MissionController) : Option MissionController :=
  match c.visualItems with
  | none => none
  | some items =>
    match _recalcChildItems (_recalcSequence items) with
    | none => none
    | some items1 => _recalcWaypointLines { c with visualItems := some items1 }

/-- Method `MissionController::_initAllVisualItems`: "Initializes a new set of mission items". -/
def _initAllVisualItems (c : MissionController) : Option MissionController :=
  match c.visualItems with
  | none => none
  | some [] => none
  | some (first :: rest) =>
    if first.isSettingsItem then
      let settingsItem := { first with showHomePosition := c.editMode, isCurrentItem := true }
      let settingsItem :=
        if !c.editMode && c.activeVehicle.homePositionAvailable then
          { settingsItem.setCoordinate c.activeVehicle.homePosition with showHomePosition := true }
        else settingsItem
      -- _initVisualItem(item) lowers the flag for each item
      match _recalcAll ({ c with visualItems := some (settingsItem :: rest) }.setDirty false) with
      | none => none
      | some c1 => some (c1.setDirty false)
    else
      -- qWarning() << "First item not MissionSettingsComplexItem"; return;
      some c

/-- Method `MissionController::_init`: "We start with an empty mission". -/
def _init (env : Env) (c : MissionController) : Option MissionController :=
  _initAllVisualItems
    ({ c with visualItems := some (_addMissionSettings env [] false c.nextObj)
              nextObj := c.nextObj + 1
              dirty := false }.contentChanged)

/-- Method `MissionController::start(editMode)`. -/
def start (env : Env) (c : MissionController) (editMode : Bool) : Option MissionController :=
  _init env { c with editMode := editMode }

/-- Method `MissionController::_nextSequenceNumber`. -/
def _nextSequenceNumber (visualItems : List VisualItem) : Int :=
  match visualItems.getLast? with
  | none => 0 -- qWarning() << "Internal error: Empty visual item list"
  | some lastItem => lastItem.lastSequenceNumber + 1

/-- The loop of `_findPreviousAltitude`, from index `i` down to index 1. -/
def _findPreviousAltitudeLoop (visualItems : List VisualItem) : Nat → Option (Rat × Int)
  | 0 => none
  | i + 1 =>
    match visualItems[i + 1]? with
    | none => none
    | some visualItem =>
      if visualItem.specifiesCoordinate && !visualItem.isStandaloneCoordinate &&
          visualItem.isSimpleItem && visualItem.command == MAV_CMD_NAV_WAYPOINT then
        some (visualItem.exitCoordinate.altitude, visualItem.frame)
      else _findPreviousAltitudeLoop visualItems i

/-- Method `MissionController::_findPreviousAltitude`: altitude and frame of the nearest
waypoint before `newIndex`, if there is one. -/
def _findPreviousAltitude (visualItems : List VisualItem) (newIndex : Nat) :
    Option (Rat × Int) :=
  if newIndex > visualItems.length then none
  else _findPreviousAltitudeLoop visualItems (newIndex - 1)

/-- Sequence number of the object `oid` in the controller's list (0 when absent). -/
def sequenceNumberOf (c : MissionController) (oid : Nat) : Int :=
  match c.visualItems with
  | none => 0
  | some items =>
    match items.find? (fun v => v.oid = oid) with
    | none => 0
    | some v => v.sequenceNumber

/-- The item `newItem` built by `insertSimpleMissionItem(coordinate, i)` before it is put in
the list `items`; `oid` is the identity of the new object. -/
def insertSimpleMissionItemNew (env : Env) (items : List VisualItem) (oid : Nat)
    (coordinate : QGeoCoordinate) (i : Nat) : VisualItem :=
  let sequenceNumber := _nextSequenceNumber items
  let newItem := env.allocSimple oid
  let newItem := newItem.setSequenceNumber sequenceNumber
  let newItem := newItem.setCoordinate coordinate
  let newItem := newItem.setCommand env MAV_CMD_NAV_WAYPOINT
  let newItem :=
    if items.length = 1 then newItem.setCommand env MAV_CMD_NAV_TAKEOFF else newItem
  let newItem := newItem.setDefaultsForCommand env
  if newItem.command = MAV_CMD_NAV_WAYPOINT then
    match _findPreviousAltitude items i with
    | some (prevAltitude, prevFrame) =>
      { newItem with frame := prevFrame }.setParam7 prevAltitude
    | none => newItem
  else newItem

/-- Method `MissionController::insertSimpleMissionItem(coordinate, i)`; the result carries the
returned sequence number. -/
def insertSimpleMissionItem (env : Env) (c : MissionController) (coordinate : QGeoCoordinate)
    (i : Nat) : Option (MissionController × Int) :=
  match c.visualItems with
  | none => none
  | some items =>
    let newItem := insertSimpleMissionItemNew env items c.nextObj coordinate i
    -- _initVisualItem(newItem) lowers the flag, _visualItems->insert(i, newItem) raises it
    match _recalcAll ({ c.setDirty false with visualItems := some (listInsert items i newItem)
                                              nextObj := c.nextObj + 1 }.contentChanged) with
    | none => none
    | some c1 => some (c1, sequenceNumberOf c1 c.nextObj)

/-- Method `MissionController::insertComplexMissionItem(itemName, mapCenterCoordinate, i)`; the
result carries the returned sequence number. -/
def insertComplexMissionItem (env : Env) (c : MissionController) (itemName : String)
    (mapCenterCoordinate : QGeoCoordinate) (i : Nat) : Option (MissionController × Int) :=
  match c.visualItems with
  | none => none
  | some items =>
    let sequenceNumber := _nextSequenceNumber items
    let created : Option VisualItem :=
      if itemName = "Survey" then
        some ((env.allocSurvey c.nextObj).setEntryCoordinate mapCenterCoordinate)
      else if itemName = "Fixed Wing Landing" then
        some (env.allocFwLanding c.nextObj)
      else none
    match created with
    | none =>
      -- qWarning() << "Internal error: Unknown complex item:" << itemName;
      some (c, sequenceNumber)
    | some newItem =>
      let newItem := newItem.setSequenceNumber sequenceNumber
      -- _initVisualItem(newItem) lowers the flag, _visualItems->insert(i, newItem) raises it
      match _recalcAll ({ c.setDirty false with visualItems := some (listInsert items i newItem)
                                                nextObj := c.nextObj + 1 }.contentChanged) with
      | none => none
      | some c1 => some (c1, sequenceNumberOf c1 c.nextObj)

/-- Method `MissionController::removeMissionItem(index)`.  `removeAt` past the end of the list is
undefined behaviour (`none`). -/
def removeMissionItem (c : MissionController) (index : Nat) : Option MissionController :=
  match c.visualItems with
  | none => none
  | some items =>
    if index < items.length then
      match _recalcAll ({ c with visualItems := some (items.eraseIdx index) }.contentChanged) with
      | none => none
      | some c1 => some (c1.setDirty true)
    else none

/-- Method `MissionController::removeAll`. -/
def removeAll (env : Env) (c : MissionController) : Option MissionController :=
  match c.visualItems with
  | none => some c
  | some _ =>
    match _initAllVisualItems
        ({ c with visualItems := some (_addMissionSettings env [] false c.nextObj)
                  nextObj := c.nextObj + 1
                  dirty := false }.contentChanged) with
    | none => none
    | some c1 => some (c1.setDirty true)

/-! ## JSON access -/

namespace QJsonValue

/-- Test `isObject()`. -/
def isObject : QJsonValue → Bool
  | object _ => true
  | _ => false

/-- Lookup of `key` in an association list of members. -/
def lookup (key : String) : List (String × QJsonValue) → Option QJsonValue
  | [] => none
  | (k, v) :: rest => if k = key then some v else lookup key rest

/-- Access `json[key]` on `toObject()`: the member, or the null/undefined value. -/
def get (json : QJsonValue) (key : String) : QJsonValue :=
  match json with
  | object o => (lookup key o).getD null
  | _ => null

/-- Test `contains(key)` on `toObject()`. -/
def contains (json : QJsonValue) (key : String) : Bool :=
  match json with
  | object o => (lookup key o).isSome
  | _ => false

/-- Assignment `json[key] = value` on an object. -/
def insert (json : QJsonValue) (key : String) (value : QJsonValue) : QJsonValue :=
  match json with
  | object o => object (List.filter (fun e => e.1 ≠ key) o ++ [(key, value)])
  | _ => object [(key, value)]

/-- Conversion `toArray()`: the elements, or the empty array. -/
def toArray : QJsonValue → List QJsonValue
  | array a => a
  | _ => []

/-- Conversion `toString()`: the text, or the null string. -/
def toQString : QJsonValue → String
  | string s => s
  | _ => ""

/-- Conversion `toDouble()`: the number, or 0. -/
def toDouble : QJsonValue → Rat
  | double d => d
  | _ => 0

/-- Conversion `toInt()`: the number when it is whole, otherwise the default 0. -/
def toInt : QJsonValue → Int
  | double d => if d.den = 1 then d.num else 0
  | _ => 0

/-- Conversion `toObject()` (and `QJsonDocument::object()`): the object, or an empty object. -/
def toObject : QJsonValue → QJsonValue
  | object o => object o
  | _ => object []

end QJsonValue

/-! ## File loading -/

/-- What a loader works on: the list under construction (`visualItems`), the out-parameter
`errorString`, the allocation counter and the application settings. -/
structure LoadState where
  visualItems : List VisualItem
  errorString : String
  nextObj : Nat
  appSettings : AppSettings
deriving DecidableEq, Repr

namespace LoadState

/-- Call `visualItems->append(item)`. -/
def append (st : LoadState) (item : VisualItem) : LoadState :=
  { st with visualItems := st.visualItems ++ [item] }

/-- Assignment to `errorString`. -/
def setError (st : LoadState) (message : String) : LoadState :=
  { st with errorString := message }

/-- Consumption of one object identity by `new`. -/
def alloc (st : LoadState) : LoadState :=
  { st with nextObj := st.nextObj + 1 }

end LoadState

/-- The item a `load` method leaves in the freshly allocated object `fresh`: the loaded state
at the identity and dynamic type of `fresh`. -/
def loadedInto (fresh loaded : VisualItem) : VisualItem :=
  { loaded with oid := fresh.oid, kind := fresh.kind }

/-- Search of the DO_JUMP fix-up (inner loop over `j`): the first simple item whose
`doJumpId()` equals `findDoJumpId`. -/
def findDoJumpTarget (findDoJumpId : Int) : List VisualItem → Option VisualItem
  | [] => none
  | targetItem :: rest =>
    if targetItem.isSimpleItem && targetItem.doJumpId == findDoJumpId then some targetItem
    else findDoJumpTarget findDoJumpId rest

/-- One iteration (index `i`) of the outer loop of the DO_JUMP fix-up of
`_loadJsonMissionFileV2`; an error carries the text stored in `errorString`. -/
def doJumpFixupStep (visualItems : List VisualItem) (i : Nat) :
    Except String (List VisualItem) :=
  match visualItems[i]? with
  | none => Except.ok visualItems
  | some doJumpItem =>
    if doJumpItem.isSimpleItem && doJumpItem.command == MAV_CMD_DO_JUMP then
      let findDoJumpId : Int := doubleToInt doJumpItem.param1
      match findDoJumpTarget findDoJumpId visualItems with
      | some targetItem =>
        Except.ok (visualItems.set i { doJumpItem with param1 := targetItem.sequenceNumber })
      | none => Except.error ("Could not find doJumpId: " ++ toString findDoJumpId)
    else Except.ok visualItems

/-- The outer loop of the DO_JUMP fix-up over the indices `indices`: the list when the loop
is left, and the error text when it is left by `return false`. -/
def doJumpFixupLoop (visualItems : List VisualItem) :
    List Nat → Option String × List VisualItem
  | [] => (none, visualItems)
  | i :: rest =>
    match doJumpFixupStep visualItems i with
    | Except.error e => (some e, visualItems)
    | Except.ok visualItems1 => doJumpFixupLoop visualItems1 rest

/-- The DO_JUMP fix-up of `_loadJsonMissionFileV2`: "Fix up the DO_JUMP commands jump sequence
number by finding the item with the matching doJumpId". -/
def doJumpFixup (visualItems : List VisualItem) : Option String × List VisualItem :=
  doJumpFixupLoop visualItems (List.range visualItems.length)

/-- Root keys required by `_loadJsonMissionFileV2`. -/
def rootKeyInfoListV2 : List KeyValidateInfo :=
  [ { key := "plannedHomePosition", type := QJsonType.Array, required := true },
    { key := "items", type := QJsonType.Array, required := true },
    { key := "firmwareType", type := QJsonType.Double, required := true },
    { key := "vehicleType", type := QJsonType.Double, required := false },
    { key := "cruiseSpeed", type := QJsonType.Double, required := false },
    { key := "hoverSpeed", type := QJsonType.Double, required := false } ]

/-- Root keys required by `_loadJsonMissionFileV1`. -/
def rootKeyInfoListV1 : List KeyValidateInfo :=
  [ { key := "plannedHomePosition", type := QJsonType.Object, required := true },
    { key := "items", type := QJsonType.Array, required := true },
    { key := "MAV_AUTOPILOT", type := QJsonType.Double, required := true },
    { key := "complexItems", type := QJsonType.Array, required := true } ]

/-- One iteration of the item loop of `_loadJsonMissionFileV2` on array element `itemValue` at
index `i`.  The result is `(false, _)` when the loader returns false in this iteration;
otherwise it carries the next sequence number. -/
def loadItemV2 (env : Env) (i : Nat) (itemValue : QJsonValue) (nextSequenceNumber : Int)
    (st : LoadState) : Bool × Int × LoadState :=
  if !itemValue.isObject then
    (false, nextSequenceNumber,
      st.setError ("Mission item " ++ toString i ++ " is not an object"))
  else
    let itemObject := itemValue
    match env.validateKeys itemObject
        [{ key := env.jsonTypeKey, type := QJsonType.String, required := true }] with
    | Except.error e => (false, nextSequenceNumber, st.setError e)
    | Except.ok _ =>
      let itemType := (itemObject.get env.jsonTypeKey).toQString
      if itemType = env.jsonTypeSimpleItemValue then
        let simpleItem := env.allocSimple st.nextObj
        match env.simpleLoad simpleItem itemObject nextSequenceNumber with
        | Except.ok loaded =>
          let simpleItem := loadedInto simpleItem loaded
          (true, simpleItem.lastSequenceNumber + 1, st.alloc.append simpleItem)
        | Except.error e => (false, nextSequenceNumber, st.alloc.setError e)
      else if itemType = env.jsonTypeComplexItemValue then
        match env.validateKeys itemObject
            [{ key := env.jsonComplexItemTypeKey, type := QJsonType.String, required := true }] with
        | Except.error e => (false, nextSequenceNumber, st.setError e)
        | Except.ok _ =>
          let complexItemType := (itemObject.get env.jsonComplexItemTypeKey).toQString
          if complexItemType = env.surveyComplexItemTypeValue then
            let surveyItem := env.allocSurvey st.nextObj
            match env.surveyLoad surveyItem itemObject nextSequenceNumber with
            | Except.error e => (false, nextSequenceNumber + 1, st.alloc.setError e)
            | Except.ok loaded =>
              let surveyItem := loadedInto surveyItem loaded
              (true, surveyItem.lastSequenceNumber + 1, st.alloc.append surveyItem)
          else if complexItemType = env.fwLandingComplexItemTypeValue then
            let landingItem := env.allocFwLanding st.nextObj
            match env.fwLandingLoad landingItem itemObject nextSequenceNumber with
            | Except.error e => (false, nextSequenceNumber + 1, st.alloc.setError e)
            | Except.ok loaded =>
              let landingItem := loadedInto landingItem loaded
              (true, landingItem.lastSequenceNumber + 1, st.alloc.append landingItem)
          else if complexItemType = env.settingsComplexItemTypeValue then
            let settingsItem := env.allocSettings st.nextObj
            match env.settingsLoad settingsItem itemObject nextSequenceNumber with
            | Except.error e => (false, nextSequenceNumber + 1, st.alloc.setError e)
            | Except.ok loaded =>
              let settingsItem := loadedInto settingsItem loaded
              (true, settingsItem.lastSequenceNumber + 1, st.alloc.append settingsItem)
          else
            -- errorString is set, the loop goes on with the next element
            (true, nextSequenceNumber,
              st.setError ("Unsupported complex item type: " ++ complexItemType))
      else
        (false, nextSequenceNumber, st.setError ("Unknown item type: " ++ itemType))

/-- The item loop of `_loadJsonMissionFileV2` over the array elements from index `i` on. -/
def loadItemsV2 (env : Env) : Nat → List QJsonValue → Int → LoadState → Bool × LoadState
  | _, [], _, st => (true, st)
  | i, itemValue :: rest, nextSequenceNumber, st =>
    match loadItemV2 env i itemValue nextSequenceNumber st with
    | (false, _, st1) => (false, st1)
    | (true, nextSequenceNumber1, st1) => loadItemsV2 env (i + 1) rest nextSequenceNumber1 st1

/-- The part "Mission Settings" of `_loadJsonMissionFileV2`: the optional root keys are written
to the application settings and the settings item holding `homeCoordinate` is inserted at
index 0. -/
def loadMissionSettingsV2 (env : Env) (vehicle : Vehicle) (json : QJsonValue)
    (homeCoordinate : QGeoCoordinate) (st : LoadState) : LoadState :=
  let settings := st.appSettings
  let settings :=
    if json.contains "vehicleType" && vehicle.isOfflineEditingVehicle then
      { settings with offlineEditingVehicleType := (json.get "vehicleType").toDouble }
    else settings
  let settings :=
    if json.contains "cruiseSpeed" then
      { settings with offlineEditingCruiseSpeed := (json.get "cruiseSpeed").toDouble }
    else settings
  let settings :=
    if json.contains "hoverSpeed" then
      { settings with offlineEditingHoverSpeed := (json.get "hoverSpeed").toDouble }
    else settings
  let settingsItem := (env.allocSettings st.nextObj).setCoordinate homeCoordinate
  { st with appSettings := settings
            visualItems := listInsert st.visualItems 0 settingsItem
            nextObj := st.nextObj + 1 }

/-- Method `MissionController::_loadJsonMissionFileV2`: the returned flag and the state of the
list, the error string and the settings when it returns. -/
def _loadJsonMissionFileV2 (env : Env) (vehicle : Vehicle) (json : QJsonValue)
    (st : LoadState) : Bool × LoadState :=
  match env.validateKeys json rootKeyInfoListV2 with
  | Except.error e => (false, st.setError e)
  | Except.ok _ =>
    match env.loadGeoCoordinate (json.get "plannedHomePosition") true with
    | Except.error e => (false, st.setError e)
    | Except.ok homeCoordinate =>
      -- Read mission items
      match loadItemsV2 env 0 (json.get "items").toArray 1
          (loadMissionSettingsV2 env vehicle json homeCoordinate st) with
      | (false, st1) => (false, st1)
      | (true, st1) =>
        match doJumpFixup st1.visualItems with
        | (some e, items) => (false, { st1 with visualItems := items, errorString := e })
        | (none, items) => (true, { st1 with visualItems := items })

/-- Loading of the array `complexItems` by `_loadJsonMissionFileV1` ("Read complex items"):
the survey items read, or `none` with the error set when the loader returns false. -/
def loadComplexItemsV1 (env : Env) :
    List QJsonValue → List VisualItem → LoadState → Option (List VisualItem) × LoadState
  | [], surveyItems, st => (some surveyItems, st)
  | itemValue :: rest, surveyItems, st =>
    if !itemValue.isObject then
      (none, st.setError "Mission item is not an object")
    else
      let item := env.allocSurvey st.nextObj
      match env.surveyLoad item itemValue (itemValue.get "id").toInt with
      | Except.ok loaded =>
        loadComplexItemsV1 env rest (surveyItems ++ [loadedInto item loaded]) st.alloc
      | Except.error e => (none, st.alloc.setError e)

/-- Local variables of the merge loop of `_loadJsonMissionFileV1`. -/
structure MergeLoopState where
  nextSimpleItemIndex : Nat
  nextComplexItemIndex : Nat
  nextSequenceNumber : Int
deriving DecidableEq, Repr

/-- The merge loop (`do ... while`) of `_loadJsonMissionFileV1`: "Read simple items,
interspersing complex items into the full list".  Each iteration uses one unit of `fuel`;
`none` means the fuel ran out before the loop was left. -/
def mergeLoopV1 (env : Env) (surveyItems : List VisualItem) (itemArray : List QJsonValue) :
    Nat → MergeLoopState → LoadState → Option (Bool × LoadState)
  | 0, _, _ => none
  | fuel + 1, m, st =>
    let injected : Option VisualItem :=
      match surveyItems[m.nextComplexItemIndex]? with
      | some complexItem =>
        if complexItem.sequenceNumber = m.nextSequenceNumber then some complexItem else none
      | none => none
    match injected with
    | some complexItem =>
      let st1 := st.append complexItem
      let m1 : MergeLoopState :=
        { m with nextSequenceNumber := complexItem.lastSequenceNumber + 1
                 nextComplexItemIndex := m.nextComplexItemIndex + 1 }
      -- continue
      if m1.nextSimpleItemIndex < itemArray.length ||
          m1.nextComplexItemIndex < surveyItems.length then
        mergeLoopV1 env surveyItems itemArray fuel m1 st1
      else some (true, st1)
    | none =>
      match itemArray[m.nextSimpleItemIndex]? with
      | some itemValue =>
        let m1 : MergeLoopState := { m with nextSimpleItemIndex := m.nextSimpleItemIndex + 1 }
        if !itemValue.isObject then
          some (false, st.setError "Mission item is not an object")
        else
          let item := env.allocSimple st.nextObj
          match env.simpleLoad item itemValue (itemValue.get "id").toInt with
          | Except.ok loaded =>
            let item := loadedInto item loaded
            let m2 : MergeLoopState := { m1 with nextSequenceNumber := item.lastSequenceNumber + 1 }
            let st1 := st.alloc.append item
            if m2.nextSimpleItemIndex < itemArray.length ||
                m2.nextComplexItemIndex < surveyItems.length then
              mergeLoopV1 env surveyItems itemArray fuel m2 st1
            else some (true, st1)
          | Except.error e => some (false, st.alloc.setError e)
      | none =>
        if m.nextSimpleItemIndex < itemArray.length ||
            m.nextComplexItemIndex < surveyItems.length then
          mergeLoopV1 env surveyItems itemArray fuel m st
        else some (true, st)

/-- Method `MissionController::_loadJsonMissionFileV1`; `none` when the merge loop does not end
within `fuel` iterations. -/
def _loadJsonMissionFileV1 (env : Env) (fuel : Nat) (json : QJsonValue) (st : LoadState) :
    Option (Bool × LoadState) :=
  match env.validateKeys json rootKeyInfoListV1 with
  | Except.error e => some (false, st.setError e)
  | Except.ok _ =>
    match loadComplexItemsV1 env (json.get "complexItems").toArray [] st with
    | (none, st1) => some (false, st1)
    | (some surveyItems, st1) =>
      match mergeLoopV1 env surveyItems (json.get "items").toArray fuel
          { nextSimpleItemIndex := 0, nextComplexItemIndex := 0, nextSequenceNumber := 1 } st1 with
      | none => none
      | some (false, st2) => some (false, st2)
      | some (true, st2) =>
        if json.contains "plannedHomePosition" then
          let item := env.allocSimple st2.nextObj
          match env.simpleLoad item (json.get "plannedHomePosition").toObject 0 with
          | Except.ok loaded =>
            let item := loadedInto item loaded
            let settingsItem := (env.allocSettings (st2.nextObj + 1)).setCoordinate item.coordinate
            some (true, { st2 with visualItems := listInsert st2.visualItems 0 settingsItem
                                   nextObj := st2.nextObj + 2 })
          | Except.error e => some (false, st2.alloc.setError e)
        else
          some (true, { st2 with visualItems := _addMissionSettings env st2.visualItems true st2.nextObj
                                 nextObj := st2.nextObj + 1 })

/-- The root object `_loadJsonMissionFile` works on: "V1 file format has no file type key and
version key is string. Convert to new format." -/
def rootObject (env : Env) (jsonDoc : QJsonValue) : QJsonValue :=
  let json := jsonDoc.toObject
  if !json.contains env.jsonFileTypeKey then
    json.insert env.jsonFileTypeKey (QJsonValue.string "Mission")
  else json

/-- Method `MissionController::_loadJsonMissionFile` after `QJsonDocument::fromJson`: `parsed` is
the parse error text or the document. -/
def _loadJsonMissionFile (env : Env) (fuel : Nat) (vehicle : Vehicle)
    (parsed : Except String QJsonValue) (st : LoadState) : Option (Bool × LoadState) :=
  match parsed with
  | Except.error e => some (false, st.setError e)
  | Except.ok jsonDoc =>
    let json := rootObject env jsonDoc
    match env.validateQGCJsonFile json "Mission" 1 2 with
    | Except.error e => some (false, st.setError e)
    | Except.ok fileVersion =>
      if fileVersion = 1 then _loadJsonMissionFileV1 env fuel json st
      else some (_loadJsonMissionFileV2 env vehicle json st)

/-- Split of a text, given as its characters, at every occurrence of `sep` (empty parts are
kept). -/
def splitOnChar (sep : Char) : List Char → List (List Char)
  | [] => [[]]
  | c :: cs =>
    match splitOnChar sep cs with
    | [] => [[]]
    | w :: ws => if c = sep then [] :: w :: ws else (c :: w) :: ws

/-- Split `QString::split(" ")` of a line given as its characters. -/
def splitOnSpace (line : List Char) : List (List Char) := splitOnChar ' ' line

/-- Value of a decimal numeral, `none` when the text is empty or holds another character. -/
def parseDecimal (cs : List Char) : Option Nat :=
  if cs = [] then none
  else
    cs.foldl
      (fun acc ch =>
        match acc with
        | none => none
        | some n => if 48 ≤ ch.toNat ∧ ch.toNat ≤ 57 then some (n * 10 + (ch.toNat - 48)) else none)
      (some 0)

/-- Whether `pat` starts the text `l`. -/
def startsWith (pat : List Char) (l : List Char) : Bool :=
  l.take pat.length == pat

/-- The text that follows the first occurrence of `pat` in `l`, if `pat` occurs. -/
def afterFirst (pat : List Char) : List Char → Option (List Char)
  | [] => if pat = [] then some [] else none
  | c :: cs =>
    if startsWith pat (c :: cs) then some ((c :: cs).drop pat.length)
    else afterFirst pat cs

/-- Test `firstLine.contains(QRegExp("QGC.*WPL"))`: "QGC" occurs and "WPL" occurs after it. -/
def containsQGCWPL (firstLine : String) : Bool :=
  match afterFirst "QGC".toList firstLine.toList with
  | none => false
  | some rest => (afterFirst "WPL".toList rest).isSome

/-- The item loop of `_loadTextMissionFile` (`while (!stream.atEnd())`) over the remaining
lines of the stream. -/
def loadTextItems (env : Env) : List String → LoadState → Bool × LoadState
  | [], st => (true, st)
  | line :: rest, st =>
    let item := env.allocSimple st.nextObj
    match env.simpleLoadStream item line with
    | some loaded => loadTextItems env rest (st.alloc.append (loadedInto item loaded))
    | none => (false, st.alloc.setError "The mission file is corrupted.")

/-- The value of the 32-bit `int` that holds `z` modulo `2^32`: `z` itself when it lies in the
range of `int`, from `-2147483648` to `2147483647`. -/
def toInt32 (z : Int) : Int := (z + 2147483648) % 4294967296 - 2147483648

/-- The loop of `_loadTextMissionFile` that shifts jump targets: "Update sequence numbers in
DO_JUMP commands to take into account added home position in index 0".  The statement is
`setParam1((int)param1 + 1)`: the conversion and the addition are those of a 32-bit `int`.
Where the value leaves the range of `int`, which C++ leaves undefined, the model takes the
result modulo `2^32`, as two's-complement hardware computes it. -/
def shiftDoJump (item : VisualItem) : VisualItem :=
  if item.isSimpleItem && item.command == MAV_CMD_DO_JUMP then
    { item with param1 := ((toInt32 (toInt32 (doubleToInt item.param1) + 1) : Int) : Rat) }
  else item

/-- The header test of `_loadTextMissionFile` on the first line: the flags `versionOk` and
`addPlannedHomePosition`. -/
def legacyHeader (firstLine : String) : Bool × Bool :=
  match splitOnSpace firstLine.toList with
  | [v0, v1, v2] =>
    if v0 = "QGC".toList && v1 = "WPL".toList then
      if v2 = "110".toList then
        -- ArduPilot file, planned home position is already in position 0
        (true, false)
      else if v2 = "120".toList then
        -- Old QGC file, no planned home position
        (true, true)
      else (false, false)
    else (false, false)
  | _ => (false, false)

/-- Method `MissionController::_loadTextMissionFile` on a stream holding the lines `lines`. -/
def _loadTextMissionFile (env : Env) (lines : List String) (st : LoadState) :
    Bool × LoadState :=
  let firstLine : String := lines.headD ""
  let versionOk := (legacyHeader firstLine).1
  let addPlannedHomePosition := (legacyHeader firstLine).2
  if versionOk then
    match loadTextItems env lines.tail st with
    | (false, st1) => (false, st1)
    | (true, st1) =>
      if addPlannedHomePosition || st1.visualItems.length = 0 then
        match _addMissionSettings env st1.visualItems true st1.nextObj with
        | [] => (true, st1)
        | settingsItem :: rest =>
          (true, { st1 with visualItems := settingsItem :: rest.map shiftDoJump
                            nextObj := st1.nextObj + 1 })
      else (true, st1)
  else
    (false, st.setError
      ("The mission file is not compatible with this version of " ++ env.applicationName ++ "."))

/-- The loop of `_scanForAdditionalSettings`; each iteration uses one unit of `fuel`, `none`
means the fuel ran out before the loop was left. -/
def _scanForAdditionalSettingsLoop (env : Env) :
    Nat → Nat → List VisualItem → Option (List VisualItem)
  | 0, _, _ => none
  | fuel + 1, scanIndex, visualItems =>
    match visualItems[scanIndex]? with
    | none => some visualItems
    | some visualItem =>
      let scanned : Option (List VisualItem) :=
        if visualItem.isSettingsItem then env.scanForMissionSettings visualItems scanIndex
        else none
      match scanned with
      | some visualItems1 => _scanForAdditionalSettingsLoop env fuel scanIndex visualItems1
      | none =>
        if visualItem.isSimpleItem && env.cameraSectionAvailable visualItem then
          _scanForAdditionalSettingsLoop env fuel (scanIndex + 1)
            (env.scanForSections visualItems (scanIndex + 1))
        else _scanForAdditionalSettingsLoop env fuel (scanIndex + 1) visualItems

/-- Method `MissionController::_scanForAdditionalSettings`. -/
def _scanForAdditionalSettings (env : Env) (fuel : Nat) (visualItems : List VisualItem) :
    Option (List VisualItem) :=
  _scanForAdditionalSettingsLoop env fuel 0 visualItems

/-- A mission file as the loaders see it: its lines (`QTextStream::readLine`) and the outcome of
`QJsonDocument::fromJson` on its bytes (the parse error text, or the document). -/
structure MissionFile where
  lines : List String
  json : Except String QJsonValue

/-- Outcome of `loadItemsFromFile`: the returned flag, the out-parameter `*visualItems`
(`none` is the null pointer) with a mark when that list has been handed to `deleteLater`,
the text given to `showMessage` if any, the allocation counter and the settings. -/
structure LoadItemsResult where
  ok : Bool
  visualItems : Option (List VisualItem)
  scheduledForDeletion : Bool
  shownMessage : Option String
  nextObj : Nat
  appSettings : AppSettings
deriving DecidableEq, Repr

/-- The part of `loadItemsFromFile` between the creation of the new list and the test of
`errorString`: the file is opened and handed to the text loader or to the JSON loader.  The
result carries the flag returned by the loader (false when the file cannot be opened), which
`loadItemsFromFile` does not look at. -/
def runLoader (env : Env) (fuel : Nat) (vehicle : Vehicle) (filename : String)
    (opened : Except String MissionFile) (st : LoadState) : Option (Bool × LoadState) :=
  match opened with
  | Except.error fileError => some (false, st.setError (fileError ++ " " ++ filename))
  | Except.ok file =>
    let firstLine : String := file.lines.headD ""
    if containsQGCWPL firstLine then
      some (_loadTextMissionFile env file.lines st)
    else
      _loadJsonMissionFile env fuel vehicle file.json st

/-- Method `MissionController::loadItemsFromFile(vehicle, filename, visualItems)`.  `opened` is
the outcome of opening and reading the file: the text of `file.errorString()` or the
content.  `none` when a loop does not end within `fuel` iterations. -/
def loadItemsFromFile (env : Env) (fuel : Nat) (vehicle : Vehicle) (filename : String)
    (opened : Except String MissionFile) (nextObj : Nat) (appSettings : AppSettings) :
    Option LoadItemsResult :=
  if filename = "" then
    some { ok := false, visualItems := none, scheduledForDeletion := false
           shownMessage := none, nextObj := nextObj, appSettings := appSettings }
  else
    match runLoader env fuel vehicle filename opened
        { visualItems := [], errorString := "", nextObj := nextObj,
          appSettings := appSettings } with
    | none => none
    | some (_, st1) =>
      if st1.errorString ≠ "" then
        some { ok := false, visualItems := some st1.visualItems, scheduledForDeletion := true
               shownMessage := some st1.errorString
               nextObj := st1.nextObj, appSettings := st1.appSettings }
      else
        some { ok := true, visualItems := some st1.visualItems, scheduledForDeletion := false
               shownMessage := none
               nextObj := st1.nextObj, appSettings := st1.appSettings }

/-- Method `MissionController::loadFromFile(filename)`. -/
def loadFromFile (env : Env) (fuel : Nat) (c : MissionController) (filename : String)
    (opened : Except String MissionFile) : Option MissionController :=
  match loadItemsFromFile env fuel c.activeVehicle filename opened c.nextObj c.appSettings with
  | none => none
  | some r =>
    if !r.ok then
      some { c with nextObj := r.nextObj, appSettings := r.appSettings }
    else
      match r.visualItems with
      | none => none
      | some newVisualItems =>
        -- the flag of the new list is raised as soon as the loader has put an item in it
        let c1 : MissionController :=
          { c with nextObj := r.nextObj, appSettings := r.appSettings
                   dirty := decide (newVisualItems.length ≠ 0) }
        let c2 : MissionController :=
          if newVisualItems.length = 0 then
            { c1 with visualItems := some (_addMissionSettings env newVisualItems true c1.nextObj)
                      nextObj := c1.nextObj + 1 }.contentChanged
          else { c1 with visualItems := some newVisualItems }
        match c2.visualItems with
        | none => none
        | some items =>
          match _scanForAdditionalSettings env fuel items with
          | none => none
          | some items1 => _initAllVisualItems { c2 with visualItems := some items1 }

/-- The top level JSON object built by `saveToFile` for the list `first :: rest`, whose item 0
(`first`) is the settings item. -/
def savedDocument (env : Env) (vehicle : Vehicle) (first : VisualItem)
    (rest : List VisualItem) : QJsonValue :=
  let settingsItem := first
  let missionFileObject : QJsonValue := QJsonValue.object []
  let missionFileObject :=
    missionFileObject.insert env.jsonVersionKey (QJsonValue.double 2)
  let missionFileObject :=
    missionFileObject.insert env.jsonGroundStationKey
      (QJsonValue.string env.jsonGroundStationValue)
  let missionFileObject :=
    missionFileObject.insert "plannedHomePosition"
      (env.saveGeoCoordinate settingsItem.coordinate true)
  let missionFileObject :=
    missionFileObject.insert "firmwareType" (QJsonValue.double vehicle.firmwareType)
  let missionFileObject :=
    missionFileObject.insert "vehicleType" (QJsonValue.double vehicle.vehicleType)
  let missionFileObject :=
    missionFileObject.insert "cruiseSpeed" (QJsonValue.double vehicle.cruiseSpeed)
  let missionFileObject :=
    missionFileObject.insert "hoverSpeed" (QJsonValue.double vehicle.hoverSpeed)
  -- Save the visual items
  let rgMissionItems : List QJsonValue :=
    (first :: rest).foldl (fun acc visualItem => acc ++ env.itemSave visualItem) []
  missionFileObject.insert "items" (QJsonValue.array rgMissionItems)

/-- Method `MissionController::saveToFile(filename)`: the JSON document written, if one is
written.  `openOk` tells whether the file could be opened for writing.  Reading item 0 of an
empty list is undefined behaviour (outer `none`). -/
def saveToFile (env : Env) (c : MissionController) (filename : String) (openOk : Bool) :
    Option (Option QJsonValue) :=
  if filename = "" then some none
  else if !openOk then some none
  else
    match c.visualItems with
    | none => none
    | some [] => none
    | some (first :: rest) =>
      if !first.isSettingsItem then
        -- qWarning() << "First item is not MissionSettingsComplexItem"; return;
        some none
      else
        some (some (savedDocument env c.activeVehicle first rest))

/-! ## A reference environment

The collaborators below follow the spec's description of the item classes and of the JSON
helper; they serve to evaluate the controller on concrete inputs. -/

/-- Modelled from the spec: the type tag of a JSON value, for the check "missing required key
or wrong value type" of `JsonHelper::validateKeys` (not in `MissionController.cc`). -/
def QJsonValue.type : QJsonValue → QJsonType
  | QJsonValue.null => QJsonType.Null
  | QJsonValue.bool _ => QJsonType.Bool
  | QJsonValue.double _ => QJsonType.Double
  | QJsonValue.string _ => QJsonType.String
  | QJsonValue.array _ => QJsonType.Array
  | QJsonValue.object _ => QJsonType.Object

/-- Modelled from the spec: `JsonHelper::validateKeys` (not in `MissionController.cc`), "SchemaError
(missing required key or wrong value type)". -/
def specValidateKeys (json : QJsonValue) : List KeyValidateInfo → Except String Unit
  | [] => Except.ok ()
  | info :: rest =>
    if json.contains info.key then
      if (json.get info.key).type = info.type then specValidateKeys json rest
      else Except.error ("Incorrect value type - key: " ++ info.key)
    else if info.required then Except.error ("Missing required key: " ++ info.key)
    else specValidateKeys json rest

/-- Modelled from the spec: `JsonHelper::validateQGCJsonFile` (not in `MissionController.cc`),
"pick V1 vs V2 by presence/type of a version field (string ⇒ V1 compatibility shim, numeric ⇒
native version number), rejecting version numbers outside [1,2] with a VersionError". -/
def specValidateQGCJsonFile (json : QJsonValue) (expectedFileType : String)
    (minSupportedVersion maxSupportedVersion : Int) : Except String Int :=
  if (json.get "fileType").toQString ≠ expectedFileType then
    Except.error "Incorrect file type key"
  else
    match json.get "version" with
    | QJsonValue.string _ => Except.ok 1
    | QJsonValue.double d =>
      let version := doubleToInt d
      if version < minSupportedVersion ∨ maxSupportedVersion < version then
        Except.error ("File version is not supported: " ++ toString version)
      else Except.ok version
    | _ => Except.error "Missing required key: version"

/-- Modelled from the spec: `JsonHelper::loadGeoCoordinate` (not in `MissionController.cc`),
"coordinate array: lat, lon, alt — altitude mandatory". -/
def specLoadGeoCoordinate (value : QJsonValue) (altitudeRequired : Bool) :
    Except String QGeoCoordinate :=
  match value with
  | QJsonValue.array [QJsonValue.double lat, QJsonValue.double lon, QJsonValue.double alt] =>
    Except.ok { latitude := lat, longitude := lon, altitude := alt }
  | QJsonValue.array [QJsonValue.double lat, QJsonValue.double lon] =>
    if altitudeRequired then Except.error "Coordinate array must contain 3 values"
    else Except.ok { latitude := lat, longitude := lon, altitude := 0 }
  | _ => Except.error "value for coordinate is not array"

/-- Modelled from the spec: `JsonHelper::saveGeoCoordinate` (not in `MissionController.cc`),
"plannedHomePosition=[lat,lon,alt]". -/
def specSaveGeoCoordinate (c : QGeoCoordinate) (writeAltitude : Bool) : QJsonValue :=
  if writeAltitude then
    QJsonValue.array [QJsonValue.double c.latitude, QJsonValue.double c.longitude,
      QJsonValue.double c.altitude]
  else QJsonValue.array [QJsonValue.double c.latitude, QJsonValue.double c.longitude]

/-- A blank item: the state shared by freshly constructed items of the reference
environment. -/
def blankItem : VisualItem :=
  { oid := 0, kind := ItemKind.simple, sequenceNumber := 0, span := 1, command := 0, frame := 0
    param1 := 0, param2 := 0, param3 := 0, param4 := 0, doJumpId := 0
    specifiesCoordinate := false, isStandaloneCoordinate := false
    coordinate := { latitude := 0, longitude := 0, altitude := 0 }
    exitCoordinate := { latitude := 0, longitude := 0, altitude := 0 }
    childItems := [], isCurrentItem := false, showHomePosition := false }

/-- Modelled from the spec: command metadata (`MissionCommandUIInfo`, not in
`MissionController.cc`): navigation commands (waypoint 16, takeoff 22, VTOL takeoff 84, land 21)
specify a coordinate, the others do not. -/
def specCommandInfo (command : Int) : CommandInfo :=
  { specifiesCoordinate := command = 16 ∨ command = 21 ∨ command = 22 ∨ command = 84
    isStandaloneCoordinate := false
    frame := 3, param1 := 0, param2 := 0, param3 := 0, param4 := 0, altitude := 50 }

/-- Modelled from the spec: `SimpleMissionItem::load(json, sequenceNumber, errorString)` (not in
`MissionController.cc`): "Simple: one navigation/command instruction; fields: sequence number,
command code, 7 numeric parameters, coordinate frame, optional single coordinate"; the item is
given the sequence number passed in and declares it as its jump id unless the object carries
one. -/
def specSimpleLoad (fresh : VisualItem) (json : QJsonValue) (sequenceNumber : Int) :
    Except String VisualItem :=
  match json.get "command" with
  | QJsonValue.double command =>
    let params := (json.get "params").toArray
    let coordinate : QGeoCoordinate :=
      { latitude := (params.getD 4 QJsonValue.null).toDouble
        longitude := (params.getD 5 QJsonValue.null).toDouble
        altitude := (params.getD 6 QJsonValue.null).toDouble }
    Except.ok
      { fresh with
        sequenceNumber := sequenceNumber
        span := 1
        command := doubleToInt command
        frame := (json.get "frame").toInt
        param1 := (params.getD 0 QJsonValue.null).toDouble
        param2 := (params.getD 1 QJsonValue.null).toDouble
        param3 := (params.getD 2 QJsonValue.null).toDouble
        param4 := (params.getD 3 QJsonValue.null).toDouble
        doJumpId :=
          if json.contains "doJumpId" then (json.get "doJumpId").toInt else sequenceNumber
        specifiesCoordinate := (specCommandInfo (doubleToInt command)).specifiesCoordinate
        isStandaloneCoordinate := (specCommandInfo (doubleToInt command)).isStandaloneCoordinate
        coordinate := coordinate
        exitCoordinate := coordinate }
  | _ => Except.error "Missing required key: command"

/-- Modelled from the spec: `load(json, sequenceNumber, errorString)` of the complex item
classes (not in `MissionController.cc`): the item starts at the sequence number passed in and
spans the number of commands given under `steps` (one when absent). -/
def specComplexLoad (fresh : VisualItem) (json : QJsonValue) (sequenceNumber : Int) :
    Except String VisualItem :=
  Except.ok
    { fresh with
      sequenceNumber := sequenceNumber
      span := if json.contains "steps" then (json.get "steps").toInt else 1 }

/-- Modelled from the spec: `SimpleMissionItem::load(QTextStream&)` (not in
`MissionController.cc`): "one tab/space-delimited record per line thereafter encoding a single
command item"; a record has 12 tab-separated fields, of which the reference environment
reads the sequence number (field 0) and the command (field 3) when they are decimal
numerals. -/
def specSimpleLoadStream (fresh : VisualItem) (line : String) : Option VisualItem :=
  match splitOnChar (Char.ofNat 9) line.toList with
  | [f0, _, _, f3, _, _, _, _, _, _, _, _] =>
    match parseDecimal f0, parseDecimal f3 with
    | some sequenceNumber, some command =>
      some { fresh with
             sequenceNumber := sequenceNumber
             command := command
             doJumpId := sequenceNumber
             specifiesCoordinate := (specCommandInfo command).specifiesCoordinate }
    | _, _ => none
  | _ => none

/-- Modelled from the spec: the object a simple item writes in `save` (`SimpleMissionItem::save`
is not in `MissionController.cc`): its command, frame, parameters and coordinate, with its
sequence number declared as its jump id. -/
def specSimpleEntry (v : VisualItem) : QJsonValue :=
  QJsonValue.object
    [("type", QJsonValue.string "SimpleItem"),
     ("command", QJsonValue.double v.command),
     ("frame", QJsonValue.double v.frame),
     ("doJumpId", QJsonValue.double v.sequenceNumber),
     ("params", QJsonValue.array
        [QJsonValue.double v.param1, QJsonValue.double v.param2, QJsonValue.double v.param3,
         QJsonValue.double v.param4, QJsonValue.double v.coordinate.latitude,
         QJsonValue.double v.coordinate.longitude, QJsonValue.double v.coordinate.altitude])]

/-- Modelled from the spec: `VisualMissionItem::save` (not in `MissionController.cc`): "Each item
serializes itself".  A simple item writes one object; a survey or landing-pattern item
writes one object with its complex item type; the settings item is written through the root
key `plannedHomePosition` ("home position (with altitude)") and adds no entry of its own. -/
def specItemSave (v : VisualItem) : List QJsonValue :=
  match v.kind with
  | ItemKind.simple => [specSimpleEntry v]
  | ItemKind.survey =>
    [QJsonValue.object
      [("type", QJsonValue.string "ComplexItem"),
       ("complexItemType", QJsonValue.string "survey"),
       ("steps", QJsonValue.double v.span)]]
  | ItemKind.fwLanding =>
    [QJsonValue.object
      [("type", QJsonValue.string "ComplexItem"),
       ("complexItemType", QJsonValue.string "fwLandingPattern"),
       ("steps", QJsonValue.double v.span)]]
  | ItemKind.settings => []

/-- The reference environment. -/
def specEnv : Env :=
  { newSimpleMissionItem := blankItem
    newSurveyMissionItem := { blankItem with specifiesCoordinate := true }
    newFixedWingLandingComplexItem := { blankItem with specifiesCoordinate := true }
    newMissionSettingsComplexItem := { blankItem with specifiesCoordinate := true }
    commandInfo := specCommandInfo
    lastKnownHomePosition := { latitude := 47, longitude := 8, altitude := 500 }
    applicationName := "QGroundControl"
    validateKeys := specValidateKeys
    validateQGCJsonFile := specValidateQGCJsonFile
    loadGeoCoordinate := specLoadGeoCoordinate
    simpleLoad := specSimpleLoad
    surveyLoad := specComplexLoad
    fwLandingLoad := specComplexLoad
    settingsLoad := specComplexLoad
    simpleLoadStream := specSimpleLoadStream
    saveGeoCoordinate := specSaveGeoCoordinate
    itemSave := specItemSave
    jsonVersionKey := "version"
    jsonGroundStationKey := "groundStation"
    jsonGroundStationValue := "QGroundControl"
    jsonFileTypeKey := "fileType"
    jsonTypeKey := "type"
    jsonTypeSimpleItemValue := "SimpleItem"
    jsonTypeComplexItemValue := "ComplexItem"
    jsonComplexItemTypeKey := "complexItemType"
    surveyComplexItemTypeValue := "survey"
    fwLandingComplexItemTypeValue := "fwLandingPattern"
    settingsComplexItemTypeValue := "MissionSettings"
    scanForMissionSettings := fun _ _ => none
    cameraSectionAvailable := fun _ => false
    scanForSections := fun visualItems _ => visualItems }

/-- A vehicle for examples: the offline editing vehicle. -/
def offlineVehicle : Vehicle :=
  { homePositionAvailable := false
    homePosition := { latitude := 0, longitude := 0, altitude := 0 }
    isOfflineEditingVehicle := true
    sendHomePositionToVehicle := false
    firmwareType := 12, vehicleType := 2, cruiseSpeed := 15, hoverSpeed := 5
    vtol := false, multiRotor := true }

/-- The controller as constructed, before `start`. -/
def constructed : MissionController :=
  { visualItems := none, linesTable := [], waypointLines := [], editMode := false
    activeVehicle := offlineVehicle, missionItemsRequested := false, nextObj := 0
    released := []
    appSettings :=
      { offlineEditingVehicleType := 0, offlineEditingCruiseSpeed := 0
        offlineEditingHoverSpeed := 0 }
    dirty := false }

/-! ## Properties stated by the theorems -/

/-- The item with its child list emptied: everything the child-item pass leaves alone. -/
def VisualItem.withoutChildren (v : VisualItem) : VisualItem := { v with childItems := [] }

/-- Sequence numbering of a list: item 0 has sequence number 0, every later item's sequence
number is its predecessor's `lastSequenceNumber + 1`, and, provided every item's
`lastSequenceNumber` is at least its own sequence number, the sequence numbers are strictly
ascending and pairwise different. -/
def SequenceNumbered (l : List VisualItem) : Prop :=
  (∀ h : 0 < l.length, (l[0]).sequenceNumber = 0) ∧
  (∀ (i : Nat) (h : i + 1 < l.length),
      (l[i + 1]).sequenceNumber = (l[i]).lastSequenceNumber + 1) ∧
  ((∀ v ∈ l, v.sequenceNumber ≤ v.lastSequenceNumber) →
      List.Pairwise (fun a b : VisualItem => a.sequenceNumber < b.sequenceNumber) l ∧
      (l.map (fun v => v.sequenceNumber)).Nodup)

/-- An example list: settings item, takeoff, a survey spanning three commands, waypoint. -/
def exampleItems : List VisualItem :=
  [ { blankItem with oid := 10, kind := ItemKind.settings, specifiesCoordinate := true },
    { blankItem with oid := 11, command := 22, specifiesCoordinate := true, sequenceNumber := 7 },
    { blankItem with oid := 12, kind := ItemKind.survey, span := 3, specifiesCoordinate := true },
    { blankItem with oid := 13, command := 16, specifiesCoordinate := true, sequenceNumber := 2 } ]

/-- The list invariant of the controller: the item list exists, is not empty, and its item at
index 0 is the settings item. -/
def settingsFirst : Option (List VisualItem) → Bool
  | some (first :: _) => first.isSettingsItem
  | _ => false

/-- Number of items of the controller's list (0 for the null pointer). -/
def MissionController.count (c : MissionController) : Nat :=
  match c.visualItems with
  | none => 0
  | some items => items.length

/-- The controller after `start(true)` in the reference environment. -/
def startedController : MissionController :=
  (start specEnv constructed true).getD constructed

/-- The started controller after inserting a first item at index 1. -/
def oneItemController : MissionController :=
  ((insertSimpleMissionItem specEnv startedController
      { latitude := 1, longitude := 2, altitude := 3 } 1).map Prod.fst).getD constructed

/-- The controller after inserting a second item at index 2. -/
def twoItemController : MissionController :=
  ((insertSimpleMissionItem specEnv oneItemController
      { latitude := 5, longitude := 6, altitude := 7 } 2).map Prod.fst).getD constructed

/-- Whether the segment pass connects the item: it specifies a coordinate and the coordinate
is not standalone. -/
def VisualItem.isLineEnd (v : VisualItem) : Bool :=
  v.specifiesCoordinate && !v.isStandaloneCoordinate

/-- The coordinate-specifying, non-standalone items of a list, in traversal order. -/
def coordinateItems (l : List VisualItem) : List VisualItem :=
  l.filter VisualItem.isLineEnd

/-- The identity pairs of adjacent items of a list, in traversal order. -/
def adjacentPairs : List VisualItem → List VisualItemPair
  | a :: b :: rest => (a.oid, b.oid) :: adjacentPairs (b :: rest)
  | _ => []

/-- A segment request of the segment pass: the key and the coordinates a new segment would be
constructed with. -/
structure SegmentEdge where
  pair : VisualItemPair
  coordinate1 : QGeoCoordinate
  coordinate2 : QGeoCoordinate
deriving DecidableEq, Repr

/-- The segment requested between `last` and `item`. -/
def edgeBetween (last item : VisualItem) : SegmentEdge :=
  { pair := (last.oid, item.oid)
    coordinate1 := if last.isSimpleItem then last.coordinate else last.exitCoordinate
    coordinate2 := item.coordinate }

/-- The segment requests the loop of `_recalcWaypointLines` makes on `rest` when it is entered
with `lastCoordinateItem = last` (with `showHomePosition = false`). -/
def expectedEdges (settingsItem : Option Nat) (last : VisualItem) :
    List VisualItem → List SegmentEdge
  | [] => []
  | item :: rest =>
    if item.isLineEnd then
      (if some last.oid ≠ settingsItem then [edgeBetween last item] else []) ++
        expectedEdges settingsItem item rest
    else expectedEdges settingsItem last rest

/-- The tables and the allocation counter of a `LinesLoopState`. -/
structure CacheState where
  old_table : CoordVectHashTable
  linesTable : CoordVectHashTable
  nextObj : Nat
deriving DecidableEq, Repr

/-- The tables of a loop state. -/
def LinesLoopState.cache (s : LinesLoopState) : CacheState :=
  { old_table := s.old_table, linesTable := s.linesTable, nextObj := s.nextObj }

/-- The effect of one segment request on the tables: the segment is taken over from the old
table when it is there, and created otherwise. -/
def stepEdge (s : CacheState) (e : SegmentEdge) : CacheState :=
  match s.old_table.find e.pair with
  | some linevect =>
    { s with linesTable := s.linesTable.set e.pair linevect
             old_table := s.old_table.remove e.pair }
  | none =>
    { s with linesTable := s.linesTable.set e.pair
               { oid := s.nextObj, coordinate1 := e.coordinate1, coordinate2 := e.coordinate2 }
             nextObj := s.nextObj + 1 }

/-- Well-formedness of the segment tables: each key occurs once, the segment objects are
pairwise different objects, and all of them were allocated before `nextObj`. -/
def TablesWellFormed (old_table linesTable : CoordVectHashTable) (nextObj : Nat) : Prop :=
  old_table.keys.Nodup ∧ linesTable.keys.Nodup ∧
  (((old_table ++ linesTable).values).map (fun v => v.oid)).Nodup ∧
  (∀ v ∈ (old_table ++ linesTable).values, v.oid < nextObj)

/-- Well-formedness of the controller's segment cache. -/
def CacheWellFormed (c : MissionController) : Prop :=
  TablesWellFormed [] c.linesTable c.nextObj

/-- A controller holding `exampleItems` and an empty segment cache. -/
def exampleController : MissionController :=
  { constructed with visualItems := some exampleItems, nextObj := 20 }

/-- A controller holding `exampleItems` and a segment cache from an earlier state of the list:
the segment of the pair (11, 12) is still needed, the segment of the pair (11, 13) is not. -/
def cachedController : MissionController :=
  { exampleController with
    linesTable :=
      [ ((11, 12), { oid := 1, coordinate1 := blankItem.coordinate
                     coordinate2 := blankItem.coordinate }),
        ((11, 13), { oid := 2, coordinate1 := blankItem.coordinate
                     coordinate2 := blankItem.coordinate }) ] }

/-- A legacy text file of version 110 with one item line (a waypoint). -/
def legacy110File : MissionFile :=
  { lines := ["QGC WPL 110", "0\t1\t0\t16\t0\t0\t0\t0\t47\t8\t500\t1"]
    json := Except.error "illegal value" }

/-- Whether the item is a DO_JUMP simple item, the test of the fix-up loop. -/
def VisualItem.isDoJump (v : VisualItem) : Bool :=
  v.isSimpleItem && v.command == MAV_CMD_DO_JUMP

/-- The jump id a DO_JUMP item holds: `int findDoJumpId = missionItem().param1()`. -/
def VisualItem.jumpId (v : VisualItem) : Int := doubleToInt v.param1

/-- What the DO_JUMP fix-up makes of item `v` of the loaded list `all`: a DO_JUMP simple item
gets as `param1` the sequence number of the first simple item of `all` whose `doJumpId` is
its jump id; every other item is unchanged. -/
def fixedItem (all : List VisualItem) (v : VisualItem) : VisualItem :=
  if v.isDoJump then
    match findDoJumpTarget v.jumpId all with
    | some targetItem => { v with param1 := targetItem.sequenceNumber }
    | none => v
  else v

/-- A V2 document with one object in `items`. -/
def v2Document (items : List QJsonValue) : QJsonValue :=
  QJsonValue.object
    [ ("fileType", QJsonValue.string "Mission"),
      ("version", QJsonValue.double 2),
      ("plannedHomePosition",
        QJsonValue.array [QJsonValue.double 47, QJsonValue.double 8, QJsonValue.double 500]),
      ("firmwareType", QJsonValue.double 3),
      ("items", QJsonValue.array items) ]

/-- A simple item object of a V2 file. -/
def simpleItemObject (command : Rat) (param1 : Rat) (doJumpId : Rat) : QJsonValue :=
  QJsonValue.object
    [ ("type", QJsonValue.string "SimpleItem"),
      ("command", QJsonValue.double command),
      ("doJumpId", QJsonValue.double doJumpId),
      ("params", QJsonValue.array
        [QJsonValue.double param1, QJsonValue.double 0, QJsonValue.double 0,
         QJsonValue.double 0, QJsonValue.double 47, QJsonValue.double 8,
         QJsonValue.double 10]) ]

/-- A V2 document with a waypoint declaring jump id 7 and a DO_JUMP item jumping to 9, an
id that no item declares. -/
def danglingJumpDocument : QJsonValue :=
  v2Document [simpleItemObject 16 0 7, simpleItemObject 177 9 8]

/-- A V2 document with a waypoint declaring jump id 7 and a DO_JUMP item jumping to 7. -/
def resolvedJumpDocument : QJsonValue :=
  v2Document [simpleItemObject 16 0 7, simpleItemObject 177 7 8]

/-- The state a loader starts from in the examples. -/
def emptyLoadState : LoadState :=
  { visualItems := [], errorString := "", nextObj := 1
    appSettings := constructed.appSettings }

/-- Every collaborator that fails stores a non-empty text in `errorString`. -/
def Env.MessagesNonEmpty (env : Env) : Prop :=
  (∀ json infos e, env.validateKeys json infos = Except.error e → e ≠ "") ∧
  (∀ json fileType lo hi e, env.validateQGCJsonFile json fileType lo hi = Except.error e →
    e ≠ "") ∧
  (∀ value altitudeRequired e,
    env.loadGeoCoordinate value altitudeRequired = Except.error e → e ≠ "") ∧
  (∀ fresh json n e, env.simpleLoad fresh json n = Except.error e → e ≠ "") ∧
  (∀ fresh json n e, env.surveyLoad fresh json n = Except.error e → e ≠ "") ∧
  (∀ fresh json n e, env.fwLandingLoad fresh json n = Except.error e → e ≠ "") ∧
  (∀ fresh json n e, env.settingsLoad fresh json n = Except.error e → e ≠ "")

/-- An element of the `items` array whose type discriminator is neither the simple-item nor
the complex-item value, or is the complex-item value with a complex-item discriminator that
is none of survey, landing pattern, settings. -/
def UnknownDiscriminator (env : Env) (itemValue : QJsonValue) : Prop :=
  (itemValue.get env.jsonTypeKey).toQString ≠ env.jsonTypeSimpleItemValue ∧
  ((itemValue.get env.jsonTypeKey).toQString ≠ env.jsonTypeComplexItemValue ∨
    ((itemValue.get env.jsonComplexItemTypeKey).toQString ≠ env.surveyComplexItemTypeValue ∧
     (itemValue.get env.jsonComplexItemTypeKey).toQString ≠ env.fwLandingComplexItemTypeValue ∧
     (itemValue.get env.jsonComplexItemTypeKey).toQString ≠ env.settingsComplexItemTypeValue))

/-- What `loadFromFile` leaves untouched when the load fails: every member of the controller
(the allocation counter and the application settings apart). -/
def MissionController.sameMembers (c c1 : MissionController) : Prop :=
  c1.visualItems = c.visualItems ∧ c1.linesTable = c.linesTable ∧
  c1.waypointLines = c.waypointLines ∧ c1.editMode = c.editMode ∧
  c1.activeVehicle = c.activeVehicle ∧ c1.missionItemsRequested = c.missionItemsRequested ∧
  c1.released = c.released ∧ c1.dirty = c.dirty

/-- A V2 document holding a waypoint and a complex item of the unknown type "corridor". -/
def unknownComplexDocument : QJsonValue :=
  v2Document
    [ simpleItemObject 16 0 1,
      QJsonValue.object
        [ ("type", QJsonValue.string "ComplexItem"),
          ("complexItemType", QJsonValue.string "corridor") ],
      simpleItemObject 16 0 2 ]

/-- A file holding `unknownComplexDocument`. -/
def unknownComplexFile : MissionFile :=
  { lines := ["\x7b"], json := Except.ok unknownComplexDocument }

/-- A file holding `danglingJumpDocument`. -/
def danglingJumpFile : MissionFile :=
  { lines := ["\x7b"], json := Except.ok danglingJumpDocument }

/-- The file that holds the JSON document `doc` as written by `QJsonDocument::toJson`: its
first line is the opening brace, and `QJsonDocument::fromJson` gives `doc` back. -/
def jsonFile (doc : QJsonValue) : MissionFile :=
  { lines := ["\x7b"], json := Except.ok doc }

/-- Saving the plan with `saveToFile` and loading the written file with `loadItemsFromFile`. -/
def saveThenLoad (env : Env) (fuel : Nat) (c : MissionController) (filename : String) :
    Option LoadItemsResult :=
  match saveToFile env c filename true with
  | some (some doc) =>
    loadItemsFromFile env fuel c.activeVehicle filename (Except.ok (jsonFile doc))
      c.nextObj c.appSettings
  | _ => none

/-- What makes two item lists equivalent: kind, sequence number, entry and exit coordinate
of each item, in order. -/
def VisualItem.signature (v : VisualItem) :
    ItemKind × Int × QGeoCoordinate × QGeoCoordinate :=
  (v.kind, v.sequenceNumber, v.coordinate, v.exitCoordinate)

/-- The loaded item `w` stands for the saved item `v`: same kind, sequence number, span and
coordinates, and, for a simple item, same command and `param1`, with the saved sequence
number of `v` as declared jump id. -/
def LoadedFrom (w v : VisualItem) : Prop :=
  w.kind = v.kind ∧ w.sequenceNumber = v.sequenceNumber ∧ w.span = v.span ∧
  w.coordinate = v.coordinate ∧ w.exitCoordinate = v.exitCoordinate ∧
  (v.kind = ItemKind.simple →
    w.command = v.command ∧ w.param1 = v.param1 ∧ w.doJumpId = v.sequenceNumber)

/-- Round trip of one item through the item classes: `save` appends exactly one entry, and the
item loop of the V2 loader, given that entry and the item's sequence number, appends an item
that stands for the saved one. -/
def EntryRoundTrips (env : Env) (v : VisualItem) : Prop :=
  ∃ e, env.itemSave v = [e] ∧
    ∀ (i : Nat) (st : LoadState),
      ∃ w, loadItemV2 env i e v.sequenceNumber st =
          (true, w.lastSequenceNumber + 1, st.alloc.append w) ∧ LoadedFrom w v

/-- What a `load` method of an item class has to leave of the saved item `v` in the loaded
state `loaded` for the two to be equivalent: sequence number, span and coordinates, and,
for a simple item, command and `param1`, with the saved sequence number as declared jump
id. -/
def Reproduces (loaded v : VisualItem) : Prop :=
  loaded.sequenceNumber = v.sequenceNumber ∧ loaded.span = v.span ∧
  loaded.coordinate = v.coordinate ∧ loaded.exitCoordinate = v.exitCoordinate ∧
  (v.kind = ItemKind.simple →
    loaded.command = v.command ∧ loaded.param1 = v.param1 ∧
      loaded.doJumpId = v.sequenceNumber)

/-- The entry `e` written by a complex item carries the type tag of complex items, which is
not the tag of simple items, and the complex item type `complexItemType`. -/
def ComplexEntry (env : Env) (e : QJsonValue) (complexItemType : String) : Prop :=
  (e.get env.jsonTypeKey).toQString = env.jsonTypeComplexItemValue ∧
  env.jsonTypeComplexItemValue ≠ env.jsonTypeSimpleItemValue ∧
  env.validateKeys e
    [{ key := env.jsonComplexItemTypeKey, type := QJsonType.String, required := true }] =
      Except.ok () ∧
  (e.get env.jsonComplexItemTypeKey).toQString = complexItemType

/-- Round trip of one item through its class, stated on the methods of the item classes and of
the JSON helper alone (none of them is in `MissionController.cc`): `save` appends exactly one
entry, an object that carries the type tag of the item's class, and the `load` method of
that class, given the entry and the item's sequence number, reproduces the item in any new
object. -/
def ItemRoundTrips (env : Env) (v : VisualItem) : Prop :=
  ∃ e, env.itemSave v = [e] ∧ e.isObject = true ∧
    env.validateKeys e
      [{ key := env.jsonTypeKey, type := QJsonType.String, required := true }] =
        Except.ok () ∧
    match v.kind with
    | ItemKind.simple =>
      (e.get env.jsonTypeKey).toQString = env.jsonTypeSimpleItemValue ∧
      ∀ fresh, ∃ loaded,
        env.simpleLoad fresh e v.sequenceNumber = Except.ok loaded ∧ Reproduces loaded v
    | ItemKind.survey =>
      ComplexEntry env e env.surveyComplexItemTypeValue ∧
      ∀ fresh, ∃ loaded,
        env.surveyLoad fresh e v.sequenceNumber = Except.ok loaded ∧ Reproduces loaded v
    | ItemKind.fwLanding =>
      ComplexEntry env e env.fwLandingComplexItemTypeValue ∧
      env.fwLandingComplexItemTypeValue ≠ env.surveyComplexItemTypeValue ∧
      ∀ fresh, ∃ loaded,
        env.fwLandingLoad fresh e v.sequenceNumber = Except.ok loaded ∧ Reproduces loaded v
    | ItemKind.settings =>
      ComplexEntry env e env.settingsComplexItemTypeValue ∧
      env.settingsComplexItemTypeValue ≠ env.surveyComplexItemTypeValue ∧
      env.settingsComplexItemTypeValue ≠ env.fwLandingComplexItemTypeValue ∧
      ∀ fresh, ∃ loaded,
        env.settingsLoad fresh e v.sequenceNumber = Except.ok loaded ∧ Reproduces loaded v

/-- Modelled from the spec: the object a survey item writes in `save` (`SurveyMissionItem::save`
is not in `MissionController.cc`), "entry coordinate, exit coordinate (may differ from entry)":
its complex item type, the number of commands it spans, and its entry and exit coordinate. -/
def specSurveyEntry (v : VisualItem) : QJsonValue :=
  QJsonValue.object
    [("type", QJsonValue.string "ComplexItem"),
     ("complexItemType", QJsonValue.string "survey"),
     ("steps", QJsonValue.double v.span),
     ("entry", specSaveGeoCoordinate v.coordinate true),
     ("exit", specSaveGeoCoordinate v.exitCoordinate true)]

/-- Modelled from the spec: `SurveyMissionItem::load(json, sequenceNumber, errorString)` (not in
`MissionController.cc`) for the entries of `specSurveyEntry`: the item starts at the sequence
number passed in, spans the number of commands given under `steps`, and takes its entry and
exit coordinate from the object. -/
def specSurveyLoad (fresh : VisualItem) (json : QJsonValue) (sequenceNumber : Int) :
    Except String VisualItem :=
  match specLoadGeoCoordinate (json.get "entry") true,
      specLoadGeoCoordinate (json.get "exit") true with
  | Except.ok entry, Except.ok exit =>
    Except.ok
      { fresh with
        sequenceNumber := sequenceNumber
        span := (json.get "steps").toInt
        coordinate := entry
        exitCoordinate := exit }
  | Except.error e, _ => Except.error e
  | _, Except.error e => Except.error e

/-- Modelled from the spec: the reference environment with survey items that write and read
their entry and exit coordinate. -/
def surveyEnv : Env :=
  { specEnv with
    itemSave := fun v => if v.kind = ItemKind.survey then [specSurveyEntry v] else specItemSave v
    surveyLoad := specSurveyLoad }

/-- Item 0 of `surveyPlan`: a settings item holding the home position (47, 8, 500). -/
def surveyPlanFirst : VisualItem :=
  { blankItem with oid := 0, kind := ItemKind.settings, specifiesCoordinate := true
                   coordinate := { latitude := 47, longitude := 8, altitude := 500 }
                   exitCoordinate := { latitude := 47, longitude := 8, altitude := 500 } }

/-- The items of `surveyPlan` after item 0: a takeoff item, a survey spanning the sequence
numbers 2 to 4 that is entered at (47, 9) and left at (48, 9), a waypoint, and a DO_JUMP item
whose target is the waypoint. -/
def surveyPlanRest : List VisualItem :=
  [ { blankItem with oid := 1, sequenceNumber := 1, command := 22, specifiesCoordinate := true
                     coordinate := { latitude := 47, longitude := 8, altitude := 30 }
                     exitCoordinate := { latitude := 47, longitude := 8, altitude := 30 } },
    { blankItem with oid := 2, kind := ItemKind.survey, sequenceNumber := 2, span := 3
                     specifiesCoordinate := true
                     coordinate := { latitude := 47, longitude := 9, altitude := 50 }
                     exitCoordinate := { latitude := 48, longitude := 9, altitude := 50 } },
    { blankItem with oid := 3, sequenceNumber := 5, command := 16, specifiesCoordinate := true
                     coordinate := { latitude := 49, longitude := 9, altitude := 60 }
                     exitCoordinate := { latitude := 49, longitude := 9, altitude := 60 } },
    { blankItem with oid := 4, sequenceNumber := 6, command := 177, param1 := 5 } ]

/-- A plan with a survey between simple items. -/
def surveyPlan : MissionController :=
  { constructed with nextObj := 5, visualItems := some (surveyPlanFirst :: surveyPlanRest) }

/-- A plan with a DO_JUMP item whose target, sequence number 9, is no item of the plan:
settings item, waypoint, DO_JUMP. -/
def danglingJumpPlan : MissionController :=
  { constructed with
    nextObj := 3
    visualItems := some
      [ { blankItem with oid := 0, kind := ItemKind.settings, specifiesCoordinate := true
                         coordinate := { latitude := 47, longitude := 8, altitude := 500 }
                         exitCoordinate := { latitude := 47, longitude := 8, altitude := 500 } },
        { blankItem with oid := 1, sequenceNumber := 1, command := 16
                         specifiesCoordinate := true },
        { blankItem with oid := 2, sequenceNumber := 2, command := 177, param1 := 9 } ] }

/-- A plan with a DO_JUMP item that targets the sequence number of a survey item: settings
item, survey (sequence numbers 1 to 3), waypoint, DO_JUMP to 1. -/
def jumpToSurveyPlan : MissionController :=
  { constructed with
    nextObj := 4
    visualItems := some
      [ { blankItem with oid := 0, kind := ItemKind.settings, specifiesCoordinate := true
                         coordinate := { latitude := 47, longitude := 8, altitude := 500 }
                         exitCoordinate := { latitude := 47, longitude := 8, altitude := 500 } },
        { blankItem with oid := 1, kind := ItemKind.survey, sequenceNumber := 1, span := 3
                         specifiesCoordinate := true },
        { blankItem with oid := 2, sequenceNumber := 4, command := 16
                         specifiesCoordinate := true },
        { blankItem with oid := 3, sequenceNumber := 5, command := 177, param1 := 1 } ] }

/-- The entries the items of a list append to the array `rgMissionItems`, in order. -/
def entriesOf (env : Env) : List VisualItem → List QJsonValue
  | [] => []
  | v :: rest => env.itemSave v ++ entriesOf env rest

/-- Item 0 of `twoItemController`, its settings item. -/
def twoItemFirst : VisualItem := (twoItemController.visualItems.getD []).headD blankItem

/-- The items of `twoItemController` after item 0: a takeoff item and a waypoint. -/
def twoItemRest : List VisualItem := (twoItemController.visualItems.getD []).tail

/-- The item `w` of the loaded list comes from the array element `itemValue`, loaded when the
running sequence number was `nextSequenceNumber`: an iteration of the item loop of the V2
loader on `itemValue` with that sequence number appends an item `w0`, and `w` is `w0` up to
the `param1` that the DO_JUMP fix-up rewrites. -/
def LoadsAs (env : Env) (itemValue : QJsonValue) (nextSequenceNumber : Int) (w : VisualItem) :
    Prop :=
  ∃ (i : Nat) (st : LoadState) (w0 : VisualItem),
    loadItemV2 env i itemValue nextSequenceNumber st =
      (true, w0.lastSequenceNumber + 1, st.alloc.append w0) ∧
    { w with param1 := w0.param1 } = w0

/-- The items `ws` come from the array elements in file order: the first is loaded with the
starting sequence number given, each next one with its predecessor's
`lastSequenceNumber + 1`. -/
def LoadedInOrder (env : Env) : List QJsonValue → Int → List VisualItem → Prop
  | [], _, [] => True
  | itemValue :: rest, nextSequenceNumber, w :: ws =>
    LoadsAs env itemValue nextSequenceNumber w ∧
      LoadedInOrder env rest (w.lastSequenceNumber + 1) ws
  | _, _, _ => False

/-- The `load` method of simple items gives the item the sequence number it is called with,
and a simple item is a single step. -/
def Env.SimpleItemsSingleStep (env : Env) : Prop :=
  ∀ fresh json n loaded, env.simpleLoad fresh json n = Except.ok loaded →
    loaded.sequenceNumber = n ∧ loaded.span = 1

/-- A V2 document with two waypoints. -/
def twoWaypointDocument : QJsonValue :=
  v2Document [simpleItemObject 16 0 1, simpleItemObject 16 0 2]

/-- The parts of a split put together again with the separator between them. -/
def joinWith (sep : Char) : List (List Char) → List Char
  | [] => []
  | [w] => w
  | w :: w1 :: ws => w ++ sep :: joinWith sep (w1 :: ws)

/-- A legacy text file whose header names version 130. -/
def legacy130File : List String :=
  ["QGC WPL 130", "0\t1\t0\t16\t0\t0\t0\t0\t47\t8\t500\t1"]

/-- The item `w` is the simple item parsed from the line `line` of a legacy text file, with its
jump target shifted when the settings item has been put in front of the list. -/
def ParsedFrom (env : Env) (line : String) (w : VisualItem) : Prop :=
  ∃ oid loaded, env.simpleLoadStream (env.allocSimple oid) line = some loaded ∧
    w = shiftDoJump (loadedInto (env.allocSimple oid) loaded)

/-- The item lines of a legacy text file with two waypoints. -/
def twoItemLines : List String :=
  ["0\t0\t0\t16\t0\t0\t0\t0\t47\t8\t500\t1", "1\t0\t0\t16\t0\t0\t0\t0\t47\t8\t510\t1"]

/-- The simple items of a V1 file: what the merge loop of `_loadJsonMissionFileV1` makes of the
elements of the array `items`, taken one after another ("Add the next available simple
item"): each element is an object and is loaded into a new `SimpleMissionItem` with the
sequence number found under `id`.  `oid` is the identity of the first new object; `none` when
an element does not load. -/
def loadSimpleItemsV1 (env : Env) : List QJsonValue → Nat → Option (List VisualItem)
  | [], _ => some []
  | itemValue :: rest, oid =>
    if !itemValue.isObject then none
    else
      match env.simpleLoad (env.allocSimple oid) itemValue (itemValue.get "id").toInt with
      | Except.ok loaded =>
        (loadSimpleItemsV1 env rest (oid + 1)).map
          (fun ws => loadedInto (env.allocSimple oid) loaded :: ws)
      | Except.error _ => none

/-- The complex items' declared sequence numbers interleave with the simple items:
`MergeOrder n simples complexes merged` says that `merged` arranges the simple items and the
complex items, each kind in its file order, so that, with the running sequence number
starting at `n` and continuing with each item's `lastSequenceNumber + 1`, every complex item
stands where the running number is its declared sequence number, and a simple item stands
only where the running number is not the declared number of the next complex item. -/
inductive MergeOrder : Int → List VisualItem → List VisualItem → List VisualItem → Prop
  | done (n : Int) : MergeOrder n [] [] []
  | complex (n : Int) (c : VisualItem) (simples complexes merged : List VisualItem) :
      c.sequenceNumber = n →
      MergeOrder (c.lastSequenceNumber + 1) simples complexes merged →
      MergeOrder n simples (c :: complexes) (c :: merged)
  | simple (n : Int) (s : VisualItem) (simples complexes merged : List VisualItem) :
      (∀ c, complexes.head? = some c → c.sequenceNumber ≠ n) →
      MergeOrder (s.lastSequenceNumber + 1) simples complexes merged →
      MergeOrder n (s :: simples) complexes (s :: merged)

/-- Every complex item of the list stands at its declared sequence position: its sequence
number is its predecessor's `lastSequenceNumber + 1`, or `n` when nothing precedes it. -/
def ComplexAtDeclaredPosition : Int → List VisualItem → Prop
  | _, [] => True
  | n, v :: rest =>
    (v.isSimpleItem = false → v.sequenceNumber = n) ∧
      ComplexAtDeclaredPosition (v.lastSequenceNumber + 1) rest

/-- Decision of `MergeOrder`: whether `merged` is the arrangement of `simples` and `complexes`
in merge order, starting at the running sequence number `n`. -/
def mergeOrderCheck : Int → List VisualItem → List VisualItem → List VisualItem → Bool
  | _, simples, complexes, [] => simples.isEmpty && complexes.isEmpty
  | n, simples, complexes, x :: merged =>
    match complexes with
    | c :: complexes1 =>
      if c.sequenceNumber = n then
        decide (c = x) && mergeOrderCheck (x.lastSequenceNumber + 1) simples complexes1 merged
      else
        match simples with
        | s :: simples1 =>
          decide (s = x) &&
            mergeOrderCheck (x.lastSequenceNumber + 1) simples1 (c :: complexes1) merged
        | [] => false
    | [] =>
      match simples with
      | s :: simples1 =>
        decide (s = x) && mergeOrderCheck (x.lastSequenceNumber + 1) simples1 [] merged
      | [] => false

/-- A simple item object of a V1 file, with its sequence number under `id`. -/
def simpleItemObjectV1 (id command : Rat) : QJsonValue :=
  QJsonValue.object
    [ ("id", QJsonValue.double id),
      ("command", QJsonValue.double command),
      ("params", QJsonValue.array
        [QJsonValue.double 0, QJsonValue.double 0, QJsonValue.double 0,
         QJsonValue.double 0, QJsonValue.double 47, QJsonValue.double 8,
         QJsonValue.double 10]) ]

/-- A survey object of a V1 file: its declared sequence number under `id` and the number of
commands it spans. -/
def surveyObjectV1 (id steps : Rat) : QJsonValue :=
  QJsonValue.object [("id", QJsonValue.double id), ("steps", QJsonValue.double steps)]

/-- A V1 document with the given simple and complex items. -/
def v1Document (items complexItems : List QJsonValue) : QJsonValue :=
  QJsonValue.object
    [ ("version", QJsonValue.string "1.0"),
      ("plannedHomePosition", simpleItemObjectV1 0 16),
      ("items", QJsonValue.array items),
      ("MAV_AUTOPILOT", QJsonValue.double 3),
      ("complexItems", QJsonValue.array complexItems) ]

/-- A V1 document with a takeoff item (sequence number 1), a survey declaring sequence number
2 and spanning three commands, and a waypoint (sequence number 5). -/
def interleavedV1Document : QJsonValue :=
  v1Document [simpleItemObjectV1 1 22, simpleItemObjectV1 5 16] [surveyObjectV1 2 3]

/-- The survey items of `interleavedV1Document` as loaded. -/
def interleavedSurveys : List VisualItem :=
  ((loadComplexItemsV1 specEnv (interleavedV1Document.get "complexItems").toArray []
    emptyLoadState).1).getD []

/-- The simple items of `interleavedV1Document` as loaded. -/
def interleavedSimples : List VisualItem :=
  (loadSimpleItemsV1 specEnv (interleavedV1Document.get "items").toArray 2).getD []

/-- The items of `interleavedV1Document` in merge order: takeoff, survey, waypoint. -/
def interleavedMerged : List VisualItem :=
  interleavedSimples.take 1 ++ interleavedSurveys ++ interleavedSimples.drop 1

/-- The merge in the spec's words, for comparison with the loop: "merged into final order by
repeatedly taking whichever of next simple item or next complex item has the lower expected
sequence number, preferring the complex item on an exact tie".  Each unit of `fuel` takes one
item. -/
def specMergeLowerFirstFuel : Nat → List VisualItem → List VisualItem → List VisualItem
  | 0, _, _ => []
  | _ + 1, [], complexes => complexes
  | _ + 1, s :: simples, [] => s :: simples
  | fuel + 1, s :: simples, c :: complexes =>
    if c.sequenceNumber ≤ s.sequenceNumber then
      c :: specMergeLowerFirstFuel fuel (s :: simples) complexes
    else s :: specMergeLowerFirstFuel fuel simples (c :: complexes)

/-- The merge in the spec's words, run until both sources are exhausted. -/
def specMergeLowerFirst (simples complexes : List VisualItem) : List VisualItem :=
  specMergeLowerFirstFuel (simples.length + complexes.length) simples complexes

/-- The list `merged` arranges the items of `simples` and the items of `complexes`, each list
in its own order. -/
inductive Interleaving : List VisualItem → List VisualItem → List VisualItem → Prop
  | nil : Interleaving [] [] []
  | simple (s : VisualItem) (simples complexes merged : List VisualItem) :
      Interleaving simples complexes merged →
      Interleaving (s :: simples) complexes (s :: merged)
  | complex (c : VisualItem) (simples complexes merged : List VisualItem) :
      Interleaving simples complexes merged →
      Interleaving simples (c :: complexes) (c :: merged)

/-- Consistent numbering of a list from `n` on: the first item has sequence number `n`, every
item's last sequence number is at least its sequence number, and every later item's sequence
number is its predecessor's `lastSequenceNumber + 1`. -/
def numberedFrom : Int → List VisualItem → Bool
  | _, [] => true
  | n, v :: rest =>
    decide (v.sequenceNumber = n) && decide (v.sequenceNumber ≤ v.lastSequenceNumber) &&
      numberedFrom (v.lastSequenceNumber + 1) rest

/-- A V1 document whose simple items declare the sequence numbers 3 and 1, in this order, with
a survey declaring sequence number 2. -/
def descendingV1Document : QJsonValue :=
  v1Document [simpleItemObjectV1 3 16, simpleItemObjectV1 1 16] [surveyObjectV1 2 1]

/-- The survey items of `descendingV1Document` as loaded. -/
def descendingSurveys : List VisualItem :=
  ((loadComplexItemsV1 specEnv (descendingV1Document.get "complexItems").toArray []
    emptyLoadState).1).getD []

/-- The simple items of `descendingV1Document` as loaded. -/
def descendingSimples : List VisualItem :=
  (loadSimpleItemsV1 specEnv (descendingV1Document.get "items").toArray 2).getD []

/-- The state in which the merge loop is entered in the examples: an empty list, one survey
item allocated. -/
def mergeStartState : LoadState := { emptyLoadState with nextObj := 2 }

/-- A V1 document without the key `plannedHomePosition`: one waypoint, no complex item. -/
def v1DocumentWithoutHome : QJsonValue :=
  QJsonValue.object
    [ ("version", QJsonValue.string "1.0"),
      ("items", QJsonValue.array [simpleItemObjectV1 1 16]),
      ("MAV_AUTOPILOT", QJsonValue.double 3),
      ("complexItems", QJsonValue.array []) ]

/-- The reference environment with a key validation that accepts every object. -/
def lenientEnv : Env :=
  { specEnv with validateKeys := fun _ _ => Except.ok () }

/-! ## Sending, saving, vehicle changes -/

/-- Method `MissionController::sendToVehicle`: the items are handed to the vehicle's mission
manager (which is not part of the state) and the dirty flag is lowered.  A null `_visualItems`
is dereferenced (`none`). -/
def sendToVehicle (c : MissionController) : Option MissionController :=
  match c.visualItems with
  | none => none
  | some _ => some (c.setDirty false)

/-- Method `MissionController::saveToFile(filename)`: the state of the controller it leaves
(the document it writes is given by `saveToFile`).  `openOk` tells whether the file could be
opened for writing.  A null `_visualItems`, and item 0 of an empty list, are dereferenced
(`none`). -/
def saveToFileState (c : MissionController) (filename : String) (openOk : Bool) :
    Option MissionController :=
  if filename = "" then some c
  else
    match c.visualItems with
    | none => none
    | some items =>
      if !openOk then
        -- qgcApp()->showMessage(file.errorString());
        some (c.setDirty false)
      else
        match items with
        | [] => none
        | first :: _ =>
          if !first.isSettingsItem then
            -- qWarning() << "First item is not MissionSettingsComplexItem"; return;
            some c
          else some (c.setDirty false)

/-- Method `MissionController::loadFromVehicle`: `managerActiveVehicle` tells whether the
multi-vehicle manager has an active vehicle. -/
def loadFromVehicle (c : MissionController) (managerActiveVehicle : Bool) : MissionController :=
  if managerActiveVehicle then { c with missionItemsRequested := true } else c

/-- Method `MissionController::_activeVehicleHomePositionAvailableChanged`. -/
def _activeVehicleHomePositionAvailableChanged (c : MissionController)
    (homePositionAvailable : Bool) : Option MissionController :=
  if !c.editMode then
    match c.visualItems with
    | none => some c
    | some [] => none
    | some (first :: rest) =>
      if first.isSettingsItem then
        let settingsItem := { first with showHomePosition := homePositionAvailable }
        _recalcWaypointLines { c with visualItems := some (settingsItem :: rest) }
      else
        -- qWarning() << "First item is not MissionSettingsComplexItem";
        some c
  else some c

/-- Method `MissionController::_activeVehicleHomePositionChanged`. -/
def _activeVehicleHomePositionChanged (c : MissionController) (homePosition : QGeoCoordinate) :
    Option MissionController :=
  if !c.editMode then
    match c.visualItems with
    | none => some c
    | some [] => none
    | some (first :: rest) =>
      if first.isSettingsItem then
        if first.coordinate ≠ homePosition then
          let settingsItem := { first.setCoordinate homePosition with showHomePosition := true }
          _recalcWaypointLines { c with visualItems := some (settingsItem :: rest) }
        else some c
      else
        -- qWarning() << "First item is not MissionSettingsComplexItem";
        some c
  else some c

/-- Method `MissionController::_activeVehicleBeingRemoved`: "We always remove all items on
vehicle change". -/
def _activeVehicleBeingRemoved (env : Env) (c : MissionController) : Option MissionController :=
  removeAll env c

/-- Method `MissionController::_activeVehicleSet`, called when `_activeVehicle` has been set
to the new vehicle.  `parametersReady` and `syncInProgress` are the values of
`_activeVehicle->parameterManager()->parametersReady()` and of `syncInProgress()`. -/
def _activeVehicleSet (env : Env) (c : MissionController)
    (parametersReady syncInProgress managerActiveVehicle : Bool) : Option MissionController :=
  match removeAll env c with
  | none => none
  | some c1 =>
    let c2 :=
      if parametersReady && !syncInProgress then loadFromVehicle c1 managerActiveVehicle
      else c1
    match _activeVehicleHomePositionChanged c2 c2.activeVehicle.homePosition with
    | none => none
    | some c3 =>
      _activeVehicleHomePositionAvailableChanged c3 c3.activeVehicle.homePositionAvailable

/-- The items `new SimpleMissionItem(_activeVehicle, *missionItem, this)` made from the mission
items of the vehicle, in the vehicle's order; `oid` is the identity of the first new
object.  Each mission item is given by the state of the simple item constructed from it. -/
def newItemsFromVehicle (env : Env) : List VisualItem → Nat → List VisualItem
  | [], _ => []
  | missionItem :: rest, oid =>
    loadedInto (env.allocSimple oid) missionItem :: newItemsFromVehicle env rest (oid + 1)

/-- Method `MissionController::_newMissionItemsAvailableFromVehicle`: "Called when new mission
items have completed downloading from Vehicle".  `newMissionItems` are the mission items of
the vehicle's mission manager.  A null `_visualItems` is dereferenced (`none`); `none` also
when a loop does not end within `fuel` iterations. -/
def _newMissionItemsAvailableFromVehicle (env : Env) (fuel : Nat) (c : MissionController)
    (newMissionItems : List VisualItem) : Option MissionController :=
  match c.visualItems with
  | none => none
  | some visualItems =>
    if !c.editMode || c.missionItemsRequested || visualItems.length = 1 then
      let newControllerMissionItems := newItemsFromVehicle env newMissionItems c.nextObj
      -- the flag of the new list is raised as soon as an item has been appended to it
      let c1 : MissionController :=
        { c with visualItems := some newControllerMissionItems
                 nextObj := c.nextObj + newMissionItems.length
                 dirty := decide (newControllerMissionItems.length ≠ 0) }
      let c2 : MissionController :=
        if !c1.activeVehicle.sendHomePositionToVehicle ||
            newControllerMissionItems.length = 0 then
          let withSettings := _addMissionSettings env newControllerMissionItems true c1.nextObj
          { c1 with visualItems := some withSettings
                    nextObj := c1.nextObj + 1 }.contentChanged
        else c1
      let c3 : MissionController := { c2 with missionItemsRequested := false }
      match c3.visualItems with
      | none => none
      | some items =>
        let scanned : Option (List VisualItem) :=
          if c3.editMode then _scanForAdditionalSettings env fuel items else some items
        match scanned with
        | none => none
        | some items1 => _initAllVisualItems { c3 with visualItems := some items1 }
    else some c

/-- A connected vehicle whose firmware plugin answers `sendHomePositionToVehicle()` with
`true`: its mission starts with the home position as mission item 0. -/
def homeSendingVehicle : Vehicle :=
  { offlineVehicle with isOfflineEditingVehicle := false, sendHomePositionToVehicle := true }

/-- Two mission items as downloaded from a vehicle: the item at sequence number 0 and a
waypoint. -/
def vehicleMissionItems : List VisualItem :=
  [ { blankItem with command := 16, specifiesCoordinate := true, sequenceNumber := 0
                     coordinate := { latitude := 47, longitude := 8, altitude := 500 } },
    { blankItem with command := 16, specifiesCoordinate := true, sequenceNumber := 1
                     coordinate := { latitude := 48, longitude := 9, altitude := 50 } } ]

/-- The controller of the fly view (`start(false)`) for the given vehicle. -/
def flyController (vehicle : Vehicle) : MissionController :=
  (start specEnv { constructed with activeVehicle := vehicle } false).getD constructed

/-- The kinds of the items of the controller's list, in list order. -/
def MissionController.kinds (c : MissionController) : List ItemKind :=
  (c.visualItems.getD []).map (fun v => v.kind)

/-- What identifies an item and its jump target: identity, kind, command and `param1`. -/
def VisualItem.jumpFields (v : VisualItem) : Nat × ItemKind × Int × Rat :=
  (v.oid, v.kind, v.command, v.param1)

/-- Identity, sequence number, command and `param1` of the items of the controller's list. -/
def MissionController.jumpView (c : MissionController) : List (Nat × Int × Int × Rat) :=
  (c.visualItems.getD []).map (fun v => (v.oid, v.sequenceNumber, v.command, v.param1))

/-- An item list of a started controller: settings item, a DO_JUMP item whose `param1` is the
sequence number 2, and the waypoint with sequence number 2. -/
def jumpItems : List VisualItem :=
  [ { blankItem with oid := 10, kind := ItemKind.settings, specifiesCoordinate := true },
    { blankItem with oid := 11, command := 177, param1 := 2, sequenceNumber := 1 },
    { blankItem with oid := 12, command := 16, specifiesCoordinate := true,
                     sequenceNumber := 2 } ]

/-- The started controller holding `jumpItems`. -/
def jumpController : MissionController :=
  { startedController with visualItems := some jumpItems, nextObj := 20 }

/-- A DO_JUMP object of a V1 file with the given sequence number and jump target. -/
def jumpObjectV1 (id target : Rat) : QJsonValue :=
  QJsonValue.object
    [ ("id", QJsonValue.double id),
      ("command", QJsonValue.double 177),
      ("params", QJsonValue.array
        [QJsonValue.double target, QJsonValue.double 0, QJsonValue.double 0,
         QJsonValue.double 0, QJsonValue.double 0, QJsonValue.double 0,
         QJsonValue.double 0]) ]

/-- A V1 document whose only item is a DO_JUMP item with target 9. -/
def danglingJumpV1Document : QJsonValue :=
  v1Document [jumpObjectV1 1 9] []

/-- A V2 document without items that carries the optional keys `vehicleType`, `cruiseSpeed`
and `hoverSpeed`. -/
def vehicleSettingsDocument : QJsonValue :=
  QJsonValue.object
    [ ("fileType", QJsonValue.string "Mission"),
      ("version", QJsonValue.double 2),
      ("plannedHomePosition",
        QJsonValue.array [QJsonValue.double 47, QJsonValue.double 8, QJsonValue.double 500]),
      ("firmwareType", QJsonValue.double 3),
      ("vehicleType", QJsonValue.double 20),
      ("cruiseSpeed", QJsonValue.double 16),
      ("hoverSpeed", QJsonValue.double 6),
      ("items", QJsonValue.array []) ]

/-- A connected vehicle: not the offline editing vehicle. -/
def connectedVehicle : Vehicle :=
  { offlineVehicle with isOfflineEditingVehicle := false }

/-- Method `MissionController::_currentMissionItemChanged(sequenceNumber)`: outside edit mode
every item is marked current exactly when its sequence number is the reported one, counted
one higher when the firmware does not send the home position to the vehicle.  The increment
of an `int` holding `INT_MAX` and the dereference of a null `_visualItems` are undefined
behaviour (`none`). -/
def _currentMissionItemChanged (c : MissionController) (sequenceNumber : Int) :
    Option MissionController :=
  if !c.editMode then
    if !c.activeVehicle.sendHomePositionToVehicle && sequenceNumber == 2147483647 then none
    else
      let sequenceNumber :=
        if !c.activeVehicle.sendHomePositionToVehicle then sequenceNumber + 1
        else sequenceNumber
      match c.visualItems with
      | none => none
      | some visualItems =>
        some { c with visualItems := some (visualItems.map (fun item =>
          { item with isCurrentItem := item.sequenceNumber == sequenceNumber })) }
  else some c

/-- Number of items of the list that are marked current. -/
def currentCount (items : List VisualItem) : Nat :=
  (items.filter (fun v => v.isCurrentItem)).length

/-- The sequence number `_currentMissionItemChanged` compares the items with when the vehicle
reports `sequenceNumber`. -/
def comparedSequenceNumber (c : MissionController) (sequenceNumber : Int) : Int :=
  if c.activeVehicle.sendHomePositionToVehicle then sequenceNumber else sequenceNumber + 1

/-- The fly-view controller of the offline vehicle after `_initAllVisualItems` on the list
`exampleItems`: settings item, takeoff, a survey spanning three commands, waypoint. -/
def flyExampleController : MissionController :=
  (_initAllVisualItems
    { flyController offlineVehicle with visualItems := some exampleItems }).getD constructed

/-- The identities of the simple items among the items of `following` that come before its
first coordinate-specifying item, in list order. -/
def childRun (following : List VisualItem) : List Nat :=
  ((following.takeWhile (fun v => !v.specifiesCoordinate)).filter
    (fun v => v.isSimpleItem)).map (fun v => v.oid)

/-- The items after item 0 as the child-item pass is expected to leave them: a
coordinate-specifying item holds as children the run that follows it, any other item is as
it was. -/
def childPassTail : List VisualItem → List VisualItem
  | [] => []
  | item :: rest =>
    (if item.specifiesCoordinate then { item with childItems := childRun rest } else item) ::
      childPassTail rest

/-- An item list in which the simple item with identity 12 does not specify a coordinate and
still holds the child list `[13]` from the time it did; item 13 is a simple item without
coordinate, item 14 a complex item without coordinate. -/
def staleChildItems : List VisualItem :=
  [ { blankItem with oid := 10, kind := ItemKind.settings, specifiesCoordinate := true },
    { blankItem with oid := 11, command := 16, specifiesCoordinate := true },
    { blankItem with oid := 12, command := 178, childItems := [13] },
    { blankItem with oid := 13, command := 178 },
    { blankItem with oid := 14, kind := ItemKind.survey } ]

/-! ## Recalculation: altitude, range and bearing -/

/-- MAV_CMD_NAV_LAND. -/
def MAV_CMD_NAV_LAND : Int := 21
/-- MAV_CMD_DO_CHANGE_SPEED. -/
def MAV_CMD_DO_CHANGE_SPEED : Int := 178
/-- MAV_CMD_DO_VTOL_TRANSITION. -/
def MAV_CMD_DO_VTOL_TRANSITION : Int := 3000
/-- MAV_VTOL_STATE_TRANSITION_TO_FW. -/
def MAV_VTOL_STATE_TRANSITION_TO_FW : Int := 1
/-- MAV_VTOL_STATE_TRANSITION_TO_MC. -/
def MAV_VTOL_STATE_TRANSITION_TO_MC : Int := 2

/-- Whether `qobject_cast<ComplexMissionItem*>` succeeds: survey, landing pattern and settings
items are complex items. -/
def VisualItem.isComplexItem (v : VisualItem) : Bool := !v.isSimpleItem

/-- The functions `_recalcAltitudeRangeBearing` calls on coordinates and items but that are
defined outside `MissionController.cc` (Qt's `QGeoCoordinate`, virtual accessors of the item
classes).  They are parameters of the embedding. -/
structure MetricsEnv where
  /-- method `QGeoCoordinate::distanceTo`: `a.distanceTo(b)` is `distanceTo a b` -/
  distanceTo : QGeoCoordinate → QGeoCoordinate → Rat
  /-- method `QGeoCoordinate::azimuthTo` -/
  azimuthTo : QGeoCoordinate → QGeoCoordinate → Rat
  /-- accessor `coordinateHasRelativeAltitude()` -/
  coordinateHasRelativeAltitude : VisualItem → Bool
  /-- accessor `exitCoordinateHasRelativeAltitude()` -/
  exitCoordinateHasRelativeAltitude : VisualItem → Bool
  /-- accessor `exitCoordinateSameAsEntry()` -/
  exitCoordinateSameAsEntry : VisualItem → Bool
  /-- method `ComplexMissionItem::complexDistance()` -/
  complexDistance : VisualItem → Rat
  /-- method `ComplexMissionItem::greatestDistanceTo(other)` -/
  greatestDistanceTo : VisualItem → QGeoCoordinate → Rat

/-- The values the metrics pass stores in an item: `altDifference`, `azimuth`, `distance`,
`altPercent`, and the `cruiseSpeed` of a complex item. -/
structure ItemMetrics where
  altDifference : Rat
  azimuth : Rat
  distance : Rat
  altPercent : Rat
  cruiseSpeed : Rat
deriving DecidableEq, Repr

/-- The members `_missionDistance`, `_missionTime`, `_missionHoverDistance`,
`_missionHoverTime`, `_missionCruiseDistance`, `_missionCruiseTime` and
`_missionMaxTelemetry` of the controller. -/
structure MissionMetrics where
  missionDistance : Rat
  missionTime : Rat
  missionHoverDistance : Rat
  missionHoverTime : Rat
  missionCruiseDistance : Rat
  missionCruiseTime : Rat
  missionMaxTelemetry : Rat
deriving DecidableEq, Repr

/-- The per-item values in force, by object identity. -/
abbrev ItemMetricsTable := Nat → ItemMetrics

namespace ItemMetricsTable

/-- Modelled from the spec: `setAltDifference(x)` is implemented in the item classes, outside
`MissionController.cc`; it stores one of the "per-item derived fields" the engine updates, here
for the object `oid`. -/
def setAltDifference (t : ItemMetricsTable) (oid : Nat) (x : Rat) : ItemMetricsTable :=
  fun o => if o = oid then { t o with altDifference := x } else t o

/-- Modelled from the spec: `setAzimuth(x)` is implemented in the item classes, outside
`MissionController.cc`; it stores one of the "per-item derived fields" the engine updates, here
for the object `oid`. -/
def setAzimuth (t : ItemMetricsTable) (oid : Nat) (x : Rat) : ItemMetricsTable :=
  fun o => if o = oid then { t o with azimuth := x } else t o

/-- Modelled from the spec: `setDistance(x)` is implemented in the item classes, outside
`MissionController.cc`; it stores one of the "per-item derived fields" the engine updates, here
for the object `oid`. -/
def setDistance (t : ItemMetricsTable) (oid : Nat) (x : Rat) : ItemMetricsTable :=
  fun o => if o = oid then { t o with distance := x } else t o

/-- Modelled from the spec: `setAltPercent(x)` is implemented in the item classes, outside
`MissionController.cc`; the second pass "assigns each coordinate-bearing item a normalized
altitude-percent value", stored here for the object `oid`. -/
def setAltPercent (t : ItemMetricsTable) (oid : Nat) (x : Rat) : ItemMetricsTable :=
  fun o => if o = oid then { t o with altPercent := x } else t o

/-- Modelled from the spec: `setCruiseSpeed(x)` is implemented in the complex item classes,
outside `MissionController.cc`; the item "is informed of the currently active cruise speed",
stored here for the object `oid`. -/
def setCruiseSpeed (t : ItemMetricsTable) (oid : Nat) (x : Rat) : ItemMetricsTable :=
  fun o => if o = oid then { t o with cruiseSpeed := x } else t o

end ItemMetricsTable

/-- The state the metrics pass reads and writes besides the item list: the values stored in
the items and the mission totals of the controller. -/
structure MetricsState where
  item : ItemMetricsTable
  mission : MissionMetrics

/-- Qt's `qFuzzyCompare(double p1, double p2)`:
`qAbs(p1 - p2) * 1000000000000. <= qMin(qAbs(p1), qAbs(p2))`. -/
def qFuzzyCompare (p1 p2 : Rat) : Bool :=
  decide (|p1 - p2| * 1000000000000 ≤ min |p1| |p2|)

/-- Method `MissionController::_setMissionMaxTelemetry`. -/
def _setMissionMaxTelemetry (m : MissionMetrics) (missionMaxTelemetry : Rat) : MissionMetrics :=
  if !qFuzzyCompare m.missionMaxTelemetry missionMaxTelemetry then
    { m with missionMaxTelemetry := missionMaxTelemetry }
  else m

/-- Method `MissionController::_setMissionDistance`. -/
def _setMissionDistance (m : MissionMetrics) (missionDistance : Rat) : MissionMetrics :=
  if !qFuzzyCompare m.missionDistance missionDistance then
    { m with missionDistance := missionDistance }
  else m

/-- Method `MissionController::_setMissionTime`. -/
def _setMissionTime (m : MissionMetrics) (missionTime : Rat) : MissionMetrics :=
  if !qFuzzyCompare m.missionTime missionTime then { m with missionTime := missionTime }
  else m

/-- Method `MissionController::_setMissionHoverTime`. -/
def _setMissionHoverTime (m : MissionMetrics) (missionHoverTime : Rat) : MissionMetrics :=
  if !qFuzzyCompare m.missionHoverTime missionHoverTime then
    { m with missionHoverTime := missionHoverTime }
  else m

/-- Method `MissionController::_setMissionHoverDistance`. -/
def _setMissionHoverDistance (m : MissionMetrics) (missionHoverDistance : Rat) :
    MissionMetrics :=
  if !qFuzzyCompare m.missionHoverDistance missionHoverDistance then
    { m with missionHoverDistance := missionHoverDistance }
  else m

/-- Method `MissionController::_setMissionCruiseTime`. -/
def _setMissionCruiseTime (m : MissionMetrics) (missionCruiseTime : Rat) : MissionMetrics :=
  if !qFuzzyCompare m.missionCruiseTime missionCruiseTime then
    { m with missionCruiseTime := missionCruiseTime }
  else m

/-- Method `MissionController::_setMissionCruiseDistance`. -/
def _setMissionCruiseDistance (m : MissionMetrics) (missionCruiseDistance : Rat) :
    MissionMetrics :=
  if !qFuzzyCompare m.missionCruiseDistance missionCruiseDistance then
    { m with missionCruiseDistance := missionCruiseDistance }
  else m

/-- The three results of `_calcPrevWaypointValues`. -/
structure PrevWaypointValues where
  azimuth : Rat
  distance : Rat
  altDifference : Rat
deriving DecidableEq, Repr

/-- Method `MissionController::_calcPrevWaypointValues(homeAlt, currentItem, prevItem, ...)`:
the altitudes of the current item's coordinate and of the previous item's exit coordinate are
made absolute, then difference, distance and azimuth are taken from the previous to the
current coordinate.  The sums `homeAlt + altitude` and the difference of the altitudes are
operations on doubles, each rounding its result. -/
def _calcPrevWaypointValues (menv : MetricsEnv) (homeAlt : Rat)
    (currentItem prevItem : VisualItem) : PrevWaypointValues :=
  let currentCoord := currentItem.coordinate
  let prevCoord := prevItem.exitCoordinate
  let currentCoord :=
    if menv.coordinateHasRelativeAltitude currentItem then
      { currentCoord with altitude := roundDouble (homeAlt + currentCoord.altitude) }
    else currentCoord
  let prevCoord :=
    if menv.exitCoordinateHasRelativeAltitude prevItem then
      { prevCoord with altitude := roundDouble (homeAlt + prevCoord.altitude) }
    else prevCoord
  { altDifference := roundDouble (currentCoord.altitude - prevCoord.altitude)
    distance := menv.distanceTo prevCoord currentCoord
    azimuth := menv.azimuthTo prevCoord currentCoord }

/-- Method `MissionController::_calcDistanceToHome(currentItem, homeItem)`. -/
def _calcDistanceToHome (menv : MetricsEnv) (currentItem homeItem : VisualItem) : Rat :=
  menv.distanceTo homeItem.exitCoordinate currentItem.coordinate

/-- The local variables of the first loop of `_recalcAltitudeRangeBearing`, together with the
values stored in the items so far.  Divisions are the exact ones of `Rat`; a division by a
zero speed, which gives an infinity or a NaN for a `double`, is outside the model. -/
structure RangeLoopState where
  firstCoordinateItem : Bool
  lastCoordinateItem : VisualItem
  linkBackToHome : Bool
  minAltSeen : Rat
  maxAltSeen : Rat
  missionDistance : Rat
  missionMaxTelemetry : Rat
  missionTime : Rat
  vtolHoverTime : Rat
  vtolCruiseTime : Rat
  vtolHoverDistance : Rat
  vtolCruiseDistance : Rat
  currentCruiseSpeed : Rat
  currentHoverSpeed : Rat
  vtolInHover : Bool
  item : ItemMetricsTable

/-- The block "Assume the worst" of the loop body of `_recalcAltitudeRangeBearing`. -/
def _recalcAltitudeRangeBearingWorst (s : RangeLoopState) (item : VisualItem) :
    RangeLoopState :=
  { s with item := (s.item.setAzimuth item.oid 0).setDistance item.oid 0 }

/-- The block "Adjust cruise speed for time calculations" of the loop body. -/
def _recalcAltitudeRangeBearingSpeed (vehicle : Vehicle) (s : RangeLoopState)
    (item : VisualItem) : RangeLoopState :=
  if item.isSimpleItem && item.command == MAV_CMD_DO_CHANGE_SPEED then
    let newSpeed := item.param2
    if newSpeed > 0 then
      if vehicle.multiRotor then { s with currentHoverSpeed := newSpeed }
      else { s with currentCruiseSpeed := newSpeed }
    else s
  else s

/-- The block "Link back to home if first item is takeoff and we have home position" of the
loop body. -/
def _recalcAltitudeRangeBearingLinkBack (showHomePosition : Bool) (s : RangeLoopState)
    (item : VisualItem) : RangeLoopState :=
  if s.firstCoordinateItem && item.isSimpleItem && item.command == MAV_CMD_NAV_TAKEOFF then
    if showHomePosition then { s with linkBackToHome := true } else s
  else s

/-- The block "Update VTOL state" of the loop body. -/
def _recalcAltitudeRangeBearingVtol (vehicle : Vehicle) (s : RangeLoopState)
    (item : VisualItem) : RangeLoopState :=
  if item.isSimpleItem && vehicle.vtol then
    if item.command == MAV_CMD_NAV_TAKEOFF then { s with vtolInHover := false }
    else if item.command == MAV_CMD_NAV_LAND then { s with vtolInHover := false }
    else if item.command == MAV_CMD_DO_VTOL_TRANSITION then
      let transitionState := doubleToInt item.param1
      if transitionState == MAV_VTOL_STATE_TRANSITION_TO_MC then { s with vtolInHover := true }
      else if transitionState == MAV_VTOL_STATE_TRANSITION_TO_FW then
        { s with vtolInHover := false }
      else s
    else s
  else s

/-- First part of the loop body of `_recalcAltitudeRangeBearing`, up to the test
`item->specifiesCoordinate()`: "Assume the worst", the change of speed, the link back to
home, and the update of the VTOL state, in this order. -/
def _recalcAltitudeRangeBearingCommand (vehicle : Vehicle) (showHomePosition : Bool)
    (s : RangeLoopState) (item : VisualItem) : RangeLoopState :=
  _recalcAltitudeRangeBearingVtol vehicle
    (_recalcAltitudeRangeBearingLinkBack showHomePosition
      (_recalcAltitudeRangeBearingSpeed vehicle
        (_recalcAltitudeRangeBearingWorst s item) item) item) item

/-- The tracking of the least and greatest absolute altitude for a coordinate-specifying
item. -/
def _recalcAltitudeRangeBearingAltitude (menv : MetricsEnv) (homePositionAltitude : Rat)
    (s : RangeLoopState) (item : VisualItem) : RangeLoopState :=
  let absoluteAltitude := item.coordinate.altitude
  let absoluteAltitude :=
    if menv.coordinateHasRelativeAltitude item then absoluteAltitude + homePositionAltitude
    else absoluteAltitude
  let s := { s with minAltSeen := min s.minAltSeen absoluteAltitude
                    maxAltSeen := max s.maxAltSeen absoluteAltitude }
  if !menv.exitCoordinateSameAsEntry item then
    let absoluteAltitude := item.exitCoordinate.altitude
    let absoluteAltitude :=
      if menv.exitCoordinateHasRelativeAltitude item then absoluteAltitude + homePositionAltitude
      else absoluteAltitude
    { s with minAltSeen := min s.minAltSeen absoluteAltitude
             maxAltSeen := max s.maxAltSeen absoluteAltitude }
  else s

/-- The block "This is a subsequent waypoint or we are forcing the first waypoint back to
home" of `_recalcAltitudeRangeBearing`: the values from the previous coordinate item are
stored in the item and added to the totals. -/
def _recalcAltitudeRangeBearingLeg (menv : MetricsEnv) (vehicle : Vehicle)
    (settingsItem : VisualItem) (homePositionAltitude : Rat) (s : RangeLoopState)
    (item : VisualItem) : RangeLoopState :=
  let values := _calcPrevWaypointValues menv homePositionAltitude item s.lastCoordinateItem
  let altDifference := values.altDifference
  let azimuth := values.azimuth
  let distance := values.distance
  let s :=
    { s with item := ((s.item.setAltDifference item.oid altDifference).setAzimuth item.oid
                        azimuth).setDistance item.oid distance
             missionDistance := s.missionDistance + distance
             missionMaxTelemetry :=
               max s.missionMaxTelemetry (_calcDistanceToHome menv item settingsItem) }
  -- Calculate mission time
  if vehicle.vtol then
    if s.vtolInHover then
      let hoverTime := distance / vehicle.hoverSpeed
      { s with missionTime := s.missionTime + hoverTime
               vtolHoverTime := s.vtolHoverTime + hoverTime
               vtolHoverDistance := s.vtolHoverDistance + distance }
    else
      let cruiseTime := distance / s.currentCruiseSpeed
      { s with missionTime := s.missionTime + cruiseTime
               vtolCruiseTime := s.vtolCruiseTime + cruiseTime
               vtolCruiseDistance := s.vtolCruiseDistance + distance }
  else
    { s with missionTime := s.missionTime +
        distance / (if vehicle.multiRotor then s.currentHoverSpeed else s.currentCruiseSpeed) }

/-- The block "Add in distance/time inside survey as well" of
`_recalcAltitudeRangeBearing` for a complex item. -/
def _recalcAltitudeRangeBearingComplex (menv : MetricsEnv) (vehicle : Vehicle)
    (settingsItem : VisualItem) (s : RangeLoopState) (complexItem : VisualItem) :
    RangeLoopState :=
  let complexDistance := menv.complexDistance complexItem
  let cruiseSpeed := if vehicle.multiRotor then s.currentHoverSpeed else s.currentCruiseSpeed
  { s with missionDistance := s.missionDistance + complexDistance
           missionTime := s.missionTime + complexDistance / cruiseSpeed
           missionMaxTelemetry :=
             max s.missionMaxTelemetry
               (menv.greatestDistanceTo complexItem settingsItem.exitCoordinate)
           -- Let the complex item know the current cruise speed
           item := s.item.setCruiseSpeed complexItem.oid cruiseSpeed }

/-- One iteration of the first loop of `_recalcAltitudeRangeBearing` for the item `item` at an
index `≥ 1`.  The pointer comparison `lastCoordinateItem != settingsItem` is the comparison
of the object identities. -/
def _recalcAltitudeRangeBearingStep (menv : MetricsEnv) (vehicle : Vehicle)
    (settingsItem : VisualItem) (showHomePosition : Bool) (homePositionAltitude : Rat)
    (s : RangeLoopState) (item : VisualItem) : RangeLoopState :=
  let s := _recalcAltitudeRangeBearingCommand vehicle showHomePosition s item
  if item.specifiesCoordinate then
    -- Keep track of the min/max altitude for all waypoints
    let s := _recalcAltitudeRangeBearingAltitude menv homePositionAltitude s item
    let s :=
      if !item.isStandaloneCoordinate then
        let s := { s with firstCoordinateItem := false }
        let s :=
          if s.lastCoordinateItem.oid != settingsItem.oid || s.linkBackToHome then
            _recalcAltitudeRangeBearingLeg menv vehicle settingsItem homePositionAltitude s item
          else s
        if item.isComplexItem then
          _recalcAltitudeRangeBearingComplex menv vehicle settingsItem s item
        else s
      else s
    { s with lastCoordinateItem := item }
  else s

/-- The first loop of `_recalcAltitudeRangeBearing` over the items after the settings item
`settingsItem`, with the initial values of its local variables; `items` holds the values
stored in the items after "No values for first item". -/
def _recalcAltitudeRangeBearingLoop (menv : MetricsEnv) (vehicle : Vehicle)
    (settingsItem : VisualItem) (rest : List VisualItem) (items : ItemMetricsTable) :
    RangeLoopState :=
  let showHomePosition := settingsItem.showHomePosition
  let homePositionAltitude := settingsItem.coordinate.altitude
  rest.foldl
    (_recalcAltitudeRangeBearingStep menv vehicle settingsItem showHomePosition
      homePositionAltitude)
    { firstCoordinateItem := true
      lastCoordinateItem := settingsItem
      linkBackToHome := false
      minAltSeen := settingsItem.coordinate.altitude
      maxAltSeen := settingsItem.coordinate.altitude
      missionDistance := 0
      missionMaxTelemetry := 0
      missionTime := 0
      vtolHoverTime := 0
      vtolCruiseTime := 0
      vtolHoverDistance := 0
      vtolCruiseDistance := 0
      currentCruiseSpeed := vehicle.cruiseSpeed
      currentHoverSpeed := vehicle.hoverSpeed
      vtolInHover := true
      item := items }

/-- One iteration of the second loop of `_recalcAltitudeRangeBearing`: "Walk the list again
calculating altitude percentages". -/
def _recalcAltitudeRangeBearingPercent (menv : MetricsEnv) (homePositionAltitude : Rat)
    (minAltSeen altRange : Rat) (items : ItemMetricsTable) (item : VisualItem) :
    ItemMetricsTable :=
  if item.specifiesCoordinate then
    let absoluteAltitude := item.coordinate.altitude
    let absoluteAltitude :=
      if menv.coordinateHasRelativeAltitude item then absoluteAltitude + homePositionAltitude
      else absoluteAltitude
    if altRange = 0 then items.setAltPercent item.oid 0
    else items.setAltPercent item.oid ((absoluteAltitude - minAltSeen) / altRange)
  else items

/-- Method `MissionController::_recalcAltitudeRangeBearing`.  On an empty list it returns at
once.  When item 0 is not the settings item, `settingsItem` is null and
`settingsItem->showHomePosition()` is undefined behaviour (`none`), as is the dereference of
a null `_visualItems`. -/
def _recalcAltitudeRangeBearing (menv : MetricsEnv) (c : MissionController)
    (ms : MetricsState) : Option MetricsState :=
  match c.visualItems with
  | none => none
  | some [] => some ms
  | some (first :: rest) =>
    if first.isSettingsItem then
      -- No values for first item
      let items :=
        ((ms.item.setAltDifference first.oid 0).setAzimuth first.oid 0).setDistance first.oid 0
      let final := _recalcAltitudeRangeBearingLoop menv c.activeVehicle first rest items
      let mission := _setMissionMaxTelemetry ms.mission final.missionMaxTelemetry
      let mission := _setMissionDistance mission final.missionDistance
      let mission := _setMissionTime mission final.missionTime
      let mission := _setMissionHoverDistance mission final.vtolHoverDistance
      let mission := _setMissionHoverTime mission final.vtolHoverTime
      let mission := _setMissionCruiseDistance mission final.vtolCruiseDistance
      let mission := _setMissionCruiseTime mission final.vtolCruiseTime
      -- Walk the list again calculating altitude percentages
      let altRange := final.maxAltSeen - final.minAltSeen
      some { item := (first :: rest).foldl
                       (_recalcAltitudeRangeBearingPercent menv first.coordinate.altitude
                         final.minAltSeen altRange) final.item
             mission := mission }
    else none

/-! ## The legs of the metrics pass -/

/-- A leg of the metrics pass: an iteration of the first loop of `_recalcAltitudeRangeBearing`
that runs the block calling `_calcPrevWaypointValues(…, item, lastCoordinateItem, …)`.
`prev` is the value of `lastCoordinateItem` at that call; the other fields are the values of
`vtolInHover`, `currentCruiseSpeed` and `currentHoverSpeed` at that point. -/
structure Leg where
  prev : VisualItem
  item : VisualItem
  vtolInHover : Bool
  currentCruiseSpeed : Rat
  currentHoverSpeed : Rat
deriving DecidableEq, Repr

/-- The leg of the iteration for `item` entered with the loop state `s`, if that iteration
links the item to a predecessor: the item specifies a coordinate that is not standalone, and
`lastCoordinateItem != settingsItem || linkBackToHome` holds after the first part of the
body. -/
def legOf (vehicle : Vehicle) (settingsItem : VisualItem) (showHomePosition : Bool)
    (s : RangeLoopState) (item : VisualItem) : Option Leg :=
  let s1 := _recalcAltitudeRangeBearingCommand vehicle showHomePosition s item
  if item.specifiesCoordinate && !item.isStandaloneCoordinate &&
      (s1.lastCoordinateItem.oid != settingsItem.oid || s1.linkBackToHome) then
    some { prev := s1.lastCoordinateItem, item := item, vtolInHover := s1.vtolInHover
           currentCruiseSpeed := s1.currentCruiseSpeed
           currentHoverSpeed := s1.currentHoverSpeed }
  else none

/-- The legs of the loop over `rest` entered with state `s`, in traversal order. -/
def metricsLegs (menv : MetricsEnv) (vehicle : Vehicle) (settingsItem : VisualItem) :
    RangeLoopState → List VisualItem → List Leg
  | _, [] => []
  | s, item :: rest =>
    (legOf vehicle settingsItem settingsItem.showHomePosition s item).toList ++
      metricsLegs menv vehicle settingsItem
        (_recalcAltitudeRangeBearingStep menv vehicle settingsItem settingsItem.showHomePosition
          settingsItem.coordinate.altitude s item) rest

/-- The state with which the first loop of `_recalcAltitudeRangeBearing` is entered. -/
def rangeLoopStart (vehicle : Vehicle) (settingsItem : VisualItem) (items : ItemMetricsTable) :
    RangeLoopState :=
  { firstCoordinateItem := true
    lastCoordinateItem := settingsItem
    linkBackToHome := false
    minAltSeen := settingsItem.coordinate.altitude
    maxAltSeen := settingsItem.coordinate.altitude
    missionDistance := 0
    missionMaxTelemetry := 0
    missionTime := 0
    vtolHoverTime := 0
    vtolCruiseTime := 0
    vtolHoverDistance := 0
    vtolCruiseDistance := 0
    currentCruiseSpeed := vehicle.cruiseSpeed
    currentHoverSpeed := vehicle.hoverSpeed
    vtolInHover := true
    item := items }

/-- The distance of a leg: from the predecessor's exit coordinate to the item's entry
coordinate, as `_calcPrevWaypointValues` takes it. -/
def Leg.distance (menv : MetricsEnv) (homeAlt : Rat) (leg : Leg) : Rat :=
  (_calcPrevWaypointValues menv homeAlt leg.item leg.prev).distance

/-- The speed by which the distance of a leg is divided. -/
def Leg.speed (vehicle : Vehicle) (leg : Leg) : Rat :=
  if vehicle.vtol then
    if leg.vtolInHover then vehicle.hoverSpeed else leg.currentCruiseSpeed
  else if vehicle.multiRotor then leg.currentHoverSpeed else leg.currentCruiseSpeed

/-- Whether the item is a simple item with the command NAV_TAKEOFF. -/
def VisualItem.isTakeoff (v : VisualItem) : Bool :=
  v.isSimpleItem && v.command == MAV_CMD_NAV_TAKEOFF

/-- The complex items of the list whose distance the metrics pass adds: those that specify a
coordinate that is not standalone. -/
def complexLegItems (rest : List VisualItem) : List VisualItem :=
  rest.filter (fun v => v.specifiesCoordinate && !v.isStandaloneCoordinate && v.isComplexItem)

/-- The value of `currentHoverSpeed` after the change-of-speed block for `item`. -/
def hoverSpeedAfter (vehicle : Vehicle) (currentHoverSpeed : Rat) (item : VisualItem) : Rat :=
  if item.isSimpleItem && item.command == MAV_CMD_DO_CHANGE_SPEED && decide (item.param2 > 0) &&
      vehicle.multiRotor then item.param2
  else currentHoverSpeed

/-- The value of `currentCruiseSpeed` after the change-of-speed block for `item`. -/
def cruiseSpeedAfter (vehicle : Vehicle) (currentCruiseSpeed : Rat) (item : VisualItem) : Rat :=
  if item.isSimpleItem && item.command == MAV_CMD_DO_CHANGE_SPEED && decide (item.param2 > 0) &&
      !vehicle.multiRotor then item.param2
  else currentCruiseSpeed

/-- The value of `vtolInHover` after the VTOL-state block for `item`. -/
def vtolInHoverAfter (vehicle : Vehicle) (vtolInHover : Bool) (item : VisualItem) : Bool :=
  if item.isSimpleItem && vehicle.vtol then
    if item.command == MAV_CMD_NAV_TAKEOFF then false
    else if item.command == MAV_CMD_NAV_LAND then false
    else if item.command == MAV_CMD_DO_VTOL_TRANSITION then
      if doubleToInt item.param1 == MAV_VTOL_STATE_TRANSITION_TO_MC then true
      else if doubleToInt item.param1 == MAV_VTOL_STATE_TRANSITION_TO_FW then false
      else vtolInHover
    else vtolInHover
  else vtolInHover

/-- The speed by which the distance inside a complex item is divided, and which the item is
told as its cruise speed, when the loop reaches the item with the speeds `currentHoverSpeed`
and `currentCruiseSpeed`. -/
def complexSpeed (vehicle : Vehicle) (currentHoverSpeed currentCruiseSpeed : Rat)
    (item : VisualItem) : Rat :=
  if vehicle.multiRotor then hoverSpeedAfter vehicle currentHoverSpeed item
  else cruiseSpeedAfter vehicle currentCruiseSpeed item

/-- The azimuth of a leg, as `_calcPrevWaypointValues` takes it. -/
def Leg.azimuth (menv : MetricsEnv) (homeAlt : Rat) (leg : Leg) : Rat :=
  (_calcPrevWaypointValues menv homeAlt leg.item leg.prev).azimuth

/-- An environment for examples: the distance of two coordinates is the sum of the absolute
differences of latitude and longitude, the azimuth the difference of the longitudes; an
altitude is relative in frame 3 (MAV_FRAME_GLOBAL_RELATIVE_ALT); simple items leave where they
enter; a survey flies 100 inside, and its greatest distance to a coordinate is the greater of
the distances of its entry and exit coordinates. -/
def exampleMetricsEnv : MetricsEnv :=
  { distanceTo := fun a b => |a.latitude - b.latitude| + |a.longitude - b.longitude|
    azimuthTo := fun a b => b.longitude - a.longitude
    coordinateHasRelativeAltitude := fun v => v.frame == 3
    exitCoordinateHasRelativeAltitude := fun v => v.frame == 3
    exitCoordinateSameAsEntry := fun v => v.isSimpleItem
    complexDistance := fun v => if v.kind = ItemKind.survey then 100 else 0
    greatestDistanceTo := fun v c =>
      max (|c.latitude - v.coordinate.latitude| + |c.longitude - v.coordinate.longitude|)
        (|c.latitude - v.exitCoordinate.latitude| +
          |c.longitude - v.exitCoordinate.longitude|) }

/-- The metrics of a controller as constructed: every value is 0. -/
def zeroMetrics : MetricsState :=
  { item := fun _ =>
      { altDifference := 0, azimuth := 0, distance := 0, altPercent := 0, cruiseSpeed := 0 }
    mission :=
      { missionDistance := 0, missionTime := 0, missionHoverDistance := 0
        missionHoverTime := 0, missionCruiseDistance := 0, missionCruiseTime := 0
        missionMaxTelemetry := 0 } }

/-- A settings item that shows the home position at latitude 47, longitude 8, altitude 500. -/
def shownHome : VisualItem :=
  { blankItem with oid := 10, kind := ItemKind.settings, specifiesCoordinate := true
                   showHomePosition := true
                   coordinate := { latitude := 47, longitude := 8, altitude := 500 }
                   exitCoordinate := { latitude := 47, longitude := 8, altitude := 500 } }

/-- A takeoff item that specifies no coordinate, followed by a waypoint at latitude 48,
longitude 8, altitude 50. -/
def takeoffThenWaypoint : List VisualItem :=
  [ { blankItem with oid := 11, command := 22, sequenceNumber := 1 },
    { blankItem with oid := 12, command := 16, specifiesCoordinate := true, sequenceNumber := 2
                     coordinate := { latitude := 48, longitude := 8, altitude := 50 }
                     exitCoordinate := { latitude := 48, longitude := 8, altitude := 50 } } ]

/-- The started controller holding `shownHome` followed by `takeoffThenWaypoint`. -/
def homeLinkController : MissionController :=
  { startedController with visualItems := some (shownHome :: takeoffThenWaypoint) }

/-- The update of the hover state of a VTOL vehicle by one item, in the words of the
specification: a simple takeoff or land command sets it to not-hover, a simple
DO_VTOL_TRANSITION sets it to hover when `param1` (as an `int`) is the transition-to-multicopter
state and to not-hover when it is the transition-to-fixed-wing state, every other item
leaves it unchanged. -/
def specVtolUpdate (hover : Bool) (item : VisualItem) : Bool :=
  if item.isSimpleItem = true ∧
      (item.command = MAV_CMD_NAV_TAKEOFF ∨ item.command = MAV_CMD_NAV_LAND) then false
  else if item.isSimpleItem = true ∧ item.command = MAV_CMD_DO_VTOL_TRANSITION ∧
      doubleToInt item.param1 = MAV_VTOL_STATE_TRANSITION_TO_MC then true
  else if item.isSimpleItem = true ∧ item.command = MAV_CMD_DO_VTOL_TRANSITION ∧
      doubleToInt item.param1 = MAV_VTOL_STATE_TRANSITION_TO_FW then false
  else hover

/-- The hover state after the items `items`, in the words of the specification: it starts as
hover and is updated by each item in traversal order. -/
def specVtolState (items : List VisualItem) : Bool :=
  items.foldl specVtolUpdate true

/-- Whether the item is a simple DO_CHANGE_SPEED item with a positive `param2`. -/
def VisualItem.isSpeedChange (v : VisualItem) : Bool :=
  v.isSimpleItem && v.command == MAV_CMD_DO_CHANGE_SPEED && decide (v.param2 > 0)

/-- The speed in force after the items `preceding`, in the words of the specification: the
configured speed, replaced by the `param2` of the most recent DO_CHANGE_SPEED item with a
positive `param2`. -/
def specSpeed (configured : Rat) (preceding : List VisualItem) : Rat :=
  match (preceding.filter (fun v => v.isSpeedChange)).getLast? with
  | some v => v.param2
  | none => configured

/-- The speed of a leg in the words of the specification: change-speed commands count for the
hover speed of a multirotor vehicle and for the cruise speed of every other vehicle; a leg of
a VTOL vehicle in hover is flown at the configured hover speed. -/
def specLegSpeed (vehicle : Vehicle) (hover : Bool) (preceding : List VisualItem) : Rat :=
  if vehicle.multiRotor then specSpeed vehicle.hoverSpeed preceding
  else if vehicle.vtol && hover then vehicle.hoverSpeed
  else specSpeed vehicle.cruiseSpeed preceding

/-- The values stored in the items after the block "No values for first item" of
`_recalcAltitudeRangeBearing`, entered with the metrics `ms`. -/
def clearedFirst (ms : MetricsState) (first : VisualItem) : ItemMetricsTable :=
  ((ms.item.setAltDifference first.oid 0).setAzimuth first.oid 0).setDistance first.oid 0

/-- The state with which the first loop of `_recalcAltitudeRangeBearing`, run on the list
`first :: pre ++ _` with the metrics `ms`, reaches the item after `pre`. -/
def stateBefore (menv : MetricsEnv) (vehicle : Vehicle) (first : VisualItem)
    (ms : MetricsState) (pre : List VisualItem) : RangeLoopState :=
  pre.foldl
    (_recalcAltitudeRangeBearingStep menv vehicle first first.showHomePosition
      first.coordinate.altitude)
    (rangeLoopStart vehicle first (clearedFirst ms first))

/-- The legs the metrics pass forms on the list `first :: rest`, in traversal order. -/
def passLegs (menv : MetricsEnv) (vehicle : Vehicle) (first : VisualItem)
    (rest : List VisualItem) (ms : MetricsState) : List Leg :=
  metricsLegs menv vehicle first (rangeLoopStart vehicle first (clearedFirst ms first)) rest

/-- The value a setter `_setMission…` leaves in a member that held `old` when it is handed
`new`: the member is assigned unless `qFuzzyCompare(old, new)` holds. -/
def assigned (old new : Rat) : Rat :=
  if qFuzzyCompare old new then old else new

/-- A VTOL vehicle for examples: cruise speed 15, hover speed 5. -/
def vtolVehicle : Vehicle :=
  { offlineVehicle with vtol := true, multiRotor := false }

/-- A plan for a VTOL vehicle: takeoff, waypoint, transition to multicopter, waypoint, change of
speed to 10, transition to fixed wing, waypoint.  From the home position of `shownHome` the
legs have the distances 1, 2, 3 and 4 in `exampleMetricsEnv`. -/
def vtolPlan : List VisualItem :=
  [ { blankItem with oid := 11, command := 22, specifiesCoordinate := true
                     coordinate := { latitude := 47, longitude := 9, altitude := 50 }
                     exitCoordinate := { latitude := 47, longitude := 9, altitude := 50 } },
    { blankItem with oid := 12, command := 16, specifiesCoordinate := true
                     coordinate := { latitude := 49, longitude := 9, altitude := 50 }
                     exitCoordinate := { latitude := 49, longitude := 9, altitude := 50 } },
    { blankItem with oid := 13, command := 3000, param1 := 2 },
    { blankItem with oid := 14, command := 16, specifiesCoordinate := true
                     coordinate := { latitude := 49, longitude := 12, altitude := 50 }
                     exitCoordinate := { latitude := 49, longitude := 12, altitude := 50 } },
    { blankItem with oid := 15, command := 178, param2 := 10 },
    { blankItem with oid := 16, command := 3000, param1 := 1 },
    { blankItem with oid := 17, command := 16, specifiesCoordinate := true
                     coordinate := { latitude := 53, longitude := 12, altitude := 50 }
                     exitCoordinate := { latitude := 53, longitude := 12, altitude := 50 } } ]

/-- The controller of `vtolVehicle` holding `shownHome` followed by `vtolPlan`. -/
def vtolController : MissionController :=
  { startedController with visualItems := some (shownHome :: vtolPlan)
                           activeVehicle := vtolVehicle }

/-- The plan `takeoffThenWaypoint` with the waypoint moved north by one part in `10^12` of a
degree. -/
def nudgedPlan : List VisualItem :=
  [ { blankItem with oid := 11, command := 22, sequenceNumber := 1 },
    { blankItem with oid := 12, command := 16, specifiesCoordinate := true, sequenceNumber := 2
                     coordinate :=
                       { latitude := 48000000000001 / 1000000000000, longitude := 8
                         altitude := 50 }
                     exitCoordinate :=
                       { latitude := 48000000000001 / 1000000000000, longitude := 8
                         altitude := 50 } } ]

/-- The controller `homeLinkController` after the waypoint has been moved. -/
def nudgedController : MissionController :=
  { homeLinkController with visualItems := some (shownHome :: nudgedPlan) }

/-- The plan `takeoffThenWaypoint` with the waypoint moved north by `2^-41` of a degree, to a
latitude that a `double` holds exactly. -/
def movedPlan : List VisualItem :=
  [ { blankItem with oid := 11, command := 22, sequenceNumber := 1 },
    { blankItem with oid := 12, command := 16, specifiesCoordinate := true, sequenceNumber := 2
                     coordinate :=
                       { latitude := 48 + 1 / 2199023255552, longitude := 8, altitude := 50 }
                     exitCoordinate :=
                       { latitude := 48 + 1 / 2199023255552, longitude := 8
                         altitude := 50 } } ]

/-- The controller `homeLinkController` after the waypoint has been moved to `movedPlan`. -/
def movedController : MissionController :=
  { homeLinkController with visualItems := some (shownHome :: movedPlan) }

/-- The metrics of `homeLinkController` after a first run of the metrics pass. -/
def firstRunMetrics : MetricsState :=
  (_recalcAltitudeRangeBearing exampleMetricsEnv homeLinkController zeroMetrics).getD
    zeroMetrics

/-- The controller holding `shownHome` and the waypoint of `takeoffThenWaypoint` alone. -/
def waypointOnlyController : MissionController :=
  { homeLinkController with visualItems := some (shownHome :: takeoffThenWaypoint.drop 1) }

/-- The controller holding the settings item `shownHome` alone. -/
def homeOnlyController : MissionController :=
  { homeLinkController with visualItems := some [shownHome] }

/-- A waypoint whose altitude, relative to home (frame 3), is the double nearest to 0.1. -/
def lowRelativeWaypoint : VisualItem :=
  { blankItem with oid := 12, command := 16, frame := 3, specifiesCoordinate := true
                   coordinate :=
                     { latitude := 48, longitude := 8
                       altitude := 3602879701896397 / 36028797018963968 }
                   exitCoordinate :=
                     { latitude := 48, longitude := 8
                       altitude := 3602879701896397 / 36028797018963968 } }

/-- A waypoint whose altitude, relative to home (frame 3), is the double nearest to 0.3. -/
def highRelativeWaypoint : VisualItem :=
  { blankItem with oid := 11, command := 16, frame := 3, specifiesCoordinate := true
                   coordinate :=
                     { latitude := 47, longitude := 8
                       altitude := 5404319552844595 / 18014398509481984 }
                   exitCoordinate :=
                     { latitude := 47, longitude := 8
                       altitude := 5404319552844595 / 18014398509481984 } }

/-- Two waypoints with altitudes relative to home (frame 3): 20.25 and 50.5. -/
def relativePair : List VisualItem :=
  [ { blankItem with oid := 11, command := 16, frame := 3, specifiesCoordinate := true
                     coordinate := { latitude := 47, longitude := 8, altitude := 81 / 4 }
                     exitCoordinate := { latitude := 47, longitude := 8, altitude := 81 / 4 } },
    { blankItem with oid := 12, command := 16, frame := 3, specifiesCoordinate := true
                     coordinate := { latitude := 48, longitude := 8, altitude := 101 / 2 }
                     exitCoordinate := { latitude := 48, longitude := 8, altitude := 101 / 2 } } ]

/-- The function `resolveAbsoluteAltitude(coord, isRelative, homeAltitude)` in the words of the
specification: "if relative, adds home altitude; else returns as-is".  The sum is the sum of
two doubles. -/
def resolveAbsoluteAltitude (altitude : Rat) (isRelative : Bool) (homeAltitude : Rat) : Rat :=
  if isRelative then roundDouble (homeAltitude + altitude) else altitude

/-- A complex item object of a V2 file whose complex item type is not one the loader knows. -/
def unsupportedComplexObject : QJsonValue :=
  QJsonValue.object
    [ ("type", QJsonValue.string "ComplexItem"),
      ("complexItemType", QJsonValue.string "corridorScan") ]

/-- A V2 document with an item of an unsupported complex item type followed by a waypoint. -/
def unsupportedComplexDocument : QJsonValue :=
  v2Document [unsupportedComplexObject, simpleItemObject 16 0 1]

/-- A V1 document without simple items whose only complex item declares sequence number 5. -/
def lonelySurveyV1Document : QJsonValue :=
  v1Document [] [surveyObjectV1 5 1]

/-- A plan with a change of speed to 0 and one to -3 between two waypoints. -/
def badSpeedPlan : List VisualItem :=
  [ { blankItem with oid := 11, command := 16, specifiesCoordinate := true
                     coordinate := { latitude := 47, longitude := 9, altitude := 50 }
                     exitCoordinate := { latitude := 47, longitude := 9, altitude := 50 } },
    { blankItem with oid := 12, command := 178, param2 := 0 },
    { blankItem with oid := 13, command := 178, param2 := -3 },
    { blankItem with oid := 14, command := 16, specifiesCoordinate := true
                     coordinate := { latitude := 49, longitude := 9, altitude := 50 }
                     exitCoordinate := { latitude := 49, longitude := 9, altitude := 50 } } ]

/-- A list without a settings item: the two items of `takeoffThenWaypoint`, numbered 7 and 9. -/
def headlessItems : List VisualItem :=
  takeoffThenWaypoint.map (fun v => v.setSequenceNumber (2 * v.sequenceNumber + 5))

/-- The controller `homeLinkController` with an empty item list. -/
def emptyListController : MissionController :=
  { homeLinkController with visualItems := some [] }

/-- Value of a decimal numeral with an optional fraction part after a point. -/
def parseFixed (cs : List Char) : Option Rat :=
  match splitOnChar '.' cs with
  | [whole] => (parseDecimal whole).map (fun n => (n : Rat))
  | [whole, fraction] =>
    match parseDecimal whole, parseDecimal fraction with
    | some n, some f => some ((n : Rat) + (f : Rat) / ((10 ^ fraction.length : Nat) : Rat))
    | _, _ => none
  | _ => none

/-- Modelled from the spec: `SimpleMissionItem::load(QTextStream&)` (not in
`MissionController.cc`), as `specSimpleLoadStream`, reading also the first parameter
(field 4) of the record, a decimal numeral with an optional fraction part. -/
def paramSimpleLoadStream (fresh : VisualItem) (line : String) : Option VisualItem :=
  match splitOnChar (Char.ofNat 9) line.toList with
  | [f0, _, _, f3, f4, _, _, _, _, _, _, _] =>
    match parseDecimal f0, parseDecimal f3, parseFixed f4 with
    | some sequenceNumber, some command, some param1 =>
      some { fresh with
             sequenceNumber := sequenceNumber
             command := command
             param1 := param1
             doJumpId := sequenceNumber
             specifiesCoordinate := (specCommandInfo command).specifiesCoordinate }
    | _, _, _ => none
  | _ => none

/-- The reference environment with `paramSimpleLoadStream` as the text loader of simple
items. -/
def paramEnv : Env :=
  { specEnv with simpleLoadStream := paramSimpleLoadStream }

/-- The item lines of a legacy text file: two waypoints and a DO_JUMP whose target (field 4)
is 1, the second waypoint. -/
def jumpLines : List String :=
  ["0\t0\t0\t16\t0\t0\t0\t0\t47\t8\t500\t1", "1\t0\t0\t16\t0\t0\t0\t0\t47\t8\t510\t1",
   "2\t0\t0\t177\t1\t5\t0\t0\t0\t0\t0\t1"]

/-- The item lines of a legacy text file: a waypoint, a DO_JUMP whose target (field 4) is
written as 2.5, and a DO_JUMP whose target is 2147483647, the greatest `int`. -/
def oddJumpLines : List String :=
  ["0\t0\t0\t16\t0\t0\t0\t0\t47\t8\t500\t1", "1\t0\t0\t177\t2.5\t5\t0\t0\t0\t0\t0\t1",
   "2\t0\t0\t177\t2147483647\t5\t0\t0\t0\t0\t0\t1"]

/-- The state of the bounding-box loop of `_addMissionSettings` is the bounding box of the
(non-empty) list `seen` of items: `firstCoordSet` holds, and `south`, `north`, `west`, `east`
are the least and greatest normalized latitude and longitude of the coordinates of `seen`. -/
def BoundsLoopState.Bounds (b : BoundsLoopState) (seen : List VisualItem) : Prop :=
  b.firstCoordSet = true ∧
  (∃ v ∈ seen, b.south = _normalizeLat v.coordinate.latitude) ∧
  (∀ v ∈ seen, b.south ≤ _normalizeLat v.coordinate.latitude) ∧
  (∃ v ∈ seen, b.north = _normalizeLat v.coordinate.latitude) ∧
  (∀ v ∈ seen, _normalizeLat v.coordinate.latitude ≤ b.north) ∧
  (∃ v ∈ seen, b.west = _normalizeLon v.coordinate.longitude) ∧
  (∀ v ∈ seen, b.west ≤ _normalizeLon v.coordinate.longitude) ∧
  (∃ v ∈ seen, b.east = _normalizeLon v.coordinate.longitude) ∧
  (∀ v ∈ seen, _normalizeLon v.coordinate.longitude ≤ b.east)

/-- A waypoint at the latitude 0.1, the double nearest to it, and the longitude 8. -/
def tenthWaypoint : VisualItem :=
  { blankItem with oid := 11, command := 16, specifiesCoordinate := true
                   coordinate :=
                     { latitude := 3602879701896397 / 36028797018963968, longitude := 8
                       altitude := 50 } }

/-- Three waypoints at (47, 8), (49, 12) and (45, 10), with a command item without coordinate
between them. -/
def boxItems : List VisualItem :=
  [ { blankItem with oid := 11, command := 16, specifiesCoordinate := true
                     coordinate := { latitude := 47, longitude := 8, altitude := 50 } },
    { blankItem with oid := 12, command := 178, param2 := 10
                     coordinate := { latitude := 80, longitude := 80, altitude := 0 } },
    { blankItem with oid := 13, command := 16, specifiesCoordinate := true
                     coordinate := { latitude := 49, longitude := 12, altitude := 60 } },
    { blankItem with oid := 14, command := 16, specifiesCoordinate := true
                     coordinate := { latitude := 45, longitude := 10, altitude := 70 } } ]

/-- The altitude of the item's entry coordinate made absolute, as both loops of
`_recalcAltitudeRangeBearing` compute it: the home altitude is added when
`coordinateHasRelativeAltitude()` holds. -/
def entryAbsoluteAltitude (menv : MetricsEnv) (homePositionAltitude : Rat)
    (item : VisualItem) : Rat :=
  if menv.coordinateHasRelativeAltitude item then
    item.coordinate.altitude + homePositionAltitude
  else item.coordinate.altitude

/-- The altitude of the item's exit coordinate made absolute, as the first loop of
`_recalcAltitudeRangeBearing` computes it. -/
def exitAbsoluteAltitude (menv : MetricsEnv) (homePositionAltitude : Rat)
    (item : VisualItem) : Rat :=
  if menv.exitCoordinateHasRelativeAltitude item then
    item.exitCoordinate.altitude + homePositionAltitude
  else item.exitCoordinate.altitude

/-- The altitudes the first loop of `_recalcAltitudeRangeBearing` compares with `minAltSeen`
and `maxAltSeen` in the iteration for `item`: for a coordinate-specifying item its absolute
entry altitude, followed by its absolute exit altitude unless `exitCoordinateSameAsEntry()`
holds. -/
def seenAltitudes (menv : MetricsEnv) (homePositionAltitude : Rat) (item : VisualItem) :
    List Rat :=
  if item.specifiesCoordinate then
    entryAbsoluteAltitude menv homePositionAltitude item ::
      (if !menv.exitCoordinateSameAsEntry item then
        [exitAbsoluteAltitude menv homePositionAltitude item]
       else [])
  else []

/-- The altitudes over which the specification takes the least and the greatest: that of "the
home position and all coordinate-bearing items' entry and exit coordinates", each made
absolute; `first` is the settings item and `rest` the items after it. -/
def observedAltitudes (menv : MetricsEnv) (first : VisualItem) (rest : List VisualItem) :
    List Rat :=
  first.coordinate.altitude ::
    (rest.filter (fun v => v.specifiesCoordinate)).flatMap
      (fun v => [entryAbsoluteAltitude menv first.coordinate.altitude v,
        exitAbsoluteAltitude menv first.coordinate.altitude v])

/-- A plan with altitudes of both kinds: a waypoint 50 above home, a waypoint at the absolute
altitude 520, and a survey entered 30 above home and left 100 above home. -/
def altitudePlan : List VisualItem :=
  [ { blankItem with oid := 11, command := 16, frame := 3, specifiesCoordinate := true
                     coordinate := { latitude := 47, longitude := 9, altitude := 50 }
                     exitCoordinate := { latitude := 47, longitude := 9, altitude := 50 } },
    { blankItem with oid := 12, command := 16, specifiesCoordinate := true
                     coordinate := { latitude := 48, longitude := 9, altitude := 520 }
                     exitCoordinate := { latitude := 48, longitude := 9, altitude := 520 } },
    { blankItem with oid := 13, kind := ItemKind.survey, frame := 3
                     specifiesCoordinate := true
                     coordinate := { latitude := 48, longitude := 10, altitude := 30 }
                     exitCoordinate := { latitude := 49, longitude := 10, altitude := 100 } } ]

/-- The started controller holding `shownHome` (home altitude 500) followed by
`altitudePlan`. -/
def altitudeController : MissionController :=
  { startedController with visualItems := some (shownHome :: altitudePlan) }

/-- The plan `vtolPlan` followed by a survey entered one degree east of its last waypoint. -/
def vtolSurveyPlan : List VisualItem :=
  vtolPlan ++
    [ { blankItem with oid := 18, kind := ItemKind.survey, specifiesCoordinate := true
                       coordinate := { latitude := 53, longitude := 13, altitude := 50 }
                       exitCoordinate := { latitude := 54, longitude := 13, altitude := 50 } } ]

/-- The controller of `vtolVehicle` holding `shownHome` followed by `vtolSurveyPlan`. -/
def vtolSurveyController : MissionController :=
  { vtolController with visualItems := some (shownHome :: vtolSurveyPlan) }

/-- The plan `vtolPlan` with its last waypoint moved north by `2^-37` of a degree, about
seven parts in `10^12`; the latitude `53 + 2^-37` is a value of a `double`. -/
def vtolNudgedPlan : List VisualItem :=
  vtolPlan.take 6 ++
    [ { blankItem with oid := 17, command := 16, specifiesCoordinate := true
                       coordinate :=
                         { latitude := 53 + 1 / 137438953472, longitude := 12
                           altitude := 50 }
                       exitCoordinate :=
                         { latitude := 53 + 1 / 137438953472, longitude := 12
                           altitude := 50 } } ]

/-- The controller `vtolController` after the last waypoint has been moved. -/
def vtolNudgedController : MissionController :=
  { vtolController with visualItems := some (shownHome :: vtolNudgedPlan) }

/-- The metrics of `vtolController` after a first run of the metrics pass. -/
def vtolFirstRunMetrics : MetricsState :=
  (_recalcAltitudeRangeBearing exampleMetricsEnv vtolController zeroMetrics).getD zeroMetrics

/-- The settings item `shownHome` with the home position not shown. -/
def hiddenHome : VisualItem :=
  { shownHome with showHomePosition := false }

/-- Two waypoints with an item between them whose coordinate is standalone (a region of
interest, command 201). -/
def standalonePlan : List VisualItem :=
  [ { blankItem with oid := 11, command := 16, specifiesCoordinate := true
                     coordinate := { latitude := 47, longitude := 9, altitude := 50 }
                     exitCoordinate := { latitude := 47, longitude := 9, altitude := 50 } },
    { blankItem with oid := 12, command := 201, specifiesCoordinate := true
                     isStandaloneCoordinate := true
                     coordinate := { latitude := 50, longitude := 9, altitude := 50 }
                     exitCoordinate := { latitude := 50, longitude := 9, altitude := 50 } },
    { blankItem with oid := 13, command := 16, specifiesCoordinate := true
                     coordinate := { latitude := 48, longitude := 9, altitude := 50 }
                     exitCoordinate := { latitude := 48, longitude := 9, altitude := 50 } } ]

/-- The started controller holding `hiddenHome` followed by `standalonePlan`. -/
def standaloneController : MissionController :=
  { startedController with visualItems := some (hiddenHome :: standalonePlan) }

/-- The started controller holding `hiddenHome` followed by `vtolPlan`. -/
def hiddenHomeController : MissionController :=
  { startedController with visualItems := some (hiddenHome :: vtolPlan) }

/-- What the loaders rely on in `JsonHelper::validateKeys` (not in `MissionController.cc`):
an object that lacks a key marked as required in the list is rejected. -/
def Env.RejectsMissingRequiredKey (env : Env) : Prop :=
  ∀ (json : QJsonValue) (infos : List KeyValidateInfo),
    (∃ info ∈ infos, info.required = true ∧ json.contains info.key = false) →
    ∃ e, env.validateKeys json infos = Except.error e

/-! # Theorems -/

/-! ## Sequence pass -/

theorem recalcSequenceFrom_length (n : Int) (items : List VisualItem) :
    (_recalcSequenceFrom n items).length = items.length := by
  induction items generalizing n with
  | nil => rfl
  | cons item rest ih => simp [_recalcSequenceFrom, ih]

theorem recalcSequenceFrom_head (n : Int) (items : List VisualItem)
    (h : 0 < (_recalcSequenceFrom n items).length) :
    ((_recalcSequenceFrom n items)[0]).sequenceNumber = n := by
  cases items with
  | nil => simp [_recalcSequenceFrom] at h
  | cons item rest => simp [_recalcSequenceFrom, VisualItem.setSequenceNumber]

theorem recalcSequenceFrom_next (n : Int) (items : List VisualItem) (i : Nat)
    (h : i + 1 < (_recalcSequenceFrom n items).length) :
    ((_recalcSequenceFrom n items)[i + 1]).sequenceNumber =
      ((_recalcSequenceFrom n items)[i]).lastSequenceNumber + 1 := by
  induction items generalizing n i with
  | nil => simp [_recalcSequenceFrom] at h
  | cons item rest ih =>
    cases i with
    | zero =>
      simp only [_recalcSequenceFrom, List.length_cons] at h
      simp only [_recalcSequenceFrom, List.getElem_cons_succ, List.getElem_cons_zero]
      exact recalcSequenceFrom_head _ rest (by omega)
    | succ j =>
      simp only [_recalcSequenceFrom, List.length_cons] at h
      simp only [_recalcSequenceFrom, List.getElem_cons_succ]
      exact ih _ j (by omega)

theorem recalcSequenceFrom_ascending (n : Int) (items : List VisualItem)
    (h : ∀ v ∈ _recalcSequenceFrom n items, v.sequenceNumber ≤ v.lastSequenceNumber) :
    (∀ v ∈ _recalcSequenceFrom n items, n ≤ v.sequenceNumber) ∧
      List.Pairwise (fun a b : VisualItem => a.sequenceNumber < b.sequenceNumber)
        (_recalcSequenceFrom n items) := by
  induction items generalizing n with
  | nil => simp [_recalcSequenceFrom]
  | cons item rest ih =>
    simp only [_recalcSequenceFrom, List.mem_cons, forall_eq_or_imp] at h
    obtain ⟨h0, hrest⟩ := h
    obtain ⟨hlow, hpair⟩ := ih _ hrest
    have hseq : (item.setSequenceNumber n).sequenceNumber = n := rfl
    constructor
    · intro v hv
      simp only [_recalcSequenceFrom, List.mem_cons] at hv
      rcases hv with rfl | hv
      · exact le_of_eq hseq.symm
      · have := hlow v hv
        omega
    · simp only [_recalcSequenceFrom, List.pairwise_cons]
      refine ⟨?_, hpair⟩
      intro v hv
      have := hlow v hv
      omega

theorem sequenceNumbered_recalcSequence (items : List VisualItem) :
    SequenceNumbered (_recalcSequence items) := by
  refine ⟨fun h => recalcSequenceFrom_head 0 items h,
    fun i h => recalcSequenceFrom_next 0 items i h, fun h => ?_⟩
  have hp := (recalcSequenceFrom_ascending 0 items h).2
  refine ⟨hp, ?_⟩
  rw [List.Nodup, List.pairwise_map]
  exact hp.imp (fun hab => ne_of_lt hab)

/-! ## Child-item pass: only `childItems` changes -/

theorem recalcChildItemsLoop_frame (p : VisualItem) (f rest : List VisualItem) :
    (_recalcChildItemsLoop p f rest).map VisualItem.withoutChildren =
      (p :: f ++ rest).map VisualItem.withoutChildren := by
  induction rest generalizing p f with
  | nil => simp [_recalcChildItemsLoop]
  | cons item rest ih =>
    unfold _recalcChildItemsLoop
    split
    · simp [ih, VisualItem.withoutChildren]
    · split
      · rw [ih]; simp [VisualItem.withoutChildren]
      · rw [ih]; simp

theorem recalcChildItems_frame (items items1 : List VisualItem)
    (h : _recalcChildItems items = some items1) :
    items1.map VisualItem.withoutChildren = items.map VisualItem.withoutChildren := by
  cases items with
  | nil => simp [_recalcChildItems] at h
  | cons first rest =>
    simp only [_recalcChildItems, Option.some.injEq] at h
    subst h
    rw [recalcChildItemsLoop_frame]
    simp [VisualItem.withoutChildren]

theorem recalcWaypointLines_eq (c c1 : MissionController)
    (h : _recalcWaypointLines c = some c1) :
    ∃ first rest, c.visualItems = some (first :: rest) ∧ first.isSettingsItem = true ∧
      c1 = { c with
        linesTable := (_recalcWaypointLinesLoop first rest c.linesTable c.nextObj).linesTable
        waypointLines :=
          (_recalcWaypointLinesLoop first rest c.linesTable c.nextObj).linesTable.values
        released := (_recalcWaypointLinesLoop first rest c.linesTable c.nextObj).old_table.values
        nextObj := (_recalcWaypointLinesLoop first rest c.linesTable c.nextObj).nextObj } := by
  unfold _recalcWaypointLines at h
  cases hv : c.visualItems with
  | none => rw [hv] at h; simp at h
  | some items =>
    cases items with
    | nil => rw [hv] at h; simp at h
    | cons first rest =>
      rw [hv] at h
      simp only at h
      by_cases hd : _recalcAltitudeRangeBearingDefined (first :: rest) = true
      · rw [if_pos hd] at h
        refine ⟨first, rest, rfl, ?_, ?_⟩
        · simpa [_recalcAltitudeRangeBearingDefined] using hd
        · exact (Option.some.inj h).symm
      · rw [if_neg hd] at h
        simp at h

theorem recalcWaypointLines_visualItems (c c1 : MissionController)
    (h : _recalcWaypointLines c = some c1) : c1.visualItems = c.visualItems := by
  obtain ⟨first, rest, _, _, rfl⟩ := recalcWaypointLines_eq c c1 h
  rfl

theorem recalcAll_visualItems (c c1 : MissionController) (items : List VisualItem)
    (hc : c.visualItems = some items) (h : _recalcAll c = some c1) :
    ∃ items1, c1.visualItems = some items1 ∧
      items1.map VisualItem.withoutChildren =
        (_recalcSequence items).map VisualItem.withoutChildren := by
  unfold _recalcAll at h
  rw [hc] at h
  simp only at h
  split at h
  · simp at h
  · rename_i items1 hchild
    refine ⟨items1, ?_, recalcChildItems_frame _ _ hchild⟩
    rw [recalcWaypointLines_visualItems _ _ h]

theorem getElem_of_map_withoutChildren_eq {l1 l2 : List VisualItem}
    (h : l1.map VisualItem.withoutChildren = l2.map VisualItem.withoutChildren)
    (i : Nat) (h1 : i < l1.length) (h2 : i < l2.length) :
    (l1[i]).withoutChildren = (l2[i]).withoutChildren := by
  have e1 : (l1.map VisualItem.withoutChildren)[i]? = some (l1[i]).withoutChildren := by
    simp [List.getElem?_eq_getElem h1]
  have e2 : (l2.map VisualItem.withoutChildren)[i]? = some (l2[i]).withoutChildren := by
    simp [List.getElem?_eq_getElem h2]
  rw [h, e2] at e1
  exact (Option.some.inj e1).symm

theorem sequenceNumbered_of_map_eq {l1 l2 : List VisualItem}
    (h : l1.map VisualItem.withoutChildren = l2.map VisualItem.withoutChildren)
    (hs : SequenceNumbered l2) : SequenceNumbered l1 := by
  have hlen : l1.length = l2.length := by
    have := congrArg List.length h
    simpa using this
  have hseq : ∀ (i : Nat) (h1 : i < l1.length) (h2 : i < l2.length),
      (l1[i]).sequenceNumber = (l2[i]).sequenceNumber ∧
      (l1[i]).lastSequenceNumber = (l2[i]).lastSequenceNumber := by
    intro i h1 h2
    have := getElem_of_map_withoutChildren_eq h i h1 h2
    have hs1 := congrArg VisualItem.sequenceNumber this
    have hs2 := congrArg VisualItem.span this
    simp only [VisualItem.withoutChildren] at hs1 hs2
    simp [VisualItem.lastSequenceNumber, hs1, hs2]
  have hmap : l1.map (fun v => (v.sequenceNumber, v.lastSequenceNumber)) =
      l2.map (fun v => (v.sequenceNumber, v.lastSequenceNumber)) := by
    have := congrArg
      (List.map (fun v : VisualItem => (v.sequenceNumber, v.lastSequenceNumber))) h
    simpa [List.map_map, Function.comp_def, VisualItem.withoutChildren,
      VisualItem.lastSequenceNumber] using this
  obtain ⟨p0, p1, p2⟩ := hs
  refine ⟨?_, ?_, ?_⟩
  · intro h0
    rw [(hseq 0 h0 (by omega)).1]
    exact p0 (by omega)
  · intro i hi
    rw [(hseq (i + 1) hi (by omega)).1, (hseq i (by omega) (by omega)).2]
    exact p1 i (by omega)
  · intro hle
    have hle2 : ∀ v ∈ l2, v.sequenceNumber ≤ v.lastSequenceNumber := by
      intro v hv
      have hm : (v.sequenceNumber, v.lastSequenceNumber) ∈
          l2.map (fun v => (v.sequenceNumber, v.lastSequenceNumber)) :=
        List.mem_map_of_mem _ hv
      rw [← hmap] at hm
      obtain ⟨w, hw, hweq⟩ := List.mem_map.mp hm
      have := hle w hw
      simp only [Prod.mk.injEq] at hweq
      omega
    obtain ⟨q1, q2⟩ := p2 hle2
    have hfst : l1.map (fun v => v.sequenceNumber) = l2.map (fun v => v.sequenceNumber) := by
      have := congrArg (List.map Prod.fst) hmap
      simpa [List.map_map, Function.comp_def] using this
    refine ⟨?_, by rw [hfst]; exact q2⟩
    have q1m : List.Pairwise (fun a b : Int => a < b) (l2.map (fun v => v.sequenceNumber)) := by
      rw [List.pairwise_map]; exact q1
    rw [← hfst, List.pairwise_map] at q1m
    exact q1m

/-- C2: after `_recalcSequence` the item at index 0 has sequence number 0 and every later
item's sequence number is its predecessor's `lastSequenceNumber + 1`; provided each item's
`lastSequenceNumber` is at least its own sequence number, the sequence numbers are strictly
ascending and unique.  The pass keeps the length of the list, and the same numbering holds
for the list left by `_recalcAll`. -/
theorem recalcSequence_sequenceNumbered (items : List VisualItem) :
    SequenceNumbered (_recalcSequence items) ∧
    (_recalcSequence items).length = items.length ∧
    (∀ c c1 : MissionController, c.visualItems = some items → _recalcAll c = some c1 →
      ∃ items1, c1.visualItems = some items1 ∧ SequenceNumbered items1) := by
  refine ⟨sequenceNumbered_recalcSequence items, recalcSequenceFrom_length 0 items, ?_⟩
  intro c c1 hc h
  obtain ⟨items1, h1, hmap⟩ := recalcAll_visualItems c c1 items hc h
  exact ⟨items1, h1, sequenceNumbered_of_map_eq hmap (sequenceNumbered_recalcSequence items)⟩

/-- Witness for C2 on `exampleItems`: the numbering left by `_recalcSequence` is 0, 1, 2, 5. -/
theorem recalcSequence_sequenceNumbered_witness :
    (∀ v ∈ _recalcSequence exampleItems, v.sequenceNumber ≤ v.lastSequenceNumber) ∧
    List.Pairwise (fun a b : VisualItem => a.sequenceNumber < b.sequenceNumber)
      (_recalcSequence exampleItems) ∧
    (_recalcSequence exampleItems).map (fun v => v.sequenceNumber) = [0, 1, 2, 5] :=
  ⟨by decide, ((recalcSequence_sequenceNumbered exampleItems).1.2.2 (by decide)).1, by decide⟩

/-! ## The settings item stays at index 0 -/

theorem recalcChildItemsLoop_head (p : VisualItem) (f rest : List VisualItem) :
    ∃ p1 tail, _recalcChildItemsLoop p f rest = p1 :: tail ∧
      p1.withoutChildren = p.withoutChildren := by
  have h := recalcChildItemsLoop_frame p f rest
  cases hr : _recalcChildItemsLoop p f rest with
  | nil => rw [hr] at h; simp at h
  | cons p1 tail =>
    rw [hr] at h
    simp only [List.map_cons, List.cons_append, List.cons.injEq] at h
    exact ⟨p1, tail, rfl, h.1⟩

theorem recalcWaypointLines_settingsFirst (c : MissionController)
    (h : settingsFirst c.visualItems = true) :
    ∃ c1, _recalcWaypointLines c = some c1 ∧ c1.visualItems = c.visualItems := by
  cases hv : c.visualItems with
  | none => rw [hv] at h; simp [settingsFirst] at h
  | some items =>
    cases items with
    | nil => rw [hv] at h; simp [settingsFirst] at h
    | cons first rest =>
      rw [hv] at h
      simp only [settingsFirst] at h
      have hd : _recalcAltitudeRangeBearingDefined (first :: rest) = true := h
      have e : _recalcWaypointLines c = some { c with
          linesTable := (_recalcWaypointLinesLoop first rest c.linesTable c.nextObj).linesTable
          waypointLines :=
            (_recalcWaypointLinesLoop first rest c.linesTable c.nextObj).linesTable.values
          released :=
            (_recalcWaypointLinesLoop first rest c.linesTable c.nextObj).old_table.values
          nextObj := (_recalcWaypointLinesLoop first rest c.linesTable c.nextObj).nextObj } := by
        unfold _recalcWaypointLines
        rw [hv]
        simp only [hd, if_true]
      exact ⟨_, e, by simp [hv]⟩

theorem settingsFirst_recalcAll (c : MissionController)
    (h : settingsFirst c.visualItems = true) :
    ∃ c1, _recalcAll c = some c1 ∧ settingsFirst c1.visualItems = true := by
  cases hv : c.visualItems with
  | none => rw [hv] at h; simp [settingsFirst] at h
  | some items =>
    cases items with
    | nil => rw [hv] at h; simp [settingsFirst] at h
    | cons first rest =>
      rw [hv] at h
      simp only [settingsFirst] at h
      obtain ⟨p1, tail, hloop, hp1⟩ := recalcChildItemsLoop_head
        { first.setSequenceNumber 0 with childItems := [] } []
        (_recalcSequenceFrom ((first.setSequenceNumber 0).lastSequenceNumber + 1) rest)
      have hk : p1.isSettingsItem = true := by
        have := congrArg VisualItem.kind hp1
        simp only [VisualItem.withoutChildren, VisualItem.setSequenceNumber] at this
        simp only [VisualItem.isSettingsItem, decide_eq_true_eq] at h ⊢
        rw [this]; exact h
      have e : _recalcAll c = _recalcWaypointLines { c with visualItems := some (p1 :: tail) } := by
        simp only [_recalcAll, hv, _recalcSequence, _recalcSequenceFrom, _recalcChildItems, hloop]
      obtain ⟨c1, h1, h2⟩ := recalcWaypointLines_settingsFirst
        { c with visualItems := some (p1 :: tail) } (by simpa [settingsFirst] using hk)
      refine ⟨c1, by rw [e, h1], ?_⟩
      rw [h2]
      simpa [settingsFirst] using hk

theorem settingsFirst_initAllVisualItems (c : MissionController)
    (h : settingsFirst c.visualItems = true) :
    ∃ c1, _initAllVisualItems c = some c1 ∧ settingsFirst c1.visualItems = true := by
  cases hv : c.visualItems with
  | none => rw [hv] at h; simp [settingsFirst] at h
  | some items =>
    cases items with
    | nil => rw [hv] at h; simp [settingsFirst] at h
    | cons first rest =>
      rw [hv] at h
      simp only [settingsFirst] at h
      simp only [_initAllVisualItems, hv, h, if_true]
      have hs : ∀ x : MissionController, settingsFirst x.visualItems = true →
          ∃ c1, (match _recalcAll x with
            | none => none
            | some c1 => some (c1.setDirty false)) = some c1 ∧
            settingsFirst c1.visualItems = true := by
        intro x hx
        obtain ⟨c1, h1, h2⟩ := settingsFirst_recalcAll x hx
        exact ⟨c1.setDirty false, by rw [h1], h2⟩
      apply hs
      simp only [settingsFirst, MissionController.setDirty]
      split <;> simpa [VisualItem.isSettingsItem, VisualItem.setCoordinate] using h

theorem settingsFirst_addMissionSettings (env : Env) (items : List VisualItem)
    (addToCenter : Bool) (oid : Nat) :
    settingsFirst (some (_addMissionSettings env items addToCenter oid)) = true := by
  simp only [_addMissionSettings, settingsFirst, VisualItem.isSettingsItem]
  split_ifs <;> simp [VisualItem.setCoordinate, Env.allocSettings]

theorem settingsFirst_listInsert (items : List VisualItem) (i : Nat) (x : VisualItem)
    (h : settingsFirst (some items) = true) (hi : 1 ≤ i) :
    settingsFirst (some (listInsert items i x)) = true := by
  cases items with
  | nil => simp [settingsFirst] at h
  | cons first rest =>
    obtain ⟨j, rfl⟩ : ∃ j, i = j + 1 := ⟨i - 1, by omega⟩
    simpa [listInsert, settingsFirst] using h

theorem settingsFirst_eraseIdx (items : List VisualItem) (index : Nat)
    (h : settingsFirst (some items) = true) (hi : 1 ≤ index) :
    settingsFirst (some (items.eraseIdx index)) = true := by
  cases items with
  | nil => simp [settingsFirst] at h
  | cons first rest =>
    obtain ⟨j, rfl⟩ : ∃ j, index = j + 1 := ⟨index - 1, by omega⟩
    simpa [settingsFirst] using h

theorem settingsFirst_start (env : Env) (c : MissionController) (editMode : Bool) :
    ∃ c1, start env c editMode = some c1 ∧ settingsFirst c1.visualItems = true := by
  unfold start _init
  apply settingsFirst_initAllVisualItems
  exact settingsFirst_addMissionSettings env [] false _

theorem settingsFirst_insertSimpleMissionItem (env : Env) (c : MissionController)
    (h : settingsFirst c.visualItems = true) (coordinate : QGeoCoordinate) (i : Nat)
    (hi : 1 ≤ i) :
    ∃ c1 seq, insertSimpleMissionItem env c coordinate i = some (c1, seq) ∧
      settingsFirst c1.visualItems = true := by
  cases hv : c.visualItems with
  | none => rw [hv] at h; simp [settingsFirst] at h
  | some items =>
    rw [hv] at h
    unfold insertSimpleMissionItem
    rw [hv]
    simp only
    obtain ⟨c1, h1, h2⟩ := settingsFirst_recalcAll
      ({ c.setDirty false with
          visualItems :=
            some (listInsert items i (insertSimpleMissionItemNew env items c.nextObj coordinate i))
          nextObj := c.nextObj + 1 }.contentChanged)
      (settingsFirst_listInsert items i _ h hi)
    rw [h1]
    exact ⟨c1, _, rfl, h2⟩

theorem settingsFirst_insertComplexMissionItem (env : Env) (c : MissionController)
    (h : settingsFirst c.visualItems = true) (itemName : String)
    (mapCenterCoordinate : QGeoCoordinate) (i : Nat) (hi : 1 ≤ i) :
    ∃ c1 seq, insertComplexMissionItem env c itemName mapCenterCoordinate i = some (c1, seq) ∧
      settingsFirst c1.visualItems = true := by
  cases hv : c.visualItems with
  | none => rw [hv] at h; simp [settingsFirst] at h
  | some items =>
    unfold insertComplexMissionItem
    rw [hv]
    simp only
    split
    · exact ⟨c, _, rfl, h⟩
    · rename_i newItem _
      rw [hv] at h
      obtain ⟨c1, h1, h2⟩ := settingsFirst_recalcAll
        ({ c.setDirty false with
            visualItems :=
              some (listInsert items i (newItem.setSequenceNumber (_nextSequenceNumber items)))
            nextObj := c.nextObj + 1 }.contentChanged)
        (settingsFirst_listInsert items i _ h hi)
      rw [h1]
      exact ⟨c1, _, rfl, h2⟩

theorem settingsFirst_removeMissionItem (c : MissionController)
    (h : settingsFirst c.visualItems = true) (index : Nat) (hi : 1 ≤ index)
    (hlt : index < c.count) :
    ∃ c1, removeMissionItem c index = some c1 ∧ settingsFirst c1.visualItems = true := by
  cases hv : c.visualItems with
  | none => rw [hv] at h; simp [settingsFirst] at h
  | some items =>
    rw [hv] at h
    simp only [MissionController.count, hv] at hlt
    unfold removeMissionItem
    rw [hv]
    simp only [hlt, if_true]
    obtain ⟨c1, h1, h2⟩ := settingsFirst_recalcAll
      ({ c with visualItems := some (items.eraseIdx index) }.contentChanged)
      (settingsFirst_eraseIdx items index h hi)
    rw [h1]
    exact ⟨c1.setDirty true, rfl, h2⟩

theorem settingsFirst_removeAll (env : Env) (c : MissionController)
    (h : settingsFirst c.visualItems = true) :
    ∃ c1, removeAll env c = some c1 ∧ settingsFirst c1.visualItems = true := by
  cases hv : c.visualItems with
  | none => rw [hv] at h; simp [settingsFirst] at h
  | some items =>
    unfold removeAll
    rw [hv]
    simp only
    obtain ⟨c1, h1, h2⟩ := settingsFirst_initAllVisualItems
      ({ c with visualItems := some (_addMissionSettings env [] false c.nextObj)
                nextObj := c.nextObj + 1
                dirty := false }.contentChanged)
      (settingsFirst_addMissionSettings env [] false _)
    rw [h1]
    exact ⟨c1.setDirty true, rfl, h2⟩

/-- C3 (amended): the invariant "the item list is non-empty and its item at index 0 is the
settings item" holds after `start`/`_init`, and every editing operation returns with it
preserved when the index is at least 1: `insertSimpleMissionItem(coordinate, i)` and
`insertComplexMissionItem(name, center, i)` for `1 ≤ i`, `removeMissionItem(index)` for
`1 ≤ index < count`, and `removeAll()`. -/
theorem editing_preserves_settingsFirst (env : Env) :
    (∀ (c : MissionController) (editMode : Bool),
      ∃ c1, start env c editMode = some c1 ∧ settingsFirst c1.visualItems = true) ∧
    (∀ c : MissionController, settingsFirst c.visualItems = true →
      (∀ (coordinate : QGeoCoordinate) (i : Nat), 1 ≤ i →
        ∃ c1 seq, insertSimpleMissionItem env c coordinate i = some (c1, seq) ∧
          settingsFirst c1.visualItems = true) ∧
      (∀ (itemName : String) (center : QGeoCoordinate) (i : Nat), 1 ≤ i →
        ∃ c1 seq, insertComplexMissionItem env c itemName center i = some (c1, seq) ∧
          settingsFirst c1.visualItems = true) ∧
      (∀ index : Nat, 1 ≤ index → index < c.count →
        ∃ c1, removeMissionItem c index = some c1 ∧ settingsFirst c1.visualItems = true) ∧
      (∃ c1, removeAll env c = some c1 ∧ settingsFirst c1.visualItems = true)) :=
  ⟨fun c editMode => settingsFirst_start env c editMode,
   fun c h =>
    ⟨fun coordinate i hi => settingsFirst_insertSimpleMissionItem env c h coordinate i hi,
     fun itemName center i hi =>
       settingsFirst_insertComplexMissionItem env c h itemName center i hi,
     fun index hi hlt => settingsFirst_removeMissionItem c h index hi hlt,
     settingsFirst_removeAll env c h⟩⟩

set_option maxRecDepth 100000 in
/-- Witness for C3 (amended): on the controller holding the settings item and two simple items,
removing the item at index 1 returns with the settings item still at index 0. -/
theorem editing_preserves_settingsFirst_witness :
    settingsFirst twoItemController.visualItems = true ∧ 1 < twoItemController.count ∧
    (∃ c1, removeMissionItem twoItemController 1 = some c1 ∧
      settingsFirst c1.visualItems = true) :=
  ⟨by decide, by decide,
   ((editing_preserves_settingsFirst specEnv).2 twoItemController (by decide)).2.2.1 1
     (by decide) (by decide)⟩

set_option maxRecDepth 100000 in
/-- C3 (counterexample): index 0 is within the bounds of the list, yet
`removeMissionItem(0)` takes the settings item out (the list left by `removeAt(0)` starts with
a simple item) and `insertSimpleMissionItem(coordinate, 0)` puts a simple item in front of it;
in both cases `_recalcAll` then dereferences the null settings pointer, so no state with the
invariant is returned. -/
theorem editing_index_zero_breaks_settingsFirst :
    settingsFirst twoItemController.visualItems = true ∧ 0 < twoItemController.count ∧
    settingsFirst (twoItemController.visualItems.map (fun items => items.eraseIdx 0)) = false ∧
    (¬ ∃ c1, removeMissionItem twoItemController 0 = some c1 ∧
      settingsFirst c1.visualItems = true) ∧
    settingsFirst (twoItemController.visualItems.map
      (fun items => listInsert items 0 (specEnv.allocSimple twoItemController.nextObj))) = false ∧
    (¬ ∃ c1 seq, insertSimpleMissionItem specEnv twoItemController
        { latitude := 1, longitude := 2, altitude := 3 } 0 = some (c1, seq) ∧
      settingsFirst c1.visualItems = true) := by
  have h1 : removeMissionItem twoItemController 0 = none := by decide
  have h2 : insertSimpleMissionItem specEnv twoItemController
      { latitude := 1, longitude := 2, altitude := 3 } 0 = none := by decide
  refine ⟨by decide, by decide, by decide, ?_, by decide, ?_⟩
  · rintro ⟨c1, h, _⟩
    rw [h1] at h
    exact Option.noConfusion h
  · rintro ⟨c1, seq, h, _⟩
    rw [h2] at h
    exact Option.noConfusion h

/-! ## The segment cache as an association list -/

theorem find_eq_none_iff (t : CoordVectHashTable) (k : VisualItemPair) :
    t.find k = none ↔ k ∉ t.keys := by
  induction t with
  | nil => simp [CoordVectHashTable.find, CoordVectHashTable.keys]
  | cons e t ih =>
    simp only [CoordVectHashTable.find, CoordVectHashTable.keys, List.find?_cons, List.map_cons,
      List.mem_cons, not_or] at ih ⊢
    by_cases h : e.1 = k
    · simp [h]
    · simp only [h, decide_False]
      rw [ih]
      exact ⟨fun h1 => ⟨fun h2 => h h2.symm, h1⟩, fun h1 => h1.2⟩

theorem mem_of_find_eq_some (t : CoordVectHashTable) (k : VisualItemPair) (v : CoordinateVector)
    (h : t.find k = some v) : (k, v) ∈ t := by
  induction t with
  | nil => simp [CoordVectHashTable.find] at h
  | cons e t ih =>
    simp only [CoordVectHashTable.find, List.find?_cons] at h ih
    by_cases hk : e.1 = k
    · simp only [hk, decide_True, Option.map_some', Option.some.injEq] at h
      rw [← h, ← hk]
      exact List.mem_cons_self _ _
    · simp only [hk, decide_False] at h
      exact List.mem_cons_of_mem _ (ih h)

theorem find_eq_some_of_mem (t : CoordVectHashTable) (k : VisualItemPair) (v : CoordinateVector)
    (hn : t.keys.Nodup) (h : (k, v) ∈ t) : t.find k = some v := by
  induction t with
  | nil => simp at h
  | cons e t ih =>
    simp only [CoordVectHashTable.keys, List.map_cons, List.nodup_cons] at hn
    simp only [CoordVectHashTable.find, List.find?_cons]
    rcases List.mem_cons.mp h with rfl | h
    · simp
    · have hk : e.1 ≠ k := by
        intro hk
        apply hn.1
        rw [hk]
        exact List.mem_map_of_mem Prod.fst h
      simp only [hk, decide_False]
      exact ih hn.2 h

theorem remove_eq_self (t : CoordVectHashTable) (k : VisualItemPair) (h : k ∉ t.keys) :
    t.remove k = t := by
  simp only [CoordVectHashTable.remove, List.filter_eq_self]
  intro e he
  simp only [decide_eq_true_eq]
  intro hk
  apply h
  rw [← hk]
  exact List.mem_map_of_mem Prod.fst he

theorem keys_remove (t : CoordVectHashTable) (k : VisualItemPair) :
    (t.remove k).keys = t.keys.filter (fun x => x ≠ k) := by
  simp [CoordVectHashTable.remove, CoordVectHashTable.keys, List.filter_map, Function.comp_def]

theorem mem_remove (t : CoordVectHashTable) (k : VisualItemPair)
    (e : VisualItemPair × CoordinateVector) : e ∈ t.remove k ↔ e ∈ t ∧ e.1 ≠ k := by
  simp [CoordVectHashTable.remove]

theorem find_remove_ne (t : CoordVectHashTable) (k p : VisualItemPair) (h : p ≠ k) :
    (t.remove k).find p = t.find p := by
  induction t with
  | nil => rfl
  | cons e t ih =>
    simp only [CoordVectHashTable.remove, CoordVectHashTable.find] at ih ⊢
    by_cases hk : e.1 = k
    · have hp : e.1 ≠ p := fun hp => h (hp.symm.trans hk)
      simp only [List.filter_cons, hk, ne_eq, not_true_eq_false, decide_False, List.find?_cons]
      rw [← hk] at ih ⊢
      simp only [hp, decide_False]
      simpa [hk] using ih
    · simp only [List.filter_cons, ne_eq, hk, not_false_eq_true, decide_True, if_true,
        List.find?_cons]
      by_cases hp : e.1 = p
      · simp [hp]
      · simp only [hp, decide_False]
        exact ih

theorem set_eq_append (t : CoordVectHashTable) (k : VisualItemPair) (v : CoordinateVector)
    (h : k ∉ t.keys) : t.set k v = t ++ [(k, v)] := by
  simp [CoordVectHashTable.set, remove_eq_self t k h]

theorem find_append (t u : CoordVectHashTable) (k : VisualItemPair) :
    (t ++ u).find k = (t.find k).orElse (fun _ => u.find k) := by
  simp only [CoordVectHashTable.find, List.find?_append]
  cases List.find? (fun e => decide (e.1 = k)) t <;> simp

/-! ## The segment pass as a sequence of segment requests -/

theorem recalcWaypointLinesStep_lineEnd (settingsItem : Option Nat) (s : LinesLoopState)
    (item : VisualItem) (h : item.isLineEnd = true) :
    (_recalcWaypointLinesStep settingsItem false s item).lastCoordinateItem = item ∧
    (_recalcWaypointLinesStep settingsItem false s item).cache =
      if some s.lastCoordinateItem.oid ≠ settingsItem then
        stepEdge s.cache (edgeBetween s.lastCoordinateItem item)
      else s.cache := by
  simp only [VisualItem.isLineEnd, Bool.and_eq_true, Bool.not_eq_true'] at h
  obtain ⟨h1, h2⟩ := h
  unfold _recalcWaypointLinesStep
  simp only [h1, h2, if_true, Bool.not_false, Bool.false_and, Bool.or_false]
  by_cases hc : some s.lastCoordinateItem.oid ≠ settingsItem
  · have hd : decide (some s.lastCoordinateItem.oid ≠ settingsItem) = true := decide_eq_true hc
    rw [if_pos hc]
    simp only [hd, if_true]
    unfold stepEdge
    simp only [LinesLoopState.cache, edgeBetween]
    cases s.old_table.find (s.lastCoordinateItem.oid, item.oid) <;> simp
  · have hd : decide (some s.lastCoordinateItem.oid ≠ settingsItem) = false :=
      decide_eq_false hc
    rw [if_neg hc]
    simp only [hd, LinesLoopState.cache]
    simp

theorem recalcWaypointLinesStep_other (settingsItem : Option Nat) (s : LinesLoopState)
    (item : VisualItem) (h : item.isLineEnd = false) :
    (_recalcWaypointLinesStep settingsItem false s item).lastCoordinateItem =
      s.lastCoordinateItem ∧
    (_recalcWaypointLinesStep settingsItem false s item).cache = s.cache := by
  unfold _recalcWaypointLinesStep
  simp only [VisualItem.isLineEnd, Bool.and_eq_false_imp, Bool.not_eq_false'] at h
  by_cases h1 : item.specifiesCoordinate = true
  · have h2 := h h1
    simp [h1, h2, LinesLoopState.cache]
  · simp [h1, LinesLoopState.cache]

theorem recalcWaypointLines_foldl (settingsItem : Option Nat) (rest : List VisualItem)
    (s : LinesLoopState) :
    (rest.foldl (_recalcWaypointLinesStep settingsItem false) s).cache =
      (expectedEdges settingsItem s.lastCoordinateItem rest).foldl stepEdge s.cache := by
  induction rest generalizing s with
  | nil => rfl
  | cons item rest ih =>
    simp only [List.foldl_cons, expectedEdges]
    rw [ih]
    by_cases h : item.isLineEnd = true
    · obtain ⟨hl, hc⟩ := recalcWaypointLinesStep_lineEnd settingsItem s item h
      rw [hl, hc]
      simp only [h, if_true]
      by_cases hne : some s.lastCoordinateItem.oid ≠ settingsItem
      · simp [hne]
      · simp [hne]
    · have h0 : item.isLineEnd = false := by simpa using h
      obtain ⟨hl, hc⟩ := recalcWaypointLinesStep_other settingsItem s item h0
      rw [hl, hc]
      simp [h0]

theorem recalcWaypointLinesLoop_cache (first : VisualItem) (rest : List VisualItem)
    (old_table : CoordVectHashTable) (nextObj : Nat) (hs : first.isSettingsItem = true) :
    (_recalcWaypointLinesLoop first rest old_table nextObj).cache =
      (expectedEdges (some first.oid) first rest).foldl stepEdge
        { old_table := old_table, linesTable := [], nextObj := nextObj } := by
  unfold _recalcWaypointLinesLoop
  simp only [hs, if_true]
  rw [recalcWaypointLines_foldl]
  rfl

theorem find_set_self (t : CoordVectHashTable) (k : VisualItemPair) (v : CoordinateVector) :
    (t.set k v).find k = some v := by
  have h : (t.remove k).find k = none := by
    rw [find_eq_none_iff, keys_remove]
    simp
  rw [CoordVectHashTable.set, find_append, h]
  simp [CoordVectHashTable.find, List.find?_cons]

theorem find_set_ne (t : CoordVectHashTable) (k p : VisualItemPair) (v : CoordinateVector)
    (h : p ≠ k) : (t.set k v).find p = t.find p := by
  have h1 : CoordVectHashTable.find [(k, v)] p = none := by
    simp [CoordVectHashTable.find, List.find?_cons, Ne.symm h]
  rw [CoordVectHashTable.set, find_append, find_remove_ne t k p h, h1]
  cases t.find p <;> rfl

theorem stepEdge_old_table (s : CacheState) (e : SegmentEdge) :
    (stepEdge s e).old_table = s.old_table.remove e.pair := by
  unfold stepEdge
  cases h : s.old_table.find e.pair with
  | some v => rfl
  | none =>
    simp only
    rw [remove_eq_self]
    exact (find_eq_none_iff _ _).mp h

theorem stepEdge_linesTable (s : CacheState) (e : SegmentEdge) :
    ∃ v, (stepEdge s e).linesTable = s.linesTable.set e.pair v ∧
      ((s.old_table.find e.pair = some v ∧ (stepEdge s e).nextObj = s.nextObj) ∨
       (s.old_table.find e.pair = none ∧ v.oid = s.nextObj ∧
         (stepEdge s e).nextObj = s.nextObj + 1)) := by
  unfold stepEdge
  cases h : s.old_table.find e.pair with
  | some v => exact ⟨v, rfl, Or.inl ⟨rfl, rfl⟩⟩
  | none => exact ⟨_, rfl, Or.inr ⟨rfl, rfl, rfl⟩⟩

theorem foldl_stepEdge_old_table (E : List SegmentEdge) (s : CacheState) :
    (E.foldl stepEdge s).old_table =
      s.old_table.filter (fun x => x.1 ∉ E.map (fun e => e.pair)) := by
  induction E generalizing s with
  | nil => simp
  | cons e E ih =>
    rw [List.foldl_cons, ih, stepEdge_old_table, CoordVectHashTable.remove, List.filter_filter]
    congr 1
    funext x
    simp only [List.map_cons, List.mem_cons, not_or, ne_eq, Bool.decide_and, decide_not]
    rw [Bool.and_comm]

theorem foldl_stepEdge_keys (E : List SegmentEdge) (s : CacheState)
    (hn : (E.map (fun e => e.pair)).Nodup)
    (hd : ∀ e ∈ E, e.pair ∉ s.linesTable.keys) :
    (E.foldl stepEdge s).linesTable.keys = s.linesTable.keys ++ E.map (fun e => e.pair) := by
  induction E generalizing s with
  | nil => simp
  | cons e E ih =>
    simp only [List.map_cons, List.nodup_cons] at hn
    obtain ⟨v, hv, _⟩ := stepEdge_linesTable s e
    have hk : (stepEdge s e).linesTable.keys = s.linesTable.keys ++ [e.pair] := by
      rw [hv, set_eq_append _ _ _ (hd e (List.mem_cons_self _ _))]
      simp [CoordVectHashTable.keys]
    rw [List.foldl_cons, ih (stepEdge s e) hn.2, hk]
    · simp
    · intro e1 he1
      rw [hk]
      simp only [List.mem_append, List.mem_singleton, not_or]
      refine ⟨hd e1 (List.mem_cons_of_mem _ he1), ?_⟩
      intro heq
      apply hn.1
      rw [← heq]
      exact List.mem_map_of_mem _ he1

theorem foldl_stepEdge_find_stable (E : List SegmentEdge) (s : CacheState) (p : VisualItemPair)
    (hp : p ∉ E.map (fun e => e.pair)) :
    (E.foldl stepEdge s).linesTable.find p = s.linesTable.find p := by
  induction E generalizing s with
  | nil => rfl
  | cons e E ih =>
    simp only [List.map_cons, List.mem_cons, not_or] at hp
    obtain ⟨v, hv, _⟩ := stepEdge_linesTable s e
    rw [List.foldl_cons, ih (stepEdge s e) hp.2, hv, find_set_ne _ _ _ _ hp.1]

theorem foldl_stepEdge_kept (E : List SegmentEdge) (s : CacheState)
    (hn : (E.map (fun e => e.pair)).Nodup) (p : VisualItemPair) (v : CoordinateVector)
    (hf : s.old_table.find p = some v) (hp : p ∈ E.map (fun e => e.pair)) :
    (E.foldl stepEdge s).linesTable.find p = some v := by
  induction E generalizing s with
  | nil => simp at hp
  | cons e E ih =>
    simp only [List.map_cons, List.nodup_cons] at hn
    simp only [List.map_cons, List.mem_cons] at hp
    rw [List.foldl_cons]
    by_cases hpe : p = e.pair
    · have hnot : p ∉ E.map (fun e => e.pair) := by rw [hpe]; exact hn.1
      rw [foldl_stepEdge_find_stable E _ p hnot]
      obtain ⟨w, hw, hcase⟩ := stepEdge_linesTable s e
      rw [hw, hpe, find_set_self]
      rcases hcase with ⟨h1, _⟩ | ⟨h1, _⟩
      · rw [← hpe, hf] at h1
        exact h1.symm
      · rw [← hpe, hf] at h1
        exact Option.noConfusion h1
    · apply ih (stepEdge s e) hn.2
      · rw [stepEdge_old_table, find_remove_ne _ _ _ hpe]
        exact hf
      · rcases hp with hp | hp
        · exact absurd hp hpe
        · exact hp

theorem foldl_stepEdge_nextObj (E : List SegmentEdge) (s : CacheState)
    (hn : (E.map (fun e => e.pair)).Nodup)
    (hall : ∀ e ∈ E, e.pair ∈ s.old_table.keys) :
    (E.foldl stepEdge s).nextObj = s.nextObj := by
  induction E generalizing s with
  | nil => rfl
  | cons e E ih =>
    simp only [List.map_cons, List.nodup_cons] at hn
    rw [List.foldl_cons, ih (stepEdge s e) hn.2]
    · obtain ⟨w, _, hcase⟩ := stepEdge_linesTable s e
      rcases hcase with ⟨_, h2⟩ | ⟨h1, _⟩
      · exact h2
      · exact absurd (hall e (List.mem_cons_self _ _)) ((find_eq_none_iff _ _).mp h1)
    · intro e1 he1
      rw [stepEdge_old_table, keys_remove, List.mem_filter]
      refine ⟨hall e1 (List.mem_cons_of_mem _ he1), ?_⟩
      simp only [ne_eq, decide_not, Bool.not_eq_true', decide_eq_false_iff_not]
      intro heq
      apply hn.1
      rw [← heq]
      exact List.mem_map_of_mem _ he1

theorem foldl_stepEdge_rerun (E : List SegmentEdge) (t new : CoordVectHashTable) (n : Nat)
    (hk : t.keys = E.map (fun e => e.pair)) (hn : t.keys.Nodup)
    (hd : ∀ k ∈ t.keys, k ∉ new.keys) :
    E.foldl stepEdge { old_table := t, linesTable := new, nextObj := n } =
      { old_table := [], linesTable := new ++ t, nextObj := n } := by
  induction E generalizing t new with
  | nil =>
    have : t = [] := by
      simpa [CoordVectHashTable.keys] using hk
    subst this
    simp
  | cons e E ih =>
    cases t with
    | nil => simp [CoordVectHashTable.keys] at hk
    | cons kv t =>
      obtain ⟨k, v⟩ := kv
      simp only [CoordVectHashTable.keys, List.map_cons, List.cons.injEq] at hk
      obtain ⟨hk1, hk2⟩ := hk
      simp only [CoordVectHashTable.keys, List.map_cons, List.nodup_cons] at hn
      have hfind : CoordVectHashTable.find ((k, v) :: t) e.pair = some v := by
        simp [CoordVectHashTable.find, List.find?_cons, hk1]
      have hrem : CoordVectHashTable.remove ((k, v) :: t) e.pair = t := by
        have h1 : CoordVectHashTable.remove t e.pair = t :=
          remove_eq_self t e.pair (by rw [← hk1]; exact hn.1)
        simp only [CoordVectHashTable.remove] at h1 ⊢
        rw [List.filter_cons_of_neg (by simp [hk1])]
        exact h1
      have hset : CoordVectHashTable.set new e.pair v = new ++ [(k, v)] := by
        rw [set_eq_append, hk1]
        rw [← hk1]
        exact hd k (by simp [CoordVectHashTable.keys])
      have hstep : stepEdge { old_table := (k, v) :: t, linesTable := new, nextObj := n } e =
          { old_table := t, linesTable := new ++ [(k, v)], nextObj := n } := by
        simp only [stepEdge, hfind, hrem, hset]
      rw [List.foldl_cons, hstep, ih t (new ++ [(k, v)]) hk2 hn.2]
      · simp
      · intro k1 hk1mem
        simp only [CoordVectHashTable.keys, List.map_append, List.map_cons, List.map_nil,
          List.mem_append, List.mem_singleton, not_or]
        refine ⟨hd k1 (by simp only [CoordVectHashTable.keys, List.map_cons, List.mem_cons]
                          exact Or.inr hk1mem), ?_⟩
        intro heq
        apply hn.1
        rw [← heq]
        exact hk1mem

/-! ## The segment requests are the adjacent pairs -/

theorem mem_adjacentPairs (l : List VisualItem) (p : VisualItemPair)
    (h : p ∈ adjacentPairs l) :
    p.1 ∈ l.map (fun v => v.oid) ∧ p.2 ∈ l.map (fun v => v.oid) := by
  induction l with
  | nil => simp [adjacentPairs] at h
  | cons a l ih =>
    cases l with
    | nil => simp [adjacentPairs] at h
    | cons b r =>
      simp only [adjacentPairs, List.mem_cons] at h
      rcases h with rfl | h
      · simp
      · have := ih h
        exact ⟨List.mem_cons_of_mem _ this.1, List.mem_cons_of_mem _ this.2⟩

theorem nodup_adjacentPairs (l : List VisualItem) (h : (l.map (fun v => v.oid)).Nodup) :
    (adjacentPairs l).Nodup := by
  induction l with
  | nil => simp [adjacentPairs]
  | cons a l ih =>
    cases l with
    | nil => simp [adjacentPairs]
    | cons b r =>
      simp only [List.map_cons, List.nodup_cons] at h
      simp only [adjacentPairs, List.nodup_cons]
      refine ⟨?_, ih (by simpa using h.2)⟩
      intro hmem
      have := (mem_adjacentPairs (b :: r) _ hmem).1
      exact h.1 (by simpa using this)

theorem expectedEdges_pairs_from (sOid : Nat) (rest : List VisualItem) (last : VisualItem)
    (hl : last.oid ≠ sOid) (hr : sOid ∉ rest.map (fun v => v.oid)) :
    (expectedEdges (some sOid) last rest).map (fun e => e.pair) =
      adjacentPairs (last :: coordinateItems rest) := by
  induction rest generalizing last with
  | nil => simp [expectedEdges, coordinateItems, adjacentPairs]
  | cons item rest ih =>
    simp only [List.map_cons, List.mem_cons, not_or] at hr
    by_cases h : item.isLineEnd = true
    · have hc : coordinateItems (item :: rest) = item :: coordinateItems rest := by
        simp [coordinateItems, h]
      have hne : some last.oid ≠ some sOid := fun heq => hl (Option.some.inj heq)
      simp only [expectedEdges, h, if_true, hne, ne_eq, not_false_eq_true, hc, adjacentPairs,
        List.singleton_append, List.map_cons, edgeBetween]
      rw [ih item (fun heq => hr.1 heq.symm) hr.2]
    · have hc : coordinateItems (item :: rest) = coordinateItems rest := by
        simp [coordinateItems, h]
      simp only [expectedEdges, h, hc]
      exact ih last hl hr.2

theorem expectedEdges_pairs (first : VisualItem) (rest : List VisualItem)
    (hr : first.oid ∉ rest.map (fun v => v.oid)) :
    (expectedEdges (some first.oid) first rest).map (fun e => e.pair) =
      adjacentPairs (coordinateItems rest) := by
  induction rest with
  | nil => simp [expectedEdges, coordinateItems, adjacentPairs]
  | cons item rest ih =>
    simp only [List.map_cons, List.mem_cons, not_or] at hr
    by_cases h : item.isLineEnd = true
    · have hc : coordinateItems (item :: rest) = item :: coordinateItems rest := by
        simp [coordinateItems, h]
      simp only [expectedEdges, h, if_true, ne_eq, not_true_eq_false, if_false, List.nil_append, hc]
      exact expectedEdges_pairs_from first.oid rest item (fun heq => hr.1 heq.symm) hr.2
    · have hc : coordinateItems (item :: rest) = coordinateItems rest := by
        simp [coordinateItems, h]
      simp only [expectedEdges, h, hc]
      exact ih hr.2

theorem nodup_coordinateItems (rest : List VisualItem)
    (h : (rest.map (fun v => v.oid)).Nodup) :
    ((coordinateItems rest).map (fun v => v.oid)).Nodup :=
  h.sublist ((List.filter_sublist rest).map _)

theorem mem_oids_coordinateItems (rest : List VisualItem) (n : Nat)
    (h : n ∈ (coordinateItems rest).map (fun v => v.oid)) : n ∈ rest.map (fun v => v.oid) :=
  ((List.filter_sublist rest).map _).subset h

/-! ## Well-formedness of the segment tables is preserved -/

theorem perm_cons_remove (t : CoordVectHashTable) (k : VisualItemPair) (v : CoordinateVector)
    (hn : t.keys.Nodup) (h : t.find k = some v) : List.Perm t ((k, v) :: t.remove k) := by
  induction t with
  | nil => simp [CoordVectHashTable.find] at h
  | cons e t ih =>
    simp only [CoordVectHashTable.keys, List.map_cons, List.nodup_cons] at hn
    by_cases hk : e.1 = k
    · have hv : e.2 = v := by
        simpa [CoordVectHashTable.find, List.find?_cons, hk] using h
      have he : e = (k, v) := by rw [← hk, ← hv]
      have hrem : CoordVectHashTable.remove (e :: t) k = t := by
        have h1 : CoordVectHashTable.remove t k = t :=
          remove_eq_self t k (by rw [← hk]; exact hn.1)
        simp only [CoordVectHashTable.remove] at h1 ⊢
        rw [List.filter_cons_of_neg (by simp [hk])]
        exact h1
      rw [hrem, he]
    · have hf : CoordVectHashTable.find t k = some v := by
        simpa [CoordVectHashTable.find, List.find?_cons, hk] using h
      have hrem : CoordVectHashTable.remove (e :: t) k = e :: CoordVectHashTable.remove t k := by
        simp only [CoordVectHashTable.remove]
        rw [List.filter_cons_of_pos (by simp [hk])]
      rw [hrem]
      exact ((ih hn.2 hf).cons e).trans (List.Perm.swap _ _ _)

theorem tablesWellFormed_iff (old new : CoordVectHashTable) (n : Nat) :
    TablesWellFormed old new n ↔
      old.keys.Nodup ∧ new.keys.Nodup ∧
      (old.map (fun e => e.2.oid) ++ new.map (fun e => e.2.oid)).Nodup ∧
      (∀ e ∈ old, e.2.oid < n) ∧ (∀ e ∈ new, e.2.oid < n) := by
  simp only [TablesWellFormed, CoordVectHashTable.values, List.map_append, List.map_map,
    Function.comp_def, List.mem_append, List.mem_map]
  constructor
  · rintro ⟨h1, h2, h3, h4⟩
    exact ⟨h1, h2, h3, fun e he => h4 e.2 (Or.inl ⟨e, he, rfl⟩),
      fun e he => h4 e.2 (Or.inr ⟨e, he, rfl⟩)⟩
  · rintro ⟨h1, h2, h3, h4, h5⟩
    refine ⟨h1, h2, h3, ?_⟩
    rintro v (⟨e, he, rfl⟩ | ⟨e, he, rfl⟩)
    · exact h4 e he
    · exact h5 e he

theorem nodup_keys_set (t : CoordVectHashTable) (k : VisualItemPair) (v : CoordinateVector)
    (h : t.keys.Nodup) : (t.set k v).keys.Nodup := by
  have hk : (t.set k v).keys = t.keys.filter (fun x => x ≠ k) ++ [k] := by
    rw [← keys_remove]
    simp [CoordVectHashTable.set, CoordVectHashTable.keys]
  rw [hk, List.nodup_append]
  refine ⟨h.filter _, List.nodup_singleton k, ?_⟩
  intro x hx hx1
  simp only [List.mem_singleton] at hx1
  subst hx1
  simp at hx

theorem tablesWellFormed_stepEdge (s : CacheState) (e : SegmentEdge)
    (h : TablesWellFormed s.old_table s.linesTable s.nextObj) :
    TablesWellFormed (stepEdge s e).old_table (stepEdge s e).linesTable
      (stepEdge s e).nextObj := by
  rw [tablesWellFormed_iff] at h ⊢
  obtain ⟨h1, h2, h3, h4, h5⟩ := h
  have hsubOld : List.Sublist ((s.old_table.remove e.pair).map (fun x => x.2.oid))
      (s.old_table.map (fun x => x.2.oid)) := (List.filter_sublist _).map _
  have hsubNew : List.Sublist ((s.linesTable.remove e.pair).map (fun x => x.2.oid))
      (s.linesTable.map (fun x => x.2.oid)) := (List.filter_sublist _).map _
  obtain ⟨v, hv, hcase⟩ := stepEdge_linesTable s e
  rw [stepEdge_old_table, hv]
  refine ⟨?_, nodup_keys_set _ _ _ h2, ?_, ?_, ?_⟩
  · rw [keys_remove]; exact h1.filter _
  · simp only [CoordVectHashTable.set, List.map_append, List.map_cons, List.map_nil]
    rcases hcase with ⟨hf, _⟩ | ⟨_, hoid, _⟩
    · have hperm := (perm_cons_remove _ _ _ h1 hf).map (fun x => x.2.oid)
      simp only [List.map_cons] at hperm
      have hnd : (v.oid :: ((s.old_table.remove e.pair).map (fun x => x.2.oid) ++
          (s.linesTable.remove e.pair).map (fun x => x.2.oid))).Nodup := by
        have h3a : (v.oid :: (s.old_table.remove e.pair).map (fun x => x.2.oid) ++
            s.linesTable.map (fun x => x.2.oid)).Nodup :=
          (List.Perm.nodup_iff (hperm.append_right _)).mp h3
        exact h3a.sublist (((List.Sublist.refl _).append hsubNew).cons₂ v.oid)
      rw [← List.append_assoc]
      exact (List.perm_append_singleton _ _).nodup_iff.mpr hnd
    · have hnd : ((s.old_table.remove e.pair).map (fun x => x.2.oid) ++
          (s.linesTable.remove e.pair).map (fun x => x.2.oid)).Nodup :=
        h3.sublist (hsubOld.append hsubNew)
      rw [← List.append_assoc, List.nodup_append]
      refine ⟨hnd, List.nodup_singleton _, ?_⟩
      intro x hx hx1
      simp only [List.mem_singleton] at hx1
      subst hx1
      simp only [List.mem_append, List.mem_map] at hx
      rcases hx with ⟨y, hy, hyx⟩ | ⟨y, hy, hyx⟩
      · have := h4 y ((mem_remove _ _ _).mp hy).1
        omega
      · have := h5 y ((mem_remove _ _ _).mp hy).1
        omega
  · intro x hx
    have := h4 x ((mem_remove _ _ _).mp hx).1
    rcases hcase with ⟨_, hn⟩ | ⟨_, _, hn⟩ <;> omega
  · intro x hx
    simp only [CoordVectHashTable.set, List.mem_append, List.mem_singleton] at hx
    rcases hx with hx | rfl
    · have := h5 x ((mem_remove _ _ _).mp hx).1
      rcases hcase with ⟨_, hn⟩ | ⟨_, _, hn⟩ <;> omega
    · rcases hcase with ⟨hf, hn⟩ | ⟨_, hoid, hn⟩
      · have := h4 _ (mem_of_find_eq_some _ _ _ hf)
        simp only at this ⊢
        omega
      · simp only
        omega

theorem tablesWellFormed_foldl (E : List SegmentEdge) (s : CacheState)
    (h : TablesWellFormed s.old_table s.linesTable s.nextObj) :
    TablesWellFormed (E.foldl stepEdge s).old_table (E.foldl stepEdge s).linesTable
      (E.foldl stepEdge s).nextObj := by
  induction E generalizing s with
  | nil => exact h
  | cons e E ih => exact ih _ (tablesWellFormed_stepEdge s e h)

/-! ## The segment pass: keys and reuse -/

theorem recalcWaypointLines_shape (c : MissionController) (items : List VisualItem)
    (hv : c.visualItems = some items) (hs : settingsFirst (some items) = true) :
    ∃ c1 first rest, items = first :: rest ∧ first.isSettingsItem = true ∧
      _recalcWaypointLines c = some c1 ∧ c1.visualItems = some items ∧
      c1.linesTable = ((expectedEdges (some first.oid) first rest).foldl stepEdge
        { old_table := c.linesTable, linesTable := [], nextObj := c.nextObj }).linesTable ∧
      c1.released = ((expectedEdges (some first.oid) first rest).foldl stepEdge
        { old_table := c.linesTable, linesTable := [], nextObj := c.nextObj }).old_table.values ∧
      c1.nextObj = ((expectedEdges (some first.oid) first rest).foldl stepEdge
        { old_table := c.linesTable, linesTable := [], nextObj := c.nextObj }).nextObj := by
  cases items with
  | nil => simp [settingsFirst] at hs
  | cons first rest =>
    simp only [settingsFirst] at hs
    have hd : _recalcAltitudeRangeBearingDefined (first :: rest) = true := hs
    have hc := recalcWaypointLinesLoop_cache first rest c.linesTable c.nextObj hs
    refine ⟨{ c with
        linesTable := (_recalcWaypointLinesLoop first rest c.linesTable c.nextObj).linesTable
        waypointLines :=
          (_recalcWaypointLinesLoop first rest c.linesTable c.nextObj).linesTable.values
        released := (_recalcWaypointLinesLoop first rest c.linesTable c.nextObj).old_table.values
        nextObj := (_recalcWaypointLinesLoop first rest c.linesTable c.nextObj).nextObj },
      first, rest, rfl, hs, ?_, hv, ?_, ?_, ?_⟩
    · unfold _recalcWaypointLines
      rw [hv]
      simp only [hd, if_true]
    · show (_recalcWaypointLinesLoop first rest c.linesTable c.nextObj).cache.linesTable = _
      rw [hc]
    · show (_recalcWaypointLinesLoop first rest c.linesTable c.nextObj).cache.old_table.values = _
      rw [hc]
    · show (_recalcWaypointLinesLoop first rest c.linesTable c.nextObj).cache.nextObj = _
      rw [hc]

/-- C5: for every item list of distinct objects whose item 0 is the settings item,
`_recalcWaypointLines` returns, and the keys of the segment cache `_linesTable` it leaves are
exactly the pairs of adjacent coordinate-specifying, non-standalone items at indices `≥ 1` in
traversal order, each key occurring once; both end points of every key are items of the
current list. -/
theorem recalcWaypointLines_keys (c : MissionController) (items : List VisualItem)
    (hv : c.visualItems = some items) (hs : settingsFirst (some items) = true)
    (hnd : (items.map (fun v => v.oid)).Nodup) :
    ∃ c1, _recalcWaypointLines c = some c1 ∧ c1.visualItems = some items ∧
      (∀ p, p ∈ c1.linesTable.keys ↔ p ∈ adjacentPairs (coordinateItems items.tail)) ∧
      c1.linesTable.keys.Nodup ∧
      (∀ p ∈ c1.linesTable.keys,
        p.1 ∈ items.tail.map (fun v => v.oid) ∧ p.2 ∈ items.tail.map (fun v => v.oid)) := by
  obtain ⟨c1, first, rest, rfl, _, h1, h2, h3, _, _⟩ := recalcWaypointLines_shape c items hv hs
  simp only [List.map_cons, List.nodup_cons] at hnd
  have hpairs := expectedEdges_pairs first rest hnd.1
  have hnp : (adjacentPairs (coordinateItems rest)).Nodup :=
    nodup_adjacentPairs _ (nodup_coordinateItems rest hnd.2)
  have hkeys : c1.linesTable.keys = adjacentPairs (coordinateItems rest) := by
    rw [h3, foldl_stepEdge_keys _ _ (by rw [hpairs]; exact hnp)
      (by intro e _; simp [CoordVectHashTable.keys]), hpairs]
    simp [CoordVectHashTable.keys]
  refine ⟨c1, h1, h2, ?_, ?_, ?_⟩
  · intro p
    rw [hkeys, List.tail_cons]
  · rw [hkeys]; exact hnp
  · intro p hp
    rw [hkeys] at hp
    have := mem_adjacentPairs _ p hp
    exact ⟨mem_oids_coordinateItems rest _ this.1, mem_oids_coordinateItems rest _ this.2⟩

/-- Witness for C5 on `exampleController`: the keys are the pairs (11, 12) and (12, 13). -/
theorem recalcWaypointLines_keys_witness :
    (exampleItems.map (fun v => v.oid)).Nodup ∧
    adjacentPairs (coordinateItems exampleItems.tail) = [(11, 12), (12, 13)] ∧
    ∃ c1, _recalcWaypointLines exampleController = some c1 ∧
      c1.visualItems = some exampleItems ∧
      (∀ p, p ∈ c1.linesTable.keys ↔ p ∈ adjacentPairs (coordinateItems exampleItems.tail)) ∧
      c1.linesTable.keys.Nodup ∧
      (∀ p ∈ c1.linesTable.keys,
        p.1 ∈ exampleItems.tail.map (fun v => v.oid) ∧
        p.2 ∈ exampleItems.tail.map (fun v => v.oid)) :=
  ⟨by decide, by decide,
   recalcWaypointLines_keys exampleController exampleItems rfl (by decide) (by decide)⟩

theorem tablesWellFormed_start (t : CoordVectHashTable) (n : Nat)
    (h : TablesWellFormed [] t n) : TablesWellFormed t [] n := by
  rw [tablesWellFormed_iff] at h ⊢
  obtain ⟨_, h2, h3, _, h5⟩ := h
  exact ⟨h2, by simp [CoordVectHashTable.keys], by simpa using h3, h5, by simp⟩

theorem tablesWellFormed_finish (old t : CoordVectHashTable) (n : Nat)
    (h : TablesWellFormed old t n) : TablesWellFormed [] t n := by
  rw [tablesWellFormed_iff] at h ⊢
  obtain ⟨_, h2, h3, _, h5⟩ := h
  exact ⟨by simp [CoordVectHashTable.keys], h2, by simpa using (List.nodup_append.mp h3).2.1,
    by simp, h5⟩

theorem stepEdge_nextObj_le (s : CacheState) (e : SegmentEdge) :
    s.nextObj ≤ (stepEdge s e).nextObj := by
  obtain ⟨v, _, h | h⟩ := stepEdge_linesTable s e
  · rw [h.2]
  · rw [h.2.2]; omega

theorem foldl_stepEdge_created (E : List SegmentEdge) (s : CacheState)
    (hn : (E.map (fun e => e.pair)).Nodup) (p : VisualItemPair)
    (hf : s.old_table.find p = none) (hp : p ∈ E.map (fun e => e.pair)) :
    ∃ w, (E.foldl stepEdge s).linesTable.find p = some w ∧ s.nextObj ≤ w.oid := by
  induction E generalizing s with
  | nil => simp at hp
  | cons e E ih =>
    simp only [List.map_cons, List.nodup_cons] at hn
    simp only [List.map_cons, List.mem_cons] at hp
    simp only [List.foldl_cons]
    by_cases he : p = e.pair
    · subst he
      obtain ⟨v, hv, h | h⟩ := stepEdge_linesTable s e
      · rw [hf] at h
        exact absurd h.1 (by simp)
      · refine ⟨v, ?_, by rw [h.2.1]⟩
        rw [foldl_stepEdge_find_stable E _ _ hn.1, hv, find_set_self]
    · have hp1 : p ∈ E.map (fun e => e.pair) := by
        rcases hp with hp | hp
        · exact absurd hp he
        · exact hp
      have hf1 : (stepEdge s e).old_table.find p = none := by
        rw [stepEdge_old_table, find_remove_ne _ _ _ he, hf]
      obtain ⟨w, hw, hle⟩ := ih (stepEdge s e) hn.2 hf1 hp1
      exact ⟨w, hw, le_trans (stepEdge_nextObj_le s e) hle⟩

/-- C6: on a list of distinct objects headed by the settings item and a well-formed cache,
`_recalcWaypointLines` returns a cache whose keys are the pairs of adjacent
coordinate-specifying, non-standalone items after the settings item; each of these pairs
that was in the previous cache holds its previous segment object, and each of them that was
not holds an object created by this run.  So every end-point pair that was in the previous
cache and is in the new one keeps its previous segment object; every previous entry whose
pair is no longer present is released and its object is nowhere in the new cache, and
nothing else is released.  The new cache is well-formed again, and running the pass once
more on the unchanged list leaves the same table (same keys, same segment objects), creates
no object and releases nothing. -/
theorem recalcWaypointLines_reuse (c : MissionController) (items : List VisualItem)
    (hv : c.visualItems = some items) (hs : settingsFirst (some items) = true)
    (hnd : (items.map (fun v => v.oid)).Nodup) (hwf : CacheWellFormed c) :
    ∃ c1, _recalcWaypointLines c = some c1 ∧ c1.visualItems = some items ∧
      c1.linesTable.keys = adjacentPairs (coordinateItems items.tail) ∧
      (∀ p ∈ adjacentPairs (coordinateItems items.tail),
        (∀ v, c.linesTable.find p = some v → c1.linesTable.find p = some v) ∧
        (c.linesTable.find p = none →
          ∃ w, c1.linesTable.find p = some w ∧ c.nextObj ≤ w.oid)) ∧
      (∀ p v, c.linesTable.find p = some v → p ∈ c1.linesTable.keys →
        c1.linesTable.find p = some v) ∧
      (∀ p v, c.linesTable.find p = some v → p ∉ c1.linesTable.keys →
        v ∈ c1.released ∧ v.oid ∉ c1.linesTable.values.map (fun w => w.oid)) ∧
      (∀ v ∈ c1.released, ∃ p, c.linesTable.find p = some v ∧ p ∉ c1.linesTable.keys) ∧
      CacheWellFormed c1 ∧
      (∃ c2, _recalcWaypointLines c1 = some c2 ∧ c2.visualItems = some items ∧
        c2.linesTable = c1.linesTable ∧ c2.nextObj = c1.nextObj ∧ c2.released = []) := by
  obtain ⟨c1, first, rest, hitems, _, h1, h2, h3, h4, h5⟩ :=
    recalcWaypointLines_shape c items hv hs
  obtain ⟨c2, first2, rest2, hitems2, _, k1, k2, k3, k4, k5⟩ :=
    recalcWaypointLines_shape c1 items h2 hs
  have hfr : first2 = first ∧ rest2 = rest := by
    rw [hitems] at hitems2
    simp only [List.cons.injEq] at hitems2
    exact ⟨hitems2.1.symm, hitems2.2.symm⟩
  obtain ⟨rfl, rfl⟩ := hfr
  subst hitems
  simp only [List.map_cons, List.nodup_cons] at hnd
  have hpairs := expectedEdges_pairs first2 rest2 hnd.1
  have hnp : ((expectedEdges (some first2.oid) first2 rest2).map (fun e => e.pair)).Nodup := by
    rw [hpairs]
    exact nodup_adjacentPairs _ (nodup_coordinateItems rest2 hnd.2)
  have hkeys : c1.linesTable.keys =
      (expectedEdges (some first2.oid) first2 rest2).map (fun e => e.pair) := by
    rw [h3, foldl_stepEdge_keys _ _ hnp (by intro e _; simp [CoordVectHashTable.keys])]
    simp [CoordVectHashTable.keys]
  have hwfF := tablesWellFormed_foldl (expectedEdges (some first2.oid) first2 rest2)
    { old_table := c.linesTable, linesTable := [], nextObj := c.nextObj }
    (tablesWellFormed_start _ _ hwf)
  have hwf1 : CacheWellFormed c1 := by
    unfold CacheWellFormed
    rw [h3, h5]
    exact tablesWellFormed_finish _ _ _ hwfF
  have hold := foldl_stepEdge_old_table (expectedEdges (some first2.oid) first2 rest2)
    { old_table := c.linesTable, linesTable := [], nextObj := c.nextObj }
  refine ⟨c1, h1, h2, by rw [hkeys, hpairs, List.tail_cons], ?_, ?_, ?_, ?_, hwf1, c2, k1, k2,
    ?_, ?_, ?_⟩
  · intro p hp
    rw [List.tail_cons, ← hpairs] at hp
    refine ⟨fun v hf => ?_, fun hf => ?_⟩
    · rw [h3]
      exact foldl_stepEdge_kept _ _ hnp p v hf hp
    · rw [h3]
      exact foldl_stepEdge_created _
        { old_table := c.linesTable, linesTable := [], nextObj := c.nextObj } hnp p hf hp
  · intro p v hf hp
    rw [h3]
    exact foldl_stepEdge_kept _ _ hnp p v hf (by rw [← hkeys]; exact hp)
  · intro p v hf hp
    have hrel : v ∈ c1.released := by
      rw [h4, hold]
      exact List.mem_map_of_mem Prod.snd (List.mem_filter.mpr
        ⟨mem_of_find_eq_some _ _ _ hf, decide_eq_true (by rw [← hkeys]; exact hp)⟩)
    refine ⟨hrel, ?_⟩
    rw [h4] at hrel
    rw [h3]
    have hdisj := ((tablesWellFormed_iff _ _ _).mp hwfF).2.2.1
    have hd := (List.nodup_append.mp hdisj).2.2
    intro hmem
    apply hd (a := v.oid)
    · simp only [CoordVectHashTable.values, List.mem_map] at hrel ⊢
      obtain ⟨x, hx, hxv⟩ := hrel
      exact ⟨x, hx, by rw [hxv]⟩
    · simp only [CoordVectHashTable.values, List.mem_map] at hmem ⊢
      obtain ⟨w, ⟨x, hx, hxw⟩, hwv⟩ := hmem
      exact ⟨x, hx, by rw [hxw, hwv]⟩
  · intro v hvrel
    rw [h4, hold] at hvrel
    obtain ⟨x, hxf, hxv⟩ := List.mem_map.mp hvrel
    obtain ⟨hx, hxd⟩ := List.mem_filter.mp hxf
    have hxk := of_decide_eq_true hxd
    refine ⟨x.1, ?_, by rw [hkeys]; exact hxk⟩
    have hkn : c.linesTable.keys.Nodup := ((tablesWellFormed_iff _ _ _).mp hwf).2.1
    rw [← hxv]
    exact find_eq_some_of_mem _ _ _ hkn hx
  · rw [k3, foldl_stepEdge_rerun _ c1.linesTable [] c1.nextObj hkeys
      ((tablesWellFormed_iff _ _ _).mp hwf1).2.1 (by intro k _; simp [CoordVectHashTable.keys])]
    simp
  · rw [k5, foldl_stepEdge_rerun _ c1.linesTable [] c1.nextObj hkeys
      ((tablesWellFormed_iff _ _ _).mp hwf1).2.1 (by intro k _; simp [CoordVectHashTable.keys])]
  · rw [k4, foldl_stepEdge_rerun _ c1.linesTable [] c1.nextObj hkeys
      ((tablesWellFormed_iff _ _ _).mp hwf1).2.1 (by intro k _; simp [CoordVectHashTable.keys])]
    rfl

set_option maxRecDepth 100000 in
/-- Witness for C6 on `cachedController`, whose cache holds the segment object 1 for the pair
(11, 12), which is still needed, and the object 2 for the pair (11, 13), which is obsolete:
the pass keeps the object 1 for (11, 12), creates the object 20 for (12, 13) and releases
the object 2. -/
theorem recalcWaypointLines_reuse_witness :
    CacheWellFormed cachedController ∧
    cachedController.linesTable.map (fun e => (e.1, e.2.oid)) = [((11, 12), 1), ((11, 13), 2)] ∧
    cachedController.nextObj = 20 ∧
    (_recalcWaypointLines cachedController).map
        (fun c1 => (c1.linesTable.map (fun e => (e.1, e.2.oid)),
          c1.released.map (fun v => v.oid))) =
      some ([((11, 12), 1), ((12, 13), 20)], [2]) ∧
    ∃ c1, _recalcWaypointLines cachedController = some c1 ∧ c1.visualItems = some exampleItems ∧
      c1.linesTable.keys = adjacentPairs (coordinateItems exampleItems.tail) ∧
      (∀ p ∈ adjacentPairs (coordinateItems exampleItems.tail),
        (∀ v, cachedController.linesTable.find p = some v → c1.linesTable.find p = some v) ∧
        (cachedController.linesTable.find p = none →
          ∃ w, c1.linesTable.find p = some w ∧ cachedController.nextObj ≤ w.oid)) ∧
      (∀ p v, cachedController.linesTable.find p = some v → p ∈ c1.linesTable.keys →
        c1.linesTable.find p = some v) ∧
      (∀ p v, cachedController.linesTable.find p = some v → p ∉ c1.linesTable.keys →
        v ∈ c1.released ∧ v.oid ∉ c1.linesTable.values.map (fun w => w.oid)) ∧
      (∀ v ∈ c1.released,
        ∃ p, cachedController.linesTable.find p = some v ∧ p ∉ c1.linesTable.keys) ∧
      CacheWellFormed c1 ∧
      (∃ c2, _recalcWaypointLines c1 = some c2 ∧ c2.visualItems = some exampleItems ∧
        c2.linesTable = c1.linesTable ∧ c2.nextObj = c1.nextObj ∧ c2.released = []) :=
  have hwf : CacheWellFormed cachedController := by
    unfold CacheWellFormed TablesWellFormed
    decide
  ⟨hwf, by decide, by decide, by decide,
    recalcWaypointLines_reuse cachedController exampleItems rfl (by decide) (by decide) hwf⟩

/-! ## Legacy text files of version 110 -/

set_option maxRecDepth 100000 in
/-- C4 (failing input): a text file with header `QGC WPL 110` and one item line loads
successfully, and the list `loadFromFile` installs holds that simple item at index 0: no
settings item is created. -/
theorem loadFromFile_version110_first_item_simple :
    (loadItemsFromFile specEnv 10 offlineVehicle "plan.txt" (Except.ok legacy110File) 1
        startedController.appSettings).map (fun r => r.ok) = some true ∧
    (loadFromFile specEnv 10 startedController "plan.txt" (Except.ok legacy110File)).map
        (fun c => c.visualItems.map (List.map (fun v => v.kind))) =
      some (some [ItemKind.simple]) ∧
    (loadFromFile specEnv 10 startedController "plan.txt" (Except.ok legacy110File)).map
        (fun c => settingsFirst c.visualItems) = some false := by
  refine ⟨by decide, by decide, by decide⟩

/-! ## The DO_JUMP fix-up -/

theorem fixedItem_keeps (all : List VisualItem) (v : VisualItem) :
    { fixedItem all v with param1 := v.param1 } = v := by
  unfold fixedItem
  split
  · split <;> rfl
  · rfl

theorem fixedItem_of_not_doJump (all : List VisualItem) (v : VisualItem)
    (h : v.isDoJump = false) : fixedItem all v = v := by
  simp [fixedItem, h]

theorem fixedItem_fields (all : List VisualItem) (v : VisualItem) :
    (fixedItem all v).isSimpleItem = v.isSimpleItem ∧ (fixedItem all v).doJumpId = v.doJumpId ∧
    (fixedItem all v).sequenceNumber = v.sequenceNumber := by
  unfold fixedItem
  split
  · split <;> simp [VisualItem.isSimpleItem]
  · simp

theorem findDoJumpTarget_fixed_append (all : List VisualItem) (id : Int)
    (a b : List VisualItem) :
    (findDoJumpTarget id (a.map (fixedItem all) ++ b)).map (fun t => t.sequenceNumber) =
      (findDoJumpTarget id (a ++ b)).map (fun t => t.sequenceNumber) := by
  induction a with
  | nil => rfl
  | cons x a ih =>
    obtain ⟨h1, h2, h3⟩ := fixedItem_fields all x
    simp only [List.map_cons, List.cons_append, findDoJumpTarget, h1, h2]
    split
    · simp [h3]
    · exact ih

theorem findDoJumpTarget_spec (id : Int) (l : List VisualItem) (t : VisualItem)
    (h : findDoJumpTarget id l = some t) :
    ∃ pre post, l = pre ++ t :: post ∧ t.isSimpleItem = true ∧ t.doJumpId = id ∧
      ∀ x ∈ pre, ¬ (x.isSimpleItem = true ∧ x.doJumpId = id) := by
  induction l with
  | nil => simp [findDoJumpTarget] at h
  | cons x l ih =>
    simp only [findDoJumpTarget] at h
    split at h
    · rename_i hx
      simp only [Option.some.injEq] at h
      subst h
      simp only [Bool.and_eq_true, beq_iff_eq] at hx
      exact ⟨[], l, rfl, hx.1, hx.2, by simp⟩
    · rename_i hx
      obtain ⟨pre, post, hl, h1, h2, h3⟩ := ih h
      refine ⟨x :: pre, post, by rw [hl]; rfl, h1, h2, ?_⟩
      intro y hy
      rcases List.mem_cons.mp hy with rfl | hy
      · simpa [Bool.and_eq_true, beq_iff_eq] using hx
      · exact h3 y hy

theorem findDoJumpTarget_eq_none (id : Int) (l : List VisualItem) :
    findDoJumpTarget id l = none ↔ ∀ t ∈ l, t.isSimpleItem = true → t.doJumpId ≠ id := by
  induction l with
  | nil => simp [findDoJumpTarget]
  | cons x l ih =>
    simp only [findDoJumpTarget, List.mem_cons, forall_eq_or_imp]
    split
    · rename_i hx
      simp only [Bool.and_eq_true, beq_iff_eq] at hx
      simp [hx.1, hx.2]
    · rename_i hx
      simp only [Bool.and_eq_true, beq_iff_eq, not_and] at hx
      rw [ih]
      exact ⟨fun h => ⟨hx, h⟩, fun h => h.2⟩

theorem getElem?_append_cons_length (A B : List VisualItem) (d : VisualItem) :
    (A ++ d :: B)[A.length]? = some d := by
  induction A with
  | nil => simp
  | cons a A ih => simpa using ih

theorem set_append_cons_length (A B : List VisualItem) (d x : VisualItem) :
    (A ++ d :: B).set A.length x = A ++ x :: B := by
  induction A with
  | nil => rfl
  | cons a A ih => simp [ih]

theorem string_append_ne_empty (a b : String) (h : a.length ≠ 0) : a ++ b ≠ "" := by
  intro heq
  have := congrArg String.length heq
  simp only [String.length_append] at this
  have h0 : ("" : String).length = 0 := rfl
  omega

theorem doJumpFixupLoop_spec (orig : List VisualItem) (suf pre : List VisualItem)
    (h : orig = pre ++ suf) :
    ((∀ v ∈ suf, v.isDoJump = true → (findDoJumpTarget v.jumpId orig).isSome = true) ∧
      doJumpFixupLoop (pre.map (fixedItem orig) ++ suf) (List.range' pre.length suf.length) =
        (none, orig.map (fixedItem orig))) ∨
    ((∃ v ∈ suf, v.isDoJump = true ∧ findDoJumpTarget v.jumpId orig = none) ∧
      ∃ e, (doJumpFixupLoop (pre.map (fixedItem orig) ++ suf)
        (List.range' pre.length suf.length)).1 = some e ∧ e ≠ "") := by
  induction suf generalizing pre with
  | nil =>
    left
    subst h
    simp [doJumpFixupLoop]
  | cons d suf ih =>
    have hlen : (pre.map (fixedItem orig)).length = pre.length := by simp
    have hget : (pre.map (fixedItem orig) ++ d :: suf)[pre.length]? = some d := by
      rw [← hlen]; exact getElem?_append_cons_length _ _ _
    have hset : ∀ x, (pre.map (fixedItem orig) ++ d :: suf).set pre.length x =
        pre.map (fixedItem orig) ++ x :: suf := by
      intro x; rw [← hlen]; exact set_append_cons_length _ _ _ _
    have hfind : (findDoJumpTarget d.jumpId (pre.map (fixedItem orig) ++ d :: suf)).map
        (fun t => t.sequenceNumber) =
        (findDoJumpTarget d.jumpId orig).map (fun t => t.sequenceNumber) := by
      have := findDoJumpTarget_fixed_append orig d.jumpId pre (d :: suf)
      rw [← h] at this
      exact this
    have hnext : (pre ++ [d]).map (fixedItem orig) ++ suf =
        pre.map (fixedItem orig) ++ fixedItem orig d :: suf := by simp
    have hih := ih (pre ++ [d]) (by rw [h]; simp)
    rw [hnext] at hih
    simp only [List.length_append, List.length_singleton] at hih
    simp only [List.length_cons, List.range'_succ, doJumpFixupLoop, doJumpFixupStep, hget]
    by_cases hj : d.isDoJump = true
    · have hj1 : (d.isSimpleItem && d.command == MAV_CMD_DO_JUMP) = true := hj
      simp only [hj1, if_true]
      cases hL : findDoJumpTarget (doubleToInt d.param1)
          (pre.map (fixedItem orig) ++ d :: suf) with
      | none =>
        right
        have ho : findDoJumpTarget d.jumpId orig = none := by
          have := hfind
          simp only [VisualItem.jumpId, hL, Option.map_none'] at this
          cases hh : findDoJumpTarget (doubleToInt d.param1) orig with
          | none => exact hh
          | some t => rw [hh] at this; simp at this
        refine ⟨⟨d, List.mem_cons_self _ _, hj, ho⟩, _, rfl, ?_⟩
        exact string_append_ne_empty _ _ (by decide)
      | some t =>
        have ho : ∃ t1, findDoJumpTarget d.jumpId orig = some t1 ∧
            t1.sequenceNumber = t.sequenceNumber := by
          have := hfind
          simp only [VisualItem.jumpId, hL, Option.map_some'] at this
          cases hh : findDoJumpTarget (doubleToInt d.param1) orig with
          | none => rw [hh] at this; simp at this
          | some t1 =>
            rw [hh] at this
            simp only [Option.map_some', Option.some.injEq] at this
            exact ⟨t1, hh, this.symm⟩
        obtain ⟨t1, ht1, hseq⟩ := ho
        have hfix : fixedItem orig d = { d with param1 := t.sequenceNumber } := by
          simp only [fixedItem, hj, if_true, ht1, hseq]
        simp only [hset, ← hfix]
        rcases hih with ⟨hall, hloop⟩ | ⟨⟨v, hv, hvj, hvn⟩, hloop⟩
        · left
          refine ⟨?_, hloop⟩
          intro v hv
          rcases List.mem_cons.mp hv with rfl | hv
          · intro _; simp [ht1]
          · exact hall v hv
        · right
          exact ⟨⟨v, List.mem_cons_of_mem _ hv, hvj, hvn⟩, hloop⟩
    · have hj0 : d.isDoJump = false := by simpa using hj
      have hj1 : (d.isSimpleItem && d.command == MAV_CMD_DO_JUMP) = false := hj0
      have hfix : fixedItem orig d = d := fixedItem_of_not_doJump orig d hj0
      rw [hfix] at hih
      simp only [hj1]
      rcases hih with ⟨hall, hloop⟩ | ⟨⟨v, hv, hvj, hvn⟩, hloop⟩
      · left
        refine ⟨?_, hloop⟩
        intro v hv
        rcases List.mem_cons.mp hv with rfl | hv
        · intro hd; rw [hj0] at hd; exact absurd hd (by decide)
        · exact hall v hv
      · right
        exact ⟨⟨v, List.mem_cons_of_mem _ hv, hvj, hvn⟩, hloop⟩

theorem doJumpFixup_spec (items : List VisualItem) :
    ((∀ v ∈ items, v.isDoJump = true → (findDoJumpTarget v.jumpId items).isSome = true) ∧
      doJumpFixup items = (none, items.map (fixedItem items))) ∨
    ((∃ v ∈ items, v.isDoJump = true ∧ findDoJumpTarget v.jumpId items = none) ∧
      ∃ e, (doJumpFixup items).1 = some e ∧ e ≠ "") := by
  have h := doJumpFixupLoop_spec items items [] rfl
  simpa [doJumpFixup, List.range_eq_range'] using h

/-- C8: when all items of a V2 file have been loaded and some DO_JUMP simple item of the
loaded list holds a jump id that is the `doJumpId` of no simple item of that list,
`_loadJsonMissionFileV2` returns false and leaves a non-empty error message. -/
theorem loadJsonMissionFileV2_unresolved_jump (env : Env) (vehicle : Vehicle)
    (json : QJsonValue) (st : LoadState) (home : QGeoCoordinate) (st1 : LoadState)
    (hkeys : env.validateKeys json rootKeyInfoListV2 = Except.ok ())
    (hhome : env.loadGeoCoordinate (json.get "plannedHomePosition") true = Except.ok home)
    (hitems : loadItemsV2 env 0 (json.get "items").toArray 1
      (loadMissionSettingsV2 env vehicle json home st) = (true, st1))
    (hjump : ∃ item ∈ st1.visualItems, item.isDoJump = true ∧
      ∀ t ∈ st1.visualItems, t.isSimpleItem = true → t.doJumpId ≠ item.jumpId) :
    (_loadJsonMissionFileV2 env vehicle json st).1 = false ∧
    (_loadJsonMissionFileV2 env vehicle json st).2.errorString ≠ "" := by
  unfold _loadJsonMissionFileV2
  simp only [hkeys, hhome, hitems]
  rcases doJumpFixup_spec st1.visualItems with ⟨hall, _⟩ | ⟨_, e, he, hne⟩
  · obtain ⟨item, hmem, hj, hno⟩ := hjump
    have h1 := hall item hmem hj
    rw [(findDoJumpTarget_eq_none _ _).mpr hno] at h1
    exact absurd h1 (by decide)
  · cases hfix : doJumpFixup st1.visualItems with
    | mk err items =>
      rw [hfix] at he
      simp only at he
      subst he
      exact ⟨rfl, hne⟩

set_option maxRecDepth 100000 in
/-- Witness for C8: the document `danglingJumpDocument`, whose DO_JUMP item jumps to id 9. -/
theorem loadJsonMissionFileV2_unresolved_jump_witness :
    (_loadJsonMissionFileV2 specEnv offlineVehicle danglingJumpDocument emptyLoadState).1 = false ∧
    (_loadJsonMissionFileV2 specEnv offlineVehicle danglingJumpDocument
      emptyLoadState).2.errorString ≠ "" :=
  loadJsonMissionFileV2_unresolved_jump specEnv offlineVehicle danglingJumpDocument
    emptyLoadState { latitude := 47, longitude := 8, altitude := 500 }
    (loadItemsV2 specEnv 0 (danglingJumpDocument.get "items").toArray 1
      (loadMissionSettingsV2 specEnv offlineVehicle danglingJumpDocument
        { latitude := 47, longitude := 8, altitude := 500 } emptyLoadState)).2
    rfl rfl (by decide) (by decide)

/-- C9: when `_loadJsonMissionFileV2` succeeds, the list it leaves is the loaded list with
every DO_JUMP simple item's `param1` replaced by the sequence number of the first simple
item, in list order, whose `doJumpId` equals the jump id that `param1` held; the fix-up
changes nothing but `param1`, and changes no item that is not a DO_JUMP simple item. -/
theorem loadJsonMissionFileV2_jump_fixup (env : Env) (vehicle : Vehicle) (json : QJsonValue)
    (st st2 : LoadState) (h : _loadJsonMissionFileV2 env vehicle json st = (true, st2)) :
    ∃ home st1,
      env.loadGeoCoordinate (json.get "plannedHomePosition") true = Except.ok home ∧
      loadItemsV2 env 0 (json.get "items").toArray 1
        (loadMissionSettingsV2 env vehicle json home st) = (true, st1) ∧
      st2 = { st1 with visualItems := st1.visualItems.map (fixedItem st1.visualItems) } ∧
      (∀ item ∈ st1.visualItems, item.isDoJump = true →
        ∃ pre target post, st1.visualItems = pre ++ target :: post ∧
          target.isSimpleItem = true ∧ target.doJumpId = item.jumpId ∧
          (∀ x ∈ pre, ¬ (x.isSimpleItem = true ∧ x.doJumpId = item.jumpId)) ∧
          (fixedItem st1.visualItems item).param1 = target.sequenceNumber) ∧
      (∀ v ∈ st1.visualItems, { fixedItem st1.visualItems v with param1 := v.param1 } = v) ∧
      (∀ v ∈ st1.visualItems, v.isDoJump = false → fixedItem st1.visualItems v = v) := by
  unfold _loadJsonMissionFileV2 at h
  cases hk : env.validateKeys json rootKeyInfoListV2 with
  | error e => rw [hk] at h; simp at h
  | ok u =>
    rw [hk] at h
    simp only at h
    cases hg : env.loadGeoCoordinate (json.get "plannedHomePosition") true with
    | error e => rw [hg] at h; simp at h
    | ok home =>
      rw [hg] at h
      simp only at h
      cases hl : loadItemsV2 env 0 (json.get "items").toArray 1
          (loadMissionSettingsV2 env vehicle json home st) with
      | mk flag st1 =>
        rw [hl] at h
        cases flag with
        | false => simp at h
        | true =>
          simp only at h
          rcases doJumpFixup_spec st1.visualItems with ⟨hall, hfix⟩ | ⟨_, e, he, _⟩
          · rw [hfix] at h
            simp only [Prod.mk.injEq, true_and] at h
            refine ⟨home, st1, rfl, hl, h.symm, ?_, fun v _ => fixedItem_keeps _ v,
              fun v _ hv => fixedItem_of_not_doJump _ v hv⟩
            intro item hmem hj
            have hsome := hall item hmem hj
            cases ht : findDoJumpTarget item.jumpId st1.visualItems with
            | none => rw [ht] at hsome; exact absurd hsome (by decide)
            | some target =>
              obtain ⟨pre, post, hlist, h1, h2, h3⟩ := findDoJumpTarget_spec _ _ _ ht
              refine ⟨pre, target, post, hlist, h1, h2, h3, ?_⟩
              simp only [fixedItem, hj, if_true, ht]
          · cases hfix : doJumpFixup st1.visualItems with
            | mk err items =>
              rw [hfix] at he h
              simp only at he
              subst he
              simp at h

set_option maxRecDepth 100000 in
/-- Witness for C9: the document `resolvedJumpDocument` loads, and its DO_JUMP item ends with
`param1 = 1`, the sequence number of the waypoint that declares jump id 7. -/
theorem loadJsonMissionFileV2_jump_fixup_witness :
    (_loadJsonMissionFileV2 specEnv offlineVehicle resolvedJumpDocument emptyLoadState).1 = true ∧
    (_loadJsonMissionFileV2 specEnv offlineVehicle resolvedJumpDocument
      emptyLoadState).2.visualItems.map (fun v => (v.sequenceNumber, v.command, v.param1)) =
        [(0, 0, 0), (1, 16, 0), (2, 177, 1)] ∧
    ∃ home st1,
      specEnv.loadGeoCoordinate (resolvedJumpDocument.get "plannedHomePosition") true =
        Except.ok home ∧
      loadItemsV2 specEnv 0 (resolvedJumpDocument.get "items").toArray 1
        (loadMissionSettingsV2 specEnv offlineVehicle resolvedJumpDocument home emptyLoadState) =
          (true, st1) ∧
      (_loadJsonMissionFileV2 specEnv offlineVehicle resolvedJumpDocument emptyLoadState).2 =
        { st1 with visualItems := st1.visualItems.map (fixedItem st1.visualItems) } ∧
      (∀ item ∈ st1.visualItems, item.isDoJump = true →
        ∃ pre target post, st1.visualItems = pre ++ target :: post ∧
          target.isSimpleItem = true ∧ target.doJumpId = item.jumpId ∧
          (∀ x ∈ pre, ¬ (x.isSimpleItem = true ∧ x.doJumpId = item.jumpId)) ∧
          (fixedItem st1.visualItems item).param1 = target.sequenceNumber) ∧
      (∀ v ∈ st1.visualItems, { fixedItem st1.visualItems v with param1 := v.param1 } = v) ∧
      (∀ v ∈ st1.visualItems, v.isDoJump = false → fixedItem st1.visualItems v = v) :=
  ⟨by decide, by decide,
   loadJsonMissionFileV2_jump_fixup specEnv offlineVehicle resolvedJumpDocument emptyLoadState
     (_loadJsonMissionFileV2 specEnv offlineVehicle resolvedJumpDocument emptyLoadState).2
     (by decide)⟩

/-! ## Error messages of the loaders -/

theorem errorString_setError (st : LoadState) (m : String) :
    (st.setError m).errorString = m := rfl

theorem errorString_alloc (st : LoadState) : st.alloc.errorString = st.errorString := rfl

theorem errorString_append (st : LoadState) (v : VisualItem) :
    (st.append v).errorString = st.errorString := rfl

theorem loadItemV2_errorString (env : Env) (hmsg : env.MessagesNonEmpty) (i : Nat)
    (itemValue : QJsonValue) (n : Int) (st : LoadState) :
    ((loadItemV2 env i itemValue n st).1 = false →
      (loadItemV2 env i itemValue n st).2.2.errorString ≠ "") ∧
    (st.errorString ≠ "" → (loadItemV2 env i itemValue n st).2.2.errorString ≠ "") ∧
    (UnknownDiscriminator env itemValue →
      (loadItemV2 env i itemValue n st).2.2.errorString ≠ "") := by
  obtain ⟨mKeys, _, _, mSimple, mSurvey, mLanding, mSettings⟩ := hmsg
  unfold loadItemV2
  by_cases hobj : itemValue.isObject = true
  · simp only [hobj, Bool.not_true, Bool.false_eq_true, if_false]
    cases hk : env.validateKeys itemValue
        [{ key := env.jsonTypeKey, type := QJsonType.String, required := true }] with
    | error e =>
      have := mKeys _ _ _ hk
      simp [errorString_setError, this]
    | ok u =>
      simp only
      by_cases ht1 : (itemValue.get env.jsonTypeKey).toQString = env.jsonTypeSimpleItemValue
      · simp only [ht1, if_true]
        cases hl : env.simpleLoad (env.allocSimple st.nextObj) itemValue n with
        | error e =>
          have := mSimple _ _ _ _ hl
          simp [errorString_setError, this]
        | ok loaded =>
          simp only [errorString_append, errorString_alloc]
          refine ⟨by simp, id, fun hbad => absurd ht1 hbad.1⟩
      · simp only [ht1, if_false]
        by_cases ht2 : (itemValue.get env.jsonTypeKey).toQString = env.jsonTypeComplexItemValue
        · simp only [ht2, if_true]
          cases hk2 : env.validateKeys itemValue
              [{ key := env.jsonComplexItemTypeKey, type := QJsonType.String,
                 required := true }] with
          | error e =>
            have := mKeys _ _ _ hk2
            simp [errorString_setError, this]
          | ok u2 =>
            simp only
            by_cases hc1 : (itemValue.get env.jsonComplexItemTypeKey).toQString =
                env.surveyComplexItemTypeValue
            · simp only [hc1, if_true]
              cases hl : env.surveyLoad (env.allocSurvey st.nextObj) itemValue n with
              | error e =>
                have := mSurvey _ _ _ _ hl
                simp [errorString_setError, this]
              | ok loaded =>
                simp only [errorString_append, errorString_alloc]
                refine ⟨by simp, id, fun hbad => ?_⟩
                rcases hbad.2 with h | h
                · exact absurd ht2 h
                · exact absurd hc1 h.1
            · simp only [hc1, if_false]
              by_cases hc2 : (itemValue.get env.jsonComplexItemTypeKey).toQString =
                  env.fwLandingComplexItemTypeValue
              · simp only [hc2, if_true]
                cases hl : env.fwLandingLoad (env.allocFwLanding st.nextObj) itemValue n with
                | error e =>
                  have := mLanding _ _ _ _ hl
                  simp [errorString_setError, this]
                | ok loaded =>
                  simp only [errorString_append, errorString_alloc]
                  refine ⟨by simp, id, fun hbad => ?_⟩
                  rcases hbad.2 with h | h
                  · exact absurd ht2 h
                  · exact absurd hc2 h.2.1
              · simp only [hc2, if_false]
                by_cases hc3 : (itemValue.get env.jsonComplexItemTypeKey).toQString =
                    env.settingsComplexItemTypeValue
                · simp only [hc3, if_true]
                  cases hl : env.settingsLoad (env.allocSettings st.nextObj) itemValue n with
                  | error e =>
                    have := mSettings _ _ _ _ hl
                    simp [errorString_setError, this]
                  | ok loaded =>
                    simp only [errorString_append, errorString_alloc]
                    refine ⟨by simp, id, fun hbad => ?_⟩
                    rcases hbad.2 with h | h
                    · exact absurd ht2 h
                    · exact absurd hc3 h.2.2
                · simp only [hc3, if_false, errorString_setError]
                  have := string_append_ne_empty "Unsupported complex item type: "
                    (itemValue.get env.jsonComplexItemTypeKey).toQString (by decide)
                  exact ⟨fun _ => this, fun _ => this, fun _ => this⟩
        · simp only [ht2, if_false, errorString_setError]
          have := string_append_ne_empty "Unknown item type: "
            (itemValue.get env.jsonTypeKey).toQString (by decide)
          exact ⟨fun _ => this, fun _ => this, fun _ => this⟩
  · simp only [hobj, Bool.not_false, if_true, errorString_setError]
    have : "Mission item " ++ toString i ++ " is not an object" ≠ "" := by
      rw [String.append_assoc]
      exact string_append_ne_empty _ _ (by decide)
    exact ⟨fun _ => this, fun _ => this, fun _ => this⟩

theorem loadItemsV2_errorString (env : Env) (hmsg : env.MessagesNonEmpty)
    (items : List QJsonValue) (i : Nat) (n : Int) (st : LoadState) :
    ((loadItemsV2 env i items n st).1 = false →
      (loadItemsV2 env i items n st).2.errorString ≠ "") ∧
    (st.errorString ≠ "" → (loadItemsV2 env i items n st).2.errorString ≠ "") ∧
    ((∃ itemValue ∈ items, UnknownDiscriminator env itemValue) →
      (loadItemsV2 env i items n st).2.errorString ≠ "") := by
  induction items generalizing i n st with
  | nil => simp [loadItemsV2]
  | cons itemValue rest ih =>
    obtain ⟨h1, h2, h3⟩ := loadItemV2_errorString env hmsg i itemValue n st
    unfold loadItemsV2
    cases hr : loadItemV2 env i itemValue n st with
    | mk flag r =>
      obtain ⟨n1, st1⟩ := r
      rw [hr] at h1 h2 h3
      simp only at h1 h2 h3
      cases flag with
      | false =>
        simp only
        exact ⟨fun _ => h1 rfl, h2, fun _ => h1 rfl⟩
      | true =>
        simp only
        obtain ⟨k1, k2, k3⟩ := ih (i + 1) n1 st1
        refine ⟨k1, fun hst => k2 (h2 hst), ?_⟩
        rintro ⟨bad, hmem, hbad⟩
        rcases List.mem_cons.mp hmem with rfl | hmem
        · exact k2 (h3 hbad)
        · exact k3 ⟨bad, hmem, hbad⟩

theorem loadJsonMissionFileV2_errorString (env : Env) (hmsg : env.MessagesNonEmpty)
    (vehicle : Vehicle) (json : QJsonValue) (st : LoadState) :
    ((_loadJsonMissionFileV2 env vehicle json st).1 = false →
      (_loadJsonMissionFileV2 env vehicle json st).2.errorString ≠ "") ∧
    ((∃ itemValue ∈ (json.get "items").toArray, UnknownDiscriminator env itemValue) →
      (_loadJsonMissionFileV2 env vehicle json st).2.errorString ≠ "") := by
  have hm := hmsg
  obtain ⟨mKeys, _, mGeo, _⟩ := hm
  unfold _loadJsonMissionFileV2
  cases hk : env.validateKeys json rootKeyInfoListV2 with
  | error e =>
    have := mKeys _ _ _ hk
    simp [errorString_setError, this]
  | ok u =>
    simp only
    cases hg : env.loadGeoCoordinate (json.get "plannedHomePosition") true with
    | error e =>
      have := mGeo _ _ _ hg
      simp [errorString_setError, this]
    | ok home =>
      simp only
      obtain ⟨h1, _, h3⟩ := loadItemsV2_errorString env hmsg (json.get "items").toArray 0 1
        (loadMissionSettingsV2 env vehicle json home st)
      cases hl : loadItemsV2 env 0 (json.get "items").toArray 1
          (loadMissionSettingsV2 env vehicle json home st) with
      | mk flag st1 =>
        rw [hl] at h1 h3
        simp only at h1 h3
        cases flag with
        | false =>
          simp only
          exact ⟨fun _ => h1 rfl, fun _ => h1 rfl⟩
        | true =>
          simp only
          rcases doJumpFixup_spec st1.visualItems with ⟨_, hfix⟩ | ⟨_, e, he, hne⟩
          · rw [hfix]
            simp only
            exact ⟨fun h => absurd h (by decide), h3⟩
          · cases hfix : doJumpFixup st1.visualItems with
            | mk err items =>
              rw [hfix] at he
              simp only at he
              subst he
              simp only
              exact ⟨fun _ => hne, fun _ => hne⟩

theorem loadTextItems_errorString (env : Env) (lines : List String) (st : LoadState)
    (h : (loadTextItems env lines st).1 = false) :
    (loadTextItems env lines st).2.errorString ≠ "" := by
  induction lines generalizing st with
  | nil => simp [loadTextItems] at h
  | cons line rest ih =>
    unfold loadTextItems at h ⊢
    simp only at h ⊢
    cases hl : env.simpleLoadStream (env.allocSimple st.nextObj) line with
    | none =>
      simp only [errorString_setError]
      decide
    | some loaded =>
      rw [hl] at h
      simp only at h ⊢
      exact ih _ h

theorem loadTextMissionFile_errorString (env : Env) (lines : List String) (st : LoadState)
    (h : (_loadTextMissionFile env lines st).1 = false) :
    (_loadTextMissionFile env lines st).2.errorString ≠ "" := by
  unfold _loadTextMissionFile at h ⊢
  by_cases hv : (legacyHeader (lines.headD "")).1 = true
  · simp only [hv, if_true] at h ⊢
    have ht := loadTextItems_errorString env lines.tail st
    cases hl : loadTextItems env lines.tail st with
    | mk flag st1 =>
      rw [hl] at h ht
      cases flag with
      | false => exact ht rfl
      | true =>
        simp only at h
        split at h
        · split at h <;> simp at h
        · simp at h
  · simp only [hv, if_false, errorString_setError]
    rw [String.append_assoc]
    exact string_append_ne_empty _ _ (by decide)

theorem loadTextMissionFile_not_legacy (env : Env) (lines : List String) (st : LoadState)
    (h : (legacyHeader (lines.headD "")).1 = false) :
    (_loadTextMissionFile env lines st).2.errorString ≠ "" := by
  unfold _loadTextMissionFile
  simp only [h, Bool.false_eq_true, if_false, errorString_setError]
  rw [String.append_assoc]
  exact string_append_ne_empty _ _ (by decide)

theorem loadComplexItemsV1_errorString (env : Env) (hmsg : env.MessagesNonEmpty)
    (items : List QJsonValue) (surveyItems : List VisualItem) (st : LoadState)
    (h : (loadComplexItemsV1 env items surveyItems st).1 = none) :
    (loadComplexItemsV1 env items surveyItems st).2.errorString ≠ "" := by
  obtain ⟨_, _, _, _, mSurvey, _, _⟩ := hmsg
  induction items generalizing surveyItems st with
  | nil => simp [loadComplexItemsV1] at h
  | cons itemValue rest ih =>
    unfold loadComplexItemsV1 at h ⊢
    by_cases hobj : itemValue.isObject = true
    · simp only [hobj, Bool.not_true, Bool.false_eq_true, if_false] at h ⊢
      cases hl : env.surveyLoad (env.allocSurvey st.nextObj) itemValue
          (itemValue.get "id").toInt with
      | error e =>
        simp only [errorString_setError]
        exact mSurvey _ _ _ _ hl
      | ok loaded =>
        rw [hl] at h
        simp only at h ⊢
        exact ih _ _ h
    · simp only [hobj, Bool.not_false, if_true, errorString_setError]
      decide

theorem mergeLoopV1_errorString (env : Env) (hmsg : env.MessagesNonEmpty)
    (surveyItems : List VisualItem) (itemArray : List QJsonValue) (fuel : Nat)
    (m : MergeLoopState) (st st1 : LoadState)
    (h : mergeLoopV1 env surveyItems itemArray fuel m st = some (false, st1)) :
    st1.errorString ≠ "" := by
  obtain ⟨_, _, _, mSimple, _, _, _⟩ := hmsg
  induction fuel generalizing m st with
  | zero => simp [mergeLoopV1] at h
  | succ fuel ih =>
    unfold mergeLoopV1 at h
    simp only at h
    split at h
    · split at h
      · exact ih _ _ h
      · simp at h
    · split at h
      · rename_i itemValue _
        by_cases hobj : itemValue.isObject = true
        · simp only [hobj, Bool.not_true, Bool.false_eq_true, if_false] at h
          split at h
          · split at h
            · exact ih _ _ h
            · simp at h
          · rename_i e hl
            simp only [Option.some.injEq, Prod.mk.injEq, true_and] at h
            rw [← h, errorString_setError]
            exact mSimple _ _ _ _ hl
        · simp only [hobj, Bool.not_false, if_true, Option.some.injEq, Prod.mk.injEq,
            true_and] at h
          rw [← h, errorString_setError]
          decide
      · split at h
        · exact ih _ _ h
        · simp at h

theorem loadJsonMissionFileV1_errorString (env : Env) (hmsg : env.MessagesNonEmpty)
    (fuel : Nat) (json : QJsonValue) (st st1 : LoadState)
    (h : _loadJsonMissionFileV1 env fuel json st = some (false, st1)) :
    st1.errorString ≠ "" := by
  have hm := hmsg
  obtain ⟨mKeys, _, _, mSimple, _, _, _⟩ := hm
  unfold _loadJsonMissionFileV1 at h
  cases hk : env.validateKeys json rootKeyInfoListV1 with
  | error e =>
    rw [hk] at h
    simp only [Option.some.injEq, Prod.mk.injEq, true_and] at h
    rw [← h, errorString_setError]
    exact mKeys _ _ _ hk
  | ok u =>
    rw [hk] at h
    simp only at h
    have hc := loadComplexItemsV1_errorString env hmsg (json.get "complexItems").toArray [] st
    cases hl : loadComplexItemsV1 env (json.get "complexItems").toArray [] st with
    | mk res st2 =>
      rw [hl] at h hc
      cases res with
      | none =>
        simp only [Option.some.injEq, Prod.mk.injEq, true_and] at h
        rw [← h]
        exact hc rfl
      | some surveyItems =>
        simp only at h
        cases hmerge : mergeLoopV1 env surveyItems (json.get "items").toArray fuel
            { nextSimpleItemIndex := 0, nextComplexItemIndex := 0, nextSequenceNumber := 1 }
            st2 with
        | none => rw [hmerge] at h; simp at h
        | some r =>
          obtain ⟨flag, st3⟩ := r
          rw [hmerge] at h
          cases flag with
          | false =>
            simp only [Option.some.injEq, Prod.mk.injEq, true_and] at h
            rw [← h]
            exact mergeLoopV1_errorString env hmsg _ _ _ _ _ _ hmerge
          | true =>
            simp only at h
            split at h
            · split at h
              · simp at h
              · rename_i e hl2
                simp only [Option.some.injEq, Prod.mk.injEq, true_and] at h
                rw [← h, errorString_setError]
                exact mSimple _ _ _ _ hl2
            · simp at h

theorem loadJsonMissionFile_errorString (env : Env) (hmsg : env.MessagesNonEmpty)
    (fuel : Nat) (vehicle : Vehicle) (parsed : Except String QJsonValue)
    (hparse : ∀ e, parsed = Except.error e → e ≠ "") (st st1 : LoadState)
    (h : _loadJsonMissionFile env fuel vehicle parsed st = some (false, st1)) :
    st1.errorString ≠ "" := by
  have hm := hmsg
  obtain ⟨_, mFile, _⟩ := hm
  unfold _loadJsonMissionFile at h
  cases parsed with
  | error e =>
    simp only [Option.some.injEq, Prod.mk.injEq, true_and] at h
    rw [← h, errorString_setError]
    exact hparse e rfl
  | ok jsonDoc =>
    simp only at h
    cases hq : env.validateQGCJsonFile (rootObject env jsonDoc) "Mission" 1 2 with
    | error e =>
      rw [hq] at h
      simp only [Option.some.injEq, Prod.mk.injEq, true_and] at h
      rw [← h, errorString_setError]
      exact mFile _ _ _ _ _ hq
    | ok fileVersion =>
      rw [hq] at h
      simp only at h
      split at h
      · exact loadJsonMissionFileV1_errorString env hmsg fuel _ st st1 h
      · simp only [Option.some.injEq] at h
        have := (loadJsonMissionFileV2_errorString env hmsg vehicle
          (rootObject env jsonDoc) st).1
        rw [h] at this
        exact this rfl

theorem runLoader_errorString (env : Env) (hmsg : env.MessagesNonEmpty) (fuel : Nat)
    (vehicle : Vehicle) (filename : String) (opened : Except String MissionFile)
    (hparse : ∀ file e, opened = Except.ok file → file.json = Except.error e → e ≠ "")
    (st st1 : LoadState)
    (h : runLoader env fuel vehicle filename opened st = some (false, st1)) :
    st1.errorString ≠ "" := by
  unfold runLoader at h
  cases opened with
  | error fileError =>
    simp only [Option.some.injEq, Prod.mk.injEq, true_and] at h
    rw [← h, errorString_setError]
    intro heq
    have := congrArg String.length heq
    simp only [String.length_append] at this
    have h1 : (" " : String).length = 1 := by decide
    have h0 : ("" : String).length = 0 := rfl
    omega
  | ok file =>
    simp only at h
    split at h
    · simp only [Option.some.injEq] at h
      have := loadTextMissionFile_errorString env file.lines st
      rw [h] at this
      exact this rfl
    · exact loadJsonMissionFile_errorString env hmsg fuel vehicle file.json
        (fun e he => hparse file e rfl he) st st1 h

/-! ## A failed load installs nothing -/

theorem loadItemsFromFile_of_error (env : Env) (fuel : Nat) (vehicle : Vehicle)
    (filename : String) (opened : Except String MissionFile) (nextObj : Nat)
    (appSettings : AppSettings) (flag : Bool) (st1 : LoadState) (hname : filename ≠ "")
    (hrun : runLoader env fuel vehicle filename opened
      { visualItems := [], errorString := "", nextObj := nextObj, appSettings := appSettings } =
        some (flag, st1))
    (herr : st1.errorString ≠ "") :
    loadItemsFromFile env fuel vehicle filename opened nextObj appSettings =
      some { ok := false, visualItems := some st1.visualItems, scheduledForDeletion := true
             shownMessage := some st1.errorString
             nextObj := st1.nextObj, appSettings := st1.appSettings } := by
  unfold loadItemsFromFile
  simp only [hname, if_false, hrun]
  simp [herr]

theorem loadFromFile_of_not_ok (env : Env) (fuel : Nat) (c : MissionController)
    (filename : String) (opened : Except String MissionFile) (r : LoadItemsResult)
    (hr : loadItemsFromFile env fuel c.activeVehicle filename opened c.nextObj c.appSettings =
      some r)
    (hok : r.ok = false) :
    ∃ c1, loadFromFile env fuel c filename opened = some c1 ∧ c.sameMembers c1 := by
  refine ⟨{ c with nextObj := r.nextObj, appSettings := r.appSettings }, ?_, ?_⟩
  · unfold loadFromFile
    simp [hr, hok]
  · exact ⟨rfl, rfl, rfl, rfl, rfl, rfl, rfl, rfl⟩

/-- C7: whenever loading a file fails — the file has no name, cannot be read, or the loader
it is handed to returns false or leaves an error message (malformed JSON, schema or version
error, corrupt legacy line, unsupported item type, unresolved jump id) — `loadFromFile`
returns with the controller's item list, segment cache and other members exactly as they
were, and the list built so far is handed to `deleteLater`.  The collaborators are assumed to
give a non-empty message with every failure. -/
theorem loadFromFile_failure_keeps_list (env : Env) (hmsg : env.MessagesNonEmpty)
    (fuel : Nat) (c : MissionController) (filename : String)
    (opened : Except String MissionFile)
    (hparse : ∀ file e, opened = Except.ok file → file.json = Except.error e → e ≠ "") :
    (filename = "" → loadFromFile env fuel c filename opened = some c) ∧
    (∀ (flag : Bool) (st1 : LoadState), filename ≠ "" →
      runLoader env fuel c.activeVehicle filename opened
        { visualItems := [], errorString := "", nextObj := c.nextObj,
          appSettings := c.appSettings } = some (flag, st1) →
      (flag = false ∨ st1.errorString ≠ "") →
      (∃ r, loadItemsFromFile env fuel c.activeVehicle filename opened c.nextObj
          c.appSettings = some r ∧ r.ok = false ∧ r.scheduledForDeletion = true) ∧
      ∃ c1, loadFromFile env fuel c filename opened = some c1 ∧ c.sameMembers c1) := by
  constructor
  · intro hname
    unfold loadFromFile loadItemsFromFile
    simp [hname]
  · intro flag st1 hname hrun hfail
    have herr : st1.errorString ≠ "" := by
      rcases hfail with hflag | herr
      · subst hflag
        exact runLoader_errorString env hmsg fuel _ filename opened hparse _ st1 hrun
      · exact herr
    have hr := loadItemsFromFile_of_error env fuel c.activeVehicle filename opened c.nextObj
      c.appSettings flag st1 hname hrun herr
    exact ⟨⟨_, hr, rfl, rfl⟩, loadFromFile_of_not_ok env fuel c filename opened _ hr rfl⟩

/-- C10: for every V2 file whose `items` array holds an element with an unknown type
discriminator, or a complex item with an unknown complex-item discriminator,
`loadItemsFromFile` returns false, shows a non-empty error message and hands the list built
so far to `deleteLater`; `loadFromFile` then leaves the controller's list as it was.  The
collaborators are assumed to give a non-empty message with every failure. -/
theorem loadItemsFromFile_unknown_discriminator (env : Env) (hmsg : env.MessagesNonEmpty)
    (fuel : Nat) (c : MissionController) (filename : String) (file : MissionFile)
    (jsonDoc : QJsonValue) (version : Int) (hname : filename ≠ "")
    (hheader : (legacyHeader (file.lines.headD "")).1 = false)
    (hjson : file.json = Except.ok jsonDoc)
    (hversion : env.validateQGCJsonFile (rootObject env jsonDoc) "Mission" 1 2 =
      Except.ok version)
    (hv2 : version ≠ 1)
    (hbad : ∃ itemValue ∈ ((rootObject env jsonDoc).get "items").toArray,
      UnknownDiscriminator env itemValue) :
    (∃ r message, loadItemsFromFile env fuel c.activeVehicle filename (Except.ok file)
        c.nextObj c.appSettings = some r ∧
      r.ok = false ∧ r.shownMessage = some message ∧ message ≠ "" ∧
      r.scheduledForDeletion = true) ∧
    ∃ c1, loadFromFile env fuel c filename (Except.ok file) = some c1 ∧ c.sameMembers c1 := by
  have hrun : ∃ flag st1, runLoader env fuel c.activeVehicle filename (Except.ok file)
      { visualItems := [], errorString := "", nextObj := c.nextObj,
        appSettings := c.appSettings } = some (flag, st1) ∧ st1.errorString ≠ "" := by
    unfold runLoader
    simp only
    split
    · exact ⟨_, _, rfl, loadTextMissionFile_not_legacy env file.lines _ hheader⟩
    · unfold _loadJsonMissionFile
      rw [hjson]
      simp only [hversion, hv2, if_false]
      exact ⟨_, _, rfl, (loadJsonMissionFileV2_errorString env hmsg c.activeVehicle
        (rootObject env jsonDoc) _).2 hbad⟩
  obtain ⟨flag, st1, hrun, herr⟩ := hrun
  have hr := loadItemsFromFile_of_error env fuel c.activeVehicle filename (Except.ok file)
    c.nextObj c.appSettings flag st1 hname hrun herr
  exact ⟨⟨_, st1.errorString, hr, rfl, rfl, herr, rfl⟩,
    loadFromFile_of_not_ok env fuel c filename (Except.ok file) _ hr rfl⟩

/-! ## The reference environment gives a message with every failure -/

theorem specValidateKeys_message (json : QJsonValue) (infos : List KeyValidateInfo)
    (e : String) (h : specValidateKeys json infos = Except.error e) : e ≠ "" := by
  induction infos with
  | nil => simp [specValidateKeys] at h
  | cons info rest ih =>
    unfold specValidateKeys at h
    split at h
    · split at h
      · exact ih h
      · simp only [Except.error.injEq] at h
        rw [← h]
        exact string_append_ne_empty _ _ (by decide)
    · split at h
      · simp only [Except.error.injEq] at h
        rw [← h]
        exact string_append_ne_empty _ _ (by decide)
      · exact ih h

theorem specValidateQGCJsonFile_message (json : QJsonValue) (fileType : String) (lo hi : Int)
    (e : String) (h : specValidateQGCJsonFile json fileType lo hi = Except.error e) :
    e ≠ "" := by
  unfold specValidateQGCJsonFile at h
  split at h
  · simp only [Except.error.injEq] at h
    rw [← h]
    decide
  · split at h
    · simp at h
    · simp only at h
      split at h
      · simp only [Except.error.injEq] at h
        rw [← h]
        exact string_append_ne_empty _ _ (by decide)
      · simp at h
    · simp only [Except.error.injEq] at h
      rw [← h]
      decide

theorem specLoadGeoCoordinate_message (value : QJsonValue) (altitudeRequired : Bool)
    (e : String) (h : specLoadGeoCoordinate value altitudeRequired = Except.error e) :
    e ≠ "" := by
  unfold specLoadGeoCoordinate at h
  split at h
  · simp at h
  · split at h
    · simp only [Except.error.injEq] at h
      rw [← h]
      decide
    · simp at h
  · simp only [Except.error.injEq] at h
    rw [← h]
    decide

theorem specSimpleLoad_message (fresh : VisualItem) (json : QJsonValue) (n : Int)
    (e : String) (h : specSimpleLoad fresh json n = Except.error e) : e ≠ "" := by
  unfold specSimpleLoad at h
  split at h
  · simp at h
  · simp only [Except.error.injEq] at h
    rw [← h]
    decide

theorem specEnv_messagesNonEmpty : specEnv.MessagesNonEmpty := by
  refine ⟨?_, ?_, ?_, ?_, ?_, ?_, ?_⟩
  · intro json infos e h
    exact specValidateKeys_message json infos e h
  · intro json fileType lo hi e h
    exact specValidateQGCJsonFile_message json fileType lo hi e h
  · intro value altitudeRequired e h
    exact specLoadGeoCoordinate_message value altitudeRequired e h
  · intro fresh json n e h
    exact specSimpleLoad_message fresh json n e h
  · intro fresh json n e h
    simp [specEnv, specComplexLoad] at h
  · intro fresh json n e h
    simp [specEnv, specComplexLoad] at h
  · intro fresh json n e h
    simp [specEnv, specComplexLoad] at h

set_option maxRecDepth 100000 in
/-- Witness for C7: loading `danglingJumpFile`, whose DO_JUMP item cannot be resolved, into the
controller holding two items leaves the controller's members as they were. -/
theorem loadFromFile_failure_keeps_list_witness :
    (runLoader specEnv 10 twoItemController.activeVehicle "plan.mission"
      (Except.ok danglingJumpFile)
      { visualItems := [], errorString := "", nextObj := twoItemController.nextObj,
        appSettings := twoItemController.appSettings }).map Prod.fst = some false ∧
    (∃ r, loadItemsFromFile specEnv 10 twoItemController.activeVehicle "plan.mission"
        (Except.ok danglingJumpFile) twoItemController.nextObj
        twoItemController.appSettings = some r ∧ r.ok = false ∧
        r.scheduledForDeletion = true) ∧
    ∃ c1, loadFromFile specEnv 10 twoItemController "plan.mission"
      (Except.ok danglingJumpFile) = some c1 ∧ twoItemController.sameMembers c1 :=
  ⟨by decide,
   (loadFromFile_failure_keeps_list specEnv specEnv_messagesNonEmpty 10 twoItemController
      "plan.mission" (Except.ok danglingJumpFile)
      (fun file e hfile hjson => by
        simp only [Except.ok.injEq] at hfile
        subst hfile
        simp [danglingJumpFile] at hjson)).2 false
      ((runLoader specEnv 10 twoItemController.activeVehicle "plan.mission"
        (Except.ok danglingJumpFile)
        { visualItems := [], errorString := "", nextObj := twoItemController.nextObj,
          appSettings := twoItemController.appSettings }).getD (true, emptyLoadState)).2
      (by decide) (by decide) (Or.inl rfl)⟩

set_option maxRecDepth 100000 in
/-- Witness for C10: the file `unknownComplexFile` holds a complex item of type "corridor"
between two waypoints. -/
theorem loadItemsFromFile_unknown_discriminator_witness :
    (∃ itemValue ∈ ((rootObject specEnv unknownComplexDocument).get "items").toArray,
      UnknownDiscriminator specEnv itemValue) ∧
    (∃ r message, loadItemsFromFile specEnv 10 twoItemController.activeVehicle "plan.mission"
        (Except.ok unknownComplexFile) twoItemController.nextObj
        twoItemController.appSettings = some r ∧
      r.ok = false ∧ r.shownMessage = some message ∧ message ≠ "" ∧
      r.scheduledForDeletion = true) ∧
    ∃ c1, loadFromFile specEnv 10 twoItemController "plan.mission"
      (Except.ok unknownComplexFile) = some c1 ∧ twoItemController.sameMembers c1 :=
  have hbad : ∃ itemValue ∈ ((rootObject specEnv unknownComplexDocument).get "items").toArray,
      UnknownDiscriminator specEnv itemValue :=
    ⟨QJsonValue.object
        [ ("type", QJsonValue.string "ComplexItem"),
          ("complexItemType", QJsonValue.string "corridor") ],
      by simp [rootObject, unknownComplexDocument, v2Document, QJsonValue.toObject,
          QJsonValue.contains, QJsonValue.lookup, QJsonValue.get, QJsonValue.toArray, specEnv],
      by simp [UnknownDiscriminator, QJsonValue.get, QJsonValue.lookup, QJsonValue.toQString,
          specEnv]⟩
  ⟨hbad,
   loadItemsFromFile_unknown_discriminator specEnv specEnv_messagesNonEmpty 10
     twoItemController "plan.mission" unknownComplexFile unknownComplexDocument 2
     (by decide) (by decide) rfl rfl (by decide) hbad⟩

/-! ## Save, then load -/

theorem lookup_append (key : String) (a b : List (String × QJsonValue)) :
    QJsonValue.lookup key (a ++ b) =
      (QJsonValue.lookup key a).orElse (fun _ => QJsonValue.lookup key b) := by
  induction a with
  | nil => rfl
  | cons e a ih =>
    obtain ⟨k, v⟩ := e
    simp only [List.cons_append, QJsonValue.lookup]
    split
    · rfl
    · exact ih

theorem lookup_filter_self (key : String) (a : List (String × QJsonValue)) :
    QJsonValue.lookup key (a.filter (fun e => e.1 ≠ key)) = none := by
  induction a with
  | nil => rfl
  | cons e a ih =>
    obtain ⟨k, v⟩ := e
    by_cases h : k = key
    · rw [List.filter_cons_of_neg (by simp [h])]
      exact ih
    · rw [List.filter_cons_of_pos (by simp [h])]
      simp only [QJsonValue.lookup, h, if_false]
      exact ih

theorem lookup_filter_ne (key other : String) (a : List (String × QJsonValue))
    (h : other ≠ key) :
    QJsonValue.lookup other (a.filter (fun e => e.1 ≠ key)) = QJsonValue.lookup other a := by
  induction a with
  | nil => rfl
  | cons e a ih =>
    obtain ⟨k, v⟩ := e
    by_cases hk : k = key
    · rw [List.filter_cons_of_neg (by simp [hk])]
      have : k ≠ other := by rw [hk]; exact fun heq => h heq.symm
      simp only [QJsonValue.lookup, this, if_false]
      exact ih
    · rw [List.filter_cons_of_pos (by simp [hk])]
      simp only [QJsonValue.lookup]
      split
      · rfl
      · exact ih

theorem get_insert_self (json : QJsonValue) (key : String) (value : QJsonValue) :
    (json.insert key value).get key = value := by
  cases json with
  | object o =>
    simp only [QJsonValue.insert, QJsonValue.get]
    rw [lookup_append, lookup_filter_self]
    simp [QJsonValue.lookup]
  | _ => simp [QJsonValue.insert, QJsonValue.get, QJsonValue.lookup]

theorem get_insert_ne (json : QJsonValue) (key other : String) (value : QJsonValue)
    (h : other ≠ key) : (json.insert key value).get other = json.get other := by
  have hne : key ≠ other := fun heq => h heq.symm
  cases json with
  | object o =>
    simp only [QJsonValue.insert, QJsonValue.get]
    rw [lookup_append, lookup_filter_ne _ _ _ h]
    cases QJsonValue.lookup other o <;> simp [QJsonValue.lookup, hne]
  | _ => simp [QJsonValue.insert, QJsonValue.get, QJsonValue.lookup, hne]

theorem toObject_insert (json : QJsonValue) (key : String) (value : QJsonValue) :
    (json.insert key value).toObject = json.insert key value := by
  cases json <;> rfl

theorem rootObject_get (env : Env) (doc : QJsonValue) (key : String) (value : QJsonValue)
    (other : String) (h : other ≠ env.jsonFileTypeKey) :
    (rootObject env (doc.insert key value)).get other = (doc.insert key value).get other := by
  unfold rootObject
  simp only [toObject_insert]
  split
  · exact get_insert_ne _ _ _ _ h
  · rfl

theorem foldl_itemSave (env : Env) (items : List VisualItem) (init : List QJsonValue) :
    items.foldl (fun acc visualItem => acc ++ env.itemSave visualItem) init =
      init ++ entriesOf env items := by
  induction items generalizing init with
  | nil => simp [entriesOf]
  | cons v rest ih => simp [entriesOf, ih]

theorem savedDocument_items (env : Env) (vehicle : Vehicle) (first : VisualItem)
    (rest : List VisualItem) (hkey : env.jsonFileTypeKey ≠ "items") :
    ((rootObject env (savedDocument env vehicle first rest)).get "items").toArray =
      entriesOf env (first :: rest) := by
  unfold savedDocument
  simp only
  rw [rootObject_get env _ _ _ _ (fun h => hkey h.symm), get_insert_self, foldl_itemSave]
  rfl

theorem savedDocument_home (env : Env) (vehicle : Vehicle) (first : VisualItem)
    (rest : List VisualItem) (hkey : env.jsonFileTypeKey ≠ "plannedHomePosition") :
    (rootObject env (savedDocument env vehicle first rest)).get "plannedHomePosition" =
      env.saveGeoCoordinate first.coordinate true := by
  unfold savedDocument
  simp only
  rw [rootObject_get env _ _ _ _ (fun h => hkey h.symm),
    get_insert_ne _ _ _ _ (by decide), get_insert_ne _ _ _ _ (by decide),
    get_insert_ne _ _ _ _ (by decide), get_insert_ne _ _ _ _ (by decide),
    get_insert_ne _ _ _ _ (by decide), get_insert_self]

theorem loadedFrom_lastSequenceNumber (w v : VisualItem) (h : LoadedFrom w v) :
    w.lastSequenceNumber = v.lastSequenceNumber := by
  obtain ⟨_, h2, h3, _⟩ := h
  simp [VisualItem.lastSequenceNumber, h2, h3]

theorem loadItemsV2_entries (env : Env) (rest : List VisualItem) (i : Nat) (n : Int)
    (st : LoadState) (hitems : ∀ v ∈ rest, EntryRoundTrips env v)
    (hseq : _recalcSequenceFrom n rest = rest) :
    ∃ ws st1, loadItemsV2 env i (entriesOf env rest) n st = (true, st1) ∧
      st1.visualItems = st.visualItems ++ ws ∧ st1.errorString = st.errorString ∧
      List.Forall₂ LoadedFrom ws rest := by
  induction rest generalizing i n st with
  | nil => exact ⟨[], st, rfl, by simp, rfl, List.Forall₂.nil⟩
  | cons v rest ih =>
    simp only [_recalcSequenceFrom, List.cons.injEq] at hseq
    obtain ⟨hv, hrest⟩ := hseq
    have hn : v.sequenceNumber = n := by
      have := congrArg VisualItem.sequenceNumber hv
      simpa [VisualItem.setSequenceNumber] using this.symm
    rw [hv] at hrest
    obtain ⟨e, he, hload⟩ := hitems v (List.mem_cons_self _ _)
    obtain ⟨w, hw, hwv⟩ := hload i st
    rw [hn] at hw
    have hlast := loadedFrom_lastSequenceNumber w v hwv
    obtain ⟨ws, st1, h1, h2, h3, h4⟩ := ih (i + 1) (w.lastSequenceNumber + 1)
      (st.alloc.append w) (fun x hx => hitems x (List.mem_cons_of_mem _ hx))
      (by rw [hlast]; exact hrest)
    refine ⟨w :: ws, st1, ?_, ?_, ?_, List.Forall₂.cons hwv h4⟩
    · simp only [entriesOf, he, List.singleton_append, loadItemsV2, hw]
      exact h1
    · rw [h2]
      simp [LoadState.append, LoadState.alloc]
    · rw [h3]
      rfl

theorem forall₂_loadedFrom_left (ws rest : List VisualItem)
    (h : List.Forall₂ LoadedFrom ws rest) (w : VisualItem) (hw : w ∈ ws) :
    ∃ v ∈ rest, LoadedFrom w v := by
  induction h with
  | nil => simp at hw
  | cons hab _ ih =>
    rcases List.mem_cons.mp hw with rfl | hw
    · exact ⟨_, List.mem_cons_self _ _, hab⟩
    · obtain ⟨v, hv, hwv⟩ := ih hw
      exact ⟨v, List.mem_cons_of_mem _ hv, hwv⟩

theorem forall₂_loadedFrom_right (ws rest : List VisualItem)
    (h : List.Forall₂ LoadedFrom ws rest) (v : VisualItem) (hv : v ∈ rest) :
    ∃ w ∈ ws, LoadedFrom w v := by
  induction h with
  | nil => simp at hv
  | cons hab _ ih =>
    rcases List.mem_cons.mp hv with rfl | hv
    · exact ⟨_, List.mem_cons_self _ _, hab⟩
    · obtain ⟨w, hw, hwv⟩ := ih hv
      exact ⟨w, List.mem_cons_of_mem _ hw, hwv⟩

theorem forall₂_loadedFrom_signature (ws rest : List VisualItem)
    (h : List.Forall₂ LoadedFrom ws rest) :
    ws.map VisualItem.signature = rest.map VisualItem.signature := by
  induction h with
  | nil => rfl
  | cons hab _ ih =>
    obtain ⟨h1, h2, _, h4, h5, _⟩ := hab
    simp only [List.map_cons, ih, VisualItem.signature, h1, h2, h4, h5]

theorem signature_fixedItem (all : List VisualItem) (v : VisualItem) :
    (fixedItem all v).signature = v.signature := by
  have h := fixedItem_keeps all v
  have e : (fixedItem all v).signature =
      ({ fixedItem all v with param1 := v.param1 } : VisualItem).signature := rfl
  rw [e, h]

theorem doJump_resolvable (s1 : VisualItem) (ws rest : List VisualItem)
    (hs : s1.isSimpleItem = false) (h : List.Forall₂ LoadedFrom ws rest)
    (hjump : ∀ v ∈ rest, v.isDoJump = true →
      ∃ t ∈ rest, t.isSimpleItem = true ∧ t.sequenceNumber = v.jumpId) :
    ∀ x ∈ s1 :: ws, x.isDoJump = true →
      (findDoJumpTarget x.jumpId (s1 :: ws)).isSome = true := by
  intro x hx hxj
  rcases List.mem_cons.mp hx with rfl | hx
  · simp [VisualItem.isDoJump, hs] at hxj
  · obtain ⟨v, hv, hxv⟩ := forall₂_loadedFrom_left ws rest h x hx
    obtain ⟨k1, _, _, _, _, k6⟩ := hxv
    simp only [VisualItem.isDoJump, Bool.and_eq_true, beq_iff_eq, VisualItem.isSimpleItem,
      decide_eq_true_eq] at hxj
    have hvk : v.kind = ItemKind.simple := by rw [← k1]; exact hxj.1
    obtain ⟨kc, kp, _⟩ := k6 hvk
    have hvj : v.isDoJump = true := by
      simp only [VisualItem.isDoJump, Bool.and_eq_true, beq_iff_eq, VisualItem.isSimpleItem,
        decide_eq_true_eq]
      exact ⟨hvk, by rw [← kc]; exact hxj.2⟩
    obtain ⟨t, ht, hts, htseq⟩ := hjump v hv hvj
    obtain ⟨wt, hwt, hwtt⟩ := forall₂_loadedFrom_right ws rest h t ht
    obtain ⟨t1, _, _, _, _, t6⟩ := hwtt
    have htk : t.kind = ItemKind.simple := by
      simpa [VisualItem.isSimpleItem] using hts
    obtain ⟨_, _, td⟩ := t6 htk
    cases hf : findDoJumpTarget x.jumpId (s1 :: ws) with
    | some _ => rfl
    | none =>
      have hnone := (findDoJumpTarget_eq_none _ _).mp hf wt (List.mem_cons_of_mem _ hwt)
        (by simp only [VisualItem.isSimpleItem, decide_eq_true_eq]; rw [t1]; exact htk)
      exfalso
      apply hnone
      rw [td, htseq]
      simp [VisualItem.jumpId, kp]

theorem recalcSequence_fixed (first : VisualItem) (rest : List VisualItem)
    (hseq : _recalcSequence (first :: rest) = first :: rest)
    (hspan : first.lastSequenceNumber = 0) :
    first.sequenceNumber = 0 ∧ _recalcSequenceFrom 1 rest = rest := by
  simp only [_recalcSequence, _recalcSequenceFrom, List.cons.injEq] at hseq
  obtain ⟨h1, h2⟩ := hseq
  rw [h1, hspan] at h2
  refine ⟨?_, by simpa using h2⟩
  have := congrArg VisualItem.sequenceNumber h1
  simpa [VisualItem.setSequenceNumber] using this.symm

theorem loadJsonMissionFileV2_saved (env : Env) (vehicle : Vehicle) (first : VisualItem)
    (rest : List VisualItem) (st : LoadState) (hst : st.visualItems = [])
    (hseq : _recalcSequence (first :: rest) = first :: rest)
    (hspan : first.lastSequenceNumber = 0)
    (hjump : ∀ v ∈ rest, v.isDoJump = true →
      ∃ t ∈ rest, t.isSimpleItem = true ∧ t.sequenceNumber = v.jumpId)
    (hkey : env.jsonFileTypeKey ≠ "items" ∧ env.jsonFileTypeKey ≠ "plannedHomePosition")
    (hroot : env.validateKeys (rootObject env (savedDocument env vehicle first rest))
      rootKeyInfoListV2 = Except.ok ())
    (hgeo : env.loadGeoCoordinate (env.saveGeoCoordinate first.coordinate true) true =
      Except.ok first.coordinate)
    (hsettings : env.itemSave first = [])
    (hitems : ∀ v ∈ rest, EntryRoundTrips env v) :
    ∃ ws st2, _loadJsonMissionFileV2 env vehicle
        (rootObject env (savedDocument env vehicle first rest)) st = (true, st2) ∧
      st2.errorString = st.errorString ∧
      st2.visualItems =
        (((env.allocSettings st.nextObj).setCoordinate first.coordinate) :: ws).map
          (fixedItem (((env.allocSettings st.nextObj).setCoordinate first.coordinate) :: ws)) ∧
      List.Forall₂ LoadedFrom ws rest := by
  obtain ⟨_, hfrom⟩ := recalcSequence_fixed first rest hseq hspan
  have hentries : ((rootObject env (savedDocument env vehicle first rest)).get "items").toArray =
      entriesOf env rest := by
    rw [savedDocument_items env vehicle first rest hkey.1]
    simp [entriesOf, hsettings]
  obtain ⟨ws, st1, h1, h2, h3, h4⟩ := loadItemsV2_entries env rest 0 1
    (loadMissionSettingsV2 env vehicle (rootObject env (savedDocument env vehicle first rest))
      first.coordinate st) hitems hfrom
  have hvis : st1.visualItems =
      ((env.allocSettings st.nextObj).setCoordinate first.coordinate) :: ws := by
    rw [h2]
    simp [loadMissionSettingsV2, hst, listInsert]
  have herr : st1.errorString = st.errorString := by
    rw [h3]; rfl
  have hsimple : ((env.allocSettings st.nextObj).setCoordinate first.coordinate).isSimpleItem =
      false := by
    simp [VisualItem.isSimpleItem, VisualItem.setCoordinate, Env.allocSettings]
  have hres := doJump_resolvable _ ws rest hsimple h4 hjump
  refine ⟨ws, { st1 with visualItems := st1.visualItems.map (fixedItem st1.visualItems) },
    ?_, herr, by simp only [hvis], h4⟩
  unfold _loadJsonMissionFileV2
  simp only [hroot, savedDocument_home env vehicle first rest hkey.2, hgeo, hentries, h1]
  rcases doJumpFixup_spec st1.visualItems with ⟨_, hfix⟩ | ⟨⟨x, hx, hxj, hxn⟩, _⟩
  · rw [hfix]
  · rw [hvis] at hx hxn
    have := hres x hx hxj
    rw [hxn] at this
    exact absurd this (by decide)

theorem entryRoundTrips_of_itemRoundTrips (env : Env) (v : VisualItem)
    (h : ItemRoundTrips env v) : EntryRoundTrips env v := by
  obtain ⟨e, he, hobj, hkeys, hk⟩ := h
  refine ⟨e, he, fun i st => ?_⟩
  cases hkind : v.kind with
  | simple =>
    rw [hkind] at hk
    obtain ⟨htype, hload⟩ := hk
    obtain ⟨loaded, hl, r1, r2, r3, r4, r5⟩ := hload (env.allocSimple st.nextObj)
    refine ⟨loadedInto (env.allocSimple st.nextObj) loaded, ?_, ?_⟩
    · simp only [loadItemV2, hobj, Bool.not_true, Bool.false_eq_true, if_false, hkeys, htype,
        if_true, hl]
    · exact ⟨by simp [loadedInto, Env.allocSimple, hkind], by simp [loadedInto, r1],
        by simp [loadedInto, r2], by simp [loadedInto, r3], by simp [loadedInto, r4],
        fun hs => by simpa [loadedInto] using r5 hs⟩
  | survey =>
    rw [hkind] at hk
    obtain ⟨⟨htype, hne, hkeys2, hct⟩, hload⟩ := hk
    obtain ⟨loaded, hl, r1, r2, r3, r4, r5⟩ := hload (env.allocSurvey st.nextObj)
    refine ⟨loadedInto (env.allocSurvey st.nextObj) loaded, ?_, ?_⟩
    · simp only [loadItemV2, hobj, Bool.not_true, Bool.false_eq_true, if_false, hkeys, htype,
        hne, if_true, hkeys2, hct, hl]
    · exact ⟨by simp [loadedInto, Env.allocSurvey, hkind], by simp [loadedInto, r1],
        by simp [loadedInto, r2], by simp [loadedInto, r3], by simp [loadedInto, r4],
        fun hs => by simpa [loadedInto] using r5 hs⟩
  | fwLanding =>
    rw [hkind] at hk
    obtain ⟨⟨htype, hne, hkeys2, hct⟩, hn1, hload⟩ := hk
    obtain ⟨loaded, hl, r1, r2, r3, r4, r5⟩ := hload (env.allocFwLanding st.nextObj)
    refine ⟨loadedInto (env.allocFwLanding st.nextObj) loaded, ?_, ?_⟩
    · simp only [loadItemV2, hobj, Bool.not_true, Bool.false_eq_true, if_false, hkeys, htype,
        hne, if_true, hkeys2, hct, hn1, hl]
    · exact ⟨by simp [loadedInto, Env.allocFwLanding, hkind], by simp [loadedInto, r1],
        by simp [loadedInto, r2], by simp [loadedInto, r3], by simp [loadedInto, r4],
        fun hs => by simpa [loadedInto] using r5 hs⟩
  | settings =>
    rw [hkind] at hk
    obtain ⟨⟨htype, hne, hkeys2, hct⟩, hn1, hn2, hload⟩ := hk
    obtain ⟨loaded, hl, r1, r2, r3, r4, r5⟩ := hload (env.allocSettings st.nextObj)
    refine ⟨loadedInto (env.allocSettings st.nextObj) loaded, ?_, ?_⟩
    · simp only [loadItemV2, hobj, Bool.not_true, Bool.false_eq_true, if_false, hkeys, htype,
        hne, if_true, hkeys2, hct, hn1, hn2, hl]
    · exact ⟨by simp [loadedInto, Env.allocSettings, hkind], by simp [loadedInto, r1],
        by simp [loadedInto, r2], by simp [loadedInto, r3], by simp [loadedInto, r4],
        fun hs => by simpa [loadedInto] using r5 hs⟩

/-- C1 (amended): for every plan whose list starts with a single-step settings item and
carries the sequence numbers left by `_recalcSequence`, in which every DO_JUMP item's target
is the sequence number of a simple item of the plan, and provided the collaborators round-trip
(the file helper accepts the written document, the home coordinate loads back, the settings
item adds no array entry of its own, every other item writes one entry that carries the
type tag of its class and that the `load` method of its class reproduces the item from),
loading the V2 document written by `saveToFile` succeeds and yields an equivalent list: same
count, same kinds in the same order, same sequence numbers, same coordinates, the settings
item holding the saved home position.  The item loop of the loader dispatches each entry to
the class that wrote it. -/
theorem saveThenLoad_roundtrip (env : Env) (fuel : Nat) (c : MissionController)
    (first : VisualItem) (rest : List VisualItem) (filename : String) (version : Int)
    (hv : c.visualItems = some (first :: rest)) (hs : first.isSettingsItem = true)
    (hname : filename ≠ "")
    (hseq : _recalcSequence (first :: rest) = first :: rest)
    (hspan : first.lastSequenceNumber = 0)
    (hexit : first.exitCoordinate = first.coordinate)
    (hjump : ∀ v ∈ rest, v.isDoJump = true →
      ∃ t ∈ rest, t.isSimpleItem = true ∧ t.sequenceNumber = v.jumpId)
    (hnew : env.newMissionSettingsComplexItem.sequenceNumber = 0)
    (hkey : env.jsonFileTypeKey ≠ "items" ∧ env.jsonFileTypeKey ≠ "plannedHomePosition")
    (hfile : env.validateQGCJsonFile
      (rootObject env (savedDocument env c.activeVehicle first rest)) "Mission" 1 2 =
        Except.ok version)
    (hv2 : version ≠ 1)
    (hroot : env.validateKeys (rootObject env (savedDocument env c.activeVehicle first rest))
      rootKeyInfoListV2 = Except.ok ())
    (hgeo : env.loadGeoCoordinate (env.saveGeoCoordinate first.coordinate true) true =
      Except.ok first.coordinate)
    (hsettings : env.itemSave first = [])
    (hitems : ∀ v ∈ rest, ItemRoundTrips env v) :
    ∃ r loaded, saveThenLoad env fuel c filename = some r ∧ r.ok = true ∧
      r.shownMessage = none ∧ r.visualItems = some loaded ∧
      loaded.map VisualItem.signature = (first :: rest).map VisualItem.signature ∧
      loaded.length = (first :: rest).length ∧
      (∃ s tail, loaded = s :: tail ∧ s.isSettingsItem = true ∧
        s.coordinate = first.coordinate) := by
  obtain ⟨hfirst, _⟩ := recalcSequence_fixed first rest hseq hspan
  obtain ⟨ws, st2, hload, herr, hvis, hfrom⟩ := loadJsonMissionFileV2_saved env c.activeVehicle
    first rest
    { visualItems := [], errorString := "", nextObj := c.nextObj, appSettings := c.appSettings }
    rfl hseq hspan hjump hkey hroot hgeo hsettings
    (fun v hv => entryRoundTrips_of_itemRoundTrips env v (hitems v hv))
  have hsave : saveToFile env c filename true =
      some (some (savedDocument env c.activeVehicle first rest)) := by
    unfold saveToFile
    simp [hname, hv, hs]
  have hheader : containsQGCWPL
      ((jsonFile (savedDocument env c.activeVehicle first rest)).lines.headD "") = false := by
    show containsQGCWPL "\x7b" = false
    decide
  have hrun : runLoader env fuel c.activeVehicle filename
      (Except.ok (jsonFile (savedDocument env c.activeVehicle first rest)))
      { visualItems := [], errorString := "", nextObj := c.nextObj,
        appSettings := c.appSettings } = some (true, st2) := by
    unfold runLoader
    simp only [hheader, Bool.false_eq_true, if_false]
    unfold _loadJsonMissionFile
    simp only [jsonFile, hfile, hv2, if_false, hload]
  have hsig : st2.visualItems.map VisualItem.signature =
      (first :: rest).map VisualItem.signature := by
    rw [hvis, List.map_map]
    have : (VisualItem.signature ∘ fixedItem
        (((env.allocSettings c.nextObj).setCoordinate first.coordinate) :: ws)) =
        VisualItem.signature := by
      funext v
      exact signature_fixedItem _ v
    rw [this, List.map_cons, List.map_cons, forall₂_loadedFrom_signature ws rest hfrom]
    congr 1
    simp [VisualItem.signature, VisualItem.setCoordinate, Env.allocSettings, hnew, hfirst,
      hexit]
    have hk : first.kind = ItemKind.settings := by
      simpa [VisualItem.isSettingsItem] using hs
    exact hk.symm
  refine ⟨{ ok := true, visualItems := some st2.visualItems, scheduledForDeletion := false
            shownMessage := none, nextObj := st2.nextObj, appSettings := st2.appSettings },
    st2.visualItems, ?_, rfl, rfl, rfl, hsig, ?_, ?_⟩
  · unfold saveThenLoad
    rw [hsave]
    simp only
    unfold loadItemsFromFile
    simp only [hname, if_false, hrun]
    simp [herr]
  · have := congrArg List.length hsig
    simpa using this
  · rw [hvis]
    refine ⟨_, _, rfl, ?_, ?_⟩
    · rw [(fixedItem_of_not_doJump _ _ (by
        simp [VisualItem.isDoJump, VisualItem.isSimpleItem, VisualItem.setCoordinate,
          Env.allocSettings]))]
      simp [VisualItem.isSettingsItem, VisualItem.setCoordinate, Env.allocSettings]
    · rw [(fixedItem_of_not_doJump _ _ (by
        simp [VisualItem.isDoJump, VisualItem.isSimpleItem, VisualItem.setCoordinate,
          Env.allocSettings]))]
      simp [VisualItem.setCoordinate]

/-! ## The reference environment round-trips simple items -/

theorem doubleToInt_intCast (z : Int) : doubleToInt (z : Rat) = z := by
  simp [doubleToInt]

theorem specSimpleLoad_entry (fresh v : VisualItem) :
    ∃ loaded, specSimpleLoad fresh (specSimpleEntry v) v.sequenceNumber = Except.ok loaded ∧
      loaded.sequenceNumber = v.sequenceNumber ∧ loaded.span = 1 ∧
      loaded.coordinate = v.coordinate ∧ loaded.exitCoordinate = v.coordinate ∧
      loaded.command = v.command ∧ loaded.param1 = v.param1 ∧
      loaded.doJumpId = v.sequenceNumber := by
  simp [specSimpleLoad, specSimpleEntry, QJsonValue.get, QJsonValue.lookup, QJsonValue.toArray,
    QJsonValue.toDouble, QJsonValue.toInt, QJsonValue.contains, doubleToInt_intCast]

theorem specEnv_entryRoundTrips (v : VisualItem) (hk : v.kind = ItemKind.simple)
    (hspan : v.span = 1) (hexit : v.exitCoordinate = v.coordinate) :
    EntryRoundTrips specEnv v := by
  refine ⟨specSimpleEntry v, by simp [specEnv, specItemSave, hk], fun i st => ?_⟩
  obtain ⟨loaded, hl, h1, h2, h3, h4, h5, h6, h7⟩ :=
    specSimpleLoad_entry (specEnv.allocSimple st.nextObj) v
  have hobj : (specSimpleEntry v).isObject = true := rfl
  have hkeys : specEnv.validateKeys (specSimpleEntry v)
      [{ key := specEnv.jsonTypeKey, type := QJsonType.String, required := true }] =
        Except.ok () := by
    show specValidateKeys (specSimpleEntry v)
      [{ key := "type", type := QJsonType.String, required := true }] = Except.ok ()
    simp [specValidateKeys, specSimpleEntry, QJsonValue.contains, QJsonValue.lookup,
      QJsonValue.get, QJsonValue.type]
  have htype : ((specSimpleEntry v).get specEnv.jsonTypeKey).toQString =
      specEnv.jsonTypeSimpleItemValue := by
    show ((specSimpleEntry v).get "type").toQString = "SimpleItem"
    simp [specSimpleEntry, QJsonValue.get, QJsonValue.lookup, QJsonValue.toQString]
  have hload : specEnv.simpleLoad (specEnv.allocSimple st.nextObj) (specSimpleEntry v)
      v.sequenceNumber = Except.ok loaded := hl
  refine ⟨loadedInto (specEnv.allocSimple st.nextObj) loaded, ?_, ?_⟩
  · simp only [loadItemV2, hobj, Bool.not_true, Bool.false_eq_true, if_false, hkeys, htype,
      if_true, hload]
  · refine ⟨?_, ?_, ?_, ?_, ?_, ?_⟩
    · simp [loadedInto, Env.allocSimple, hk]
    · simp [loadedInto, h1]
    · simp [loadedInto, h2, hspan]
    · simp [loadedInto, h3]
    · simp [loadedInto, h4, hexit]
    · intro _
      simp [loadedInto, h5, h6, h7]

theorem specSurveyLoad_entry (fresh v : VisualItem) :
    ∃ loaded, specSurveyLoad fresh (specSurveyEntry v) v.sequenceNumber = Except.ok loaded ∧
      loaded.sequenceNumber = v.sequenceNumber ∧ loaded.span = v.span ∧
      loaded.coordinate = v.coordinate ∧ loaded.exitCoordinate = v.exitCoordinate := by
  simp [specSurveyLoad, specSurveyEntry, specSaveGeoCoordinate, specLoadGeoCoordinate,
    QJsonValue.get, QJsonValue.lookup, QJsonValue.toInt, doubleToInt_intCast]

theorem surveyEnv_itemRoundTrips (v : VisualItem)
    (h : (v.kind = ItemKind.simple ∧ v.span = 1 ∧ v.exitCoordinate = v.coordinate) ∨
      v.kind = ItemKind.survey) :
    ItemRoundTrips surveyEnv v := by
  rcases h with ⟨hk, hspan, hexit⟩ | hk
  · refine ⟨specSimpleEntry v, by simp [surveyEnv, specEnv, specItemSave, hk], rfl, ?_, ?_⟩
    · show specValidateKeys (specSimpleEntry v)
        [{ key := "type", type := QJsonType.String, required := true }] = Except.ok ()
      simp [specValidateKeys, specSimpleEntry, QJsonValue.contains, QJsonValue.lookup,
        QJsonValue.get, QJsonValue.type]
    · rw [hk]
      refine ⟨?_, fun fresh => ?_⟩
      · show ((specSimpleEntry v).get "type").toQString = "SimpleItem"
        simp [specSimpleEntry, QJsonValue.get, QJsonValue.lookup, QJsonValue.toQString]
      · obtain ⟨loaded, hl, h1, h2, h3, h4, h5, h6, h7⟩ := specSimpleLoad_entry fresh v
        exact ⟨loaded, hl, h1, by rw [h2, hspan], h3, by rw [h4, hexit], fun _ => ⟨h5, h6, h7⟩⟩
  · refine ⟨specSurveyEntry v, by simp [surveyEnv, hk], rfl, ?_, ?_⟩
    · show specValidateKeys (specSurveyEntry v)
        [{ key := "type", type := QJsonType.String, required := true }] = Except.ok ()
      simp [specValidateKeys, specSurveyEntry, QJsonValue.contains, QJsonValue.lookup,
        QJsonValue.get, QJsonValue.type]
    · rw [hk]
      refine ⟨⟨?_, by decide, ?_, ?_⟩, fun fresh => ?_⟩
      · show ((specSurveyEntry v).get "type").toQString = "ComplexItem"
        simp [specSurveyEntry, QJsonValue.get, QJsonValue.lookup, QJsonValue.toQString]
      · show specValidateKeys (specSurveyEntry v)
          [{ key := "complexItemType", type := QJsonType.String, required := true }] =
            Except.ok ()
        simp [specValidateKeys, specSurveyEntry, QJsonValue.contains, QJsonValue.lookup,
          QJsonValue.get, QJsonValue.type]
      · show ((specSurveyEntry v).get "complexItemType").toQString = "survey"
        simp [specSurveyEntry, QJsonValue.get, QJsonValue.lookup, QJsonValue.toQString]
      · obtain ⟨loaded, hl, h1, h2, h3, h4⟩ := specSurveyLoad_entry fresh v
        exact ⟨loaded, hl, h1, h2, h3, h4, fun hs => by rw [hk] at hs; exact absurd hs (by decide)⟩

set_option maxRecDepth 100000 in
/-- Witness for C1 (amended): the plan `surveyPlan` (settings item, takeoff, a survey spanning
three sequence numbers with different entry and exit coordinates, waypoint, DO_JUMP to the
waypoint) in the environment `surveyEnv`: the written document holds four entries, and the
loaded list has the kinds, sequence numbers and coordinates of the plan. -/
theorem saveThenLoad_roundtrip_witness :
    ((saveThenLoad surveyEnv 10 surveyPlan "plan.mission").map
        (fun r => (r.visualItems.getD []).map (fun v =>
          (v.kind, v.sequenceNumber, v.coordinate.latitude, v.exitCoordinate.latitude)))).getD
        [] =
      [(ItemKind.settings, 0, 47, 47), (ItemKind.simple, 1, 47, 47),
        (ItemKind.survey, 2, 47, 48), (ItemKind.simple, 5, 49, 49),
        (ItemKind.simple, 6, 0, 0)] ∧
    ∃ r loaded, saveThenLoad surveyEnv 10 surveyPlan "plan.mission" = some r ∧
      r.ok = true ∧ r.shownMessage = none ∧ r.visualItems = some loaded ∧
      loaded.map VisualItem.signature =
        (surveyPlanFirst :: surveyPlanRest).map VisualItem.signature ∧
      loaded.length = (surveyPlanFirst :: surveyPlanRest).length ∧
      (∃ s tail, loaded = s :: tail ∧ s.isSettingsItem = true ∧
        s.coordinate = surveyPlanFirst.coordinate) :=
  have hkinds : ∀ v ∈ surveyPlanRest,
      (v.kind = ItemKind.simple ∧ v.span = 1 ∧ v.exitCoordinate = v.coordinate) ∨
        v.kind = ItemKind.survey := by decide
  ⟨by decide,
    saveThenLoad_roundtrip surveyEnv 10 surveyPlan surveyPlanFirst surveyPlanRest
      "plan.mission" 2
      rfl (by decide) (by decide) (by decide) (by decide) (by decide) (by decide)
      rfl (by decide) rfl (by decide) rfl rfl rfl
      (fun v hv => surveyEnv_itemRoundTrips v (hkinds v hv))⟩

set_option maxRecDepth 100000 in
/-- C1 (counterexample): two plans that start with the settings item and carry the sequence
numbers of `_recalcSequence`, one with a DO_JUMP item targeting sequence number 9, which no
item has, one with a DO_JUMP item targeting the sequence number of a survey item.  For both,
loading the document written by `saveToFile` fails: the fix-up finds no simple item
declaring the jump id. -/
theorem saveThenLoad_unresolved_jump_fails :
    settingsFirst danglingJumpPlan.visualItems = true ∧
    danglingJumpPlan.visualItems.map _recalcSequence = danglingJumpPlan.visualItems ∧
    (saveThenLoad specEnv 10 danglingJumpPlan "plan.mission").map (fun r => r.ok) =
      some false ∧
    (¬ ∃ r, saveThenLoad specEnv 10 danglingJumpPlan "plan.mission" = some r ∧ r.ok = true) ∧
    settingsFirst jumpToSurveyPlan.visualItems = true ∧
    jumpToSurveyPlan.visualItems.map _recalcSequence = jumpToSurveyPlan.visualItems ∧
    (saveThenLoad specEnv 10 jumpToSurveyPlan "plan.mission").map (fun r => r.ok) =
      some false ∧
    (¬ ∃ r, saveThenLoad specEnv 10 jumpToSurveyPlan "plan.mission" = some r ∧ r.ok = true) := by
  have h1 : (saveThenLoad specEnv 10 danglingJumpPlan "plan.mission").map (fun r => r.ok) =
      some false := by decide
  have h2 : (saveThenLoad specEnv 10 jumpToSurveyPlan "plan.mission").map (fun r => r.ok) =
      some false := by decide
  refine ⟨by decide, by decide, h1, ?_, by decide, by decide, h2, ?_⟩
  · rintro ⟨r, hr, hok⟩
    rw [hr] at h1
    simp [hok] at h1
  · rintro ⟨r, hr, hok⟩
    rw [hr] at h2
    simp [hok] at h2

/-! ## The V2 loader: item count, order and sequence numbers -/

theorem append_singleton_inj (l : List VisualItem) (a b : VisualItem)
    (h : l ++ [a] = l ++ [b]) : a = b := by
  have := List.append_cancel_left h
  simpa using this

theorem loadState_append_inj (st : LoadState) (a b : VisualItem)
    (h : st.alloc.append a = st.alloc.append b) : a = b := by
  have hv := congrArg LoadState.visualItems h
  exact append_singleton_inj _ _ _ hv

/-- An iteration of the item loop that returns true has appended one item, or has met a
complex item of an unsupported type and left an error message. -/
theorem loadItemV2_true (env : Env) (i : Nat) (itemValue : QJsonValue) (n n1 : Int)
    (st st1 : LoadState) (h : loadItemV2 env i itemValue n st = (true, n1, st1)) :
    (∃ w0, n1 = w0.lastSequenceNumber + 1 ∧ st1 = st.alloc.append w0) ∨
    st1.errorString ≠ "" := by
  unfold loadItemV2 at h
  by_cases hobj : itemValue.isObject = true
  · simp only [hobj, Bool.not_true, Bool.false_eq_true, if_false] at h
    cases hk : env.validateKeys itemValue
        [{ key := env.jsonTypeKey, type := QJsonType.String, required := true }] with
    | error e => rw [hk] at h; simp at h
    | ok u =>
      rw [hk] at h
      simp only at h
      by_cases ht1 : (itemValue.get env.jsonTypeKey).toQString = env.jsonTypeSimpleItemValue
      · simp only [ht1, if_true] at h
        cases hl : env.simpleLoad (env.allocSimple st.nextObj) itemValue n with
        | error e => rw [hl] at h; simp at h
        | ok loaded =>
          rw [hl] at h
          simp only [Prod.mk.injEq, true_and] at h
          exact Or.inl ⟨_, h.1.symm, h.2.symm⟩
      · simp only [ht1, if_false] at h
        by_cases ht2 : (itemValue.get env.jsonTypeKey).toQString = env.jsonTypeComplexItemValue
        · simp only [ht2, if_true] at h
          cases hk2 : env.validateKeys itemValue
              [{ key := env.jsonComplexItemTypeKey, type := QJsonType.String,
                 required := true }] with
          | error e => rw [hk2] at h; simp at h
          | ok u2 =>
            rw [hk2] at h
            simp only at h
            by_cases hc1 : (itemValue.get env.jsonComplexItemTypeKey).toQString =
                env.surveyComplexItemTypeValue
            · simp only [hc1, if_true] at h
              cases hl : env.surveyLoad (env.allocSurvey st.nextObj) itemValue n with
              | error e => rw [hl] at h; simp at h
              | ok loaded =>
                rw [hl] at h
                simp only [Prod.mk.injEq, true_and] at h
                exact Or.inl ⟨_, h.1.symm, h.2.symm⟩
            · simp only [hc1, if_false] at h
              by_cases hc2 : (itemValue.get env.jsonComplexItemTypeKey).toQString =
                  env.fwLandingComplexItemTypeValue
              · simp only [hc2, if_true] at h
                cases hl : env.fwLandingLoad (env.allocFwLanding st.nextObj) itemValue n with
                | error e => rw [hl] at h; simp at h
                | ok loaded =>
                  rw [hl] at h
                  simp only [Prod.mk.injEq, true_and] at h
                  exact Or.inl ⟨_, h.1.symm, h.2.symm⟩
              · simp only [hc2, if_false] at h
                by_cases hc3 : (itemValue.get env.jsonComplexItemTypeKey).toQString =
                    env.settingsComplexItemTypeValue
                · simp only [hc3, if_true] at h
                  cases hl : env.settingsLoad (env.allocSettings st.nextObj) itemValue n with
                  | error e => rw [hl] at h; simp at h
                  | ok loaded =>
                    rw [hl] at h
                    simp only [Prod.mk.injEq, true_and] at h
                    exact Or.inl ⟨_, h.1.symm, h.2.symm⟩
                · simp only [hc3, if_false, Prod.mk.injEq, true_and] at h
                  right
                  rw [← h.2, errorString_setError]
                  exact string_append_ne_empty "Unsupported complex item type: "
                    (itemValue.get env.jsonComplexItemTypeKey).toQString (by decide)
        · simp [ht2] at h
  · simp [hobj] at h

theorem loadItemsV2_loadedInOrder (env : Env) (items : List QJsonValue) (i : Nat) (n : Int)
    (st st1 : LoadState) (h : loadItemsV2 env i items n st = (true, st1))
    (herr : st1.errorString = "") :
    st.errorString = "" ∧ st1.appSettings = st.appSettings ∧
    ∃ ws, st1.visualItems = st.visualItems ++ ws ∧ ws.length = items.length ∧
      LoadedInOrder env items n ws := by
  induction items generalizing i n st with
  | nil =>
    simp only [loadItemsV2, Prod.mk.injEq, true_and] at h
    subst h
    exact ⟨herr, rfl, [], by simp, rfl, trivial⟩
  | cons itemValue rest ih =>
    unfold loadItemsV2 at h
    cases hr : loadItemV2 env i itemValue n st with
    | mk flag r =>
      obtain ⟨n1, stm⟩ := r
      rw [hr] at h
      cases flag with
      | false => simp at h
      | true =>
        simp only at h
        obtain ⟨hm, hset, ws, hws, hlen, hchain⟩ := ih (i + 1) n1 stm h
        rcases loadItemV2_true env i itemValue n n1 st stm hr with ⟨w0, hn1, hstm⟩ | hbad
        · subst hstm
          subst hn1
          refine ⟨hm, hset, w0 :: ws, ?_, by simp [hlen], ?_⟩
          · rw [hws]
            simp [LoadState.append, LoadState.alloc]
          · exact ⟨⟨i, st, w0, hr, rfl⟩, hchain⟩
        · exact absurd hm hbad

theorem fixedItem_with_param1 (all : List VisualItem) (v : VisualItem) (p : Rat) :
    { fixedItem all v with param1 := p } = { v with param1 := p } := by
  unfold fixedItem
  split
  · split <;> rfl
  · rfl

theorem fixedItem_lastSequenceNumber (all : List VisualItem) (v : VisualItem) :
    (fixedItem all v).lastSequenceNumber = v.lastSequenceNumber := by
  unfold fixedItem
  split
  · split <;> rfl
  · rfl

theorem loadsAs_fixedItem (env : Env) (all : List VisualItem) (itemValue : QJsonValue)
    (n : Int) (w : VisualItem) (h : LoadsAs env itemValue n w) :
    LoadsAs env itemValue n (fixedItem all w) := by
  obtain ⟨i, st, w0, hload, hw⟩ := h
  exact ⟨i, st, w0, hload, by rw [fixedItem_with_param1, hw]⟩

theorem loadedInOrder_map_fixedItem (env : Env) (all : List VisualItem)
    (items : List QJsonValue) (n : Int) (ws : List VisualItem)
    (h : LoadedInOrder env items n ws) :
    LoadedInOrder env items n (ws.map (fixedItem all)) := by
  induction items generalizing n ws with
  | nil =>
    cases ws with
    | nil => trivial
    | cons w ws => exact absurd h (by simp [LoadedInOrder])
  | cons itemValue rest ih =>
    cases ws with
    | nil => exact absurd h (by simp [LoadedInOrder])
    | cons w ws =>
      obtain ⟨h1, h2⟩ := h
      refine ⟨loadsAs_fixedItem env all itemValue n w h1, ?_⟩
      rw [fixedItem_lastSequenceNumber]
      exact ih _ ws h2

/-- A simple item loaded with the running sequence number `n` carries `n` as its sequence
number, and as its last one, when simple items are single steps. -/
theorem loadsAs_simple (env : Env) (hs : env.SimpleItemsSingleStep) (itemValue : QJsonValue)
    (n : Int) (w : VisualItem)
    (ht : (itemValue.get env.jsonTypeKey).toQString = env.jsonTypeSimpleItemValue)
    (h : LoadsAs env itemValue n w) :
    w.sequenceNumber = n ∧ w.lastSequenceNumber = n := by
  obtain ⟨i, st, w0, hload, hw⟩ := h
  have hw0 : w0.sequenceNumber = n ∧ w0.span = 1 := by
    unfold loadItemV2 at hload
    by_cases hobj : itemValue.isObject = true
    · simp only [hobj, Bool.not_true, Bool.false_eq_true, if_false] at hload
      cases hk : env.validateKeys itemValue
          [{ key := env.jsonTypeKey, type := QJsonType.String, required := true }] with
      | error e => rw [hk] at hload; simp at hload
      | ok u =>
        rw [hk] at hload
        simp only [ht, if_true] at hload
        cases hl : env.simpleLoad (env.allocSimple st.nextObj) itemValue n with
        | error e => rw [hl] at hload; simp at hload
        | ok loaded =>
          rw [hl] at hload
          simp only [Prod.mk.injEq, true_and] at hload
          have e := loadState_append_inj st _ _ hload.2
          obtain ⟨h1, h2⟩ := hs _ _ _ _ hl
          rw [← e]
          exact ⟨by simp [loadedInto, h1], by simp [loadedInto, h2]⟩
    · simp [hobj] at hload
  have e1 : w.sequenceNumber = w0.sequenceNumber := by rw [← hw]
  have e2 : w.span = w0.span := by rw [← hw]
  refine ⟨by rw [e1, hw0.1], ?_⟩
  simp only [VisualItem.lastSequenceNumber, e1, e2, hw0.1, hw0.2]
  omega

theorem loadedInOrder_simple_sequence (env : Env) (hs : env.SimpleItemsSingleStep)
    (items : List QJsonValue) (n : Int) (ws : List VisualItem)
    (hsimple : ∀ e ∈ items, (e.get env.jsonTypeKey).toQString = env.jsonTypeSimpleItemValue)
    (h : LoadedInOrder env items n ws) :
    ws.map (fun v => v.sequenceNumber) = (List.range ws.length).map (fun k : Nat => n + (k : Int)) := by
  induction items generalizing n ws with
  | nil =>
    cases ws with
    | nil => rfl
    | cons w ws => exact absurd h (by simp [LoadedInOrder])
  | cons itemValue rest ih =>
    cases ws with
    | nil => exact absurd h (by simp [LoadedInOrder])
    | cons w ws =>
      obtain ⟨h1, h2⟩ := h
      obtain ⟨e1, e2⟩ := loadsAs_simple env hs itemValue n w
        (hsimple _ (List.mem_cons_self _ _)) h1
      rw [e2] at h2
      have := ih (n + 1) ws (fun e he => hsimple e (List.mem_cons_of_mem _ he)) h2
      simp only [List.map_cons, List.length_cons, List.range_succ_eq_map, List.map_map, this, e1]
      congr 1
      · simp
      · apply List.map_congr_left
        intro k _
        simp only [Function.comp]
        push_cast
        omega

theorem specEnv_simpleItemsSingleStep : specEnv.SimpleItemsSingleStep := by
  intro fresh json n loaded h
  have h1 : specSimpleLoad fresh json n = Except.ok loaded := h
  unfold specSimpleLoad at h1
  split at h1
  · simp only [Except.ok.injEq] at h1
    subst h1
    exact ⟨rfl, rfl⟩
  · simp at h1

/-- C11: for a V2 file that `_loadJsonMissionFileV2` accepts without an error message, the
list it leaves in the (new, empty) list it is given holds one more item than the array
`items`: the settings item at index 0, whose coordinate is the file's `plannedHomePosition`,
followed by one item per array element in file order, the first loaded with starting sequence
number 1 and each next one with its predecessor's `lastSequenceNumber + 1`; when the elements
are simple items and simple items are single steps, their sequence numbers are 1, 2, ..., n. -/
theorem loadJsonMissionFileV2_items (env : Env) (vehicle : Vehicle) (json : QJsonValue)
    (st st2 : LoadState) (hlist : st.visualItems = [])
    (h : _loadJsonMissionFileV2 env vehicle json st = (true, st2))
    (herr : st2.errorString = "") :
    ∃ home settingsItem loaded,
      env.loadGeoCoordinate (json.get "plannedHomePosition") true = Except.ok home ∧
      st2.visualItems = settingsItem :: loaded ∧
      settingsItem.isSettingsItem = true ∧ settingsItem.coordinate = home ∧
      loaded.length = (json.get "items").toArray.length ∧
      LoadedInOrder env (json.get "items").toArray 1 loaded ∧
      (env.SimpleItemsSingleStep →
        (∀ e ∈ (json.get "items").toArray,
          (e.get env.jsonTypeKey).toQString = env.jsonTypeSimpleItemValue) →
        loaded.map (fun v => v.sequenceNumber) =
          (List.range loaded.length).map (fun k : Nat => (k : Int) + 1)) := by
  unfold _loadJsonMissionFileV2 at h
  cases hk : env.validateKeys json rootKeyInfoListV2 with
  | error e => rw [hk] at h; simp at h
  | ok u =>
    rw [hk] at h
    simp only at h
    cases hg : env.loadGeoCoordinate (json.get "plannedHomePosition") true with
    | error e => rw [hg] at h; simp at h
    | ok home =>
      rw [hg] at h
      simp only at h
      cases hl : loadItemsV2 env 0 (json.get "items").toArray 1
          (loadMissionSettingsV2 env vehicle json home st) with
      | mk flag st1 =>
        rw [hl] at h
        cases flag with
        | false => simp at h
        | true =>
          simp only at h
          rcases doJumpFixup_spec st1.visualItems with ⟨_, hfix⟩ | ⟨_, e, he, _⟩
          · rw [hfix] at h
            simp only [Prod.mk.injEq, true_and] at h
            subst h
            have herr1 : st1.errorString = "" := herr
            obtain ⟨_, _, ws, hws, hlen, hchain⟩ :=
              loadItemsV2_loadedInOrder env _ 0 1 _ st1 hl herr1
            have hfirst : (loadMissionSettingsV2 env vehicle json home st).visualItems =
                [(env.allocSettings st.nextObj).setCoordinate home] := by
              simp [loadMissionSettingsV2, hlist, listInsert]
            rw [hfirst] at hws
            have hset : ((env.allocSettings st.nextObj).setCoordinate home).isDoJump = false := by
              simp [VisualItem.isDoJump, VisualItem.isSimpleItem, VisualItem.setCoordinate,
                Env.allocSettings]
            refine ⟨home, (env.allocSettings st.nextObj).setCoordinate home,
              ws.map (fixedItem st1.visualItems), rfl, ?_, ?_, ?_, ?_, ?_, ?_⟩
            · show st1.visualItems.map (fixedItem st1.visualItems) = _
              have e : ∀ f : VisualItem → VisualItem, st1.visualItems.map f =
                  f ((env.allocSettings st.nextObj).setCoordinate home) :: ws.map f := by
                intro f
                rw [hws]
                rfl
              rw [e, fixedItem_of_not_doJump _ _ hset]
            · simp [VisualItem.isSettingsItem, VisualItem.setCoordinate, Env.allocSettings]
            · simp [VisualItem.setCoordinate]
            · simp [hlen]
            · exact loadedInOrder_map_fixedItem env _ _ 1 ws hchain
            · intro hs hsimple
              have := loadedInOrder_simple_sequence env hs _ 1 _ hsimple
                (loadedInOrder_map_fixedItem env st1.visualItems _ 1 ws hchain)
              rw [this]
              apply List.map_congr_left
              intro k _
              omega
          · cases hfix : doJumpFixup st1.visualItems with
            | mk err items =>
              rw [hfix] at he h
              simp only at he
              subst he
              simp at h

set_option maxRecDepth 100000 in
/-- Witness for C11: the document `twoWaypointDocument` (home 47/8/500, two waypoints) loads
into the settings item followed by two simple items with sequence numbers 1 and 2. -/
theorem loadJsonMissionFileV2_items_witness :
    (_loadJsonMissionFileV2 specEnv offlineVehicle twoWaypointDocument
      emptyLoadState).2.visualItems.map (fun v => (v.kind, v.sequenceNumber, v.coordinate)) =
        [(ItemKind.settings, 0, { latitude := 47, longitude := 8, altitude := 500 }),
         (ItemKind.simple, 1, { latitude := 47, longitude := 8, altitude := 10 }),
         (ItemKind.simple, 2, { latitude := 47, longitude := 8, altitude := 10 })] ∧
    ∃ home settingsItem loaded,
      specEnv.loadGeoCoordinate (twoWaypointDocument.get "plannedHomePosition") true =
        Except.ok home ∧
      (_loadJsonMissionFileV2 specEnv offlineVehicle twoWaypointDocument
        emptyLoadState).2.visualItems = settingsItem :: loaded ∧
      settingsItem.isSettingsItem = true ∧ settingsItem.coordinate = home ∧
      loaded.length = (twoWaypointDocument.get "items").toArray.length ∧
      LoadedInOrder specEnv (twoWaypointDocument.get "items").toArray 1 loaded ∧
      (specEnv.SimpleItemsSingleStep →
        (∀ e ∈ (twoWaypointDocument.get "items").toArray,
          (e.get specEnv.jsonTypeKey).toQString = specEnv.jsonTypeSimpleItemValue) →
        loaded.map (fun v => v.sequenceNumber) =
          (List.range loaded.length).map (fun k : Nat => (k : Int) + 1)) :=
  ⟨by decide,
   loadJsonMissionFileV2_items specEnv offlineVehicle twoWaypointDocument emptyLoadState
     (_loadJsonMissionFileV2 specEnv offlineVehicle twoWaypointDocument emptyLoadState).2
     rfl (by decide) (by decide)⟩

/-! ## The document written by `saveToFile` -/

theorem contains_insert_ne (json : QJsonValue) (key other : String) (value : QJsonValue)
    (h : other ≠ key) (hobj : json.isObject = true) :
    (json.insert key value).contains other = json.contains other := by
  cases json with
  | object o =>
    simp only [QJsonValue.insert, QJsonValue.contains]
    rw [lookup_append, lookup_filter_ne key other o h]
    cases QJsonValue.lookup other o with
    | some v => rfl
    | none => simp [QJsonValue.lookup, Ne.symm h]
  | _ => simp [QJsonValue.isObject] at hobj

theorem isObject_insert (json : QJsonValue) (key : String) (value : QJsonValue) :
    (json.insert key value).isObject = true := by
  cases json <;> rfl

/-- The document `saveToFile` writes has no member under a key that is none of the eight keys
it assigns. -/
theorem savedDocument_contains_other (env : Env) (vehicle : Vehicle) (first : VisualItem)
    (rest : List VisualItem) (key : String)
    (h1 : key ≠ env.jsonVersionKey) (h2 : key ≠ env.jsonGroundStationKey)
    (h3 : key ≠ "plannedHomePosition") (h4 : key ≠ "firmwareType") (h5 : key ≠ "vehicleType")
    (h6 : key ≠ "cruiseSpeed") (h7 : key ≠ "hoverSpeed") (h8 : key ≠ "items") :
    (savedDocument env vehicle first rest).contains key = false := by
  unfold savedDocument
  simp only
  rw [contains_insert_ne _ _ _ _ h8 (isObject_insert _ _ _),
    contains_insert_ne _ _ _ _ h7 (isObject_insert _ _ _),
    contains_insert_ne _ _ _ _ h6 (isObject_insert _ _ _),
    contains_insert_ne _ _ _ _ h5 (isObject_insert _ _ _),
    contains_insert_ne _ _ _ _ h4 (isObject_insert _ _ _),
    contains_insert_ne _ _ _ _ h3 (isObject_insert _ _ _),
    contains_insert_ne _ _ _ _ h2 (isObject_insert _ _ _),
    contains_insert_ne _ _ _ _ h1 (rfl : (QJsonValue.object []).isObject = true)]
  rfl

set_option maxRecDepth 100000 in
/-- C12 (failing input): saving the plan of `twoItemController` (settings item, takeoff,
waypoint) writes a root object with `version` 2, the ground station identifier,
`plannedHomePosition` with altitude, firmware and vehicle type, cruise and hover speed and the
array of the saved items in list order, and with no member `fileType`: the file type tag is
not written. -/
theorem saveToFile_writes_no_fileType :
    saveToFile specEnv twoItemController "plan.mission" true =
      some (some (savedDocument specEnv offlineVehicle twoItemFirst twoItemRest)) ∧
    (savedDocument specEnv offlineVehicle twoItemFirst twoItemRest).contains "fileType" = false ∧
    ((savedDocument specEnv offlineVehicle twoItemFirst twoItemRest).get "version").toDouble = 2 ∧
    ((savedDocument specEnv offlineVehicle twoItemFirst twoItemRest).get
      "groundStation").toQString = "QGroundControl" ∧
    specLoadGeoCoordinate ((savedDocument specEnv offlineVehicle twoItemFirst twoItemRest).get
      "plannedHomePosition") true = Except.ok twoItemFirst.coordinate ∧
    ["firmwareType", "vehicleType", "cruiseSpeed", "hoverSpeed"].map
      (fun key => ((savedDocument specEnv offlineVehicle twoItemFirst twoItemRest).get
        key).toDouble) = [12, 2, 15, 5] ∧
    ((savedDocument specEnv offlineVehicle twoItemFirst twoItemRest).get "items").toArray =
      entriesOf specEnv (twoItemFirst :: twoItemRest) := by
  refine ⟨rfl, ?_, by decide, by decide, rfl, by decide, rfl⟩
  exact savedDocument_contains_other specEnv offlineVehicle twoItemFirst twoItemRest "fileType"
    (by decide) (by decide) (by decide) (by decide) (by decide) (by decide) (by decide)
    (by decide)

/-! ## The header of a legacy text file -/

theorem splitOnChar_ne_nil (sep : Char) (l : List Char) : splitOnChar sep l ≠ [] := by
  cases l with
  | nil => simp [splitOnChar]
  | cons c cs =>
    unfold splitOnChar
    split
    · simp
    · split <;> simp

theorem joinWith_cons_cons (sep c : Char) (w : List Char) (ws : List (List Char)) :
    joinWith sep ((c :: w) :: ws) = c :: joinWith sep (w :: ws) := by
  cases ws with
  | nil => rfl
  | cons w1 ws => rfl

theorem joinWith_splitOnChar (sep : Char) (l : List Char) :
    joinWith sep (splitOnChar sep l) = l := by
  induction l with
  | nil => rfl
  | cons c cs ih =>
    unfold splitOnChar
    cases hs : splitOnChar sep cs with
    | nil => exact absurd hs (splitOnChar_ne_nil sep cs)
    | cons w ws =>
      rw [hs] at ih
      simp only
      by_cases hc : c = sep
      · simp only [hc, if_true]
        show [] ++ sep :: joinWith sep (w :: ws) = sep :: cs
        rw [ih]
        rfl
      · simp only [hc, if_false]
        rw [joinWith_cons_cons, ih]

theorem legacyHeader_accepts (firstLine : String) :
    (legacyHeader firstLine).1 = true ↔
      (firstLine = "QGC WPL 110" ∨ firstLine = "QGC WPL 120") := by
  constructor
  · intro h
    have hj := joinWith_splitOnChar ' ' firstLine.toList
    unfold legacyHeader at h
    unfold splitOnSpace at h
    split at h
    · rename_i v0 v1 v2 hsplit
      rw [hsplit] at hj
      split at h
      · rename_i h01
        simp only [Bool.and_eq_true, decide_eq_true_eq] at h01
        obtain ⟨e0, e1⟩ := h01
        split at h
        · rename_i h110
          left
          apply String.ext
          show firstLine.toList = _
          rw [← hj, e0, e1, h110]
          rfl
        · split at h
          · rename_i h120
            right
            apply String.ext
            show firstLine.toList = _
            rw [← hj, e0, e1, h120]
            rfl
          · exact absurd h (by decide)
      · exact absurd h (by decide)
    · exact absurd h (by decide)
  · rintro (h | h) <;> subst h <;> decide

/-- C13: `_loadTextMissionFile` accepts the header exactly when the first line is
`QGC WPL 110` or `QGC WPL 120`; for every other first line it returns false with the message
that the file is not compatible, and the list it was given is left as it was. -/
theorem loadTextMissionFile_header (env : Env) (lines : List String) (st : LoadState) :
    ((legacyHeader (lines.headD "")).1 = true ↔
      (lines.headD "" = "QGC WPL 110" ∨ lines.headD "" = "QGC WPL 120")) ∧
    (¬ (lines.headD "" = "QGC WPL 110" ∨ lines.headD "" = "QGC WPL 120") →
      _loadTextMissionFile env lines st =
        (false, st.setError ("The mission file is not compatible with this version of " ++
          env.applicationName ++ ".")) ∧
      (_loadTextMissionFile env lines st).2.visualItems = st.visualItems) := by
  refine ⟨legacyHeader_accepts _, fun hno => ?_⟩
  have hv : (legacyHeader (lines.headD "")).1 = false := by
    cases hb : (legacyHeader (lines.headD "")).1 with
    | false => rfl
    | true => exact absurd ((legacyHeader_accepts _).mp hb) hno
  have e : _loadTextMissionFile env lines st =
      (false, st.setError ("The mission file is not compatible with this version of " ++
        env.applicationName ++ ".")) := by
    unfold _loadTextMissionFile
    simp only [hv, Bool.false_eq_true, if_false]
  exact ⟨e, by rw [e]; rfl⟩

set_option maxRecDepth 100000 in
/-- Witness for C13: a file whose first line is `QGC WPL 130`. -/
theorem loadTextMissionFile_header_witness :
    _loadTextMissionFile specEnv legacy130File emptyLoadState =
      (false, emptyLoadState.setError
        ("The mission file is not compatible with this version of " ++
          specEnv.applicationName ++ ".")) ∧
    (_loadTextMissionFile specEnv legacy130File emptyLoadState).2.visualItems =
      emptyLoadState.visualItems :=
  (loadTextMissionFile_header specEnv legacy130File emptyLoadState).2 (by decide)

/-! ## Legacy text files of version 120 -/

theorem addMissionSettings_eq (env : Env) (items : List VisualItem) (addToCenter : Bool)
    (oid : Nat) :
    ∃ s, _addMissionSettings env items addToCenter oid = s :: items ∧
      s.isSettingsItem = true ∧ s.oid = oid := by
  unfold _addMissionSettings
  simp only
  split_ifs <;>
    exact ⟨_, rfl, by simp [VisualItem.isSettingsItem, VisualItem.setCoordinate,
      Env.allocSettings], by simp [VisualItem.setCoordinate, Env.allocSettings]⟩

theorem loadTextItems_wellFormed (env : Env) (lines : List String) (st : LoadState)
    (hwell : ∀ line ∈ lines, ∀ fresh, (env.simpleLoadStream fresh line).isSome = true) :
    ∃ ws, loadTextItems env lines st =
        (true, { st with visualItems := st.visualItems ++ ws
                         nextObj := st.nextObj + lines.length }) ∧
      List.Forall₂ (fun line w => ∃ oid loaded,
        env.simpleLoadStream (env.allocSimple oid) line = some loaded ∧
          w = loadedInto (env.allocSimple oid) loaded) lines ws := by
  induction lines generalizing st with
  | nil => exact ⟨[], by simp [loadTextItems], List.Forall₂.nil⟩
  | cons line rest ih =>
    have h1 := hwell line (List.mem_cons_self _ _) (env.allocSimple st.nextObj)
    cases hl : env.simpleLoadStream (env.allocSimple st.nextObj) line with
    | none => rw [hl] at h1; exact absurd h1 (by decide)
    | some loaded =>
      obtain ⟨ws, hws, hrel⟩ := ih (st.alloc.append (loadedInto (env.allocSimple st.nextObj) loaded))
        (fun l hl' => hwell l (List.mem_cons_of_mem _ hl'))
      refine ⟨loadedInto (env.allocSimple st.nextObj) loaded :: ws, ?_,
        List.Forall₂.cons ⟨st.nextObj, loaded, hl, rfl⟩ hrel⟩
      unfold loadTextItems
      simp only [hl]
      rw [hws]
      simp [LoadState.append, LoadState.alloc, Nat.add_assoc, Nat.add_comm 1]

theorem forall₂_parsedFrom (env : Env) (lines : List String) (ws : List VisualItem)
    (h : List.Forall₂ (fun line w => ∃ oid loaded,
        env.simpleLoadStream (env.allocSimple oid) line = some loaded ∧
          w = loadedInto (env.allocSimple oid) loaded) lines ws) :
    List.Forall₂ (ParsedFrom env) lines (ws.map shiftDoJump) ∧
    ∀ v ∈ ws.map shiftDoJump, v.isSimpleItem = true := by
  induction h with
  | nil => exact ⟨List.Forall₂.nil, by simp⟩
  | cons hhead _ ih =>
    obtain ⟨oid, loaded, hl, hw⟩ := hhead
    refine ⟨List.Forall₂.cons ⟨oid, loaded, hl, by rw [hw]⟩ ih.1, ?_⟩
    intro v hv
    rw [List.map_cons] at hv
    rcases List.mem_cons.mp hv with rfl | hv
    · subst hw
      unfold shiftDoJump
      split <;> simp [VisualItem.isSimpleItem, loadedInto, Env.allocSimple]
    · exact ih.2 v hv

/-- C14: for a legacy text file with header `QGC WPL 120` followed by `n` well-formed item
lines, `_loadTextMissionFile` returns true and leaves `n + 1` items in the (new, empty) list
it is given: a new settings item at index 0, followed by the `n` simple items parsed from the
lines, in file order; with no item line the list is exactly the settings item. -/
theorem loadTextMissionFile_version120 (env : Env) (lines : List String) (st : LoadState)
    (hlist : st.visualItems = [])
    (hwell : ∀ line ∈ lines, ∀ fresh, (env.simpleLoadStream fresh line).isSome = true) :
    ∃ st1 settingsItem items,
      _loadTextMissionFile env ("QGC WPL 120" :: lines) st = (true, st1) ∧
      st1.errorString = st.errorString ∧
      st1.visualItems = settingsItem :: items ∧
      settingsItem.isSettingsItem = true ∧
      items.length = lines.length ∧
      List.Forall₂ (ParsedFrom env) lines items ∧
      (∀ v ∈ items, v.isSimpleItem = true) ∧
      (lines = [] → st1.visualItems = [settingsItem]) := by
  obtain ⟨ws, hws, hrel⟩ := loadTextItems_wellFormed env lines st hwell
  obtain ⟨s, hs, hset, _⟩ := addMissionSettings_eq env (st.visualItems ++ ws) true
    (st.nextObj + lines.length)
  obtain ⟨hparsed, hsimple⟩ := forall₂_parsedFrom env lines ws hrel
  have hh : legacyHeader "QGC WPL 120" = (true, true) := by decide
  have hlen : ws.length = lines.length := hrel.length_eq.symm
  refine ⟨{ st with visualItems := s :: ws.map shiftDoJump
                    nextObj := st.nextObj + lines.length + 1 }, s, ws.map shiftDoJump,
    ?_, rfl, rfl, hset, by simp [hlen], hparsed, hsimple, ?_⟩
  · unfold _loadTextMissionFile
    simp only [List.headD_cons, List.tail_cons, hh, if_true, hws, Bool.true_or, hs]
    simp [hlist]
  · intro hnil
    subst hnil
    have : ws = [] := List.length_eq_zero.mp hlen
    simp [this]

theorem twoItemLines_wellFormed :
    ∀ line ∈ twoItemLines, ∀ fresh, (specEnv.simpleLoadStream fresh line).isSome = true := by
  intro line hl fresh
  simp only [twoItemLines, List.mem_cons, List.mem_singleton, List.not_mem_nil, or_false] at hl
  rcases hl with rfl | rfl <;> rfl

set_option maxRecDepth 100000 in
/-- Witness for C14: the header `QGC WPL 120` followed by the two lines of `twoItemLines`
loads into a settings item followed by two simple items. -/
theorem loadTextMissionFile_version120_witness :
    (_loadTextMissionFile specEnv ("QGC WPL 120" :: twoItemLines)
      emptyLoadState).2.visualItems.map (fun v => (v.kind, v.command)) =
        [(ItemKind.settings, 0), (ItemKind.simple, 16), (ItemKind.simple, 16)] ∧
    ∃ st1 settingsItem items,
      _loadTextMissionFile specEnv ("QGC WPL 120" :: twoItemLines) emptyLoadState =
        (true, st1) ∧
      st1.errorString = emptyLoadState.errorString ∧
      st1.visualItems = settingsItem :: items ∧
      settingsItem.isSettingsItem = true ∧
      items.length = twoItemLines.length ∧
      List.Forall₂ (ParsedFrom specEnv) twoItemLines items ∧
      (∀ v ∈ items, v.isSimpleItem = true) ∧
      (twoItemLines = [] → st1.visualItems = [settingsItem]) :=
  ⟨by decide,
   loadTextMissionFile_version120 specEnv twoItemLines emptyLoadState rfl
     twoItemLines_wellFormed⟩

/-! ## The merge loop of the V1 loader -/

theorem getElem?_of_drop_eq_cons {α : Type} (l : List α) (i : Nat) (a : α) (t : List α)
    (h : l.drop i = a :: t) : l[i]? = some a ∧ l.drop (i + 1) = t ∧ i < l.length := by
  induction l generalizing i with
  | nil => simp at h
  | cons x l ih =>
    cases i with
    | zero =>
      simp only [List.drop_zero, List.cons.injEq] at h
      obtain ⟨rfl, rfl⟩ := h
      simp
    | succ i =>
      simp only [List.drop_succ_cons] at h
      obtain ⟨h1, h2, h3⟩ := ih i h
      exact ⟨by simpa using h1, by simpa using h2, by simp; omega⟩

theorem getElem?_of_drop_eq_nil {α : Type} (l : List α) (i : Nat) (h : l.drop i = []) :
    l[i]? = none ∧ l.length ≤ i := by
  have hle : l.length ≤ i := List.drop_eq_nil_iff.mp h
  exact ⟨List.getElem?_eq_none hle, hle⟩

theorem mergeLoopV1_done (env : Env) (surveys : List VisualItem) (itemArray : List QJsonValue)
    (fuel : Nat) (m : MergeLoopState) (st : LoadState)
    (hc : surveys.length ≤ m.nextComplexItemIndex)
    (hs : itemArray.length ≤ m.nextSimpleItemIndex) :
    mergeLoopV1 env surveys itemArray (fuel + 1) m st = some (true, st) := by
  have h1 : surveys[m.nextComplexItemIndex]? = none := List.getElem?_eq_none hc
  have h2 : itemArray[m.nextSimpleItemIndex]? = none := List.getElem?_eq_none hs
  have h3 : ¬ m.nextSimpleItemIndex < itemArray.length := by omega
  have h4 : ¬ m.nextComplexItemIndex < surveys.length := by omega
  unfold mergeLoopV1
  simp [h1, h2, h3, h4]

theorem mergeLoopV1_inject (env : Env) (surveys : List VisualItem)
    (itemArray : List QJsonValue) (fuel : Nat) (m : MergeLoopState) (st : LoadState)
    (c : VisualItem) (hc : surveys[m.nextComplexItemIndex]? = some c)
    (hseq : c.sequenceNumber = m.nextSequenceNumber) :
    mergeLoopV1 env surveys itemArray (fuel + 1) m st =
      if m.nextSimpleItemIndex < itemArray.length ∨
          m.nextComplexItemIndex + 1 < surveys.length then
        mergeLoopV1 env surveys itemArray fuel
          { m with nextSequenceNumber := c.lastSequenceNumber + 1
                   nextComplexItemIndex := m.nextComplexItemIndex + 1 } (st.append c)
      else some (true, st.append c) := by
  conv_lhs => unfold mergeLoopV1
  simp [hc, hseq]

theorem mergeLoopV1_simple (env : Env) (surveys : List VisualItem)
    (itemArray : List QJsonValue) (fuel : Nat) (m : MergeLoopState) (st : LoadState)
    (itemValue : QJsonValue) (loaded : VisualItem)
    (hno : ∀ c, surveys[m.nextComplexItemIndex]? = some c →
      c.sequenceNumber ≠ m.nextSequenceNumber)
    (he : itemArray[m.nextSimpleItemIndex]? = some itemValue)
    (hobj : itemValue.isObject = true)
    (hl : env.simpleLoad (env.allocSimple st.nextObj) itemValue (itemValue.get "id").toInt =
      Except.ok loaded) :
    mergeLoopV1 env surveys itemArray (fuel + 1) m st =
      if m.nextSimpleItemIndex + 1 < itemArray.length ∨
          m.nextComplexItemIndex < surveys.length then
        mergeLoopV1 env surveys itemArray fuel
          { m with nextSimpleItemIndex := m.nextSimpleItemIndex + 1
                   nextSequenceNumber :=
                     (loadedInto (env.allocSimple st.nextObj) loaded).lastSequenceNumber + 1 }
          (st.alloc.append (loadedInto (env.allocSimple st.nextObj) loaded))
      else some (true, st.alloc.append (loadedInto (env.allocSimple st.nextObj) loaded)) := by
  conv_lhs => unfold mergeLoopV1
  cases hc : surveys[m.nextComplexItemIndex]? with
  | none => simp [he, hobj, hl, LoadState.alloc]
  | some c =>
    have := hno c hc
    simp [he, hobj, hl, this, LoadState.alloc]

theorem loadSimpleItemsV1_nil (env : Env) (oid : Nat) (entries : List QJsonValue)
    (h : loadSimpleItemsV1 env entries oid = some []) : entries = [] := by
  cases entries with
  | nil => rfl
  | cons e rest =>
    unfold loadSimpleItemsV1 at h
    split at h
    · simp at h
    · split at h
      · cases hr : loadSimpleItemsV1 env rest (oid + 1) with
        | none => rw [hr] at h; simp at h
        | some ws => rw [hr] at h; simp at h
      · simp at h

theorem loadSimpleItemsV1_cons (env : Env) (oid : Nat) (entries : List QJsonValue)
    (s : VisualItem) (ss : List VisualItem)
    (h : loadSimpleItemsV1 env entries oid = some (s :: ss)) :
    ∃ e rest loaded, entries = e :: rest ∧ e.isObject = true ∧
      env.simpleLoad (env.allocSimple oid) e (e.get "id").toInt = Except.ok loaded ∧
      s = loadedInto (env.allocSimple oid) loaded ∧
      loadSimpleItemsV1 env rest (oid + 1) = some ss := by
  cases entries with
  | nil => simp [loadSimpleItemsV1] at h
  | cons e rest =>
    unfold loadSimpleItemsV1 at h
    by_cases hobj : e.isObject = true
    · simp only [hobj, Bool.not_true, Bool.false_eq_true, if_false] at h
      cases hl : env.simpleLoad (env.allocSimple oid) e (e.get "id").toInt with
      | error msg => rw [hl] at h; simp at h
      | ok loaded =>
        rw [hl] at h
        cases hr : loadSimpleItemsV1 env rest (oid + 1) with
        | none => rw [hr] at h; simp at h
        | some ws =>
          rw [hr] at h
          simp only [Option.map_some', Option.some.injEq, List.cons.injEq] at h
          obtain ⟨h1, h2⟩ := h
          exact ⟨e, rest, loaded, rfl, hobj, hl, h1.symm, by rw [hr, h2]⟩
    · simp [hobj] at h

theorem mergeOrder_nil (n : Int) (merged : List VisualItem)
    (h : MergeOrder n [] [] merged) : merged = [] := by
  cases h
  rfl

/-- The merge loop follows the merge order: started at the simple and complex items that
are still unread, with fuel for one iteration per item and one more, it appends the merged
arrangement and returns true. -/
theorem mergeLoopV1_mergeOrder (env : Env) (surveys : List VisualItem)
    (itemArray : List QJsonValue) (n : Int) (simples complexes merged : List VisualItem)
    (horder : MergeOrder n simples complexes merged) :
    ∀ (fuel : Nat) (m : MergeLoopState) (st : LoadState),
      m.nextSequenceNumber = n →
      surveys.drop m.nextComplexItemIndex = complexes →
      loadSimpleItemsV1 env (itemArray.drop m.nextSimpleItemIndex) st.nextObj = some simples →
      simples.length + complexes.length < fuel →
      mergeLoopV1 env surveys itemArray fuel m st =
        some (true, { st with visualItems := st.visualItems ++ merged
                              nextObj := st.nextObj + simples.length }) := by
  induction horder with
  | done n =>
    intro fuel m st _ hc hs hfuel
    obtain ⟨f, rfl⟩ : ∃ f, fuel = f + 1 := ⟨fuel - 1, by omega⟩
    have hs' := loadSimpleItemsV1_nil env _ _ hs
    rw [mergeLoopV1_done env surveys itemArray f m st
      (getElem?_of_drop_eq_nil _ _ hc).2 (getElem?_of_drop_eq_nil _ _ hs').2]
    simp
  | complex n c simples complexes merged hseq _ ih =>
    intro fuel m st hn hc hs hfuel
    obtain ⟨f, rfl⟩ : ∃ f, fuel = f + 1 := ⟨fuel - 1, by omega⟩
    obtain ⟨hget, hdrop, _⟩ := getElem?_of_drop_eq_cons _ _ _ _ hc
    rw [mergeLoopV1_inject env surveys itemArray f m st c hget (by rw [hseq, hn])]
    split
    · have hrec := ih f
        { m with nextSequenceNumber := c.lastSequenceNumber + 1
                 nextComplexItemIndex := m.nextComplexItemIndex + 1 } (st.append c) rfl hdrop hs
        (by simp at hfuel; omega)
      rw [hrec]
      simp [LoadState.append]
    · rename_i hcond
      have h1 : itemArray.length ≤ m.nextSimpleItemIndex := by omega
      have h2 : surveys.length ≤ m.nextComplexItemIndex + 1 := by omega
      have e1 : simples = [] := by
        rw [List.drop_eq_nil_iff.mpr h1] at hs
        simpa [loadSimpleItemsV1] using hs.symm
      have e2 : complexes = [] := by
        rw [← hdrop]
        exact List.drop_eq_nil_iff.mpr h2
      subst e1 e2
      rename_i hrest
      have := mergeOrder_nil _ _ hrest
      subst this
      simp [LoadState.append]
  | simple n s simples complexes merged hno _ ih =>
    intro fuel m st hn hc hs hfuel
    obtain ⟨f, rfl⟩ : ∃ f, fuel = f + 1 := ⟨fuel - 1, by omega⟩
    obtain ⟨e, rest, loaded, hent, hobj, hl, hsdef, hrest⟩ := loadSimpleItemsV1_cons env _ _ _ _ hs
    obtain ⟨hget, hdrop, _⟩ := getElem?_of_drop_eq_cons _ _ _ _ hent
    have hno' : ∀ c, surveys[m.nextComplexItemIndex]? = some c →
        c.sequenceNumber ≠ m.nextSequenceNumber := by
      intro c hc'
      rw [hn]
      apply hno c
      rw [← hc, List.head?_drop]
      exact hc'
    rw [mergeLoopV1_simple env surveys itemArray f m st e loaded hno' hget hobj hl]
    rw [← hsdef]
    split
    · have hrec := ih f
        { m with nextSimpleItemIndex := m.nextSimpleItemIndex + 1
                 nextSequenceNumber := s.lastSequenceNumber + 1 } (st.alloc.append s) rfl hc
        (by simpa [LoadState.alloc, LoadState.append, hdrop] using hrest)
        (by simp at hfuel; omega)
      rw [hrec]
      simp [LoadState.append, LoadState.alloc, Nat.add_assoc, Nat.add_comm 1]
    · rename_i hcond
      have h1 : itemArray.length ≤ m.nextSimpleItemIndex + 1 := by omega
      have h2 : surveys.length ≤ m.nextComplexItemIndex := by omega
      have e1 : simples = [] := by
        rw [← hdrop, List.drop_eq_nil_iff.mpr h1] at hrest
        simpa [loadSimpleItemsV1] using hrest.symm
      have e2 : complexes = [] := by
        rw [← hc]
        exact List.drop_eq_nil_iff.mpr h2
      subst e1 e2
      rename_i hrest'
      have := mergeOrder_nil _ _ hrest'
      subst this
      simp [LoadState.append, LoadState.alloc]

theorem loadComplexItemsV1_some (env : Env) (entries : List QJsonValue)
    (acc : List VisualItem) (st st1 : LoadState) (surveys : List VisualItem)
    (h : loadComplexItemsV1 env entries acc st = (some surveys, st1)) :
    st1.visualItems = st.visualItems ∧
    ∃ new, surveys = acc ++ new ∧ ∀ v ∈ new, v.isSimpleItem = false := by
  induction entries generalizing acc st with
  | nil =>
    simp only [loadComplexItemsV1, Prod.mk.injEq, Option.some.injEq] at h
    obtain ⟨rfl, rfl⟩ := h
    exact ⟨rfl, [], by simp, by simp⟩
  | cons e rest ih =>
    unfold loadComplexItemsV1 at h
    by_cases hobj : e.isObject = true
    · simp only [hobj, Bool.not_true, Bool.false_eq_true, if_false] at h
      cases hl : env.surveyLoad (env.allocSurvey st.nextObj) e (e.get "id").toInt with
      | error msg => rw [hl] at h; simp at h
      | ok loaded =>
        rw [hl] at h
        obtain ⟨h1, new, h2, h3⟩ := ih _ _ h
        refine ⟨h1, loadedInto (env.allocSurvey st.nextObj) loaded :: new, by simp [h2], ?_⟩
        intro v hv
        rcases List.mem_cons.mp hv with rfl | hv
        · simp [VisualItem.isSimpleItem, loadedInto, Env.allocSurvey]
        · exact h3 v hv
    · simp [hobj] at h

theorem loadSimpleItemsV1_simple (env : Env) (entries : List QJsonValue) (oid : Nat)
    (simples : List VisualItem) (h : loadSimpleItemsV1 env entries oid = some simples) :
    ∀ v ∈ simples, v.isSimpleItem = true := by
  induction simples generalizing entries oid with
  | nil => simp
  | cons s ss ih =>
    obtain ⟨e, rest, loaded, _, _, _, hs, hrest⟩ := loadSimpleItemsV1_cons env _ _ _ _ h
    intro v hv
    rcases List.mem_cons.mp hv with rfl | hv
    · rw [hs]
      simp [VisualItem.isSimpleItem, loadedInto, Env.allocSimple]
    · exact ih rest (oid + 1) hrest v hv

theorem mergeOrder_properties (n : Int) (simples complexes merged : List VisualItem)
    (h : MergeOrder n simples complexes merged)
    (hs : ∀ v ∈ simples, v.isSimpleItem = true)
    (hc : ∀ v ∈ complexes, v.isSimpleItem = false) :
    ComplexAtDeclaredPosition n merged ∧
    merged.filter (fun v => v.isSimpleItem) = simples ∧
    merged.filter (fun v => !v.isSimpleItem) = complexes := by
  induction h with
  | done n => exact ⟨trivial, rfl, rfl⟩
  | complex n c simples complexes merged hseq _ ih =>
    have hck := hc c (List.mem_cons_self _ _)
    obtain ⟨h1, h2, h3⟩ := ih hs (fun v hv => hc v (List.mem_cons_of_mem _ hv))
    refine ⟨⟨fun _ => hseq, h1⟩, ?_, ?_⟩
    · rw [List.filter_cons_of_neg (by simp [hck]), h2]
    · rw [List.filter_cons_of_pos (by simp [hck]), h3]
  | simple n s simples complexes merged _ _ ih =>
    have hsk := hs s (List.mem_cons_self _ _)
    obtain ⟨h1, h2, h3⟩ := ih (fun v hv => hs v (List.mem_cons_of_mem _ hv)) hc
    refine ⟨⟨fun hno => ?_, h1⟩, ?_, ?_⟩
    · rw [hsk] at hno
      exact absurd hno (by decide)
    · rw [List.filter_cons_of_pos (by simp [hsk]), h2]
    · rw [List.filter_cons_of_neg (by simp [hsk]), h3]

/-- The V1 loader on a file whose items are in merge order: it returns true, and the list
it leaves is the settings item followed by the merged arrangement. -/
theorem loadJsonMissionFileV1_mergeOrder (env : Env) (fuel : Nat) (json : QJsonValue)
    (st st1 : LoadState) (surveys simples merged : List VisualItem)
    (hlist : st.visualItems = [])
    (hkeys : env.validateKeys json rootKeyInfoListV1 = Except.ok ())
    (hcomplex : loadComplexItemsV1 env (json.get "complexItems").toArray [] st =
      (some surveys, st1))
    (hsimple : loadSimpleItemsV1 env (json.get "items").toArray st1.nextObj = some simples)
    (horder : MergeOrder 1 simples surveys merged)
    (hhome : ∀ fresh, ∃ loaded,
      env.simpleLoad fresh (json.get "plannedHomePosition").toObject 0 = Except.ok loaded)
    (hfuel : simples.length + surveys.length < fuel) :
    ∃ st2 settingsItem, _loadJsonMissionFileV1 env fuel json st = some (true, st2) ∧
      st2.visualItems = settingsItem :: merged ∧ settingsItem.isSettingsItem = true := by
  have hloop := mergeLoopV1_mergeOrder env surveys (json.get "items").toArray 1 simples surveys
    merged horder fuel
    { nextSimpleItemIndex := 0, nextComplexItemIndex := 0, nextSequenceNumber := 1 } st1
    rfl rfl hsimple hfuel
  have hvis : st1.visualItems = [] := by
    rw [(loadComplexItemsV1_some env _ _ _ _ _ hcomplex).1, hlist]
  unfold _loadJsonMissionFileV1
  simp only [hkeys, hcomplex, hloop]
  by_cases hcontains : json.contains "plannedHomePosition" = true
  · simp only [hcontains, if_true]
    obtain ⟨loaded, hl⟩ := hhome (env.allocSimple (st1.nextObj + simples.length))
    simp only [hl]
    exact ⟨_, (env.allocSettings (st1.nextObj + simples.length + 1)).setCoordinate
        (loadedInto (env.allocSimple (st1.nextObj + simples.length)) loaded).coordinate, rfl,
      by simp [listInsert, hvis],
      by simp [VisualItem.isSettingsItem, VisualItem.setCoordinate, Env.allocSettings]⟩
  · simp only [hcontains, Bool.false_eq_true, if_false]
    obtain ⟨s, hs, hset, _⟩ := addMissionSettings_eq env (st1.visualItems ++ merged) true
      (st1.nextObj + simples.length)
    simp only [hs]
    exact ⟨_, s, rfl, by simp [hvis], hset⟩

/-- C15: for a V1 file whose complex items declare sequence numbers that interleave with the
simple items, `_loadJsonMissionFileV1`, given enough fuel for one iteration per item,
returns true and leaves the settings item at index 0 followed by a list in which every
complex item stands at its declared sequence position (its declared sequence number is its
predecessor's `lastSequenceNumber + 1`, or 1 when nothing precedes it), with the simple items
in their file order and the complex items in theirs. -/
theorem loadJsonMissionFileV1_interleaved (env : Env) (fuel : Nat) (json : QJsonValue)
    (st st1 : LoadState) (surveys simples merged : List VisualItem)
    (hlist : st.visualItems = [])
    (hkeys : env.validateKeys json rootKeyInfoListV1 = Except.ok ())
    (hcomplex : loadComplexItemsV1 env (json.get "complexItems").toArray [] st =
      (some surveys, st1))
    (hsimple : loadSimpleItemsV1 env (json.get "items").toArray st1.nextObj = some simples)
    (horder : MergeOrder 1 simples surveys merged)
    (hhome : ∀ fresh, ∃ loaded,
      env.simpleLoad fresh (json.get "plannedHomePosition").toObject 0 = Except.ok loaded)
    (hfuel : simples.length + surveys.length < fuel) :
    ∃ st2 settingsItem list, _loadJsonMissionFileV1 env fuel json st = some (true, st2) ∧
      st2.visualItems = settingsItem :: list ∧ settingsItem.isSettingsItem = true ∧
      ComplexAtDeclaredPosition 1 list ∧
      list.filter (fun v => v.isSimpleItem) = simples ∧
      list.filter (fun v => !v.isSimpleItem) = surveys := by
  obtain ⟨st2, settingsItem, h1, h2, h3⟩ := loadJsonMissionFileV1_mergeOrder env fuel json st st1
    surveys simples merged hlist hkeys hcomplex hsimple horder hhome hfuel
  obtain ⟨_, new, hnew, hkind⟩ := loadComplexItemsV1_some env _ _ _ _ _ hcomplex
  have hc : ∀ v ∈ surveys, v.isSimpleItem = false := by
    intro v hv
    rw [hnew] at hv
    exact hkind v (by simpa using hv)
  obtain ⟨p1, p2, p3⟩ := mergeOrder_properties 1 simples surveys merged horder
    (loadSimpleItemsV1_simple env _ _ _ hsimple) hc
  exact ⟨st2, settingsItem, merged, h1, h2, h3, p1, p2, p3⟩

theorem mergeOrder_of_check (merged : List VisualItem) :
    ∀ (n : Int) (simples complexes : List VisualItem),
      mergeOrderCheck n simples complexes merged = true →
        MergeOrder n simples complexes merged := by
  induction merged with
  | nil =>
    intro n simples complexes h
    simp only [mergeOrderCheck, Bool.and_eq_true, List.isEmpty_iff] at h
    obtain ⟨rfl, rfl⟩ := h
    exact MergeOrder.done n
  | cons x merged ih =>
    intro n simples complexes h
    unfold mergeOrderCheck at h
    cases complexes with
    | cons c complexes1 =>
      simp only at h
      split at h
      · rename_i hseq
        simp only [Bool.and_eq_true, decide_eq_true_eq] at h
        obtain ⟨rfl, h2⟩ := h
        exact MergeOrder.complex n c simples complexes1 merged hseq (ih _ _ _ h2)
      · rename_i hseq
        cases simples with
        | nil => simp at h
        | cons s simples1 =>
          simp only [Bool.and_eq_true, decide_eq_true_eq] at h
          obtain ⟨rfl, h2⟩ := h
          refine MergeOrder.simple n s simples1 (c :: complexes1) merged ?_ (ih _ _ _ h2)
          intro c1 hc1
          simp only [List.head?_cons, Option.some.injEq] at hc1
          rw [← hc1]
          exact hseq
    | nil =>
      simp only at h
      cases simples with
      | nil => simp at h
      | cons s simples1 =>
        simp only [Bool.and_eq_true, decide_eq_true_eq] at h
        obtain ⟨rfl, h2⟩ := h
        exact MergeOrder.simple n s simples1 [] merged (by simp) (ih _ _ _ h2)

theorem specSimpleLoad_home (fresh : VisualItem) (id command : Rat) :
    ∃ loaded, specEnv.simpleLoad fresh (simpleItemObjectV1 id command).toObject 0 =
      Except.ok loaded := by
  exact ⟨_, rfl⟩

set_option maxRecDepth 100000 in
/-- Witness for C15: `interleavedV1Document` (takeoff with sequence number 1, a survey declaring
sequence number 2 and spanning three commands, a waypoint with sequence number 5) loads into
settings item, takeoff, survey, waypoint. -/
theorem loadJsonMissionFileV1_interleaved_witness :
    ((_loadJsonMissionFileV1 specEnv 10 interleavedV1Document emptyLoadState).map
      (fun r => r.2.visualItems.map (fun v => (v.kind, v.sequenceNumber, v.span)))) =
        some [(ItemKind.settings, 0, 1), (ItemKind.simple, 1, 1), (ItemKind.survey, 2, 3),
          (ItemKind.simple, 5, 1)] ∧
    ∃ st2 settingsItem list,
      _loadJsonMissionFileV1 specEnv 10 interleavedV1Document emptyLoadState =
        some (true, st2) ∧
      st2.visualItems = settingsItem :: list ∧ settingsItem.isSettingsItem = true ∧
      ComplexAtDeclaredPosition 1 list ∧
      list.filter (fun v => v.isSimpleItem) = interleavedSimples ∧
      list.filter (fun v => !v.isSimpleItem) = interleavedSurveys :=
  ⟨by decide,
   loadJsonMissionFileV1_interleaved specEnv 10 interleavedV1Document emptyLoadState
     (loadComplexItemsV1 specEnv (interleavedV1Document.get "complexItems").toArray []
       emptyLoadState).2
     interleavedSurveys interleavedSimples interleavedMerged rfl rfl (by decide) (by decide)
     (mergeOrder_of_check _ _ _ _ (by decide))
     (fun fresh => specSimpleLoad_home fresh 0 16) (by decide)⟩

/-! ## The merge loop and the merge by lower sequence number -/

theorem interleaving_perm (simples complexes merged : List VisualItem)
    (h : Interleaving simples complexes merged) : merged.Perm (simples ++ complexes) := by
  induction h with
  | nil => exact List.Perm.refl _
  | simple s simples complexes merged _ ih => exact List.Perm.cons s ih
  | complex c simples complexes merged _ ih =>
    exact (List.Perm.cons c ih).trans List.perm_middle.symm

theorem interleaving_nil_right (simples merged : List VisualItem)
    (h : Interleaving simples [] merged) : merged = simples := by
  induction simples generalizing merged with
  | nil => cases h; rfl
  | cons s ss ih =>
    cases h with
    | simple _ _ _ m h1 => rw [ih m h1]

theorem interleaving_nil_left (complexes merged : List VisualItem)
    (h : Interleaving [] complexes merged) : merged = complexes := by
  induction complexes generalizing merged with
  | nil => cases h; rfl
  | cons c cs ih =>
    cases h with
    | complex _ _ _ m h1 => rw [ih m h1]

theorem interleaving_of_mergeOrder (n : Int) (simples complexes merged : List VisualItem)
    (h : MergeOrder n simples complexes merged) : Interleaving simples complexes merged := by
  induction h with
  | done n => exact Interleaving.nil
  | complex n c simples complexes merged _ _ ih => exact Interleaving.complex c _ _ _ ih
  | simple n s simples complexes merged _ _ ih => exact Interleaving.simple s _ _ _ ih

theorem numberedFrom_le (merged : List VisualItem) :
    ∀ n : Int, numberedFrom n merged = true → ∀ x ∈ merged, n ≤ x.sequenceNumber := by
  induction merged with
  | nil => simp
  | cons v rest ih =>
    intro n h x hx
    simp only [numberedFrom, Bool.and_eq_true, decide_eq_true_eq] at h
    obtain ⟨⟨h1, h2⟩, h3⟩ := h
    rcases List.mem_cons.mp hx with rfl | hx
    · omega
    · have := ih _ h3 x hx
      omega

theorem mergeOrder_of_numbered (simples complexes merged : List VisualItem)
    (h : Interleaving simples complexes merged) :
    ∀ n : Int, numberedFrom n merged = true → MergeOrder n simples complexes merged := by
  induction h with
  | nil => intro n _; exact MergeOrder.done n
  | simple s simples complexes merged hinter ih =>
    intro n hn
    simp only [numberedFrom, Bool.and_eq_true, decide_eq_true_eq] at hn
    obtain ⟨⟨h1, h2⟩, h3⟩ := hn
    refine MergeOrder.simple n s simples complexes merged ?_ (ih _ h3)
    intro c hc
    have hmem : c ∈ merged := by
      apply (interleaving_perm _ _ _ hinter).mem_iff.mpr
      apply List.mem_append_right
      cases complexes with
      | nil => simp at hc
      | cons c0 cs =>
        simp only [List.head?_cons, Option.some.injEq] at hc
        rw [← hc]
        exact List.mem_cons_self _ _
    have := numberedFrom_le merged _ h3 c hmem
    omega
  | complex c simples complexes merged _ ih =>
    intro n hn
    simp only [numberedFrom, Bool.and_eq_true, decide_eq_true_eq] at hn
    obtain ⟨⟨h1, _⟩, h3⟩ := hn
    exact MergeOrder.complex n c simples complexes merged h1 (ih _ h3)

theorem specMerge_of_numbered (simples complexes merged : List VisualItem)
    (h : Interleaving simples complexes merged) :
    ∀ (n : Int) (fuel : Nat), numberedFrom n merged = true →
      simples.length + complexes.length ≤ fuel →
      specMergeLowerFirstFuel fuel simples complexes = merged := by
  induction h with
  | nil =>
    intro n fuel _ _
    cases fuel <;> rfl
  | simple s simples complexes merged hinter ih =>
    intro n fuel hn hfuel
    obtain ⟨f, rfl⟩ : ∃ f, fuel = f + 1 := ⟨fuel - 1, by simp at hfuel; omega⟩
    simp only [numberedFrom, Bool.and_eq_true, decide_eq_true_eq] at hn
    obtain ⟨⟨h1, h2⟩, h3⟩ := hn
    cases complexes with
    | nil =>
      rw [interleaving_nil_right _ _ hinter]
      rfl
    | cons c cs =>
      have hmem : c ∈ merged :=
        (interleaving_perm _ _ _ hinter).mem_iff.mpr
          (List.mem_append_right _ (List.mem_cons_self _ _))
      have hle := numberedFrom_le merged _ h3 c hmem
      have hlt : ¬ c.sequenceNumber ≤ s.sequenceNumber := by omega
      simp only [specMergeLowerFirstFuel, hlt, if_false]
      rw [ih _ f h3 (by simp at hfuel ⊢; omega)]
  | complex c simples complexes merged hinter ih =>
    intro n fuel hn hfuel
    obtain ⟨f, rfl⟩ : ∃ f, fuel = f + 1 := ⟨fuel - 1, by simp at hfuel; omega⟩
    simp only [numberedFrom, Bool.and_eq_true, decide_eq_true_eq] at hn
    obtain ⟨⟨h1, h2⟩, h3⟩ := hn
    cases simples with
    | nil =>
      rw [interleaving_nil_left _ _ hinter]
      rfl
    | cons s ss =>
      have hmem : s ∈ merged :=
        (interleaving_perm _ _ _ hinter).mem_iff.mpr
          (List.mem_append_left _ (List.mem_cons_self _ _))
      have hle := numberedFrom_le merged _ h3 s hmem
      have hlt : c.sequenceNumber ≤ s.sequenceNumber := by omega
      simp only [specMergeLowerFirstFuel, hlt, if_true]
      rw [ih _ f h3 (by simp at hfuel ⊢; omega)]

/-- C16 (amended): when the simple and the complex items of a V1 file are consistently
numbered -- arranged by their declared sequence numbers they form one list that starts at 1
and in which every item's number is its predecessor's `lastSequenceNumber + 1` -- the merge
loop of `_loadJsonMissionFileV1`, given fuel for one iteration per item, returns true and
appends that list, which is the merge of the two sources by lower sequence number (the
complex item on a tie) and contains every simple item and every complex item exactly
once. -/
theorem mergeLoopV1_lowerFirst (env : Env) (surveys : List VisualItem)
    (itemArray : List QJsonValue) (simples merged : List VisualItem) (st : LoadState)
    (fuel : Nat)
    (hsimple : loadSimpleItemsV1 env itemArray st.nextObj = some simples)
    (hinter : Interleaving simples surveys merged)
    (hnum : numberedFrom 1 merged = true)
    (hfuel : simples.length + surveys.length < fuel) :
    mergeLoopV1 env surveys itemArray fuel
        { nextSimpleItemIndex := 0, nextComplexItemIndex := 0, nextSequenceNumber := 1 } st =
      some (true, { st with visualItems := st.visualItems ++ merged
                            nextObj := st.nextObj + simples.length }) ∧
    merged = specMergeLowerFirst simples surveys ∧
    merged.Perm (simples ++ surveys) :=
  ⟨mergeLoopV1_mergeOrder env surveys itemArray 1 simples surveys merged
      (mergeOrder_of_numbered simples surveys merged hinter 1 hnum) fuel
      { nextSimpleItemIndex := 0, nextComplexItemIndex := 0, nextSequenceNumber := 1 } st
      rfl rfl hsimple hfuel,
   (specMerge_of_numbered simples surveys merged hinter 1 _ hnum (Nat.le_refl _)).symm,
   interleaving_perm simples surveys merged hinter⟩

set_option maxRecDepth 100000 in
/-- Witness for C16 (amended): the items of `interleavedV1Document`, numbered 1, 2 to 4, 5. -/
theorem mergeLoopV1_lowerFirst_witness :
    mergeLoopV1 specEnv interleavedSurveys (interleavedV1Document.get "items").toArray 10
        { nextSimpleItemIndex := 0, nextComplexItemIndex := 0, nextSequenceNumber := 1 }
        mergeStartState =
      some (true, { mergeStartState with
        visualItems := mergeStartState.visualItems ++ interleavedMerged
        nextObj := mergeStartState.nextObj + interleavedSimples.length }) ∧
    interleavedMerged = specMergeLowerFirst interleavedSimples interleavedSurveys ∧
    interleavedMerged.Perm (interleavedSimples ++ interleavedSurveys) :=
  mergeLoopV1_lowerFirst specEnv interleavedSurveys
    (interleavedV1Document.get "items").toArray interleavedSimples interleavedMerged
    mergeStartState 10 (by decide)
    (interleaving_of_mergeOrder 1 _ _ _ (mergeOrder_of_check _ _ _ _ (by decide)))
    (by decide) (by decide)

set_option maxRecDepth 100000 in
/-- C16 (counterexample): for the V1 document whose simple items declare the sequence numbers
3 and 1 and whose survey declares 2, the merge loop ends with the order 3, 1, 2 (the survey
is taken when the running sequence number reaches 2, after both simple items), while taking
the lower sequence number first gives 2, 3, 1. -/
theorem mergeLoopV1_not_lowerFirst :
    (mergeLoopV1 specEnv descendingSurveys (descendingV1Document.get "items").toArray 10
        { nextSimpleItemIndex := 0, nextComplexItemIndex := 0, nextSequenceNumber := 1 }
        mergeStartState).map
      (fun r => (r.1, r.2.visualItems.map (fun v => (v.kind, v.sequenceNumber)))) =
        some (true, [(ItemKind.simple, 3), (ItemKind.simple, 1), (ItemKind.survey, 2)]) ∧
    (specMergeLowerFirst descendingSimples descendingSurveys).map
      (fun v => (v.kind, v.sequenceNumber)) =
        [(ItemKind.survey, 2), (ItemKind.simple, 3), (ItemKind.simple, 1)] ∧
    (mergeLoopV1 specEnv descendingSurveys (descendingV1Document.get "items").toArray 10
        { nextSimpleItemIndex := 0, nextComplexItemIndex := 0, nextSequenceNumber := 1 }
        mergeStartState).map (fun r => r.2.visualItems) ≠
      some (specMergeLowerFirst descendingSimples descendingSurveys) ∧
    (_loadJsonMissionFileV1 specEnv 10 descendingV1Document emptyLoadState).map
      (fun r => (r.1, r.2.visualItems.map (fun v => (v.kind, v.sequenceNumber)))) =
        some (true, [(ItemKind.settings, 0), (ItemKind.simple, 3), (ItemKind.simple, 1),
          (ItemKind.survey, 2)]) := by
  refine ⟨by decide, by decide, by decide, by decide⟩

/-! ## A V1 file without planned home position -/

/-- Whenever the key validation rejects the root object, the V1 loader returns false before
it reads any item: the branch that adds a settings item for a file without
`plannedHomePosition` is not reached. -/
theorem loadJsonMissionFileV1_of_invalid_keys (env : Env) (fuel : Nat) (json : QJsonValue)
    (st : LoadState) (e : String)
    (h : env.validateKeys json rootKeyInfoListV1 = Except.error e) :
    _loadJsonMissionFileV1 env fuel json st = some (false, st.setError e) := by
  unfold _loadJsonMissionFileV1
  simp only [h]

set_option maxRecDepth 100000 in
/-- C17 (counterexample): a V1 document that has no key `plannedHomePosition` and is valid
otherwise is rejected: the root key list of `_loadJsonMissionFileV1` marks the key as
required, the loader returns false with the message of the key validation, no item is
loaded, and `loadItemsFromFile` returns false.  With a key validation that lets the object
pass, the same function reaches its branch for a missing key and puts a new settings item
at index 0. -/
theorem loadJsonMissionFileV1_without_home_rejected :
    v1DocumentWithoutHome.contains "plannedHomePosition" = false ∧
    (rootKeyInfoListV1.filter (fun info => info.key = "plannedHomePosition")).map
      (fun info => info.required) = [true] ∧
    _loadJsonMissionFileV1 specEnv 10 v1DocumentWithoutHome emptyLoadState =
      some (false, emptyLoadState.setError "Missing required key: plannedHomePosition") ∧
    (loadItemsFromFile specEnv 10 offlineVehicle "plan.mission"
        (Except.ok (jsonFile v1DocumentWithoutHome)) 1 constructed.appSettings).map
      (fun r => (r.ok, r.shownMessage)) =
        some (false, some "Missing required key: plannedHomePosition") ∧
    (_loadJsonMissionFileV1 lenientEnv 10 v1DocumentWithoutHome emptyLoadState).map
      (fun r => (r.1, r.2.visualItems.map (fun v => v.kind))) =
        some (true, [ItemKind.settings, ItemKind.simple]) := by
  refine ⟨by decide, by decide, by decide, by decide, by decide⟩

/-! ## The dirty flag -/

theorem recalcWaypointLines_flags (c c1 : MissionController)
    (h : _recalcWaypointLines c = some c1) :
    c1.dirty = c.dirty ∧ c1.editMode = c.editMode ∧ c1.activeVehicle = c.activeVehicle ∧
    c1.missionItemsRequested = c.missionItemsRequested := by
  obtain ⟨_, _, _, _, rfl⟩ := recalcWaypointLines_eq c c1 h
  exact ⟨rfl, rfl, rfl, rfl⟩

theorem recalcAll_flags (c c1 : MissionController) (h : _recalcAll c = some c1) :
    c1.dirty = c.dirty ∧ c1.editMode = c.editMode ∧ c1.activeVehicle = c.activeVehicle ∧
    c1.missionItemsRequested = c.missionItemsRequested := by
  unfold _recalcAll at h
  cases hv : c.visualItems with
  | none => rw [hv] at h; simp at h
  | some items =>
    rw [hv] at h
    simp only at h
    split at h
    · simp at h
    · have := recalcWaypointLines_flags _ c1 h
      exact this

/-- After `_recalcAll` on a list that starts with the settings item the controller holds a
list that starts with the settings item, with its flags as before. -/
theorem recalcAll_settingsFirst_flags (c : MissionController)
    (h : settingsFirst c.visualItems = true) :
    ∃ c1, _recalcAll c = some c1 ∧ settingsFirst c1.visualItems = true ∧
      c1.dirty = c.dirty ∧ c1.editMode = c.editMode ∧ c1.activeVehicle = c.activeVehicle ∧
      c1.missionItemsRequested = c.missionItemsRequested := by
  obtain ⟨c1, h1, h2⟩ := settingsFirst_recalcAll c h
  exact ⟨c1, h1, h2, recalcAll_flags c c1 h1⟩

theorem initAllVisualItems_flags (c : MissionController)
    (h : settingsFirst c.visualItems = true) :
    ∃ c1, _initAllVisualItems c = some c1 ∧ settingsFirst c1.visualItems = true ∧
      c1.dirty = false ∧ c1.editMode = c.editMode ∧ c1.activeVehicle = c.activeVehicle ∧
      c1.missionItemsRequested = c.missionItemsRequested := by
  cases hv : c.visualItems with
  | none => rw [hv] at h; simp [settingsFirst] at h
  | some items =>
    cases items with
    | nil => rw [hv] at h; simp [settingsFirst] at h
    | cons first rest =>
      rw [hv] at h
      simp only [settingsFirst] at h
      simp only [_initAllVisualItems, hv, h, if_true]
      have hs : ∀ x : MissionController, settingsFirst x.visualItems = true →
          x.editMode = c.editMode → x.activeVehicle = c.activeVehicle →
          x.missionItemsRequested = c.missionItemsRequested →
          ∃ c1, (match _recalcAll x with
            | none => none
            | some c1 => some (c1.setDirty false)) = some c1 ∧
            settingsFirst c1.visualItems = true ∧ c1.dirty = false ∧
            c1.editMode = c.editMode ∧ c1.activeVehicle = c.activeVehicle ∧
            c1.missionItemsRequested = c.missionItemsRequested := by
        intro x hx e1 e2 e3
        obtain ⟨c1, h1, h2, _, f2, f3, f4⟩ := recalcAll_settingsFirst_flags x hx
        exact ⟨c1.setDirty false, by rw [h1], h2, rfl, f2.trans e1, f3.trans e2, f4.trans e3⟩
      apply hs
      · simp only [settingsFirst, MissionController.setDirty]
        split <;> simpa [VisualItem.isSettingsItem, VisualItem.setCoordinate] using h
      · rfl
      · rfl
      · rfl

theorem removeAll_flags (env : Env) (c : MissionController) (items : List VisualItem)
    (hv : c.visualItems = some items) :
    ∃ c1, removeAll env c = some c1 ∧ settingsFirst c1.visualItems = true ∧
      c1.dirty = true ∧ c1.editMode = c.editMode ∧ c1.activeVehicle = c.activeVehicle ∧
      c1.missionItemsRequested = c.missionItemsRequested := by
  unfold removeAll
  rw [hv]
  simp only
  obtain ⟨c1, h1, h2, _, f2, f3, f4⟩ := initAllVisualItems_flags
    ({ c with visualItems := some (_addMissionSettings env [] false c.nextObj)
              nextObj := c.nextObj + 1
              dirty := false }.contentChanged)
    (settingsFirst_addMissionSettings env [] false _)
  rw [h1]
  exact ⟨c1.setDirty true, rfl, h2, rfl, f2, f3, f4⟩

/-- C18 (amended): on a plan whose item 0 is the settings item, `insertSimpleMissionItem` and
`insertComplexMissionItem` with one of the two known item names (at an index from 1 on),
`removeMissionItem` (at an index from 1 on) and `removeAll` return with the dirty flag raised;
`sendToVehicle`, and `saveToFile` with a non-empty file name, return with the dirty flag
lowered. -/
theorem edits_set_dirty (env : Env) (c : MissionController)
    (h : settingsFirst c.visualItems = true) :
    (∀ (coordinate : QGeoCoordinate) (i : Nat), 1 ≤ i →
      ∃ c1 seq, insertSimpleMissionItem env c coordinate i = some (c1, seq) ∧
        c1.dirty = true) ∧
    (∀ (itemName : String) (center : QGeoCoordinate) (i : Nat), 1 ≤ i →
      itemName = "Survey" ∨ itemName = "Fixed Wing Landing" →
      ∃ c1 seq, insertComplexMissionItem env c itemName center i = some (c1, seq) ∧
        c1.dirty = true) ∧
    (∀ index : Nat, 1 ≤ index → index < c.count →
      ∃ c1, removeMissionItem c index = some c1 ∧ c1.dirty = true) ∧
    (∃ c1, removeAll env c = some c1 ∧ c1.dirty = true) ∧
    (∃ c1, sendToVehicle c = some c1 ∧ c1.dirty = false) ∧
    (∀ (filename : String) (openOk : Bool), filename ≠ "" →
      ∃ c1, saveToFileState c filename openOk = some c1 ∧ c1.dirty = false) := by
  cases hv : c.visualItems with
  | none => rw [hv] at h; simp [settingsFirst] at h
  | some items =>
    have hitems : settingsFirst (some items) = true := by rw [← hv]; exact h
    refine ⟨?_, ?_, ?_, ?_, ?_, ?_⟩
    · intro coordinate i hi
      unfold insertSimpleMissionItem
      rw [hv]
      simp only
      obtain ⟨c1, h1, _, hd, _⟩ := recalcAll_settingsFirst_flags
        ({ c.setDirty false with
            visualItems :=
              some (listInsert items i
                (insertSimpleMissionItemNew env items c.nextObj coordinate i))
            nextObj := c.nextObj + 1 }.contentChanged)
        (settingsFirst_listInsert items i _ hitems hi)
      rw [h1]
      exact ⟨c1, _, rfl, hd⟩
    · intro itemName center i hi hname
      unfold insertComplexMissionItem
      rw [hv]
      simp only
      have key : ∀ newItem : VisualItem,
          ∃ c1 seq, (match _recalcAll ({ c.setDirty false with
              visualItems :=
                some (listInsert items i (newItem.setSequenceNumber (_nextSequenceNumber items)))
              nextObj := c.nextObj + 1 }.contentChanged) with
            | none => none
            | some c1 => some (c1, sequenceNumberOf c1 c.nextObj)) = some (c1, seq) ∧
            c1.dirty = true := by
        intro newItem
        obtain ⟨c1, h1, _, hd, _⟩ := recalcAll_settingsFirst_flags
          ({ c.setDirty false with
              visualItems :=
                some (listInsert items i (newItem.setSequenceNumber (_nextSequenceNumber items)))
              nextObj := c.nextObj + 1 }.contentChanged)
          (settingsFirst_listInsert items i _ hitems hi)
        rw [h1]
        exact ⟨c1, _, rfl, hd⟩
      rcases hname with rfl | rfl
      · simp only [if_true]
        exact key _
      · have hne : ¬ ("Fixed Wing Landing" = "Survey") := by decide
        simp only [hne, if_false, if_true]
        exact key _
    · intro index hi hlt
      simp only [MissionController.count, hv] at hlt
      unfold removeMissionItem
      rw [hv]
      simp only [hlt, if_true]
      obtain ⟨c1, h1, _⟩ := recalcAll_settingsFirst_flags
        ({ c with visualItems := some (items.eraseIdx index) }.contentChanged)
        (settingsFirst_eraseIdx items index hitems hi)
      rw [h1]
      exact ⟨c1.setDirty true, rfl, rfl⟩
    · obtain ⟨c1, h1, _, hd, _⟩ := removeAll_flags env c items hv
      exact ⟨c1, h1, hd⟩
    · unfold sendToVehicle
      rw [hv]
      exact ⟨_, rfl, rfl⟩
    · intro filename openOk hname
      unfold saveToFileState
      rw [hv]
      simp only [hname, if_false]
      cases openOk with
      | false => exact ⟨_, rfl, rfl⟩
      | true =>
        cases items with
        | nil => simp [settingsFirst] at hitems
        | cons first rest =>
          have hf : first.isSettingsItem = true := hitems
          simp only [Bool.not_true, Bool.false_eq_true, if_false, hf]
          exact ⟨_, rfl, rfl⟩

set_option maxRecDepth 100000 in
/-- Witness for C18 (amended): the plan of `twoItemController`. -/
theorem edits_set_dirty_witness :
    (∀ (coordinate : QGeoCoordinate) (i : Nat), 1 ≤ i →
      ∃ c1 seq, insertSimpleMissionItem specEnv twoItemController coordinate i =
        some (c1, seq) ∧ c1.dirty = true) ∧
    (∀ (itemName : String) (center : QGeoCoordinate) (i : Nat), 1 ≤ i →
      itemName = "Survey" ∨ itemName = "Fixed Wing Landing" →
      ∃ c1 seq, insertComplexMissionItem specEnv twoItemController itemName center i =
        some (c1, seq) ∧ c1.dirty = true) ∧
    (∀ index : Nat, 1 ≤ index → index < twoItemController.count →
      ∃ c1, removeMissionItem twoItemController index = some c1 ∧ c1.dirty = true) ∧
    (∃ c1, removeAll specEnv twoItemController = some c1 ∧ c1.dirty = true) ∧
    (∃ c1, sendToVehicle twoItemController = some c1 ∧ c1.dirty = false) ∧
    (∀ (filename : String) (openOk : Bool), filename ≠ "" →
      ∃ c1, saveToFileState twoItemController filename openOk = some c1 ∧
        c1.dirty = false) :=
  edits_set_dirty specEnv twoItemController (by decide)

set_option maxRecDepth 100000 in
/-- C18 (counterexample): the plan of `twoItemController` is dirty after its last insert, and
`sendToVehicle` returns with the dirty flag lowered; `insertComplexMissionItem` with an
unknown item name on the freshly started plan leaves the flag lowered, and `saveToFile` with
an empty file name leaves the flag of the dirty plan raised. -/
theorem sendToVehicle_clears_dirty :
    twoItemController.dirty = true ∧
    (sendToVehicle twoItemController).map (fun c => c.dirty) = some false ∧
    startedController.dirty = false ∧
    (insertComplexMissionItem specEnv startedController "Corridor"
      { latitude := 1, longitude := 2, altitude := 3 } 1).map (fun r => r.1.dirty) =
        some false ∧
    (saveToFileState twoItemController "" true).map (fun c => c.dirty) = some true := by
  refine ⟨by decide, by decide, by decide, by decide, by decide⟩

/-! ## Change of the active vehicle -/

theorem recalcAll_count (c c1 : MissionController) (h : _recalcAll c = some c1) :
    c1.count = c.count := by
  cases hv : c.visualItems with
  | none => unfold _recalcAll at h; rw [hv] at h; simp at h
  | some items =>
    obtain ⟨items1, h1, h2⟩ := recalcAll_visualItems c c1 items hv h
    have hlen := congrArg List.length h2
    simp only [List.length_map, _recalcSequence, recalcSequenceFrom_length] at hlen
    simp [MissionController.count, hv, h1, hlen]

theorem initAllVisualItems_count (c c1 : MissionController)
    (h : _initAllVisualItems c = some c1) : c1.count = c.count := by
  unfold _initAllVisualItems at h
  cases hv : c.visualItems with
  | none => rw [hv] at h; simp at h
  | some items =>
    cases items with
    | nil => rw [hv] at h; simp at h
    | cons first rest =>
      rw [hv] at h
      simp only at h
      split at h
      · split at h
        · simp at h
        · rename_i c0 hc0
          simp only [Option.some.injEq] at h
          subst h
          have := recalcAll_count _ _ hc0
          simpa [MissionController.count, MissionController.setDirty, hv] using this
      · simp only [Option.some.injEq] at h
        subst h
        rfl

theorem single_of_count (c : MissionController) (h : settingsFirst c.visualItems = true)
    (hc : c.count = 1) : ∃ s, c.visualItems = some [s] ∧ s.isSettingsItem = true := by
  cases hv : c.visualItems with
  | none => rw [hv] at h; simp [settingsFirst] at h
  | some items =>
    cases items with
    | nil => rw [hv] at h; simp [settingsFirst] at h
    | cons first rest =>
      rw [hv] at h
      simp only [MissionController.count, hv, List.length_cons] at hc
      have : rest = [] := List.length_eq_zero.mp (by omega)
      subst this
      exact ⟨first, rfl, h⟩

theorem removeAll_single (env : Env) (c : MissionController) (items : List VisualItem)
    (hv : c.visualItems = some items) :
    ∃ c1, removeAll env c = some c1 ∧ settingsFirst c1.visualItems = true ∧ c1.count = 1 ∧
      c1.dirty = true := by
  obtain ⟨c1, h1, h2, hd, _⟩ := removeAll_flags env c items hv
  refine ⟨c1, h1, h2, ?_, hd⟩
  unfold removeAll at h1
  rw [hv] at h1
  simp only at h1
  split at h1
  · simp at h1
  · rename_i c0 hc0
    simp only [Option.some.injEq] at h1
    subst h1
    have hcount := initAllVisualItems_count _ _ hc0
    obtain ⟨s, hs, _, _⟩ := addMissionSettings_eq env [] false c.nextObj
    simpa [MissionController.count, MissionController.setDirty,
      MissionController.contentChanged, hs] using hcount

theorem recalcWaypointLines_keeps (c : MissionController)
    (h : settingsFirst c.visualItems = true) :
    ∃ c1, _recalcWaypointLines c = some c1 ∧ c1.visualItems = c.visualItems ∧
      c1.dirty = c.dirty ∧ c1.editMode = c.editMode ∧ c1.activeVehicle = c.activeVehicle := by
  obtain ⟨c1, h1, h2⟩ := recalcWaypointLines_settingsFirst c h
  obtain ⟨f1, f2, f3, _⟩ := recalcWaypointLines_flags c c1 h1
  exact ⟨c1, h1, h2, f1, f2, f3⟩

theorem activeVehicleHomePositionChanged_keeps (c : MissionController)
    (homePosition : QGeoCoordinate) (h : settingsFirst c.visualItems = true) :
    ∃ c1, _activeVehicleHomePositionChanged c homePosition = some c1 ∧
      settingsFirst c1.visualItems = true ∧ c1.count = c.count ∧ c1.dirty = c.dirty ∧
      c1.activeVehicle = c.activeVehicle := by
  unfold _activeVehicleHomePositionChanged
  cases hv : c.visualItems with
  | none => rw [hv] at h; simp [settingsFirst] at h
  | some items =>
    cases items with
    | nil => rw [hv] at h; simp [settingsFirst] at h
    | cons first rest =>
      have hf : first.isSettingsItem = true := by rw [hv] at h; exact h
      by_cases hedit : c.editMode = true
      · have he : ¬ ((!c.editMode) = true) := by simp [hedit]
        rw [if_neg he]
        exact ⟨c, rfl, by rw [hv]; exact hf, rfl, rfl, rfl⟩
      · have he : (!c.editMode) = true := by simpa using hedit
        rw [if_pos he]
        simp only [hf, if_true]
        have key := fun (x : VisualItem) (hx : x.isSettingsItem = true) =>
          recalcWaypointLines_keeps { c with visualItems := some (x :: rest) }
            (by simpa [settingsFirst] using hx)
        split
        · obtain ⟨c1, h1, h2, f1, _, f3⟩ :=
            key { first.setCoordinate homePosition with showHomePosition := true }
              (by simpa [VisualItem.isSettingsItem, VisualItem.setCoordinate] using hf)
          refine ⟨c1, h1, ?_, ?_, f1, f3⟩
          · rw [h2]
            simpa [settingsFirst, VisualItem.isSettingsItem, VisualItem.setCoordinate] using hf
          · simp [MissionController.count, h2, hv]
        · exact ⟨c, rfl, by rw [hv]; exact hf, rfl, rfl, rfl⟩

theorem activeVehicleHomePositionAvailableChanged_keeps (c : MissionController)
    (homePositionAvailable : Bool) (h : settingsFirst c.visualItems = true) :
    ∃ c1, _activeVehicleHomePositionAvailableChanged c homePositionAvailable = some c1 ∧
      settingsFirst c1.visualItems = true ∧ c1.count = c.count ∧ c1.dirty = c.dirty ∧
      c1.activeVehicle = c.activeVehicle := by
  unfold _activeVehicleHomePositionAvailableChanged
  cases hv : c.visualItems with
  | none => rw [hv] at h; simp [settingsFirst] at h
  | some items =>
    cases items with
    | nil => rw [hv] at h; simp [settingsFirst] at h
    | cons first rest =>
      have hf : first.isSettingsItem = true := by rw [hv] at h; exact h
      by_cases hedit : c.editMode = true
      · have he : ¬ ((!c.editMode) = true) := by simp [hedit]
        rw [if_neg he]
        exact ⟨c, rfl, by rw [hv]; exact hf, rfl, rfl, rfl⟩
      · have he : (!c.editMode) = true := by simpa using hedit
        rw [if_pos he]
        simp only [hf, if_true]
        have key := fun (x : VisualItem) (hx : x.isSettingsItem = true) =>
          recalcWaypointLines_keeps { c with visualItems := some (x :: rest) }
            (by simpa [settingsFirst] using hx)
        obtain ⟨c1, h1, h2, f1, _, f3⟩ :=
          key { first with showHomePosition := homePositionAvailable }
            (by simpa [VisualItem.isSettingsItem] using hf)
        refine ⟨c1, h1, ?_, ?_, f1, f3⟩
        · rw [h2]
          simpa [settingsFirst, VisualItem.isSettingsItem] using hf
        · simp [MissionController.count, h2, hv]

/-- C19 (amended): when the active vehicle is changed while the controller holds a plan,
`_activeVehicleBeingRemoved` and `_activeVehicleSet` each return with a fresh plan, whose
item list holds exactly one item, the settings item, and with the dirty flag raised
(`removeAll` ends by marking the new list dirty). -/
theorem activeVehicle_change_resets (env : Env) (c : MissionController)
    (items : List VisualItem) (hv : c.visualItems = some items)
    (parametersReady syncInProgress managerActiveVehicle : Bool) :
    (∃ c1 s, _activeVehicleBeingRemoved env c = some c1 ∧ c1.visualItems = some [s] ∧
      s.isSettingsItem = true ∧ c1.dirty = true) ∧
    (∃ c1 s, _activeVehicleSet env c parametersReady syncInProgress managerActiveVehicle =
        some c1 ∧ c1.visualItems = some [s] ∧ s.isSettingsItem = true ∧ c1.dirty = true) := by
  obtain ⟨c1, h1, hs1, hc1, hd1⟩ := removeAll_single env c items hv
  constructor
  · obtain ⟨s, e1, e2⟩ := single_of_count c1 hs1 hc1
    exact ⟨c1, s, h1, e1, e2, hd1⟩
  · have key : ∀ c2 : MissionController, settingsFirst c2.visualItems = true → c2.count = 1 →
        c2.dirty = true →
        ∃ c4 s, (match _activeVehicleHomePositionChanged c2 c2.activeVehicle.homePosition with
          | none => none
          | some c3 =>
            _activeVehicleHomePositionAvailableChanged c3
              c3.activeVehicle.homePositionAvailable) = some c4 ∧
          c4.visualItems = some [s] ∧ s.isSettingsItem = true ∧ c4.dirty = true := by
      intro c2 hs2 hc2 hd2
      obtain ⟨c3, h3, hs3, hc3, hd3, _⟩ :=
        activeVehicleHomePositionChanged_keeps c2 c2.activeVehicle.homePosition hs2
      obtain ⟨c4, h4, hs4, hc4, hd4, _⟩ :=
        activeVehicleHomePositionAvailableChanged_keeps c3
          c3.activeVehicle.homePositionAvailable hs3
      obtain ⟨s, e1, e2⟩ := single_of_count c4 hs4 (by rw [hc4, hc3, hc2])
      exact ⟨c4, s, by rw [h3]; exact h4, e1, e2, by rw [hd4, hd3, hd2]⟩
    have hc2 : ∀ b : Bool,
        settingsFirst (if b then loadFromVehicle c1 managerActiveVehicle
          else c1).visualItems = true ∧
        (if b then loadFromVehicle c1 managerActiveVehicle else c1).count = 1 ∧
        (if b then loadFromVehicle c1 managerActiveVehicle else c1).dirty = true := by
      intro b
      cases b <;> cases managerActiveVehicle <;> exact ⟨hs1, hc1, hd1⟩
    obtain ⟨a1, a2, a3⟩ := hc2 (parametersReady && !syncInProgress)
    unfold _activeVehicleSet
    rw [h1]
    exact key _ a1 a2 a3

set_option maxRecDepth 100000 in
/-- Witness for C19 (amended): the plan of `twoItemController`, with the parameters of the new
vehicle ready and no synchronisation in progress. -/
theorem activeVehicle_change_resets_witness :
    (∃ c1 s, _activeVehicleBeingRemoved specEnv twoItemController = some c1 ∧
      c1.visualItems = some [s] ∧ s.isSettingsItem = true ∧ c1.dirty = true) ∧
    (∃ c1 s, _activeVehicleSet specEnv twoItemController true false true = some c1 ∧
      c1.visualItems = some [s] ∧ s.isSettingsItem = true ∧ c1.dirty = true) :=
  activeVehicle_change_resets specEnv twoItemController
    (twoItemController.visualItems.getD []) (by decide) true false true

set_option maxRecDepth 100000 in
/-- C19 (counterexample): after `_activeVehicleBeingRemoved`, and after `_activeVehicleSet`, on
the dirty plan of `twoItemController` the list holds one item, the settings item, and the
dirty flag is raised, not lowered. -/
theorem activeVehicle_change_leaves_dirty :
    twoItemController.dirty = true ∧ twoItemController.count = 3 ∧
    (_activeVehicleBeingRemoved specEnv twoItemController).map
      (fun c => (c.count, settingsFirst c.visualItems, c.dirty)) = some (1, true, true) ∧
    (_activeVehicleSet specEnv twoItemController true false true).map
      (fun c => (c.count, settingsFirst c.visualItems, c.dirty)) = some (1, true, true) := by
  refine ⟨by decide, by decide, by decide, by decide⟩

/-! ## Mission items arriving from the vehicle -/

/-- C20: when new mission items become available from the vehicle while the controller is in
edit mode, no load from the vehicle was requested and the plan holds more than one item,
`_newMissionItemsAvailableFromVehicle` returns with the controller as it was: the item list,
every item in it, the dirty flag and the load-requested flag are unchanged. -/
theorem newMissionItemsAvailableFromVehicle_ignored (env : Env) (fuel : Nat)
    (c : MissionController) (items newMissionItems : List VisualItem)
    (hedit : c.editMode = true) (hreq : c.missionItemsRequested = false)
    (hv : c.visualItems = some items) (hlen : 1 < items.length) :
    _newMissionItemsAvailableFromVehicle env fuel c newMissionItems = some c := by
  unfold _newMissionItemsAvailableFromVehicle
  rw [hv]
  have hne : ¬ items.length = 1 := by omega
  simp [hedit, hreq, hne]

set_option maxRecDepth 100000 in
/-- Witness for C20: the plan of `twoItemController` (edit mode, three items) with one mission
item arriving from the vehicle. -/
theorem newMissionItemsAvailableFromVehicle_ignored_witness :
    _newMissionItemsAvailableFromVehicle specEnv 10 twoItemController [blankItem] =
      some twoItemController :=
  newMissionItemsAvailableFromVehicle_ignored specEnv 10 twoItemController
    (twoItemController.visualItems.getD []) [blankItem] (by decide) (by decide) (by decide)
    (by decide)

set_option maxRecDepth 100000 in
/-- C21: for a vehicle whose firmware plugin sends the home position to the vehicle
(`homeSendingVehicle`), the fly-view controller that receives the two mission items
`vehicleMissionItems` ends with a list of two simple items and no settings item: the list
does not start with the settings item, although the load-requested flag is cleared.  For the
vehicle `offlineVehicle`, whose plugin does not send the home position, the same call yields
the settings item followed by the two simple items. -/
theorem newMissionItemsAvailableFromVehicle_home_sending_firmware :
    ((_newMissionItemsAvailableFromVehicle specEnv 10 (flyController homeSendingVehicle)
        vehicleMissionItems).map (fun c => (c.kinds, settingsFirst c.visualItems,
          c.missionItemsRequested))
      = some ([ItemKind.simple, ItemKind.simple], false, false)) ∧
    ((_newMissionItemsAvailableFromVehicle specEnv 10 (flyController offlineVehicle)
        vehicleMissionItems).map (fun c => (c.kinds, settingsFirst c.visualItems,
          c.missionItemsRequested))
      = some ([ItemKind.settings, ItemKind.simple, ItemKind.simple], true, false)) := by
  constructor <;> decide

/-! ## DO_JUMP targets after loads and edits -/

theorem loadJsonMissionFileV2_fixed (env : Env) (vehicle : Vehicle) (json : QJsonValue)
    (st st2 : LoadState) (h : _loadJsonMissionFileV2 env vehicle json st = (true, st2)) :
    ∃ loaded : List VisualItem, st2.visualItems = loaded.map (fixedItem loaded) ∧
      ∀ v ∈ loaded, v.isDoJump = true → (findDoJumpTarget v.jumpId loaded).isSome = true := by
  unfold _loadJsonMissionFileV2 at h
  cases hk : env.validateKeys json rootKeyInfoListV2 with
  | error e => rw [hk] at h; simp at h
  | ok u =>
    rw [hk] at h
    simp only at h
    cases hg : env.loadGeoCoordinate (json.get "plannedHomePosition") true with
    | error e => rw [hg] at h; simp at h
    | ok home =>
      rw [hg] at h
      simp only at h
      cases hl : loadItemsV2 env 0 (json.get "items").toArray 1
          (loadMissionSettingsV2 env vehicle json home st) with
      | mk flag st1 =>
        rw [hl] at h
        cases flag with
        | false => simp at h
        | true =>
          simp only at h
          rcases doJumpFixup_spec st1.visualItems with ⟨hall, hfix⟩ | ⟨_, e, he, _⟩
          · rw [hfix] at h
            simp only [Prod.mk.injEq, true_and] at h
            refine ⟨st1.visualItems, ?_, hall⟩
            rw [← h]
          · cases hfix : doJumpFixup st1.visualItems with
            | mk err items =>
              rw [hfix] at he h
              simp only at he
              subst he
              simp at h

theorem recalcSequenceFrom_jumpFields (n : Int) (items : List VisualItem) :
    (_recalcSequenceFrom n items).map VisualItem.jumpFields =
      items.map VisualItem.jumpFields := by
  induction items generalizing n with
  | nil => rfl
  | cons item rest ih =>
    simp only [_recalcSequenceFrom, List.map_cons, ih]
    rfl

theorem recalcAll_jumpFields (c c1 : MissionController) (items : List VisualItem)
    (hc : c.visualItems = some items) (h : _recalcAll c = some c1) :
    ∃ items1, c1.visualItems = some items1 ∧
      items1.map VisualItem.jumpFields = items.map VisualItem.jumpFields := by
  obtain ⟨items1, h1, h2⟩ := recalcAll_visualItems c c1 items hc h
  refine ⟨items1, h1, ?_⟩
  have e : ∀ l : List VisualItem, l.map VisualItem.jumpFields =
      (l.map VisualItem.withoutChildren).map VisualItem.jumpFields := by
    intro l
    rw [List.map_map]
    rfl
  rw [e items1, h2, ← e, _recalcSequence, recalcSequenceFrom_jumpFields]

theorem fixedItem_isDoJump (all : List VisualItem) (v : VisualItem) :
    (fixedItem all v).isDoJump = v.isDoJump := by
  unfold fixedItem
  split
  · split <;> rfl
  · rfl

theorem insertSimpleMissionItem_jumpFields (env : Env) (c c1 : MissionController)
    (items : List VisualItem) (coordinate : QGeoCoordinate) (i : Nat) (seq : Int)
    (hc : c.visualItems = some items)
    (h : insertSimpleMissionItem env c coordinate i = some (c1, seq)) :
    ∃ items1, c1.visualItems = some items1 ∧
      items1.map VisualItem.jumpFields =
        (listInsert items i
          (insertSimpleMissionItemNew env items c.nextObj coordinate i)).map
            VisualItem.jumpFields := by
  unfold insertSimpleMissionItem at h
  rw [hc] at h
  simp only at h
  split at h
  · simp at h
  · rename_i c2 hr
    simp only [Option.some.injEq, Prod.mk.injEq] at h
    rw [← h.1]
    exact recalcAll_jumpFields _ c2 _ rfl hr

theorem insertComplexMissionItem_jumpFields (env : Env) (c c1 : MissionController)
    (items : List VisualItem) (itemName : String) (center : QGeoCoordinate) (i : Nat) (seq : Int)
    (hc : c.visualItems = some items)
    (h : insertComplexMissionItem env c itemName center i = some (c1, seq)) :
    ∃ items1, c1.visualItems = some items1 ∧
      (items1 = items ∨ ∃ newItem : VisualItem, newItem.oid = c.nextObj ∧
        items1.map VisualItem.jumpFields =
          (listInsert items i newItem).map VisualItem.jumpFields) := by
  unfold insertComplexMissionItem at h
  rw [hc] at h
  simp only at h
  split at h
  · simp only [Option.some.injEq, Prod.mk.injEq] at h
    exact ⟨items, by rw [← h.1, hc], Or.inl rfl⟩
  · rename_i newItem hnew
    split at h
    · simp at h
    · rename_i c2 hr
      simp only [Option.some.injEq, Prod.mk.injEq] at h
      rw [← h.1]
      obtain ⟨items1, h1, h2⟩ := recalcAll_jumpFields _ c2 _ rfl hr
      refine ⟨items1, h1, Or.inr ⟨newItem.setSequenceNumber (_nextSequenceNumber items), ?_, h2⟩⟩
      show newItem.oid = c.nextObj
      split at hnew
      · simp only [Option.some.injEq] at hnew
        rw [← hnew]; rfl
      · split at hnew
        · simp only [Option.some.injEq] at hnew
          rw [← hnew]; rfl
        · simp at hnew

theorem removeMissionItem_jumpFields (c c1 : MissionController) (items : List VisualItem)
    (index : Nat) (hc : c.visualItems = some items)
    (h : removeMissionItem c index = some c1) :
    ∃ items1, c1.visualItems = some items1 ∧
      items1.map VisualItem.jumpFields = (items.eraseIdx index).map VisualItem.jumpFields := by
  unfold removeMissionItem at h
  rw [hc] at h
  simp only at h
  split at h
  · split at h
    · simp at h
    · rename_i c2 hr
      simp only [Option.some.injEq] at h
      rw [← h]
      exact recalcAll_jumpFields _ c2 _ rfl hr
  · simp at h

/-- C22 (amended): when `_loadJsonMissionFileV2` succeeds, the `param1` of every DO_JUMP simple
item of the list it leaves equals the sequence number of a simple item of that list.
`insertSimpleMissionItem`, `insertComplexMissionItem` and `removeMissionItem`, called at an
index `≥ 1` on a list that starts with the settings item, return, and after their
recalculation every item has the identity, kind, command and `param1` it had before: the list
is the old one with the new item put in, or the removed item taken out, and no `param1` is
changed. -/
theorem doJump_param1_after_load_and_edit (env : Env) :
    (∀ (vehicle : Vehicle) (json : QJsonValue) (st st2 : LoadState),
      _loadJsonMissionFileV2 env vehicle json st = (true, st2) →
      ∀ item ∈ st2.visualItems, item.isDoJump = true →
        ∃ target ∈ st2.visualItems, target.isSimpleItem = true ∧
          item.param1 = target.sequenceNumber) ∧
    (∀ (c : MissionController) (items : List VisualItem), c.visualItems = some items →
      settingsFirst (some items) = true →
      (∀ (coordinate : QGeoCoordinate) (i : Nat), 1 ≤ i →
        ∃ c1 seq items1, insertSimpleMissionItem env c coordinate i = some (c1, seq) ∧
          c1.visualItems = some items1 ∧
          items1.map VisualItem.jumpFields =
            (listInsert items i
              (insertSimpleMissionItemNew env items c.nextObj coordinate i)).map
                VisualItem.jumpFields) ∧
      (∀ (itemName : String) (center : QGeoCoordinate) (i : Nat), 1 ≤ i →
        ∃ c1 seq items1, insertComplexMissionItem env c itemName center i = some (c1, seq) ∧
          c1.visualItems = some items1 ∧
          (items1 = items ∨ ∃ newItem : VisualItem, newItem.oid = c.nextObj ∧
            items1.map VisualItem.jumpFields =
              (listInsert items i newItem).map VisualItem.jumpFields)) ∧
      (∀ index : Nat, 1 ≤ index → index < items.length →
        ∃ c1 items1, removeMissionItem c index = some c1 ∧ c1.visualItems = some items1 ∧
          items1.map VisualItem.jumpFields =
            (items.eraseIdx index).map VisualItem.jumpFields)) := by
  refine ⟨?_, ?_⟩
  · intro vehicle json st st2 h item hmem hj
    obtain ⟨loaded, hl, hall⟩ := loadJsonMissionFileV2_fixed env vehicle json st st2 h
    rw [hl] at hmem ⊢
    obtain ⟨v, hv, rfl⟩ := List.mem_map.mp hmem
    rw [fixedItem_isDoJump] at hj
    have hsome := hall v hv hj
    cases ht : findDoJumpTarget v.jumpId loaded with
    | none => rw [ht] at hsome; exact absurd hsome (by decide)
    | some target =>
      obtain ⟨pre, post, hlist, h1, _, _⟩ := findDoJumpTarget_spec _ _ _ ht
      have htm : target ∈ loaded := by rw [hlist]; simp
      refine ⟨fixedItem loaded target, List.mem_map.mpr ⟨target, htm, rfl⟩, ?_, ?_⟩
      · rw [(fixedItem_fields loaded target).1]; exact h1
      · rw [(fixedItem_fields loaded target).2.2]
        simp only [fixedItem, hj, if_true, ht]
  · intro c items hc hs
    have hs1 : settingsFirst c.visualItems = true := by rw [hc]; exact hs
    refine ⟨?_, ?_, ?_⟩
    · intro coordinate i hi
      obtain ⟨c1, seq, h1, _⟩ := settingsFirst_insertSimpleMissionItem env c hs1 coordinate i hi
      obtain ⟨items1, h2, h3⟩ :=
        insertSimpleMissionItem_jumpFields env c c1 items coordinate i seq hc h1
      exact ⟨c1, seq, items1, h1, h2, h3⟩
    · intro itemName center i hi
      obtain ⟨c1, seq, h1, _⟩ :=
        settingsFirst_insertComplexMissionItem env c hs1 itemName center i hi
      obtain ⟨items1, h2, h3⟩ :=
        insertComplexMissionItem_jumpFields env c c1 items itemName center i seq hc h1
      exact ⟨c1, seq, items1, h1, h2, h3⟩
    · intro index hi hlt
      obtain ⟨c1, h1, _⟩ := settingsFirst_removeMissionItem c hs1 index hi
        (by simpa [MissionController.count, hc] using hlt)
      obtain ⟨items1, h2, h3⟩ := removeMissionItem_jumpFields c c1 items index hc h1
      exact ⟨c1, items1, h1, h2, h3⟩

set_option maxRecDepth 100000 in
/-- Witness for C22 (amended): the document `resolvedJumpDocument` loads and every DO_JUMP item
of the loaded list names the sequence number of a simple item of the list; removing the item
at index 2 of `jumpController` returns and leaves the `param1` of the two other items as they
were. -/
theorem doJump_param1_after_load_and_edit_witness :
    (∀ item ∈ (_loadJsonMissionFileV2 specEnv offlineVehicle resolvedJumpDocument
        emptyLoadState).2.visualItems, item.isDoJump = true →
      ∃ target ∈ (_loadJsonMissionFileV2 specEnv offlineVehicle resolvedJumpDocument
          emptyLoadState).2.visualItems,
        target.isSimpleItem = true ∧ item.param1 = target.sequenceNumber) ∧
    (∃ c1 items1, removeMissionItem jumpController 2 = some c1 ∧
      c1.visualItems = some items1 ∧
      items1.map VisualItem.jumpFields = (jumpItems.eraseIdx 2).map VisualItem.jumpFields) :=
  ⟨(doJump_param1_after_load_and_edit specEnv).1 offlineVehicle resolvedJumpDocument
      emptyLoadState
      (_loadJsonMissionFileV2 specEnv offlineVehicle resolvedJumpDocument emptyLoadState).2
      (by decide),
   ((doJump_param1_after_load_and_edit specEnv).2 jumpController jumpItems rfl
      (by decide)).2.2 2 (by decide) (by decide)⟩

set_option maxRecDepth 100000 in
/-- C22 (counterexample): in `jumpController` the DO_JUMP item (identity 11) holds
`param1 = 2`, the sequence number of the waypoint with identity 12.  After
`removeMissionItem(2)` the DO_JUMP item still holds 2 and no item of the list has sequence
number 2.  After `insertSimpleMissionItem(coordinate, 1)` it still holds 2, which is now its
own sequence number, while the waypoint it referenced has sequence number 3.  The V1 loader
accepts `danglingJumpV1Document`, whose DO_JUMP item holds 9, and leaves a list with the
sequence numbers 0 and 1 only.  Each entry is identity, sequence number, command,
`param1`. -/
theorem doJump_param1_not_retargeted :
    jumpController.jumpView = [(10, 0, 0, 0), (11, 1, 177, 2), (12, 2, 16, 0)] ∧
    (removeMissionItem jumpController 2).map (fun c => c.jumpView) =
      some [(10, 0, 0, 0), (11, 1, 177, 2)] ∧
    (insertSimpleMissionItem specEnv jumpController
        { latitude := 1, longitude := 2, altitude := 3 } 1).map (fun r => r.1.jumpView) =
      some [(10, 0, 0, 0), (20, 1, 16, 0), (11, 2, 177, 2), (12, 3, 16, 0)] ∧
    (_loadJsonMissionFileV1 specEnv 10 danglingJumpV1Document emptyLoadState).map
        (fun r => (r.1, r.2.visualItems.map (fun v => (v.sequenceNumber, v.command, v.param1)))) =
      some (true, [(0, 0, 0), (1, 177, 9)]) := by
  refine ⟨by decide, by decide, by decide, by decide⟩

set_option maxRecDepth 100000 in
/-- C23: `_loadJsonMissionFileV2` of `vehicleSettingsDocument` (vehicleType 20, cruiseSpeed 16,
hoverSpeed 6) for the connected vehicle `connectedVehicle`, which is not an offline editing
vehicle, succeeds and leaves the offline-editing vehicle type at its old value 0 but writes
the offline-editing cruise speed 16 and hover speed 6; for the offline editing vehicle all
three settings are written. -/
theorem loadJsonMissionFileV2_writes_speeds_for_connected_vehicle :
    connectedVehicle.isOfflineEditingVehicle = false ∧
    emptyLoadState.appSettings =
      { offlineEditingVehicleType := 0, offlineEditingCruiseSpeed := 0,
        offlineEditingHoverSpeed := 0 } ∧
    (_loadJsonMissionFileV2 specEnv connectedVehicle vehicleSettingsDocument
        emptyLoadState).1 = true ∧
    (_loadJsonMissionFileV2 specEnv connectedVehicle vehicleSettingsDocument
        emptyLoadState).2.appSettings =
      { offlineEditingVehicleType := 0, offlineEditingCruiseSpeed := 16,
        offlineEditingHoverSpeed := 6 } ∧
    (_loadJsonMissionFileV2 specEnv offlineVehicle vehicleSettingsDocument
        emptyLoadState).2.appSettings =
      { offlineEditingVehicleType := 20, offlineEditingCruiseSpeed := 16,
        offlineEditingHoverSpeed := 6 } := by
  refine ⟨by decide, by decide, by decide, by decide, by decide⟩

/-! ## The current item -/

theorem recalcSequenceFrom_map_frame {α : Type} (f : VisualItem → α)
    (hf : ∀ (v : VisualItem) (n : Int), f (v.setSequenceNumber n) = f v)
    (n : Int) (items : List VisualItem) :
    (_recalcSequenceFrom n items).map f = items.map f := by
  induction items generalizing n with
  | nil => rfl
  | cons item rest ih =>
    simp only [_recalcSequenceFrom, List.map_cons, ih, hf]

theorem recalcAll_map_frame {α : Type} (f : VisualItem → α)
    (hf1 : ∀ v : VisualItem, f v.withoutChildren = f v)
    (hf2 : ∀ (v : VisualItem) (n : Int), f (v.setSequenceNumber n) = f v)
    (c c1 : MissionController) (items : List VisualItem)
    (hc : c.visualItems = some items) (h : _recalcAll c = some c1) :
    ∃ items1, c1.visualItems = some items1 ∧ items1.map f = items.map f := by
  obtain ⟨items1, h1, h2⟩ := recalcAll_visualItems c c1 items hc h
  refine ⟨items1, h1, ?_⟩
  have e : ∀ l : List VisualItem, l.map f = (l.map VisualItem.withoutChildren).map f := by
    intro l
    rw [List.map_map]
    exact List.map_congr_left (fun v _ => (hf1 v).symm)
  rw [e items1, h2, ← e, _recalcSequence, recalcSequenceFrom_map_frame f hf2]

theorem initAllVisualItems_current (c : MissionController) (first : VisualItem)
    (rest : List VisualItem) (hv : c.visualItems = some (first :: rest))
    (hs : first.isSettingsItem = true) :
    ∃ c1 first1 rest1, _initAllVisualItems c = some c1 ∧
      c1.visualItems = some (first1 :: rest1) ∧ first1.isCurrentItem = true ∧
      rest1.map (fun v => v.isCurrentItem) = rest.map (fun v => v.isCurrentItem) := by
  have key : ∀ s : VisualItem, s.isSettingsItem = true → s.isCurrentItem = true →
      ∃ c1 first1 rest1,
        (match _recalcAll ({ c with visualItems := some (s :: rest) }.setDirty false) with
          | none => none
          | some c1 => some (c1.setDirty false)) = some c1 ∧
        c1.visualItems = some (first1 :: rest1) ∧ first1.isCurrentItem = true ∧
        rest1.map (fun v => v.isCurrentItem) = rest.map (fun v => v.isCurrentItem) := by
    intro s hs1 hs2
    obtain ⟨c1, h1, _⟩ := settingsFirst_recalcAll
      ({ c with visualItems := some (s :: rest) }.setDirty false)
      (by simpa [settingsFirst, MissionController.setDirty] using hs1)
    obtain ⟨items1, h2, h3⟩ := recalcAll_map_frame (fun v => v.isCurrentItem)
      (fun _ => rfl) (fun _ _ => rfl) _ c1 (s :: rest) rfl h1
    cases items1 with
    | nil => simp at h3
    | cons first1 rest1 =>
      simp only [List.map_cons, List.cons.injEq] at h3
      exact ⟨c1.setDirty false, first1, rest1, by rw [h1], h2, by rw [h3.1, hs2], h3.2⟩
  simp only [_initAllVisualItems, hv, hs, if_true]
  apply key
  · split <;> simpa [VisualItem.isSettingsItem, VisualItem.setCoordinate] using hs
  · split <;> rfl

theorem currentCount_mark (t : Int) (items : List VisualItem) :
    currentCount (items.map (fun item => { item with isCurrentItem := item.sequenceNumber == t }))
      = (items.map (fun v => v.sequenceNumber)).count t := by
  induction items with
  | nil => rfl
  | cons item rest ih =>
    unfold currentCount at ih ⊢
    simp only [List.map_cons, List.filter_cons, List.count_cons]
    by_cases h : item.sequenceNumber = t
    · simp [h, ih]
    · simp [h, ih]

theorem currentMissionItemChanged_eq (c : MissionController) (items : List VisualItem)
    (hv : c.visualItems = some items) (n : Int) (hedit : c.editMode = false)
    (hn : n < 2147483647) :
    _currentMissionItemChanged c n =
      some { c with visualItems := some (items.map (fun item =>
        { item with isCurrentItem := item.sequenceNumber == comparedSequenceNumber c n })) } := by
  have hne : (n == 2147483647) = false := by
    simp only [beq_eq_false_iff_ne, ne_eq]
    omega
  unfold _currentMissionItemChanged comparedSequenceNumber
  cases hsend : c.activeVehicle.sendHomePositionToVehicle <;>
    simp [hedit, hne, hv]

/-- C24 (amended): on a list that starts with the settings item, `_initAllVisualItems` returns
with the settings item marked current and the marks of all other items as they were.  Outside
edit mode `_currentMissionItemChanged(n)` returns for every `n` below `INT_MAX` and marks an
item current exactly when its sequence number equals the compared number (`n`, or `n + 1`
when the firmware does not send the home position to the vehicle); with pairwise different
sequence numbers exactly one item is marked when the compared number is the sequence number
of an item of the list, and no item is marked otherwise. -/
theorem currentItem_marks (c : MissionController) (first : VisualItem)
    (rest : List VisualItem) (hv : c.visualItems = some (first :: rest))
    (hs : first.isSettingsItem = true) :
    (∃ c1 first1 rest1, _initAllVisualItems c = some c1 ∧
      c1.visualItems = some (first1 :: rest1) ∧ first1.isCurrentItem = true ∧
      rest1.map (fun v => v.isCurrentItem) = rest.map (fun v => v.isCurrentItem)) ∧
    (∀ n : Int, c.editMode = false → n < 2147483647 →
      ∃ c1 items1, _currentMissionItemChanged c n = some c1 ∧
        c1.visualItems = some items1 ∧
        items1 = (first :: rest).map (fun item =>
          { item with isCurrentItem := item.sequenceNumber == comparedSequenceNumber c n }) ∧
        (((first :: rest).map (fun v => v.sequenceNumber)).Nodup →
          (comparedSequenceNumber c n ∈ (first :: rest).map (fun v => v.sequenceNumber) →
            currentCount items1 = 1) ∧
          (comparedSequenceNumber c n ∉ (first :: rest).map (fun v => v.sequenceNumber) →
            currentCount items1 = 0))) := by
  refine ⟨initAllVisualItems_current c first rest hv hs, ?_⟩
  intro n hedit hn
  refine ⟨_, _, currentMissionItemChanged_eq c _ hv n hedit hn, rfl, rfl, ?_⟩
  intro hnd
  rw [currentCount_mark]
  exact ⟨fun hmem => List.count_eq_one_of_mem hnd hmem,
    fun hmem => List.count_eq_zero_of_not_mem hmem⟩

set_option maxRecDepth 100000 in
/-- Witness for C24 (amended): on `flyExampleController` (sequence numbers 0, 1, 2, 5) the
vehicle's report of sequence number 1 is compared as 2 and marks exactly one item, the
survey. -/
theorem currentItem_marks_witness :
    (∃ c1 first1 rest1, _initAllVisualItems flyExampleController = some c1 ∧
      c1.visualItems = some (first1 :: rest1) ∧ first1.isCurrentItem = true ∧
      rest1.map (fun v => v.isCurrentItem) =
        ((flyExampleController.visualItems.getD []).tail).map (fun v => v.isCurrentItem)) ∧
    (∃ c1 items1, _currentMissionItemChanged flyExampleController 1 = some c1 ∧
      c1.visualItems = some items1 ∧ currentCount items1 = 1) := by
  have h := currentItem_marks flyExampleController
    ((flyExampleController.visualItems.getD []).headD blankItem)
    ((flyExampleController.visualItems.getD []).tail) (by decide) (by decide)
  refine ⟨h.1, ?_⟩
  obtain ⟨c1, items1, h1, h2, _, h4⟩ := h.2 1 (by decide) (by decide)
  exact ⟨c1, items1, h1, h2, (h4 (by decide)).1 (by decide)⟩

set_option maxRecDepth 100000 in
/-- C24 (counterexample): `flyExampleController` is in fly mode and holds the settings item, a
takeoff, a survey that spans the sequence numbers 2 to 4, and a waypoint with sequence number
5.  When the vehicle reports sequence number 2, the second command of the survey, the number
is compared as 3, which is the sequence number of no item: `_currentMissionItemChanged(2)`
leaves no item marked current. -/
theorem currentMissionItemChanged_marks_none :
    flyExampleController.editMode = false ∧
    (flyExampleController.visualItems.getD []).map
        (fun v => (v.sequenceNumber, v.lastSequenceNumber, v.isCurrentItem)) =
      [(0, 0, true), (1, 1, false), (2, 4, false), (5, 5, false)] ∧
    (_currentMissionItemChanged flyExampleController 2).map
        (fun c => (c.visualItems.getD []).map (fun v => (v.sequenceNumber, v.isCurrentItem))) =
      some [(0, false), (1, false), (2, false), (5, false)] ∧
    (_currentMissionItemChanged flyExampleController 2).map
        (fun c => currentCount (c.visualItems.getD [])) = some 0 := by
  refine ⟨by decide, by decide, by decide, by decide⟩

/-! ## The child-item pass -/

theorem childRun_cons_coordinate (item : VisualItem) (rest : List VisualItem)
    (h : item.specifiesCoordinate = true) : childRun (item :: rest) = [] := by
  simp [childRun, List.takeWhile_cons, h]

theorem childRun_cons_simple (item : VisualItem) (rest : List VisualItem)
    (h : item.specifiesCoordinate = false) (hs : item.isSimpleItem = true) :
    childRun (item :: rest) = item.oid :: childRun rest := by
  simp [childRun, List.takeWhile_cons, h, List.filter_cons, hs]

theorem childRun_cons_other (item : VisualItem) (rest : List VisualItem)
    (h : item.specifiesCoordinate = false) (hs : item.isSimpleItem = false) :
    childRun (item :: rest) = childRun rest := by
  simp [childRun, List.takeWhile_cons, h, List.filter_cons, hs]

theorem recalcChildItemsLoop_eq (p : VisualItem) (f rest : List VisualItem) :
    _recalcChildItemsLoop p f rest =
      { p with childItems := p.childItems ++ childRun rest } :: f ++ childPassTail rest := by
  induction rest generalizing p f with
  | nil => simp [_recalcChildItemsLoop, childRun, childPassTail]
  | cons item rest ih =>
    unfold _recalcChildItemsLoop
    by_cases hc : item.specifiesCoordinate = true
    · simp only [hc, if_true, ih, childRun_cons_coordinate item rest hc, childPassTail,
        List.append_nil, List.nil_append, List.cons_append]
    · have hc1 : item.specifiesCoordinate = false := by simpa using hc
      by_cases hs : item.isSimpleItem = true
      · simp only [hc1, hs, if_true, ih, childRun_cons_simple item rest hc1 hs, childPassTail,
          List.append_assoc, List.singleton_append, List.cons_append]
        simp
      · have hs1 : item.isSimpleItem = false := by simpa using hs
        simp only [hc1, hs1, ih, childRun_cons_other item rest hc1 hs1, childPassTail,
          List.append_assoc, List.singleton_append, List.cons_append]
        simp

theorem recalcChildItems_eq (first : VisualItem) (rest : List VisualItem) :
    _recalcChildItems (first :: rest) =
      some ({ first with childItems := childRun rest } :: childPassTail rest) := by
  simp [_recalcChildItems, recalcChildItemsLoop_eq]

theorem childPassTail_getElem? (rest : List VisualItem) (k : Nat) :
    (childPassTail rest)[k]? = (rest[k]?).map (fun item =>
      if item.specifiesCoordinate then { item with childItems := childRun (rest.drop (k + 1)) }
      else item) := by
  induction rest generalizing k with
  | nil => simp [childPassTail]
  | cons item rest ih =>
    cases k with
    | zero => simp [childPassTail]
    | succ k => simp [childPassTail, ih]

theorem mem_childRun (l : List VisualItem) (o : Nat) :
    o ∈ childRun l ↔ ∃ (k : Nat) (v : VisualItem), l[k]? = some v ∧ v.oid = o ∧ v.isSimpleItem = true ∧
      ∀ (k1 : Nat) (v1 : VisualItem), k1 ≤ k → l[k1]? = some v1 → v1.specifiesCoordinate = false := by
  induction l with
  | nil => simp [childRun]
  | cons item rest ih =>
    by_cases hc : item.specifiesCoordinate = true
    · rw [childRun_cons_coordinate item rest hc]
      constructor
      · intro h; simp at h
      · rintro ⟨k, v, _, _, _, h4⟩
        have := h4 0 item (Nat.zero_le _) (by simp)
        rw [hc] at this
        exact absurd this (by decide)
    · have hc1 : item.specifiesCoordinate = false := by simpa using hc
      have step : (∃ (k : Nat) (v : VisualItem), rest[k]? = some v ∧ v.oid = o ∧ v.isSimpleItem = true ∧
            ∀ (k1 : Nat) (v1 : VisualItem), k1 ≤ k → rest[k1]? = some v1 → v1.specifiesCoordinate = false) ↔
          (∃ (k : Nat) (v : VisualItem), (item :: rest)[k + 1]? = some v ∧ v.oid = o ∧ v.isSimpleItem = true ∧
            ∀ (k1 : Nat) (v1 : VisualItem), k1 ≤ k + 1 → (item :: rest)[k1]? = some v1 →
              v1.specifiesCoordinate = false) := by
        constructor
        · rintro ⟨k, v, h1, h2, h3, h4⟩
          refine ⟨k, v, by simpa using h1, h2, h3, ?_⟩
          intro k1 v1 hk hv
          cases k1 with
          | zero =>
            simp only [List.getElem?_cons_zero, Option.some.injEq] at hv
            rw [← hv]; exact hc1
          | succ k1 => exact h4 k1 v1 (by omega) (by simpa using hv)
        · rintro ⟨k, v, h1, h2, h3, h4⟩
          refine ⟨k, v, by simpa using h1, h2, h3, ?_⟩
          intro k1 v1 hk hv
          exact h4 (k1 + 1) v1 (by omega) (by simpa using hv)
      by_cases hs : item.isSimpleItem = true
      · rw [childRun_cons_simple item rest hc1 hs, List.mem_cons, ih, step]
        constructor
        · rintro (h | ⟨k, v, h⟩)
          · refine ⟨0, item, by simp, h.symm, hs, ?_⟩
            intro k1 v1 hk hv
            have : k1 = 0 := by omega
            subst this
            simp only [List.getElem?_cons_zero, Option.some.injEq] at hv
            rw [← hv]; exact hc1
          · exact ⟨k + 1, v, h⟩
        · rintro ⟨k, v, h1, h2, h3, h4⟩
          cases k with
          | zero =>
            simp only [List.getElem?_cons_zero, Option.some.injEq] at h1
            left; rw [← h2, ← h1]
          | succ k => right; exact ⟨k, v, h1, h2, h3, h4⟩
      · have hs1 : item.isSimpleItem = false := by simpa using hs
        rw [childRun_cons_other item rest hc1 hs1, ih, step]
        constructor
        · rintro ⟨k, v, h⟩
          exact ⟨k + 1, v, h⟩
        · rintro ⟨k, v, h1, h2, h3, h4⟩
          cases k with
          | zero =>
            simp only [List.getElem?_cons_zero, Option.some.injEq] at h1
            rw [← h1, hs1] at h3
            exact absurd h3 (by decide)
          | succ k => exact ⟨k, v, h1, h2, h3, h4⟩

theorem childRun_sublist (l : List VisualItem) :
    List.Sublist (childRun l) (l.map (fun v => v.oid)) := by
  unfold childRun
  exact List.Sublist.map _
    ((List.filter_sublist _).trans (List.takeWhile_sublist _))

theorem index_eq_of_oid (l : List VisualItem) (hnd : (l.map (fun v => v.oid)).Nodup)
    (a b : Nat) (v x : VisualItem) (ha : l[a]? = some v) (hb : l[b]? = some x)
    (h : v.oid = x.oid) : a = b := by
  have ha1 : (l.map (fun v => v.oid))[a]? = some v.oid := by simp [ha]
  have hb1 : (l.map (fun v => v.oid))[b]? = some x.oid := by simp [hb]
  have hal : a < (l.map (fun v => v.oid)).length := by
    by_contra hc
    rw [List.getElem?_eq_none (by omega)] at ha1
    simp at ha1
  have hbl : b < (l.map (fun v => v.oid)).length := by
    by_contra hc
    rw [List.getElem?_eq_none (by omega)] at hb1
    simp at hb1
  rw [List.getElem?_eq_getElem hal] at ha1
  rw [List.getElem?_eq_getElem hbl] at hb1
  simp only [Option.some.injEq] at ha1 hb1
  exact (List.Nodup.getElem_inj_iff hnd).mp (by rw [ha1, hb1, h])

theorem nearest_parent (l : List VisualItem) (i : Nat) (hi : 1 ≤ i) :
    ∃ j : Nat, j < i ∧
      (j = 0 ∨ ∃ p : VisualItem, l[j]? = some p ∧ p.specifiesCoordinate = true) ∧
      ∀ (k : Nat) (v : VisualItem), j < k → k < i → l[k]? = some v →
        v.specifiesCoordinate = false := by
  induction i with
  | zero => omega
  | succ i ih =>
    cases i with
    | zero => exact ⟨0, by omega, Or.inl rfl, fun k v h1 h2 => by omega⟩
    | succ i =>
      by_cases hc : ∃ p : VisualItem, l[i + 1]? = some p ∧ p.specifiesCoordinate = true
      · exact ⟨i + 1, by omega, Or.inr hc, fun k v h1 h2 => by omega⟩
      · obtain ⟨j, hj, hp, hb⟩ := ih (by omega)
        refine ⟨j, by omega, hp, ?_⟩
        intro k v h1 h2 hv
        by_cases hk : k < i + 1
        · exact hb k v h1 hk hv
        · have : k = i + 1 := by omega
          subst this
          by_contra hne
          exact hc ⟨v, hv, by simpa using hne⟩

theorem mem_childRun_drop (l : List VisualItem) (hnd : (l.map (fun v => v.oid)).Nodup)
    (j i : Nat) (x : VisualItem) (hx : l[i]? = some x) (hs : x.isSimpleItem = true)
    (hc : x.specifiesCoordinate = false) :
    x.oid ∈ childRun (l.drop (j + 1)) ↔
      (j < i ∧ ∀ (k : Nat) (v : VisualItem), j < k → k < i → l[k]? = some v →
        v.specifiesCoordinate = false) := by
  rw [mem_childRun]
  constructor
  · rintro ⟨k, v, h1, h2, _, h4⟩
    rw [List.getElem?_drop] at h1
    have e : j + 1 + k = i := index_eq_of_oid l hnd _ _ v x h1 hx h2
    refine ⟨by omega, ?_⟩
    intro k1 v1 hk1 hk2 hv1
    refine h4 (k1 - (j + 1)) v1 (by omega) ?_
    rw [List.getElem?_drop]
    have : j + 1 + (k1 - (j + 1)) = k1 := by omega
    rw [this]; exact hv1
  · rintro ⟨hji, hb⟩
    refine ⟨i - (j + 1), x, ?_, rfl, hs, ?_⟩
    · rw [List.getElem?_drop]
      have : j + 1 + (i - (j + 1)) = i := by omega
      rw [this]; exact hx
    · intro k1 v1 hk1 hv1
      rw [List.getElem?_drop] at hv1
      by_cases hlt : j + 1 + k1 < i
      · exact hb _ v1 (by omega) hlt hv1
      · have : j + 1 + k1 = i := by omega
        rw [this, hx] at hv1
        simp only [Option.some.injEq] at hv1
        rw [← hv1]; exact hc

theorem recalcChildItems_parent (first : VisualItem) (rest : List VisualItem) (j : Nat)
    (p : VisualItem) (hp : (first :: rest)[j]? = some p)
    (hpar : j = 0 ∨ p.specifiesCoordinate = true) :
    ({ first with childItems := childRun rest } :: childPassTail rest)[j]? =
      some { p with childItems := childRun ((first :: rest).drop (j + 1)) } := by
  cases j with
  | zero =>
    simp only [List.getElem?_cons_zero, Option.some.injEq] at hp
    subst hp
    simp
  | succ j =>
    have hc : p.specifiesCoordinate = true := by
      rcases hpar with h | h
      · omega
      · exact h
    simp only [List.getElem?_cons_succ] at hp
    simp [childPassTail_getElem?, hp, hc]

/-- C25 (amended): on a non-empty list of distinct objects `_recalcChildItems` returns a list of
the same length in which (a) item 0 and every coordinate-specifying item keep all their
fields but the child list, which becomes the identities of the simple items that follow up to
the next coordinate-specifying item, in traversal order; (b) every item at index `≥ 1` that
does not specify a coordinate is left as it was; (c) for every simple item at index `i ≥ 1`
that does not specify a coordinate, the child list of item 0 or of a coordinate-specifying
item at index `j` contains it exactly when `j` is before `i` and no item between them
specifies a coordinate; and (d) such a nearest preceding parent exists. -/
theorem recalcChildItems_children (first : VisualItem) (rest : List VisualItem)
    (hnd : ((first :: rest).map (fun v => v.oid)).Nodup) :
    ∃ items1, _recalcChildItems (first :: rest) = some items1 ∧
      items1.length = (first :: rest).length ∧
      (∀ (j : Nat) (p : VisualItem), (first :: rest)[j]? = some p →
        (j = 0 ∨ p.specifiesCoordinate = true) →
        ∃ p1, items1[j]? = some p1 ∧ p1.withoutChildren = p.withoutChildren ∧
          p1.childItems = childRun ((first :: rest).drop (j + 1)) ∧
          List.Sublist p1.childItems (((first :: rest).drop (j + 1)).map (fun v => v.oid)) ∧
          ∀ (i : Nat) (x : VisualItem), (first :: rest)[i]? = some x → 1 ≤ i →
            x.isSimpleItem = true → x.specifiesCoordinate = false →
            (x.oid ∈ p1.childItems ↔
              (j < i ∧ ∀ (k : Nat) (v : VisualItem), j < k → k < i →
                (first :: rest)[k]? = some v → v.specifiesCoordinate = false))) ∧
      (∀ (j : Nat) (p : VisualItem), (first :: rest)[j]? = some p → 1 ≤ j →
        p.specifiesCoordinate = false → items1[j]? = some p) ∧
      (∀ (i : Nat) (x : VisualItem), (first :: rest)[i]? = some x → 1 ≤ i →
        x.isSimpleItem = true → x.specifiesCoordinate = false →
        ∃ (j : Nat) (p1 : VisualItem), j < i ∧ items1[j]? = some p1 ∧
          x.oid ∈ p1.childItems ∧
          (j = 0 ∨ ∃ p : VisualItem, (first :: rest)[j]? = some p ∧
            p.specifiesCoordinate = true) ∧
          ∀ (k : Nat) (v : VisualItem), j < k → k < i →
            (first :: rest)[k]? = some v → v.specifiesCoordinate = false) := by
  refine ⟨_, recalcChildItems_eq first rest, ?_, ?_, ?_, ?_⟩
  · have h := congrArg List.length
      (recalcChildItems_frame (first :: rest) _ (recalcChildItems_eq first rest))
    simpa using h
  · intro j p hp hpar
    refine ⟨_, recalcChildItems_parent first rest j p hp hpar, rfl, rfl,
      childRun_sublist _, ?_⟩
    intro i x hx _ hs hc
    exact mem_childRun_drop (first :: rest) hnd j i x hx hs hc
  · intro j p hp hj hc
    cases j with
    | zero => omega
    | succ j =>
      simp only [List.getElem?_cons_succ] at hp
      simp [childPassTail_getElem?, hp, hc]
  · intro i x hx hi hs hc
    obtain ⟨j, hj, hpar, hb⟩ := nearest_parent (first :: rest) i hi
    have hjl : j < (first :: rest).length := by
      have : i < (first :: rest).length := by
        by_contra hcon
        rw [List.getElem?_eq_none (by omega)] at hx
        simp at hx
      omega
    have hpj : (first :: rest)[j]? = some ((first :: rest)[j]) :=
      List.getElem?_eq_getElem hjl
    have hpar1 : j = 0 ∨ ((first :: rest)[j]).specifiesCoordinate = true := by
      rcases hpar with h | ⟨p, h1, h2⟩
      · exact Or.inl h
      · rw [hpj] at h1
        simp only [Option.some.injEq] at h1
        rw [h1]; exact Or.inr h2
    refine ⟨j, _, hj, recalcChildItems_parent first rest j _ hpj hpar1, ?_, hpar, hb⟩
    exact (mem_childRun_drop (first :: rest) hnd j i x hx hs hc).mpr ⟨hj, hb⟩

/-- Witness for C25 (amended): on the five distinct items of `staleChildItems` the pass returns
five items, and the waypoint at index 1 ends with the children 12 and 13, the two simple
items that follow it. -/
theorem recalcChildItems_children_witness :
    ((staleChildItems.map (fun v => v.oid)).Nodup) ∧
    ∃ items1, _recalcChildItems staleChildItems = some items1 ∧ items1.length = 5 ∧
      ∃ p1, items1[1]? = some p1 ∧ p1.childItems = [12, 13] := by
  have hnd : (staleChildItems.map (fun v => v.oid)).Nodup := by decide
  refine ⟨hnd, ?_⟩
  obtain ⟨items1, h1, h2, h3, _, _⟩ := recalcChildItems_children
    { blankItem with oid := 10, kind := ItemKind.settings, specifiesCoordinate := true }
    [ { blankItem with oid := 11, command := 16, specifiesCoordinate := true },
      { blankItem with oid := 12, command := 178, childItems := [13] },
      { blankItem with oid := 13, command := 178 },
      { blankItem with oid := 14, kind := ItemKind.survey } ] hnd
  obtain ⟨p1, h4, _, h5, _⟩ := h3 1
    { blankItem with oid := 11, command := 16, specifiesCoordinate := true } rfl (Or.inr rfl)
  exact ⟨items1, h1, h2, p1, h4, by rw [h5]; decide⟩

/-- C25 (counterexample): after `_recalcChildItems` on `staleChildItems` the simple item 13,
which specifies no coordinate, is in the child list of the waypoint 11 and also in the child
list of item 12, which the pass has not touched; the complex item 14 at index 4, which
specifies no coordinate, is in no child list.  Each entry is identity and child list. -/
theorem recalcChildItems_stale_and_complex :
    (_recalcChildItems staleChildItems).map
        (fun l => l.map (fun v => (v.oid, v.childItems))) =
      some [(10, []), (11, [12, 13]), (12, [13]), (13, []), (14, [])] ∧
    staleChildItems.map
        (fun v => (v.oid, v.specifiesCoordinate, v.isSimpleItem)) =
      [(10, true, false), (11, true, true), (12, false, true), (13, false, true),
       (14, false, false)] := by
  refine ⟨by decide, by decide⟩

/-! ## The metrics pass -/

theorem recalcAltitudeRangeBearing_defined (menv : MetricsEnv) (c : MissionController)
    (items : List VisualItem) (ms : MetricsState) (hv : c.visualItems = some items) :
    (_recalcAltitudeRangeBearing menv c ms).isSome = _recalcAltitudeRangeBearingDefined items := by
  unfold _recalcAltitudeRangeBearing
  rw [hv]
  cases items with
  | nil => rfl
  | cons first rest =>
    simp only [_recalcAltitudeRangeBearingDefined]
    cases first.isSettingsItem <;> rfl

theorem rangeSpeed_eq (vehicle : Vehicle) (s : RangeLoopState) (item : VisualItem) :
    _recalcAltitudeRangeBearingSpeed vehicle s item =
      { s with currentHoverSpeed := hoverSpeedAfter vehicle s.currentHoverSpeed item
               currentCruiseSpeed := cruiseSpeedAfter vehicle s.currentCruiseSpeed item } := by
  unfold _recalcAltitudeRangeBearingSpeed hoverSpeedAfter cruiseSpeedAfter
  by_cases h1 : (item.isSimpleItem && item.command == MAV_CMD_DO_CHANGE_SPEED) = true
  · by_cases h2 : item.param2 > 0
    · cases h3 : vehicle.multiRotor <;> simp [h1, h2]
    · simp [h1, h2]
  · have h1f : (item.isSimpleItem && item.command == MAV_CMD_DO_CHANGE_SPEED) = false := by
      simpa using h1
    simp [h1f]

theorem rangeLinkBack_eq (sh : Bool) (s : RangeLoopState) (item : VisualItem) :
    _recalcAltitudeRangeBearingLinkBack sh s item =
      { s with linkBackToHome :=
          s.linkBackToHome || (s.firstCoordinateItem && item.isTakeoff && sh) } := by
  unfold _recalcAltitudeRangeBearingLinkBack VisualItem.isTakeoff
  cases s
  rename_i first last link _ _ _ _ _ _ _ _ _ _ _ _ _
  cases first <;> cases link <;> cases h2 : item.isSimpleItem <;>
    cases h3 : (item.command == MAV_CMD_NAV_TAKEOFF) <;> cases sh <;> simp

theorem rangeVtol_eq (vehicle : Vehicle) (s : RangeLoopState) (item : VisualItem) :
    _recalcAltitudeRangeBearingVtol vehicle s item =
      { s with vtolInHover := vtolInHoverAfter vehicle s.vtolInHover item } := by
  unfold _recalcAltitudeRangeBearingVtol vtolInHoverAfter
  simp only []
  split_ifs <;> rfl

theorem rangeCommand_eq (vehicle : Vehicle) (sh : Bool) (s : RangeLoopState)
    (item : VisualItem) :
    _recalcAltitudeRangeBearingCommand vehicle sh s item =
      { s with item := (s.item.setAzimuth item.oid 0).setDistance item.oid 0
               currentHoverSpeed := hoverSpeedAfter vehicle s.currentHoverSpeed item
               currentCruiseSpeed := cruiseSpeedAfter vehicle s.currentCruiseSpeed item
               linkBackToHome :=
                 s.linkBackToHome || (s.firstCoordinateItem && item.isTakeoff && sh)
               vtolInHover := vtolInHoverAfter vehicle s.vtolInHover item } := by
  unfold _recalcAltitudeRangeBearingCommand
  rw [rangeVtol_eq, rangeLinkBack_eq, rangeSpeed_eq]
  rfl

theorem rangeAltitude_control (menv : MetricsEnv) (h : Rat) (s : RangeLoopState)
    (item : VisualItem) :
    ∃ lo hi, _recalcAltitudeRangeBearingAltitude menv h s item =
      { s with minAltSeen := lo, maxAltSeen := hi } := by
  unfold _recalcAltitudeRangeBearingAltitude
  simp only []
  split_ifs <;> exact ⟨_, _, rfl⟩

theorem rangeLeg_eq (menv : MetricsEnv) (vehicle : Vehicle) (settingsItem : VisualItem)
    (h : Rat) (s : RangeLoopState) (item : VisualItem) :
    _recalcAltitudeRangeBearingLeg menv vehicle settingsItem h s item =
      { s with
        item := ((s.item.setAltDifference item.oid
                  (_calcPrevWaypointValues menv h item s.lastCoordinateItem).altDifference).setAzimuth
                  item.oid
                  (_calcPrevWaypointValues menv h item s.lastCoordinateItem).azimuth).setDistance
                  item.oid (_calcPrevWaypointValues menv h item s.lastCoordinateItem).distance
        missionDistance := s.missionDistance +
          (_calcPrevWaypointValues menv h item s.lastCoordinateItem).distance
        missionMaxTelemetry :=
          max s.missionMaxTelemetry (_calcDistanceToHome menv item settingsItem)
        missionTime := s.missionTime +
          (_calcPrevWaypointValues menv h item s.lastCoordinateItem).distance /
            (if vehicle.vtol then
              if s.vtolInHover then vehicle.hoverSpeed else s.currentCruiseSpeed
             else if vehicle.multiRotor then s.currentHoverSpeed else s.currentCruiseSpeed)
        vtolHoverTime :=
          if vehicle.vtol && s.vtolInHover then s.vtolHoverTime +
            (_calcPrevWaypointValues menv h item s.lastCoordinateItem).distance /
              vehicle.hoverSpeed
          else s.vtolHoverTime
        vtolHoverDistance :=
          if vehicle.vtol && s.vtolInHover then s.vtolHoverDistance +
            (_calcPrevWaypointValues menv h item s.lastCoordinateItem).distance
          else s.vtolHoverDistance
        vtolCruiseTime :=
          if vehicle.vtol && !s.vtolInHover then s.vtolCruiseTime +
            (_calcPrevWaypointValues menv h item s.lastCoordinateItem).distance /
              s.currentCruiseSpeed
          else s.vtolCruiseTime
        vtolCruiseDistance :=
          if vehicle.vtol && !s.vtolInHover then s.vtolCruiseDistance +
            (_calcPrevWaypointValues menv h item s.lastCoordinateItem).distance
          else s.vtolCruiseDistance } := by
  unfold _recalcAltitudeRangeBearingLeg
  cases hv : vehicle.vtol <;> cases hh : s.vtolInHover <;> simp [hh]

theorem rangeStep_control (menv : MetricsEnv) (vehicle : Vehicle) (settingsItem : VisualItem)
    (sh : Bool) (h : Rat) (s : RangeLoopState) (item : VisualItem) :
    (_recalcAltitudeRangeBearingStep menv vehicle settingsItem sh h s item).linkBackToHome =
      (s.linkBackToHome || (s.firstCoordinateItem && item.isTakeoff && sh)) ∧
    (_recalcAltitudeRangeBearingStep menv vehicle settingsItem sh h s item).lastCoordinateItem =
      (if item.specifiesCoordinate then item else s.lastCoordinateItem) ∧
    (_recalcAltitudeRangeBearingStep menv vehicle settingsItem sh h s item).firstCoordinateItem =
      (s.firstCoordinateItem && !(item.specifiesCoordinate && !item.isStandaloneCoordinate)) ∧
    (_recalcAltitudeRangeBearingStep menv vehicle settingsItem sh h s item).vtolInHover =
      vtolInHoverAfter vehicle s.vtolInHover item ∧
    (_recalcAltitudeRangeBearingStep menv vehicle settingsItem sh h s item).currentHoverSpeed =
      hoverSpeedAfter vehicle s.currentHoverSpeed item ∧
    (_recalcAltitudeRangeBearingStep menv vehicle settingsItem sh h s item).currentCruiseSpeed =
      cruiseSpeedAfter vehicle s.currentCruiseSpeed item := by
  unfold _recalcAltitudeRangeBearingStep
  simp only []
  have hcmd := rangeCommand_eq vehicle sh s item
  generalize _recalcAltitudeRangeBearingCommand vehicle sh s item = s1 at hcmd ⊢
  obtain ⟨lo, hi, ha⟩ := rangeAltitude_control menv h s1 item
  simp only [ha, rangeLeg_eq, _recalcAltitudeRangeBearingComplex]
  subst hcmd
  cases hc : item.specifiesCoordinate
  · simp
  · cases hs : item.isStandaloneCoordinate
    · cases hx : item.isComplexItem
      · simp only [Bool.not_false, if_true, Bool.false_eq_true, if_false]
        split_ifs <;> simp
      · simp only [Bool.not_false, if_true]
        split_ifs <;> simp
    · simp

theorem rangeCommand_fields (vehicle : Vehicle) (sh : Bool) (s : RangeLoopState)
    (item : VisualItem) :
    (_recalcAltitudeRangeBearingCommand vehicle sh s item).firstCoordinateItem =
      s.firstCoordinateItem ∧
    (_recalcAltitudeRangeBearingCommand vehicle sh s item).lastCoordinateItem =
      s.lastCoordinateItem ∧
    (_recalcAltitudeRangeBearingCommand vehicle sh s item).linkBackToHome =
      (s.linkBackToHome || (s.firstCoordinateItem && item.isTakeoff && sh)) ∧
    (_recalcAltitudeRangeBearingCommand vehicle sh s item).minAltSeen =
      s.minAltSeen ∧
    (_recalcAltitudeRangeBearingCommand vehicle sh s item).maxAltSeen =
      s.maxAltSeen ∧
    (_recalcAltitudeRangeBearingCommand vehicle sh s item).missionDistance =
      s.missionDistance ∧
    (_recalcAltitudeRangeBearingCommand vehicle sh s item).missionMaxTelemetry =
      s.missionMaxTelemetry ∧
    (_recalcAltitudeRangeBearingCommand vehicle sh s item).missionTime =
      s.missionTime ∧
    (_recalcAltitudeRangeBearingCommand vehicle sh s item).vtolHoverTime =
      s.vtolHoverTime ∧
    (_recalcAltitudeRangeBearingCommand vehicle sh s item).vtolCruiseTime =
      s.vtolCruiseTime ∧
    (_recalcAltitudeRangeBearingCommand vehicle sh s item).vtolHoverDistance =
      s.vtolHoverDistance ∧
    (_recalcAltitudeRangeBearingCommand vehicle sh s item).vtolCruiseDistance =
      s.vtolCruiseDistance ∧
    (_recalcAltitudeRangeBearingCommand vehicle sh s item).currentCruiseSpeed =
      cruiseSpeedAfter vehicle s.currentCruiseSpeed item ∧
    (_recalcAltitudeRangeBearingCommand vehicle sh s item).currentHoverSpeed =
      hoverSpeedAfter vehicle s.currentHoverSpeed item ∧
    (_recalcAltitudeRangeBearingCommand vehicle sh s item).vtolInHover =
      vtolInHoverAfter vehicle s.vtolInHover item ∧
    (_recalcAltitudeRangeBearingCommand vehicle sh s item).item =
      (s.item.setAzimuth item.oid 0).setDistance item.oid 0 := by
  rw [rangeCommand_eq]
  exact ⟨rfl, rfl, rfl, rfl, rfl, rfl, rfl, rfl, rfl, rfl, rfl, rfl, rfl, rfl, rfl, rfl⟩

theorem rangeAltitude_fields (menv : MetricsEnv) (h : Rat) (s : RangeLoopState)
    (item : VisualItem) :
    (_recalcAltitudeRangeBearingAltitude menv h s item).firstCoordinateItem =
      s.firstCoordinateItem ∧
    (_recalcAltitudeRangeBearingAltitude menv h s item).lastCoordinateItem =
      s.lastCoordinateItem ∧
    (_recalcAltitudeRangeBearingAltitude menv h s item).linkBackToHome =
      s.linkBackToHome ∧
    (_recalcAltitudeRangeBearingAltitude menv h s item).missionDistance =
      s.missionDistance ∧
    (_recalcAltitudeRangeBearingAltitude menv h s item).missionMaxTelemetry =
      s.missionMaxTelemetry ∧
    (_recalcAltitudeRangeBearingAltitude menv h s item).missionTime =
      s.missionTime ∧
    (_recalcAltitudeRangeBearingAltitude menv h s item).vtolHoverTime =
      s.vtolHoverTime ∧
    (_recalcAltitudeRangeBearingAltitude menv h s item).vtolCruiseTime =
      s.vtolCruiseTime ∧
    (_recalcAltitudeRangeBearingAltitude menv h s item).vtolHoverDistance =
      s.vtolHoverDistance ∧
    (_recalcAltitudeRangeBearingAltitude menv h s item).vtolCruiseDistance =
      s.vtolCruiseDistance ∧
    (_recalcAltitudeRangeBearingAltitude menv h s item).currentCruiseSpeed =
      s.currentCruiseSpeed ∧
    (_recalcAltitudeRangeBearingAltitude menv h s item).currentHoverSpeed =
      s.currentHoverSpeed ∧
    (_recalcAltitudeRangeBearingAltitude menv h s item).vtolInHover =
      s.vtolInHover ∧
    (_recalcAltitudeRangeBearingAltitude menv h s item).item =
      s.item := by
  obtain ⟨lo, hi, ha⟩ := rangeAltitude_control menv h s item
  rw [ha]
  exact ⟨rfl, rfl, rfl, rfl, rfl, rfl, rfl, rfl, rfl, rfl, rfl, rfl, rfl, rfl⟩

theorem rangeLeg_fields (menv : MetricsEnv) (vehicle : Vehicle) (settingsItem : VisualItem)
    (h : Rat) (s : RangeLoopState) (item : VisualItem) :
    (_recalcAltitudeRangeBearingLeg menv vehicle settingsItem h s item).firstCoordinateItem =
      s.firstCoordinateItem ∧
    (_recalcAltitudeRangeBearingLeg menv vehicle settingsItem h s item).lastCoordinateItem =
      s.lastCoordinateItem ∧
    (_recalcAltitudeRangeBearingLeg menv vehicle settingsItem h s item).linkBackToHome =
      s.linkBackToHome ∧
    (_recalcAltitudeRangeBearingLeg menv vehicle settingsItem h s item).minAltSeen =
      s.minAltSeen ∧
    (_recalcAltitudeRangeBearingLeg menv vehicle settingsItem h s item).maxAltSeen =
      s.maxAltSeen ∧
    (_recalcAltitudeRangeBearingLeg menv vehicle settingsItem h s item).missionDistance =
      s.missionDistance + (_calcPrevWaypointValues menv h item s.lastCoordinateItem).distance ∧
    (_recalcAltitudeRangeBearingLeg menv vehicle settingsItem h s item).missionMaxTelemetry =
      max s.missionMaxTelemetry (_calcDistanceToHome menv item settingsItem) ∧
    (_recalcAltitudeRangeBearingLeg menv vehicle settingsItem h s item).missionTime =
      s.missionTime + (_calcPrevWaypointValues menv h item s.lastCoordinateItem).distance /
        (if vehicle.vtol then
          if s.vtolInHover then vehicle.hoverSpeed else s.currentCruiseSpeed
         else if vehicle.multiRotor then s.currentHoverSpeed else s.currentCruiseSpeed) ∧
    (_recalcAltitudeRangeBearingLeg menv vehicle settingsItem h s item).vtolHoverTime =
      (if vehicle.vtol && s.vtolInHover then s.vtolHoverTime +
          (_calcPrevWaypointValues menv h item s.lastCoordinateItem).distance / vehicle.hoverSpeed
       else s.vtolHoverTime) ∧
    (_recalcAltitudeRangeBearingLeg menv vehicle settingsItem h s item).vtolCruiseTime =
      (if vehicle.vtol && !s.vtolInHover then s.vtolCruiseTime +
          (_calcPrevWaypointValues menv h item s.lastCoordinateItem).distance / s.currentCruiseSpeed
       else s.vtolCruiseTime) ∧
    (_recalcAltitudeRangeBearingLeg menv vehicle settingsItem h s item).vtolHoverDistance =
      (if vehicle.vtol && s.vtolInHover then s.vtolHoverDistance +
          (_calcPrevWaypointValues menv h item s.lastCoordinateItem).distance
       else s.vtolHoverDistance) ∧
    (_recalcAltitudeRangeBearingLeg menv vehicle settingsItem h s item).vtolCruiseDistance =
      (if vehicle.vtol && !s.vtolInHover then s.vtolCruiseDistance +
          (_calcPrevWaypointValues menv h item s.lastCoordinateItem).distance
       else s.vtolCruiseDistance) ∧
    (_recalcAltitudeRangeBearingLeg menv vehicle settingsItem h s item).currentCruiseSpeed =
      s.currentCruiseSpeed ∧
    (_recalcAltitudeRangeBearingLeg menv vehicle settingsItem h s item).currentHoverSpeed =
      s.currentHoverSpeed ∧
    (_recalcAltitudeRangeBearingLeg menv vehicle settingsItem h s item).vtolInHover =
      s.vtolInHover ∧
    (_recalcAltitudeRangeBearingLeg menv vehicle settingsItem h s item).item =
      ((s.item.setAltDifference item.oid (_calcPrevWaypointValues menv h item s.lastCoordinateItem).altDifference).setAzimuth item.oid
        (_calcPrevWaypointValues menv h item s.lastCoordinateItem).azimuth).setDistance item.oid
        (_calcPrevWaypointValues menv h item s.lastCoordinateItem).distance := by
  rw [rangeLeg_eq]
  exact ⟨rfl, rfl, rfl, rfl, rfl, rfl, rfl, rfl, rfl, rfl, rfl, rfl, rfl, rfl, rfl, rfl⟩

theorem rangeComplex_fields (menv : MetricsEnv) (vehicle : Vehicle) (settingsItem : VisualItem)
    (s : RangeLoopState) (item : VisualItem) :
    (_recalcAltitudeRangeBearingComplex menv vehicle settingsItem s item).firstCoordinateItem =
      s.firstCoordinateItem ∧
    (_recalcAltitudeRangeBearingComplex menv vehicle settingsItem s item).lastCoordinateItem =
      s.lastCoordinateItem ∧
    (_recalcAltitudeRangeBearingComplex menv vehicle settingsItem s item).linkBackToHome =
      s.linkBackToHome ∧
    (_recalcAltitudeRangeBearingComplex menv vehicle settingsItem s item).minAltSeen =
      s.minAltSeen ∧
    (_recalcAltitudeRangeBearingComplex menv vehicle settingsItem s item).maxAltSeen =
      s.maxAltSeen ∧
    (_recalcAltitudeRangeBearingComplex menv vehicle settingsItem s item).missionDistance =
      s.missionDistance + menv.complexDistance item ∧
    (_recalcAltitudeRangeBearingComplex menv vehicle settingsItem s item).missionMaxTelemetry =
      max s.missionMaxTelemetry
        (menv.greatestDistanceTo item settingsItem.exitCoordinate) ∧
    (_recalcAltitudeRangeBearingComplex menv vehicle settingsItem s item).missionTime =
      s.missionTime + menv.complexDistance item /
        (if vehicle.multiRotor then s.currentHoverSpeed else s.currentCruiseSpeed) ∧
    (_recalcAltitudeRangeBearingComplex menv vehicle settingsItem s item).vtolHoverTime =
      s.vtolHoverTime ∧
    (_recalcAltitudeRangeBearingComplex menv vehicle settingsItem s item).vtolCruiseTime =
      s.vtolCruiseTime ∧
    (_recalcAltitudeRangeBearingComplex menv vehicle settingsItem s item).vtolHoverDistance =
      s.vtolHoverDistance ∧
    (_recalcAltitudeRangeBearingComplex menv vehicle settingsItem s item).vtolCruiseDistance =
      s.vtolCruiseDistance ∧
    (_recalcAltitudeRangeBearingComplex menv vehicle settingsItem s item).currentCruiseSpeed =
      s.currentCruiseSpeed ∧
    (_recalcAltitudeRangeBearingComplex menv vehicle settingsItem s item).currentHoverSpeed =
      s.currentHoverSpeed ∧
    (_recalcAltitudeRangeBearingComplex menv vehicle settingsItem s item).vtolInHover =
      s.vtolInHover ∧
    (_recalcAltitudeRangeBearingComplex menv vehicle settingsItem s item).item =
      s.item.setCruiseSpeed item.oid
        (if vehicle.multiRotor then s.currentHoverSpeed else s.currentCruiseSpeed) := by
  unfold _recalcAltitudeRangeBearingComplex
  exact ⟨rfl, rfl, rfl, rfl, rfl, rfl, rfl, rfl, rfl, rfl, rfl, rfl, rfl, rfl, rfl, rfl⟩

theorem rangeStep_totals (menv : MetricsEnv) (vehicle : Vehicle) (settingsItem : VisualItem)
    (sh : Bool) (h : Rat) (s : RangeLoopState) (item : VisualItem) :
    (_recalcAltitudeRangeBearingStep menv vehicle settingsItem sh h s item).missionDistance =
      s.missionDistance +
        ((legOf vehicle settingsItem sh s item).toList.map (Leg.distance menv h)).sum +
        ((complexLegItems [item]).map menv.complexDistance).sum ∧
    (_recalcAltitudeRangeBearingStep menv vehicle settingsItem sh h s item).vtolHoverDistance =
      s.vtolHoverDistance +
        (((legOf vehicle settingsItem sh s item).toList.filter
          (fun l => vehicle.vtol && l.vtolInHover)).map (Leg.distance menv h)).sum ∧
    (_recalcAltitudeRangeBearingStep menv vehicle settingsItem sh h s item).vtolCruiseDistance =
      s.vtolCruiseDistance +
        (((legOf vehicle settingsItem sh s item).toList.filter
          (fun l => vehicle.vtol && !l.vtolInHover)).map (Leg.distance menv h)).sum ∧
    (_recalcAltitudeRangeBearingStep menv vehicle settingsItem sh h s item).vtolHoverTime =
      s.vtolHoverTime +
        (((legOf vehicle settingsItem sh s item).toList.filter
          (fun l => vehicle.vtol && l.vtolInHover)).map
            (fun l => l.distance menv h / vehicle.hoverSpeed)).sum ∧
    (_recalcAltitudeRangeBearingStep menv vehicle settingsItem sh h s item).vtolCruiseTime =
      s.vtolCruiseTime +
        (((legOf vehicle settingsItem sh s item).toList.filter
          (fun l => vehicle.vtol && !l.vtolInHover)).map
            (fun l => l.distance menv h / l.currentCruiseSpeed)).sum ∧
    (_recalcAltitudeRangeBearingStep menv vehicle settingsItem sh h s item).missionTime =
      s.missionTime +
        ((legOf vehicle settingsItem sh s item).toList.map
          (fun l => l.distance menv h / l.speed vehicle)).sum +
        ((complexLegItems [item]).map (fun x => menv.complexDistance x /
          complexSpeed vehicle s.currentHoverSpeed s.currentCruiseSpeed x)).sum ∧
    (_recalcAltitudeRangeBearingStep menv vehicle settingsItem sh h s item).missionMaxTelemetry =
      ((complexLegItems [item]).map
          (fun x => menv.greatestDistanceTo x settingsItem.exitCoordinate)).foldl max
        (((legOf vehicle settingsItem sh s item).toList.map
          (fun l => _calcDistanceToHome menv l.item settingsItem)).foldl max
            s.missionMaxTelemetry) := by
  unfold _recalcAltitudeRangeBearingStep legOf complexLegItems Leg.distance Leg.speed
    complexSpeed
  simp only []
  cases hc : item.specifiesCoordinate
  · simp [rangeCommand_fields, hc]
  · cases hs : item.isStandaloneCoordinate
    · cases hx : item.isComplexItem
      · by_cases hl : (s.lastCoordinateItem.oid != settingsItem.oid ||
            (s.linkBackToHome || (s.firstCoordinateItem && item.isTakeoff && sh))) = true
        · simp only [rangeCommand_fields, rangeAltitude_fields, rangeLeg_fields,
            rangeComplex_fields, hl, Bool.not_false, Bool.and_true, Bool.true_and, if_true,
            Bool.false_eq_true, if_false, List.filter_cons, List.filter_nil, Option.toList,
            List.map_cons, List.map_nil, List.sum_cons, List.sum_nil, List.foldl_cons,
            List.foldl_nil, add_zero]
          cases hv : vehicle.vtol <;>
            cases hh : vtolInHoverAfter vehicle s.vtolInHover item <;> simp [hc, hs, hx]
        · have hl1 : (s.lastCoordinateItem.oid != settingsItem.oid ||
              (s.linkBackToHome || (s.firstCoordinateItem && item.isTakeoff && sh))) = false := by
            simpa using hl
          simp only [rangeCommand_fields, rangeAltitude_fields, rangeLeg_fields,
            rangeComplex_fields, hl1, Bool.not_false, Bool.and_true, Bool.true_and, if_true,
            Bool.false_eq_true, if_false, List.filter_cons, List.filter_nil, Option.toList,
            List.map_cons, List.map_nil, List.sum_cons, List.sum_nil, List.foldl_cons,
            List.foldl_nil, add_zero, Bool.and_false, and_self]
          simp [hc, hs, hx]
      · by_cases hl : (s.lastCoordinateItem.oid != settingsItem.oid ||
            (s.linkBackToHome || (s.firstCoordinateItem && item.isTakeoff && sh))) = true
        · simp only [rangeCommand_fields, rangeAltitude_fields, rangeLeg_fields,
            rangeComplex_fields, hl, Bool.not_false, Bool.and_true, Bool.true_and, if_true,
            Bool.false_eq_true, if_false, List.filter_cons, List.filter_nil, Option.toList,
            List.map_cons, List.map_nil, List.sum_cons, List.sum_nil, List.foldl_cons,
            List.foldl_nil, add_zero]
          cases hv : vehicle.vtol <;>
            cases hh : vtolInHoverAfter vehicle s.vtolInHover item <;> simp [hc, hs, hx]
        · have hl1 : (s.lastCoordinateItem.oid != settingsItem.oid ||
              (s.linkBackToHome || (s.firstCoordinateItem && item.isTakeoff && sh))) = false := by
            simpa using hl
          simp only [rangeCommand_fields, rangeAltitude_fields, rangeLeg_fields,
            rangeComplex_fields, hl1, Bool.not_false, Bool.and_true, Bool.true_and, if_true,
            Bool.false_eq_true, if_false, List.filter_cons, List.filter_nil, Option.toList,
            List.map_cons, List.map_nil, List.sum_cons, List.sum_nil, List.foldl_cons,
            List.foldl_nil, add_zero, Bool.and_false, and_self]
          simp [hc, hs, hx]
    · simp [rangeCommand_fields, rangeAltitude_fields, hc, hs]

theorem foldl_max_comm (l : List Rat) (a b : Rat) :
    List.foldl max (max a b) l = max (List.foldl max a l) b := by
  induction l generalizing a with
  | nil => rfl
  | cons x l ih =>
    simp only [List.foldl_cons]
    rw [sup_right_comm, ih]

theorem foldl_max_swap (l1 l2 : List Rat) (a : Rat) :
    List.foldl max (List.foldl max a l1) l2 = List.foldl max (List.foldl max a l2) l1 := by
  induction l1 generalizing a with
  | nil => rfl
  | cons x l1 ih =>
    simp only [List.foldl_cons]
    rw [ih, foldl_max_comm]

theorem complexLegItems_cons (item : VisualItem) (rest : List VisualItem) :
    complexLegItems (item :: rest) = complexLegItems [item] ++ complexLegItems rest := by
  unfold complexLegItems
  rw [← List.filter_append]
  rfl

theorem rangeLoop_totals (menv : MetricsEnv) (vehicle : Vehicle) (settingsItem : VisualItem)
    (rest : List VisualItem) (s : RangeLoopState) :
    (rest.foldl (_recalcAltitudeRangeBearingStep menv vehicle settingsItem
        settingsItem.showHomePosition settingsItem.coordinate.altitude) s).missionDistance =
      s.missionDistance +
        ((metricsLegs menv vehicle settingsItem s rest).map
          (Leg.distance menv settingsItem.coordinate.altitude)).sum +
        ((complexLegItems rest).map menv.complexDistance).sum ∧
    (rest.foldl (_recalcAltitudeRangeBearingStep menv vehicle settingsItem
        settingsItem.showHomePosition settingsItem.coordinate.altitude) s).vtolHoverDistance =
      s.vtolHoverDistance +
        (((metricsLegs menv vehicle settingsItem s rest).filter
          (fun l => vehicle.vtol && l.vtolInHover)).map
            (Leg.distance menv settingsItem.coordinate.altitude)).sum ∧
    (rest.foldl (_recalcAltitudeRangeBearingStep menv vehicle settingsItem
        settingsItem.showHomePosition settingsItem.coordinate.altitude) s).vtolCruiseDistance =
      s.vtolCruiseDistance +
        (((metricsLegs menv vehicle settingsItem s rest).filter
          (fun l => vehicle.vtol && !l.vtolInHover)).map
            (Leg.distance menv settingsItem.coordinate.altitude)).sum ∧
    (rest.foldl (_recalcAltitudeRangeBearingStep menv vehicle settingsItem
        settingsItem.showHomePosition settingsItem.coordinate.altitude) s).vtolHoverTime =
      s.vtolHoverTime +
        (((metricsLegs menv vehicle settingsItem s rest).filter
          (fun l => vehicle.vtol && l.vtolInHover)).map
            (fun l => l.distance menv settingsItem.coordinate.altitude /
              vehicle.hoverSpeed)).sum ∧
    (rest.foldl (_recalcAltitudeRangeBearingStep menv vehicle settingsItem
        settingsItem.showHomePosition settingsItem.coordinate.altitude) s).vtolCruiseTime =
      s.vtolCruiseTime +
        (((metricsLegs menv vehicle settingsItem s rest).filter
          (fun l => vehicle.vtol && !l.vtolInHover)).map
            (fun l => l.distance menv settingsItem.coordinate.altitude /
              l.currentCruiseSpeed)).sum ∧
    (rest.foldl (_recalcAltitudeRangeBearingStep menv vehicle settingsItem
        settingsItem.showHomePosition settingsItem.coordinate.altitude) s).missionMaxTelemetry =
      ((complexLegItems rest).map
          (fun x => menv.greatestDistanceTo x settingsItem.exitCoordinate)).foldl max
        (((metricsLegs menv vehicle settingsItem s rest).map
          (fun l => _calcDistanceToHome menv l.item settingsItem)).foldl max
            s.missionMaxTelemetry) := by
  induction rest generalizing s with
  | nil => simp [metricsLegs, complexLegItems]
  | cons item rest ih =>
    obtain ⟨h1, h2, h3, h4, h5, _, h7⟩ := rangeStep_totals menv vehicle settingsItem
      settingsItem.showHomePosition settingsItem.coordinate.altitude s item
    obtain ⟨i1, i2, i3, i4, i5, i6⟩ := ih
      (_recalcAltitudeRangeBearingStep menv vehicle settingsItem
        settingsItem.showHomePosition settingsItem.coordinate.altitude s item)
    rw [List.foldl_cons, complexLegItems_cons]
    simp only [metricsLegs, List.map_append, List.sum_append, List.filter_append,
      List.foldl_append]
    refine ⟨?_, ?_, ?_, ?_, ?_, ?_⟩
    · rw [i1, h1]; ring
    · rw [i2, h2]; ring
    · rw [i3, h3]; ring
    · rw [i4, h4]; ring
    · rw [i5, h5]; ring
    · rw [i6, h7]
      congr 1
      rw [foldl_max_swap]

theorem mem_metricsLegs (menv : MetricsEnv) (vehicle : Vehicle) (settingsItem : VisualItem)
    (rest : List VisualItem) (s : RangeLoopState) (leg : Leg) :
    leg ∈ metricsLegs menv vehicle settingsItem s rest ↔
      ∃ pre x post, rest = pre ++ x :: post ∧
        legOf vehicle settingsItem settingsItem.showHomePosition
          (pre.foldl (_recalcAltitudeRangeBearingStep menv vehicle settingsItem
            settingsItem.showHomePosition settingsItem.coordinate.altitude) s) x = some leg := by
  induction rest generalizing s with
  | nil => simp [metricsLegs]
  | cons item rest ih =>
    simp only [metricsLegs, List.mem_append, Option.mem_toList, Option.mem_def, ih]
    constructor
    · rintro (h | ⟨pre, x, post, h1, h2⟩)
      · exact ⟨[], item, rest, rfl, h⟩
      · exact ⟨item :: pre, x, post, by rw [h1]; rfl, h2⟩
    · rintro ⟨pre, x, post, h1, h2⟩
      cases pre with
      | nil =>
        simp only [List.nil_append, List.cons.injEq] at h1
        left
        rw [h1.1]; exact h2
      | cons p pre =>
        simp only [List.cons_append, List.cons.injEq] at h1
        right
        refine ⟨pre, x, post, h1.2, ?_⟩
        rw [h1.1]; exact h2

theorem getLast?_cons_getD (a d : VisualItem) (l : List VisualItem) :
    ((a :: l).getLast?).getD d = (l.getLast?).getD a := by
  cases l with
  | nil => rfl
  | cons b l => rw [List.getLast?_cons_cons]; simp [List.getLast?_cons]

theorem rangeLoop_control (menv : MetricsEnv) (vehicle : Vehicle) (settingsItem : VisualItem)
    (sh : Bool) (h : Rat) (pre : List VisualItem) (s : RangeLoopState) :
    (pre.foldl (_recalcAltitudeRangeBearingStep menv vehicle settingsItem sh h)
        s).lastCoordinateItem =
      ((pre.filter (fun v => v.specifiesCoordinate)).getLast?).getD s.lastCoordinateItem ∧
    ((pre.foldl (_recalcAltitudeRangeBearingStep menv vehicle settingsItem sh h)
        s).linkBackToHome = true →
      s.linkBackToHome = true ∨ (sh = true ∧ ∃ x ∈ pre, x.isTakeoff = true)) ∧
    (pre.foldl (_recalcAltitudeRangeBearingStep menv vehicle settingsItem sh h)
        s).vtolInHover = pre.foldl (vtolInHoverAfter vehicle) s.vtolInHover ∧
    (pre.foldl (_recalcAltitudeRangeBearingStep menv vehicle settingsItem sh h)
        s).currentHoverSpeed = pre.foldl (hoverSpeedAfter vehicle) s.currentHoverSpeed ∧
    (pre.foldl (_recalcAltitudeRangeBearingStep menv vehicle settingsItem sh h)
        s).currentCruiseSpeed = pre.foldl (cruiseSpeedAfter vehicle) s.currentCruiseSpeed := by
  induction pre generalizing s with
  | nil => simp
  | cons item pre ih =>
    obtain ⟨c1, c2, _, c4, c5, c6⟩ :=
      rangeStep_control menv vehicle settingsItem sh h s item
    obtain ⟨i1, i2, i3, i4, i5⟩ :=
      ih (_recalcAltitudeRangeBearingStep menv vehicle settingsItem sh h s item)
    simp only [List.foldl_cons]
    refine ⟨?_, ?_, ?_, ?_, ?_⟩
    · rw [i1, c2]
      by_cases hc : item.specifiesCoordinate = true
      · simp only [hc, if_true, List.filter_cons]
        rw [getLast?_cons_getD]
      · have hc1 : item.specifiesCoordinate = false := by simpa using hc
        simp [hc1, List.filter_cons]
    · intro hl
      rcases i2 hl with h1 | ⟨h1, x, hx, hx2⟩
      · rw [c1] at h1
        simp only [Bool.or_eq_true, Bool.and_eq_true] at h1
        rcases h1 with h1 | ⟨⟨_, h2⟩, h3⟩
        · exact Or.inl h1
        · exact Or.inr ⟨h3, item, by simp, h2⟩
      · exact Or.inr ⟨h1, x, by simp [hx], hx2⟩
    · rw [i3, c4]
    · rw [i4, c5]
    · rw [i5, c6]

theorem legOf_some (vehicle : Vehicle) (settingsItem : VisualItem) (sh : Bool)
    (s : RangeLoopState) (x : VisualItem) (leg : Leg)
    (h : legOf vehicle settingsItem sh s x = some leg) :
    leg.item = x ∧ leg.prev = s.lastCoordinateItem ∧ x.specifiesCoordinate = true ∧
    x.isStandaloneCoordinate = false ∧
    ((s.lastCoordinateItem.oid != settingsItem.oid) = true ∨
      (s.linkBackToHome || (s.firstCoordinateItem && x.isTakeoff && sh)) = true) ∧
    leg.vtolInHover = vtolInHoverAfter vehicle s.vtolInHover x ∧
    leg.currentCruiseSpeed = cruiseSpeedAfter vehicle s.currentCruiseSpeed x ∧
    leg.currentHoverSpeed = hoverSpeedAfter vehicle s.currentHoverSpeed x := by
  unfold legOf at h
  simp only [rangeCommand_fields] at h
  split at h
  · rename_i hcond
    simp only [Option.some.injEq] at h
    subst h
    simp only [Bool.and_eq_true, Bool.not_eq_true', Bool.or_eq_true] at hcond
    refine ⟨rfl, rfl, hcond.1.1, hcond.1.2, ?_, rfl, rfl, rfl⟩
    rcases hcond.2 with h1 | h1
    · exact Or.inl h1
    · exact Or.inr (by simpa using h1)
  · simp at h

theorem legOf_none (vehicle : Vehicle) (settingsItem : VisualItem) (sh : Bool)
    (s : RangeLoopState) (x : VisualItem) (h : legOf vehicle settingsItem sh s x = none) :
    (legOf vehicle settingsItem sh s x).toList = [] := by
  rw [h]; rfl

theorem setters_apply (t : ItemMetricsTable) (oid o : Nat) (x : Rat) :
    (t.setAltDifference oid x) o =
      (if o = oid then { t o with altDifference := x } else t o) ∧
    (t.setAzimuth oid x) o = (if o = oid then { t o with azimuth := x } else t o) ∧
    (t.setDistance oid x) o = (if o = oid then { t o with distance := x } else t o) ∧
    (t.setAltPercent oid x) o = (if o = oid then { t o with altPercent := x } else t o) ∧
    (t.setCruiseSpeed oid x) o = (if o = oid then { t o with cruiseSpeed := x } else t o) :=
  ⟨rfl, rfl, rfl, rfl, rfl⟩

theorem rangeStep_item_other (menv : MetricsEnv) (vehicle : Vehicle)
    (settingsItem : VisualItem) (sh : Bool) (h : Rat) (s : RangeLoopState) (item : VisualItem)
    (o : Nat) (ho : o ≠ item.oid) :
    (_recalcAltitudeRangeBearingStep menv vehicle settingsItem sh h s item).item o =
      s.item o := by
  unfold _recalcAltitudeRangeBearingStep
  simp only []
  split_ifs <;>
    simp [rangeCommand_fields, rangeAltitude_fields, rangeLeg_fields, rangeComplex_fields,
      setters_apply, ho]

theorem rangeStep_item_own (menv : MetricsEnv) (vehicle : Vehicle)
    (settingsItem : VisualItem) (sh : Bool) (h : Rat) (s : RangeLoopState)
    (item : VisualItem) :
    ((_recalcAltitudeRangeBearingStep menv vehicle settingsItem sh h s item).item
        item.oid).distance =
      ((legOf vehicle settingsItem sh s item).toList.map (Leg.distance menv h)).sum ∧
    ((_recalcAltitudeRangeBearingStep menv vehicle settingsItem sh h s item).item
        item.oid).azimuth =
      ((legOf vehicle settingsItem sh s item).toList.map (Leg.azimuth menv h)).sum := by
  unfold _recalcAltitudeRangeBearingStep legOf Leg.distance Leg.azimuth
  simp only []
  cases hc : item.specifiesCoordinate
  · simp [rangeCommand_fields, setters_apply]
  · cases hs : item.isStandaloneCoordinate
    · by_cases hl : (s.lastCoordinateItem.oid != settingsItem.oid ||
          (s.linkBackToHome || (s.firstCoordinateItem && item.isTakeoff && sh))) = true
      · cases hx : item.isComplexItem <;>
          simp [rangeCommand_fields, rangeAltitude_fields, rangeLeg_fields,
            rangeComplex_fields, setters_apply, hl]
      · have hl1 : (s.lastCoordinateItem.oid != settingsItem.oid ||
            (s.linkBackToHome || (s.firstCoordinateItem && item.isTakeoff && sh))) = false := by
          simpa using hl
        cases hx : item.isComplexItem <;>
          simp [rangeCommand_fields, rangeAltitude_fields, rangeLeg_fields,
            rangeComplex_fields, setters_apply, hl1]
    · simp [rangeCommand_fields, rangeAltitude_fields, setters_apply]

theorem rangeLoop_item_frame (menv : MetricsEnv) (vehicle : Vehicle)
    (settingsItem : VisualItem) (sh : Bool) (h : Rat) (l : List VisualItem)
    (s : RangeLoopState) (o : Nat) (ho : ∀ y ∈ l, y.oid ≠ o) :
    (l.foldl (_recalcAltitudeRangeBearingStep menv vehicle settingsItem sh h) s).item o =
      s.item o := by
  induction l generalizing s with
  | nil => rfl
  | cons y l ih =>
    rw [List.foldl_cons, ih _ (fun z hz => ho z (List.mem_cons_of_mem _ hz)),
      rangeStep_item_other _ _ _ _ _ _ _ _ (fun e => ho y (List.mem_cons_self _ _) e.symm)]

theorem rangePercent_frame (menv : MetricsEnv) (h lo range : Rat) (l : List VisualItem)
    (t : ItemMetricsTable) (o : Nat) :
    ((l.foldl (_recalcAltitudeRangeBearingPercent menv h lo range) t) o).distance =
      (t o).distance ∧
    ((l.foldl (_recalcAltitudeRangeBearingPercent menv h lo range) t) o).azimuth =
      (t o).azimuth ∧
    ((l.foldl (_recalcAltitudeRangeBearingPercent menv h lo range) t) o).altDifference =
      (t o).altDifference ∧
    ((l.foldl (_recalcAltitudeRangeBearingPercent menv h lo range) t) o).cruiseSpeed =
      (t o).cruiseSpeed := by
  induction l generalizing t with
  | nil => exact ⟨rfl, rfl, rfl, rfl⟩
  | cons y l ih =>
    rw [List.foldl_cons]
    obtain ⟨i1, i2, i3, i4⟩ := ih (_recalcAltitudeRangeBearingPercent menv h lo range t y)
    rw [i1, i2, i3, i4]
    unfold _recalcAltitudeRangeBearingPercent
    simp only []
    split_ifs <;> simp [setters_apply] <;> split_ifs <;> simp

theorem rangeLoop_item_at (menv : MetricsEnv) (vehicle : Vehicle)
    (settingsItem : VisualItem) (sh : Bool) (h : Rat) (pre post : List VisualItem)
    (x : VisualItem) (s : RangeLoopState)
    (hnd : ((pre ++ x :: post).map (fun v => v.oid)).Nodup) :
    ((((pre ++ x :: post).foldl (_recalcAltitudeRangeBearingStep menv vehicle settingsItem sh h)
        s).item x.oid).distance =
      ((legOf vehicle settingsItem sh
        (pre.foldl (_recalcAltitudeRangeBearingStep menv vehicle settingsItem sh h) s)
        x).toList.map (Leg.distance menv h)).sum) ∧
    ((((pre ++ x :: post).foldl (_recalcAltitudeRangeBearingStep menv vehicle settingsItem sh h)
        s).item x.oid).azimuth =
      ((legOf vehicle settingsItem sh
        (pre.foldl (_recalcAltitudeRangeBearingStep menv vehicle settingsItem sh h) s)
        x).toList.map (Leg.azimuth menv h)).sum) := by
  rw [List.foldl_append, List.foldl_cons]
  have hpost : ∀ y ∈ post, y.oid ≠ x.oid := by
    intro y hy e
    rw [List.map_append, List.map_cons] at hnd
    have h2 := (List.nodup_append.mp hnd).2.1
    rw [List.nodup_cons] at h2
    exact h2.1 (List.mem_map.mpr ⟨y, hy, e⟩)
  rw [rangeLoop_item_frame menv vehicle settingsItem sh h post _ x.oid hpost]
  exact rangeStep_item_own menv vehicle settingsItem sh h _ x

theorem setMission_values (m : MissionMetrics) (v : Rat) :
    (_setMissionMaxTelemetry m v).missionMaxTelemetry =
      (if qFuzzyCompare m.missionMaxTelemetry v then m.missionMaxTelemetry else v) ∧
    (_setMissionDistance m v).missionDistance =
      (if qFuzzyCompare m.missionDistance v then m.missionDistance else v) ∧
    (_setMissionTime m v).missionTime =
      (if qFuzzyCompare m.missionTime v then m.missionTime else v) ∧
    (_setMissionHoverDistance m v).missionHoverDistance =
      (if qFuzzyCompare m.missionHoverDistance v then m.missionHoverDistance else v) ∧
    (_setMissionHoverTime m v).missionHoverTime =
      (if qFuzzyCompare m.missionHoverTime v then m.missionHoverTime else v) ∧
    (_setMissionCruiseDistance m v).missionCruiseDistance =
      (if qFuzzyCompare m.missionCruiseDistance v then m.missionCruiseDistance else v) ∧
    (_setMissionCruiseTime m v).missionCruiseTime =
      (if qFuzzyCompare m.missionCruiseTime v then m.missionCruiseTime else v) := by
  unfold _setMissionMaxTelemetry _setMissionDistance _setMissionTime _setMissionHoverDistance
    _setMissionHoverTime _setMissionCruiseDistance _setMissionCruiseTime
  refine ⟨?_, ?_, ?_, ?_, ?_, ?_, ?_⟩ <;>
  · split_ifs <;> simp_all

theorem setMission_frame (m : MissionMetrics) (v : Rat) :
    (_setMissionMaxTelemetry m v).missionDistance = m.missionDistance ∧
    (_setMissionMaxTelemetry m v).missionTime = m.missionTime ∧
    (_setMissionMaxTelemetry m v).missionHoverDistance = m.missionHoverDistance ∧
    (_setMissionMaxTelemetry m v).missionHoverTime = m.missionHoverTime ∧
    (_setMissionMaxTelemetry m v).missionCruiseDistance = m.missionCruiseDistance ∧
    (_setMissionMaxTelemetry m v).missionCruiseTime = m.missionCruiseTime ∧
    (_setMissionDistance m v).missionMaxTelemetry = m.missionMaxTelemetry ∧
    (_setMissionDistance m v).missionTime = m.missionTime ∧
    (_setMissionDistance m v).missionHoverDistance = m.missionHoverDistance ∧
    (_setMissionDistance m v).missionHoverTime = m.missionHoverTime ∧
    (_setMissionDistance m v).missionCruiseDistance = m.missionCruiseDistance ∧
    (_setMissionDistance m v).missionCruiseTime = m.missionCruiseTime ∧
    (_setMissionTime m v).missionMaxTelemetry = m.missionMaxTelemetry ∧
    (_setMissionTime m v).missionDistance = m.missionDistance ∧
    (_setMissionTime m v).missionHoverDistance = m.missionHoverDistance ∧
    (_setMissionTime m v).missionHoverTime = m.missionHoverTime ∧
    (_setMissionTime m v).missionCruiseDistance = m.missionCruiseDistance ∧
    (_setMissionTime m v).missionCruiseTime = m.missionCruiseTime ∧
    (_setMissionHoverDistance m v).missionMaxTelemetry = m.missionMaxTelemetry ∧
    (_setMissionHoverDistance m v).missionDistance = m.missionDistance ∧
    (_setMissionHoverDistance m v).missionTime = m.missionTime ∧
    (_setMissionHoverDistance m v).missionHoverTime = m.missionHoverTime ∧
    (_setMissionHoverDistance m v).missionCruiseDistance = m.missionCruiseDistance ∧
    (_setMissionHoverDistance m v).missionCruiseTime = m.missionCruiseTime ∧
    (_setMissionHoverTime m v).missionMaxTelemetry = m.missionMaxTelemetry ∧
    (_setMissionHoverTime m v).missionDistance = m.missionDistance ∧
    (_setMissionHoverTime m v).missionTime = m.missionTime ∧
    (_setMissionHoverTime m v).missionHoverDistance = m.missionHoverDistance ∧
    (_setMissionHoverTime m v).missionCruiseDistance = m.missionCruiseDistance ∧
    (_setMissionHoverTime m v).missionCruiseTime = m.missionCruiseTime ∧
    (_setMissionCruiseDistance m v).missionMaxTelemetry = m.missionMaxTelemetry ∧
    (_setMissionCruiseDistance m v).missionDistance = m.missionDistance ∧
    (_setMissionCruiseDistance m v).missionTime = m.missionTime ∧
    (_setMissionCruiseDistance m v).missionHoverDistance = m.missionHoverDistance ∧
    (_setMissionCruiseDistance m v).missionHoverTime = m.missionHoverTime ∧
    (_setMissionCruiseDistance m v).missionCruiseTime = m.missionCruiseTime ∧
    (_setMissionCruiseTime m v).missionMaxTelemetry = m.missionMaxTelemetry ∧
    (_setMissionCruiseTime m v).missionDistance = m.missionDistance ∧
    (_setMissionCruiseTime m v).missionTime = m.missionTime ∧
    (_setMissionCruiseTime m v).missionHoverDistance = m.missionHoverDistance ∧
    (_setMissionCruiseTime m v).missionHoverTime = m.missionHoverTime ∧
    (_setMissionCruiseTime m v).missionCruiseDistance = m.missionCruiseDistance := by
  unfold _setMissionMaxTelemetry _setMissionDistance _setMissionTime _setMissionHoverDistance
    _setMissionHoverTime _setMissionCruiseDistance _setMissionCruiseTime
  refine ⟨?_, ?_, ?_, ?_, ?_, ?_, ?_, ?_, ?_, ?_, ?_, ?_, ?_, ?_, ?_, ?_, ?_, ?_, ?_, ?_, ?_, ?_, ?_, ?_, ?_, ?_, ?_, ?_, ?_, ?_, ?_, ?_, ?_, ?_, ?_, ?_, ?_, ?_, ?_, ?_, ?_, ?_⟩ <;>
  · split_ifs <;> rfl

theorem recalcAltitudeRangeBearing_some (menv : MetricsEnv) (c : MissionController)
    (first : VisualItem) (rest : List VisualItem) (ms : MetricsState)
    (hv : c.visualItems = some (first :: rest)) (hs : first.isSettingsItem = true) :
    ∃ ms1, _recalcAltitudeRangeBearing menv c ms = some ms1 ∧
      ms1.mission.missionMaxTelemetry =
        (if qFuzzyCompare ms.mission.missionMaxTelemetry
            (_recalcAltitudeRangeBearingLoop menv c.activeVehicle first rest
              (((ms.item.setAltDifference first.oid 0).setAzimuth first.oid 0).setDistance
                first.oid 0)).missionMaxTelemetry
         then ms.mission.missionMaxTelemetry
         else (_recalcAltitudeRangeBearingLoop menv c.activeVehicle first rest
              (((ms.item.setAltDifference first.oid 0).setAzimuth first.oid 0).setDistance
                first.oid 0)).missionMaxTelemetry) ∧
      ms1.mission.missionDistance =
        (if qFuzzyCompare ms.mission.missionDistance
            (_recalcAltitudeRangeBearingLoop menv c.activeVehicle first rest
              (((ms.item.setAltDifference first.oid 0).setAzimuth first.oid 0).setDistance
                first.oid 0)).missionDistance
         then ms.mission.missionDistance
         else (_recalcAltitudeRangeBearingLoop menv c.activeVehicle first rest
              (((ms.item.setAltDifference first.oid 0).setAzimuth first.oid 0).setDistance
                first.oid 0)).missionDistance) ∧
      ∀ o : Nat,
        (ms1.item o).distance =
          ((_recalcAltitudeRangeBearingLoop menv c.activeVehicle first rest
              (((ms.item.setAltDifference first.oid 0).setAzimuth first.oid 0).setDistance
                first.oid 0)).item o).distance ∧
        (ms1.item o).azimuth =
          ((_recalcAltitudeRangeBearingLoop menv c.activeVehicle first rest
              (((ms.item.setAltDifference first.oid 0).setAzimuth first.oid 0).setDistance
                first.oid 0)).item o).azimuth := by
  simp only [_recalcAltitudeRangeBearing, hv, hs, if_true]
  refine ⟨_, rfl, ?_, ?_, ?_⟩
  · simp only [setMission_frame, setMission_values]
  · simp only [setMission_frame, setMission_values]
  · intro o
    exact ⟨(rangePercent_frame menv _ _ _ _ _ o).1, (rangePercent_frame menv _ _ _ _ _ o).2.1⟩

theorem recalcWaypointLines_linesTable_keys (c : MissionController) (first : VisualItem)
    (rest : List VisualItem) (hv : c.visualItems = some (first :: rest))
    (hs : first.isSettingsItem = true)
    (hnd : ((first :: rest).map (fun v => v.oid)).Nodup) :
    ∃ c1, _recalcWaypointLines c = some c1 ∧
      c1.linesTable.keys = adjacentPairs (coordinateItems rest) := by
  obtain ⟨c1, first1, rest1, he, _, h1, _, h3, _, _⟩ :=
    recalcWaypointLines_shape c (first :: rest) hv (by simpa [settingsFirst] using hs)
  simp only [List.cons.injEq] at he
  obtain ⟨rfl, rfl⟩ := he
  simp only [List.map_cons, List.nodup_cons] at hnd
  have hpairs := expectedEdges_pairs first rest hnd.1
  have hnp : (adjacentPairs (coordinateItems rest)).Nodup :=
    nodup_adjacentPairs _ (nodup_coordinateItems rest hnd.2)
  refine ⟨c1, h1, ?_⟩
  rw [h3, foldl_stepEdge_keys _ _ (by rw [hpairs]; exact hnp)
    (by intro e _; simp [CoordVectHashTable.keys]), hpairs]
  simp [CoordVectHashTable.keys]

theorem rangeLoop_eq (menv : MetricsEnv) (vehicle : Vehicle) (settingsItem : VisualItem)
    (rest : List VisualItem) (items : ItemMetricsTable) :
    _recalcAltitudeRangeBearingLoop menv vehicle settingsItem rest items =
      rest.foldl (_recalcAltitudeRangeBearingStep menv vehicle settingsItem
        settingsItem.showHomePosition settingsItem.coordinate.altitude)
        (rangeLoopStart vehicle settingsItem items) := rfl

theorem metricsLegs_written (menv : MetricsEnv) (vehicle : Vehicle) (first : VisualItem)
    (rest : List VisualItem) (s : RangeLoopState)
    (hnd : (rest.map (fun v => v.oid)).Nodup) (leg : Leg)
    (hleg : leg ∈ metricsLegs menv vehicle first s rest) :
    ∃ pre post, rest = pre ++ leg.item :: post ∧
      legOf vehicle first first.showHomePosition
        (pre.foldl (_recalcAltitudeRangeBearingStep menv vehicle first
          first.showHomePosition first.coordinate.altitude) s) leg.item = some leg ∧
      ((rest.foldl (_recalcAltitudeRangeBearingStep menv vehicle first
          first.showHomePosition first.coordinate.altitude) s).item leg.item.oid).distance =
        leg.distance menv first.coordinate.altitude ∧
      ((rest.foldl (_recalcAltitudeRangeBearingStep menv vehicle first
          first.showHomePosition first.coordinate.altitude) s).item leg.item.oid).azimuth =
        leg.azimuth menv first.coordinate.altitude := by
  obtain ⟨pre, x, post, hrest, hl⟩ := (mem_metricsLegs menv vehicle first rest s leg).mp hleg
  have hx : leg.item = x := (legOf_some _ _ _ _ _ _ hl).1
  subst hx
  subst hrest
  obtain ⟨h1, h2⟩ := rangeLoop_item_at menv vehicle first first.showHomePosition
    first.coordinate.altitude pre post leg.item s hnd
  refine ⟨pre, post, rfl, hl, ?_, ?_⟩
  · rw [h1, hl]; simp
  · rw [h2, hl]; simp

theorem linkedHome_after_takeoff (menv : MetricsEnv) (vehicle : Vehicle) (first : VisualItem)
    (rest : List VisualItem) (items : ItemMetricsTable)
    (hnd : ((first :: rest).map (fun v => v.oid)).Nodup) (pre post : List VisualItem)
    (leg : Leg) (hrest : rest = pre ++ leg.item :: post)
    (hl : legOf vehicle first first.showHomePosition
        (pre.foldl (_recalcAltitudeRangeBearingStep menv vehicle first
          first.showHomePosition first.coordinate.altitude)
          (rangeLoopStart vehicle first items)) leg.item = some leg)
    (hprev : leg.prev.oid = first.oid) :
    first.showHomePosition = true ∧ (∀ v ∈ pre, v.specifiesCoordinate = false) ∧
      leg.item.specifiesCoordinate = true ∧ leg.item.isStandaloneCoordinate = false ∧
      ∃ t ∈ pre ++ [leg.item], t.isTakeoff = true := by
  obtain ⟨_, hp, hc, hst, hcond, _, _, _⟩ := legOf_some _ _ _ _ _ _ hl
  obtain ⟨c1, c2, _, _, _⟩ := rangeLoop_control menv vehicle first first.showHomePosition
    first.coordinate.altitude pre (rangeLoopStart vehicle first items)
  simp only [List.map_cons, List.nodup_cons] at hnd
  have hlast : (pre.foldl (_recalcAltitudeRangeBearingStep menv vehicle first
      first.showHomePosition first.coordinate.altitude)
      (rangeLoopStart vehicle first items)).lastCoordinateItem.oid = first.oid := by
    rw [← hp]; exact hprev
  have hnone : pre.filter (fun v => v.specifiesCoordinate) = [] := by
    cases hg : (pre.filter (fun v => v.specifiesCoordinate)).getLast? with
    | none => exact List.getLast?_eq_none_iff.mp hg
    | some y =>
      exfalso
      rw [c1, hg] at hlast
      simp only [Option.getD_some] at hlast
      have hy : y ∈ pre := List.mem_of_mem_filter (List.mem_of_getLast?_eq_some hg)
      apply hnd.1
      rw [← hlast]
      exact List.mem_map.mpr ⟨y, by rw [hrest]; simp [hy], rfl⟩
  have hpre : ∀ v ∈ pre, v.specifiesCoordinate = false := by
    intro v hv
    by_contra hne
    have : v ∈ pre.filter (fun v => v.specifiesCoordinate) :=
      List.mem_filter.mpr ⟨hv, by simpa using hne⟩
    rw [hnone] at this
    simp at this
  have hlink : (pre.foldl (_recalcAltitudeRangeBearingStep menv vehicle first
        first.showHomePosition first.coordinate.altitude)
        (rangeLoopStart vehicle first items)).linkBackToHome = true ∨
      (leg.item.isTakeoff = true ∧ first.showHomePosition = true) := by
    rcases hcond with h1 | h1
    · rw [hlast] at h1
      simp at h1
    · simp only [Bool.or_eq_true, Bool.and_eq_true] at h1
      rcases h1 with h1 | h1
      · exact Or.inl h1
      · exact Or.inr ⟨h1.1.2, h1.2⟩
  rcases hlink with h1 | ⟨h1, h2⟩
  · rcases c2 h1 with h3 | ⟨h3, t, ht, ht2⟩
    · simp [rangeLoopStart] at h3
    · exact ⟨h3, hpre, hc, hst, t, by simp [ht], ht2⟩
  · exact ⟨h2, hpre, hc, hst, leg.item, by simp, h1⟩

/-- C26 (amended): on a list of distinct objects that starts with the settings item, (a) the
segment pass `_recalcWaypointLines` returns and leaves no segment that starts at the settings
item; (b) the metrics pass `_recalcAltitudeRangeBearing` returns, every leg it forms is
written to the leg's end item as its distance, and a leg that starts at the settings item
exists only for an end item that is the first coordinate-specifying item after the settings
item, is not standalone, and is reached while the settings item shows the home position and a
simple NAV_TAKEOFF item has occurred at or before it. -/
theorem linkBackToHome_only_after_takeoff (menv : MetricsEnv) (c : MissionController)
    (first : VisualItem) (rest : List VisualItem)
    (hv : c.visualItems = some (first :: rest)) (hs : first.isSettingsItem = true)
    (hnd : ((first :: rest).map (fun v => v.oid)).Nodup) :
    (∃ c1, _recalcWaypointLines c = some c1 ∧ ∀ p ∈ c1.linesTable.keys, p.1 ≠ first.oid) ∧
    (∀ ms : MetricsState, ∃ ms1, _recalcAltitudeRangeBearing menv c ms = some ms1 ∧
      ∀ leg ∈ metricsLegs menv c.activeVehicle first
          (rangeLoopStart c.activeVehicle first
            (((ms.item.setAltDifference first.oid 0).setAzimuth first.oid 0).setDistance
              first.oid 0)) rest,
        (ms1.item leg.item.oid).distance = leg.distance menv first.coordinate.altitude ∧
        (leg.prev.oid = first.oid →
          first.showHomePosition = true ∧
          ∃ pre post, rest = pre ++ leg.item :: post ∧
            (∀ v ∈ pre, v.specifiesCoordinate = false) ∧
            leg.item.specifiesCoordinate = true ∧ leg.item.isStandaloneCoordinate = false ∧
            ∃ t ∈ pre ++ [leg.item], t.isTakeoff = true)) := by
  have hnd1 := hnd
  simp only [List.map_cons, List.nodup_cons] at hnd1
  refine ⟨?_, ?_⟩
  · obtain ⟨c1, h1, h2⟩ := recalcWaypointLines_linesTable_keys c first rest hv hs hnd
    refine ⟨c1, h1, ?_⟩
    intro p hp e
    rw [h2] at hp
    have := mem_oids_coordinateItems rest _ (mem_adjacentPairs _ p hp).1
    rw [e] at this
    exact hnd1.1 this
  · intro ms
    obtain ⟨ms1, h1, _, _, h4⟩ := recalcAltitudeRangeBearing_some menv c first rest ms hv hs
    refine ⟨ms1, h1, ?_⟩
    intro leg hleg
    obtain ⟨pre, post, hrest, hl, hd, _⟩ :=
      metricsLegs_written menv c.activeVehicle first rest _ hnd1.2 leg hleg
    refine ⟨?_, ?_⟩
    · rw [(h4 leg.item.oid).1, rangeLoop_eq]
      exact hd
    · intro hprev
      obtain ⟨g1, g2, g3, g4, g5⟩ := linkedHome_after_takeoff menv c.activeVehicle first rest _
        hnd pre post leg hrest hl hprev
      exact ⟨g1, pre, post, hrest, g2, g3, g4, g5⟩

set_option maxRecDepth 100000 in
/-- Witness for C26 (amended): in `homeLinkController` the settings item shows the home
position, a takeoff that specifies no coordinate follows, then a waypoint; the metrics pass
forms the leg from the settings item to the waypoint and writes its distance 1 to the
waypoint, and the takeoff occurs before the waypoint. -/
theorem linkBackToHome_only_after_takeoff_witness :
    ∃ ms1, _recalcAltitudeRangeBearing exampleMetricsEnv homeLinkController zeroMetrics =
        some ms1 ∧
      (ms1.item 12).distance = 1 ∧ shownHome.showHomePosition = true ∧
      ∃ pre post, takeoffThenWaypoint = pre ++ (takeoffThenWaypoint.getD 1 blankItem) :: post ∧
        ∃ t ∈ pre ++ [takeoffThenWaypoint.getD 1 blankItem], t.isTakeoff = true := by
  obtain ⟨ms1, h1, h2⟩ := (linkBackToHome_only_after_takeoff exampleMetricsEnv
    homeLinkController shownHome takeoffThenWaypoint rfl (by decide) (by decide)).2 zeroMetrics
  obtain ⟨h3, h4⟩ := h2
    { prev := shownHome, item := takeoffThenWaypoint.getD 1 blankItem, vtolInHover := true
      currentCruiseSpeed := 15, currentHoverSpeed := 5 } (by decide)
  obtain ⟨h5, pre, post, h6, _, _, _, h7⟩ := h4 (by decide)
  refine ⟨ms1, h1, ?_, h5, pre, post, h6, h7⟩
  rw [show (12 : Nat) = (takeoffThenWaypoint.getD 1 blankItem).oid from by decide, h3]
  decide!

set_option maxRecDepth 100000 in
/-- C26 (counterexample): in `homeLinkController` the first coordinate-specifying item after
the settings item is the waypoint with identity 12, whose command is 16 (NAV_WAYPOINT), not a
takeoff; the takeoff with identity 11 specifies no coordinate.  Yet the metrics pass forms
the leg from the settings item (identity 10) to the waypoint and stores its distance 1 in
the waypoint.  The segment pass holds no segment at all. -/
theorem linkBackToHome_first_coordinate_not_takeoff :
    (shownHome :: takeoffThenWaypoint).map
        (fun v => (v.oid, v.command, v.specifiesCoordinate)) =
      [(10, 0, true), (11, 22, false), (12, 16, true)] ∧
    (metricsLegs exampleMetricsEnv homeLinkController.activeVehicle shownHome
        (rangeLoopStart homeLinkController.activeVehicle shownHome
          (((zeroMetrics.item.setAltDifference 10 0).setAzimuth 10 0).setDistance 10 0))
        takeoffThenWaypoint).map (fun l => (l.prev.oid, l.item.oid)) = [(10, 12)] ∧
    (_recalcAltitudeRangeBearing exampleMetricsEnv homeLinkController zeroMetrics).map
        (fun ms => (ms.item 12).distance) = some 1 ∧
    (_recalcWaypointLines homeLinkController).map (fun c => c.linesTable.keys) = some [] := by
  refine ⟨by decide, by decide, by decide!, by decide⟩

/-! ## Hover state and speeds of the legs -/

theorem vtolInHoverAfter_eq_spec (vehicle : Vehicle) (hvtol : vehicle.vtol = true)
    (hover : Bool) (item : VisualItem) :
    vtolInHoverAfter vehicle hover item = specVtolUpdate hover item := by
  unfold vtolInHoverAfter specVtolUpdate
  cases hs : item.isSimpleItem
  · simp
  · simp only [hvtol, Bool.and_self, if_true, beq_iff_eq, true_and]
    by_cases h1 : item.command = MAV_CMD_NAV_TAKEOFF
    · simp [h1]
    · by_cases h2 : item.command = MAV_CMD_NAV_LAND
      · simp [h1, h2]
      · by_cases h3 : item.command = MAV_CMD_DO_VTOL_TRANSITION
        · have e1 : MAV_CMD_DO_VTOL_TRANSITION ≠ MAV_CMD_NAV_TAKEOFF := by decide
          have e2 : MAV_CMD_DO_VTOL_TRANSITION ≠ MAV_CMD_NAV_LAND := by decide
          simp [h3, e1, e2]
        · simp [h1, h2, h3]

theorem foldl_vtolInHoverAfter (vehicle : Vehicle) (hvtol : vehicle.vtol = true)
    (items : List VisualItem) (hover : Bool) :
    items.foldl (vtolInHoverAfter vehicle) hover = items.foldl specVtolUpdate hover := by
  induction items generalizing hover with
  | nil => rfl
  | cons item items ih =>
    simp only [List.foldl_cons]
    rw [vtolInHoverAfter_eq_spec vehicle hvtol, ih]

theorem specSpeed_cons (configured : Rat) (a : VisualItem) (l : List VisualItem) :
    specSpeed configured (a :: l) =
      specSpeed (if a.isSpeedChange then a.param2 else configured) l := by
  unfold specSpeed
  cases ha : a.isSpeedChange
  · simp [List.filter_cons, ha]
  · simp only [List.filter_cons, ha, if_true]
    cases hl : List.filter (fun v => v.isSpeedChange) l with
    | nil => simp
    | cons b r =>
      rw [List.getLast?_cons_cons]
      cases hg : (b :: r).getLast? with
      | none => simp at hg
      | some v => rfl

theorem foldl_speedAfter (vehicle : Vehicle) (items : List VisualItem) (hover cruise : Rat) :
    items.foldl (hoverSpeedAfter vehicle) hover =
      (if vehicle.multiRotor then specSpeed hover items else hover) ∧
    items.foldl (cruiseSpeedAfter vehicle) cruise =
      (if vehicle.multiRotor then cruise else specSpeed cruise items) := by
  induction items generalizing hover cruise with
  | nil => simp [specSpeed]
  | cons a l ih =>
    simp only [List.foldl_cons, specSpeed_cons]
    rw [(ih _ cruise).1, (ih hover _).2]
    unfold hoverSpeedAfter cruiseSpeedAfter VisualItem.isSpeedChange
    cases hm : vehicle.multiRotor <;> simp

theorem stateBefore_all (menv : MetricsEnv) (vehicle : Vehicle) (first : VisualItem)
    (ms : MetricsState) (rest : List VisualItem) :
    stateBefore menv vehicle first ms rest =
      _recalcAltitudeRangeBearingLoop menv vehicle first rest (clearedFirst ms first) := rfl

theorem recalcAltitudeRangeBearing_result (menv : MetricsEnv) (c : MissionController)
    (first : VisualItem) (rest : List VisualItem) (ms : MetricsState)
    (hv : c.visualItems = some (first :: rest)) (hs : first.isSettingsItem = true) :
    ∃ ms1, _recalcAltitudeRangeBearing menv c ms = some ms1 ∧
      ms1.mission.missionMaxTelemetry = assigned ms.mission.missionMaxTelemetry
        (stateBefore menv c.activeVehicle first ms rest).missionMaxTelemetry ∧
      ms1.mission.missionDistance = assigned ms.mission.missionDistance
        (stateBefore menv c.activeVehicle first ms rest).missionDistance ∧
      ms1.mission.missionTime = assigned ms.mission.missionTime
        (stateBefore menv c.activeVehicle first ms rest).missionTime ∧
      ms1.mission.missionHoverDistance = assigned ms.mission.missionHoverDistance
        (stateBefore menv c.activeVehicle first ms rest).vtolHoverDistance ∧
      ms1.mission.missionHoverTime = assigned ms.mission.missionHoverTime
        (stateBefore menv c.activeVehicle first ms rest).vtolHoverTime ∧
      ms1.mission.missionCruiseDistance = assigned ms.mission.missionCruiseDistance
        (stateBefore menv c.activeVehicle first ms rest).vtolCruiseDistance ∧
      ms1.mission.missionCruiseTime = assigned ms.mission.missionCruiseTime
        (stateBefore menv c.activeVehicle first ms rest).vtolCruiseTime ∧
      ∀ o : Nat,
        (ms1.item o).distance =
          ((stateBefore menv c.activeVehicle first ms rest).item o).distance ∧
        (ms1.item o).azimuth =
          ((stateBefore menv c.activeVehicle first ms rest).item o).azimuth := by
  simp only [_recalcAltitudeRangeBearing, hv, hs, if_true, stateBefore_all, assigned,
    clearedFirst]
  refine ⟨_, rfl, ?_, ?_, ?_, ?_, ?_, ?_, ?_, ?_⟩
  · simp only [setMission_frame, setMission_values]
  · simp only [setMission_frame, setMission_values]
  · simp only [setMission_frame, setMission_values]
  · simp only [setMission_frame, setMission_values]
  · simp only [setMission_frame, setMission_values]
  · simp only [setMission_frame, setMission_values]
  · simp only [setMission_frame, setMission_values]
  · intro o
    exact ⟨(rangePercent_frame menv _ _ _ _ _ o).1, (rangePercent_frame menv _ _ _ _ _ o).2.1⟩

theorem passLegs_mem (menv : MetricsEnv) (vehicle : Vehicle) (first : VisualItem)
    (rest : List VisualItem) (ms : MetricsState) (leg : Leg) :
    leg ∈ passLegs menv vehicle first rest ms ↔
      ∃ pre x post, rest = pre ++ x :: post ∧
        legOf vehicle first first.showHomePosition (stateBefore menv vehicle first ms pre) x =
          some leg :=
  mem_metricsLegs menv vehicle first rest _ leg

theorem passLegs_splits (menv : MetricsEnv) (vehicle : Vehicle) (first : VisualItem)
    (rest : List VisualItem) (ms : MetricsState) (hvtol : vehicle.vtol = true) :
    (stateBefore menv vehicle first ms rest).vtolHoverDistance =
      (((passLegs menv vehicle first rest ms).filter (fun l => l.vtolInHover)).map
        (Leg.distance menv first.coordinate.altitude)).sum ∧
    (stateBefore menv vehicle first ms rest).vtolCruiseDistance =
      (((passLegs menv vehicle first rest ms).filter (fun l => !l.vtolInHover)).map
        (Leg.distance menv first.coordinate.altitude)).sum ∧
    (stateBefore menv vehicle first ms rest).vtolHoverTime =
      (((passLegs menv vehicle first rest ms).filter (fun l => l.vtolInHover)).map
        (fun l => l.distance menv first.coordinate.altitude / l.speed vehicle)).sum ∧
    (stateBefore menv vehicle first ms rest).vtolCruiseTime =
      (((passLegs menv vehicle first rest ms).filter (fun l => !l.vtolInHover)).map
        (fun l => l.distance menv first.coordinate.altitude / l.speed vehicle)).sum := by
  obtain ⟨_, h2, h3, h4, h5, _⟩ := rangeLoop_totals menv vehicle first rest
    (rangeLoopStart vehicle first (clearedFirst ms first))
  unfold stateBefore passLegs
  simp only [hvtol, Bool.true_and] at h2 h3 h4 h5
  refine ⟨?_, ?_, ?_, ?_⟩
  · rw [h2]; simp [rangeLoopStart]
  · rw [h3]; simp [rangeLoopStart]
  · rw [h4]
    simp only [rangeLoopStart, zero_add]
    congr 1
    apply List.map_congr_left
    intro l hl
    have := (List.mem_filter.mp hl).2
    simp [Leg.speed, hvtol, this]
  · rw [h5]
    simp only [rangeLoopStart, zero_add]
    congr 1
    apply List.map_congr_left
    intro l hl
    have := (List.mem_filter.mp hl).2
    simp only [Bool.not_eq_true'] at this
    simp [Leg.speed, hvtol, this]

/-- C27: for a VTOL vehicle and a list that starts with the settings item, (a) the hover state
used for the leg that ends at an item is the state of the specification after all items up
to and including that item: it starts as hover, a simple NAV_TAKEOFF or NAV_LAND sets it to
not-hover, a simple DO_VTOL_TRANSITION sets it to hover or not-hover when `param1` is the
transition-to-multicopter or transition-to-fixed-wing state, and every other item leaves it
unchanged; (b) the hover distance and hover time the loop accumulates are the sums of the
distances and times of exactly the legs whose state is hover, the cruise distance and cruise
time those of exactly the other legs; (c) the pass returns and hands these four sums to the
setters of the hover and cruise members. -/
theorem vtol_hover_state_and_splits (menv : MetricsEnv) (c : MissionController)
    (first : VisualItem) (rest : List VisualItem) (ms : MetricsState)
    (hv : c.visualItems = some (first :: rest)) (hs : first.isSettingsItem = true)
    (hvtol : c.activeVehicle.vtol = true) :
    (∀ (pre : List VisualItem) (x : VisualItem) (post : List VisualItem) (leg : Leg),
      rest = pre ++ x :: post →
      legOf c.activeVehicle first first.showHomePosition
        (stateBefore menv c.activeVehicle first ms pre) x = some leg →
      leg.vtolInHover = specVtolState (pre ++ [x])) ∧
    (stateBefore menv c.activeVehicle first ms rest).vtolHoverDistance =
      (((passLegs menv c.activeVehicle first rest ms).filter (fun l => l.vtolInHover)).map
        (Leg.distance menv first.coordinate.altitude)).sum ∧
    (stateBefore menv c.activeVehicle first ms rest).vtolCruiseDistance =
      (((passLegs menv c.activeVehicle first rest ms).filter (fun l => !l.vtolInHover)).map
        (Leg.distance menv first.coordinate.altitude)).sum ∧
    (stateBefore menv c.activeVehicle first ms rest).vtolHoverTime =
      (((passLegs menv c.activeVehicle first rest ms).filter (fun l => l.vtolInHover)).map
        (fun l => l.distance menv first.coordinate.altitude / l.speed c.activeVehicle)).sum ∧
    (stateBefore menv c.activeVehicle first ms rest).vtolCruiseTime =
      (((passLegs menv c.activeVehicle first rest ms).filter (fun l => !l.vtolInHover)).map
        (fun l => l.distance menv first.coordinate.altitude / l.speed c.activeVehicle)).sum ∧
    ∃ ms1, _recalcAltitudeRangeBearing menv c ms = some ms1 ∧
      ms1.mission.missionHoverDistance = assigned ms.mission.missionHoverDistance
        (stateBefore menv c.activeVehicle first ms rest).vtolHoverDistance ∧
      ms1.mission.missionHoverTime = assigned ms.mission.missionHoverTime
        (stateBefore menv c.activeVehicle first ms rest).vtolHoverTime ∧
      ms1.mission.missionCruiseDistance = assigned ms.mission.missionCruiseDistance
        (stateBefore menv c.activeVehicle first ms rest).vtolCruiseDistance ∧
      ms1.mission.missionCruiseTime = assigned ms.mission.missionCruiseTime
        (stateBefore menv c.activeVehicle first ms rest).vtolCruiseTime := by
  obtain ⟨s1, s2, s3, s4⟩ := passLegs_splits menv c.activeVehicle first rest ms hvtol
  obtain ⟨ms1, r0, _, _, _, r4, r5, r6, r7, _⟩ :=
    recalcAltitudeRangeBearing_result menv c first rest ms hv hs
  refine ⟨?_, s1, s2, s3, s4, ms1, r0, r4, r5, r6, r7⟩
  intro pre x post leg _ hl
  obtain ⟨_, _, _, _, _, h6, _, _⟩ := legOf_some _ _ _ _ _ _ hl
  obtain ⟨_, _, c3, _, _⟩ := rangeLoop_control menv c.activeVehicle first
    first.showHomePosition first.coordinate.altitude pre
    (rangeLoopStart c.activeVehicle first (clearedFirst ms first))
  rw [h6]
  unfold stateBefore
  rw [c3, vtolInHoverAfter_eq_spec _ hvtol, foldl_vtolInHoverAfter _ hvtol]
  simp [specVtolState, rangeLoopStart, List.foldl_append]

set_option maxRecDepth 100000 in
/-- Witness for C27: on `vtolController` the leg that ends at the waypoint after the
transition to multicopter is flown in hover, which is the state the specification gives
after the first four items; the pass leaves hover distance 3, hover time 3/5, cruise distance
7 and cruise time 3/5. -/
theorem vtol_hover_state_and_splits_witness :
    specVtolState (vtolPlan.take 3 ++ [vtolPlan.getD 3 blankItem]) = true ∧
    ∃ ms1, _recalcAltitudeRangeBearing exampleMetricsEnv vtolController zeroMetrics =
        some ms1 ∧
      ms1.mission.missionHoverDistance = 3 ∧ ms1.mission.missionHoverTime = 3 / 5 ∧
      ms1.mission.missionCruiseDistance = 7 ∧ ms1.mission.missionCruiseTime = 3 / 5 := by
  obtain ⟨h1, _, _, _, _, ms1, h2, h3, h4, h5, h6⟩ :=
    vtol_hover_state_and_splits exampleMetricsEnv vtolController shownHome vtolPlan
      zeroMetrics rfl (by decide) (by decide)
  refine ⟨?_, ms1, h2, ?_, ?_, ?_, ?_⟩
  · rw [← h1 (vtolPlan.take 3) (vtolPlan.getD 3 blankItem) (vtolPlan.drop 4)
      { prev := vtolPlan.getD 1 blankItem, item := vtolPlan.getD 3 blankItem
        vtolInHover := true, currentCruiseSpeed := 15, currentHoverSpeed := 5 }
      (by decide) (by decide)]
  · rw [h3]; decide!
  · rw [h4]; decide!
  · rw [h5]; decide!
  · rw [h6]; decide!

theorem specSpeed_append_other (configured : Rat) (pre : List VisualItem) (x : VisualItem)
    (hx : x.isSpeedChange = false) :
    specSpeed configured (pre ++ [x]) = specSpeed configured pre := by
  unfold specSpeed
  simp [List.filter_append, List.filter_cons, hx]

theorem legOf_speeds (menv : MetricsEnv) (vehicle : Vehicle) (first : VisualItem)
    (ms : MetricsState) (pre : List VisualItem) (x : VisualItem) (leg : Leg)
    (hl : legOf vehicle first first.showHomePosition
      (stateBefore menv vehicle first ms pre) x = some leg) :
    leg.currentHoverSpeed =
      (if vehicle.multiRotor then specSpeed vehicle.hoverSpeed (pre ++ [x])
       else vehicle.hoverSpeed) ∧
    leg.currentCruiseSpeed =
      (if vehicle.multiRotor then vehicle.cruiseSpeed
       else specSpeed vehicle.cruiseSpeed (pre ++ [x])) := by
  obtain ⟨_, _, _, _, _, _, h7, h8⟩ := legOf_some _ _ _ _ _ _ hl
  obtain ⟨_, _, _, c4, c5⟩ := rangeLoop_control menv vehicle first
    first.showHomePosition first.coordinate.altitude pre
    (rangeLoopStart vehicle first (clearedFirst ms first))
  have e1 := (foldl_speedAfter vehicle (pre ++ [x]) vehicle.hoverSpeed vehicle.cruiseSpeed).1
  have e2 := (foldl_speedAfter vehicle (pre ++ [x]) vehicle.hoverSpeed vehicle.cruiseSpeed).2
  rw [List.foldl_append] at e1 e2
  simp only [List.foldl_cons, List.foldl_nil] at e1 e2
  refine ⟨?_, ?_⟩
  · rw [h8, ← e1]
    unfold stateBefore
    rw [c4]
    rfl
  · rw [h7, ← e2]
    unfold stateBefore
    rw [c5]
    rfl

/-- C28: for a vehicle that is not both a VTOL and a multirotor vehicle, the speed by which the
metrics pass divides the distance of the leg that ends at an item is the speed of the
specification for the items up to that item: the configured speed, replaced by the `param2`
of the most recent simple DO_CHANGE_SPEED item with a positive `param2`, which counts for the
hover speed of a multirotor vehicle and for the cruise speed of any other vehicle (a hover leg
of a VTOL vehicle is flown at the configured hover speed).  When the end item is not itself
such a change-speed item these are the items before it.  The speed depends on no item after
the end item, and the iteration for the end item adds the leg's distance divided by this
speed to the mission time; the pass returns and hands the accumulated time to
`_setMissionTime`. -/
theorem leg_speed_follows_change_speed (menv : MetricsEnv) (c : MissionController)
    (first : VisualItem) (rest : List VisualItem) (ms : MetricsState)
    (hv : c.visualItems = some (first :: rest)) (hs : first.isSettingsItem = true)
    (hclass : c.activeVehicle.vtol = true → c.activeVehicle.multiRotor = false) :
    (∀ (pre : List VisualItem) (x : VisualItem) (post : List VisualItem) (leg : Leg),
      rest = pre ++ x :: post →
      legOf c.activeVehicle first first.showHomePosition
        (stateBefore menv c.activeVehicle first ms pre) x = some leg →
      leg.speed c.activeVehicle =
        specLegSpeed c.activeVehicle leg.vtolInHover (pre ++ [x]) ∧
      (x.isSpeedChange = false →
        leg.speed c.activeVehicle = specLegSpeed c.activeVehicle leg.vtolInHover pre) ∧
      (stateBefore menv c.activeVehicle first ms (pre ++ [x])).missionTime =
        (stateBefore menv c.activeVehicle first ms pre).missionTime +
          leg.distance menv first.coordinate.altitude / leg.speed c.activeVehicle +
          ((complexLegItems [x]).map (fun y => menv.complexDistance y /
            complexSpeed c.activeVehicle
              (stateBefore menv c.activeVehicle first ms pre).currentHoverSpeed
              (stateBefore menv c.activeVehicle first ms pre).currentCruiseSpeed y)).sum) ∧
    ∃ ms1, _recalcAltitudeRangeBearing menv c ms = some ms1 ∧
      ms1.mission.missionTime = assigned ms.mission.missionTime
        (stateBefore menv c.activeVehicle first ms rest).missionTime := by
  obtain ⟨ms1, r0, _, _, r3, _⟩ := recalcAltitudeRangeBearing_result menv c first rest ms hv hs
  refine ⟨?_, ms1, r0, r3⟩
  intro pre x post leg _ hl
  obtain ⟨g1, g2⟩ := legOf_speeds menv c.activeVehicle first ms pre x leg hl
  have hspeed : leg.speed c.activeVehicle =
      specLegSpeed c.activeVehicle leg.vtolInHover (pre ++ [x]) := by
    unfold Leg.speed specLegSpeed
    rw [g1, g2]
    cases hm : c.activeVehicle.multiRotor
    · cases hvt : c.activeVehicle.vtol <;> cases hh : leg.vtolInHover <;> simp
    · have hvt : c.activeVehicle.vtol = false := by
        cases hvt : c.activeVehicle.vtol
        · rfl
        · have := hclass hvt
          rw [hm] at this
          exact absurd this (by decide)
      simp [hvt]
  refine ⟨hspeed, ?_, ?_⟩
  · intro hx
    rw [hspeed]
    unfold specLegSpeed
    rw [specSpeed_append_other _ pre x hx, specSpeed_append_other _ pre x hx]
  · have ht := (rangeStep_totals menv c.activeVehicle first first.showHomePosition
      first.coordinate.altitude (stateBefore menv c.activeVehicle first ms pre) x).2.2.2.2.2.1
    have e : stateBefore menv c.activeVehicle first ms (pre ++ [x]) =
        _recalcAltitudeRangeBearingStep menv c.activeVehicle first first.showHomePosition
          first.coordinate.altitude (stateBefore menv c.activeVehicle first ms pre) x := by
      unfold stateBefore
      rw [List.foldl_append]
      rfl
    rw [e, ht, hl]
    simp

set_option maxRecDepth 100000 in
/-- Witness for C28: on `vtolController` the leg that ends at the last waypoint, after the
change of speed to 10 and the transition to fixed wing, is divided by the speed 10, which is
the speed of the specification for the six items before it, and the pass leaves the mission
time 6/5. -/
theorem leg_speed_follows_change_speed_witness :
    specLegSpeed vtolVehicle false (vtolPlan.take 6) = 10 ∧
    Leg.speed vtolVehicle
      { prev := vtolPlan.getD 3 blankItem, item := vtolPlan.getD 6 blankItem
        vtolInHover := false, currentCruiseSpeed := 10, currentHoverSpeed := 5 } =
      specLegSpeed vtolVehicle false (vtolPlan.take 6) ∧
    ∃ ms1, _recalcAltitudeRangeBearing exampleMetricsEnv vtolController zeroMetrics =
        some ms1 ∧ ms1.mission.missionTime = 6 / 5 := by
  obtain ⟨h1, ms1, h2, h3⟩ :=
    leg_speed_follows_change_speed exampleMetricsEnv vtolController shownHome vtolPlan
      zeroMetrics rfl (by decide) (by decide)
  refine ⟨by decide, ?_, ms1, h2, ?_⟩
  · exact (h1 (vtolPlan.take 6) (vtolPlan.getD 6 blankItem) []
      { prev := vtolPlan.getD 3 blankItem, item := vtolPlan.getD 6 blankItem
        vtolInHover := false, currentCruiseSpeed := 10, currentHoverSpeed := 5 }
      (by decide) (by decide)).2.1 (by decide)
  · rw [h3]; decide!

/-! ## Mission distance and telemetry range -/

theorem assigned_zero (v : Rat) : assigned 0 v = v := by
  unfold assigned qFuzzyCompare
  by_cases hv : v = 0
  · simp [hv]
  · have h1 : 0 < |v| := abs_pos.mpr hv
    have h2 : ¬ (|0 - v| * 1000000000000 ≤ min |(0 : Rat)| |v|) := by
      rw [zero_sub, abs_neg, abs_zero, min_eq_left (le_of_lt h1)]
      intro h
      nlinarith
    rw [if_neg]
    simpa using h2

theorem assigned_cases (old new : Rat) :
    assigned old new = new ∨ (qFuzzyCompare old new = true ∧ assigned old new = old) := by
  unfold assigned
  cases h : qFuzzyCompare old new
  · left; simp
  · right; simp

theorem passLegs_written (menv : MetricsEnv) (vehicle : Vehicle) (first : VisualItem)
    (rest : List VisualItem) (ms : MetricsState)
    (hnd : ((first :: rest).map (fun v => v.oid)).Nodup) :
    (∀ leg ∈ passLegs menv vehicle first rest ms,
      leg.item ∈ rest ∧
      ((stateBefore menv vehicle first ms rest).item leg.item.oid).distance =
        leg.distance menv first.coordinate.altitude ∧
      ((stateBefore menv vehicle first ms rest).item leg.item.oid).azimuth =
        leg.azimuth menv first.coordinate.altitude) ∧
    (∀ x ∈ first :: rest, (∀ leg ∈ passLegs menv vehicle first rest ms, leg.item ≠ x) →
      ((stateBefore menv vehicle first ms rest).item x.oid).distance = 0 ∧
      ((stateBefore menv vehicle first ms rest).item x.oid).azimuth = 0) := by
  have hnd1 := hnd
  simp only [List.map_cons, List.nodup_cons] at hnd1
  refine ⟨?_, ?_⟩
  · intro leg hleg
    obtain ⟨pre, post, hrest, _, hd, ha⟩ :=
      metricsLegs_written menv vehicle first rest _ hnd1.2 leg hleg
    exact ⟨by rw [hrest]; simp, hd, ha⟩
  · intro x hx hno
    rcases List.mem_cons.mp hx with rfl | hx
    · have hfr : ∀ y ∈ rest, y.oid ≠ x.oid := by
        intro y hy e
        exact hnd1.1 (List.mem_map.mpr ⟨y, hy, e⟩)
      unfold stateBefore
      rw [rangeLoop_item_frame menv vehicle x x.showHomePosition x.coordinate.altitude rest _
        x.oid hfr]
      simp [rangeLoopStart, clearedFirst, setters_apply]
    · obtain ⟨pre, post, hrest⟩ := List.append_of_mem hx
      have hnone : legOf vehicle first first.showHomePosition
          (stateBefore menv vehicle first ms pre) x = none := by
        cases hl : legOf vehicle first first.showHomePosition
            (stateBefore menv vehicle first ms pre) x with
        | none => rfl
        | some leg =>
          exfalso
          have hmem : leg ∈ passLegs menv vehicle first rest ms :=
            (passLegs_mem menv vehicle first rest ms leg).mpr ⟨pre, x, post, hrest, hl⟩
          exact hno leg hmem (legOf_some _ _ _ _ _ _ hl).1
      have hnd2 : ((pre ++ x :: post).map (fun v => v.oid)).Nodup := by
        rw [← hrest]; exact hnd1.2
      obtain ⟨h1, h2⟩ := rangeLoop_item_at menv vehicle first first.showHomePosition
        first.coordinate.altitude pre post x
        (rangeLoopStart vehicle first (clearedFirst ms first)) hnd2
      unfold stateBefore at hnone ⊢
      rw [hrest, h1, h2, hnone]
      simp

/-- C29 (amended): on a list of distinct objects that starts with the settings item,
`_recalcAltitudeRangeBearing` returns; the value it hands to `_setMissionDistance` is the sum
of the distances of its legs, each taken from the predecessor's exit coordinate to the end
item's entry coordinate, plus the `complexDistance` of every complex item after the settings
item that specifies a coordinate which is not standalone; `missionDistance` becomes that
value unless `qFuzzyCompare` finds it equal to the value held before, which is then kept (a
member that held 0 always becomes the sum).  Every leg's end item holds the leg's distance
and azimuth, and every item of the list that ends no leg holds distance 0 and azimuth 0.
When the settings item has the `complexDistance` 0, the sum over the complex items is the
same with the settings item counted in. -/
theorem missionDistance_is_sum (menv : MetricsEnv) (c : MissionController)
    (first : VisualItem) (rest : List VisualItem) (ms : MetricsState)
    (hv : c.visualItems = some (first :: rest)) (hs : first.isSettingsItem = true)
    (hnd : ((first :: rest).map (fun v => v.oid)).Nodup) :
    ∃ ms1, _recalcAltitudeRangeBearing menv c ms = some ms1 ∧
      ms1.mission.missionDistance = assigned ms.mission.missionDistance
        (((passLegs menv c.activeVehicle first rest ms).map
            (Leg.distance menv first.coordinate.altitude)).sum +
          ((complexLegItems rest).map menv.complexDistance).sum) ∧
      (ms.mission.missionDistance = 0 →
        ms1.mission.missionDistance =
          ((passLegs menv c.activeVehicle first rest ms).map
              (Leg.distance menv first.coordinate.altitude)).sum +
            ((complexLegItems rest).map menv.complexDistance).sum) ∧
      (∀ leg ∈ passLegs menv c.activeVehicle first rest ms,
        leg.item ∈ rest ∧
        (ms1.item leg.item.oid).distance = leg.distance menv first.coordinate.altitude ∧
        (ms1.item leg.item.oid).azimuth = leg.azimuth menv first.coordinate.altitude) ∧
      (∀ x ∈ first :: rest,
        (∀ leg ∈ passLegs menv c.activeVehicle first rest ms, leg.item ≠ x) →
        (ms1.item x.oid).distance = 0 ∧ (ms1.item x.oid).azimuth = 0) ∧
      (menv.complexDistance first = 0 →
        ((complexLegItems (first :: rest)).map menv.complexDistance).sum =
          ((complexLegItems rest).map menv.complexDistance).sum) := by
  obtain ⟨ms1, r0, _, r2, _, _, _, _, _, r8⟩ :=
    recalcAltitudeRangeBearing_result menv c first rest ms hv hs
  obtain ⟨w1, w2⟩ := passLegs_written menv c.activeVehicle first rest ms hnd
  have hsum : (stateBefore menv c.activeVehicle first ms rest).missionDistance =
      ((passLegs menv c.activeVehicle first rest ms).map
          (Leg.distance menv first.coordinate.altitude)).sum +
        ((complexLegItems rest).map menv.complexDistance).sum := by
    have := (rangeLoop_totals menv c.activeVehicle first rest
      (rangeLoopStart c.activeVehicle first (clearedFirst ms first))).1
    unfold stateBefore passLegs
    rw [this]
    simp [rangeLoopStart]
  refine ⟨ms1, r0, ?_, ?_, ?_, ?_, ?_⟩
  · rw [r2, hsum]
  · intro h0
    rw [r2, hsum, h0, assigned_zero]
  · intro leg hleg
    obtain ⟨g1, g2, g3⟩ := w1 leg hleg
    exact ⟨g1, by rw [(r8 _).1, g2], by rw [(r8 _).2, g3]⟩
  · intro x hx hno
    obtain ⟨g1, g2⟩ := w2 x hx hno
    exact ⟨by rw [(r8 _).1, g1], by rw [(r8 _).2, g2]⟩
  · intro h0
    unfold complexLegItems
    rw [List.filter_cons]
    split_ifs
    · simp [h0]
    · rfl

set_option maxRecDepth 100000 in
/-- Witness for C29 (amended): on `vtolController`, whose members hold 0, the pass leaves the
mission distance 10, the sum of the four leg distances 1, 2, 3 and 4. -/
theorem missionDistance_is_sum_witness :
    ∃ ms1, _recalcAltitudeRangeBearing exampleMetricsEnv vtolController zeroMetrics =
        some ms1 ∧ ms1.mission.missionDistance = 10 ∧
      (passLegs exampleMetricsEnv vtolVehicle shownHome vtolPlan zeroMetrics).map
        (Leg.distance exampleMetricsEnv 500) = [1, 2, 3, 4] := by
  obtain ⟨ms1, h1, _, h3, _⟩ :=
    missionDistance_is_sum exampleMetricsEnv vtolController shownHome vtolPlan zeroMetrics
      rfl (by decide) (by decide)
  refine ⟨ms1, h1, ?_, by decide!⟩
  rw [h3 rfl]
  decide!

set_option maxRecDepth 100000 in
/-- C29 (counterexample): a first run of the pass on `homeLinkController` leaves
`missionDistance = 1`, the distance of its one leg.  After the waypoint has been moved north
by `2^-41` degrees (`movedController`) the one leg has the distance `1 + 2^-41`, which the
waypoint holds after the second run.  For these two values, both of which a `double` holds
exactly, the test of `qFuzzyCompare` compares `2^-41 * 10^12`, less than 0.46, with 1 and
finds them equal, so `missionDistance` stays 1, which is not the sum of the leg
distances. -/
theorem missionDistance_keeps_fuzzy_equal_value :
    firstRunMetrics.mission.missionDistance = 1 ∧
    (passLegs exampleMetricsEnv movedController.activeVehicle shownHome movedPlan
        firstRunMetrics).map (Leg.distance exampleMetricsEnv 500) =
      [2199023255553 / 2199023255552] ∧
    complexLegItems movedPlan = [] ∧
    (2199023255553 / 2199023255552 - 1 : Rat) * 1000000000000 < 46 / 100 ∧
    qFuzzyCompare 1 (2199023255553 / 2199023255552) = true ∧
    (_recalcAltitudeRangeBearing exampleMetricsEnv movedController firstRunMetrics).map
        (fun ms => (ms.mission.missionDistance, (ms.item 12).distance)) =
      some (1, 2199023255553 / 2199023255552) := by
  refine ⟨by decide!, by decide!, by decide, by decide!, by decide!, by decide!⟩

theorem foldl_max_spec (l : List Rat) (a : Rat) :
    a ≤ l.foldl max a ∧ (∀ d ∈ l, d ≤ l.foldl max a) ∧
    (l.foldl max a = a ∨ l.foldl max a ∈ l) := by
  induction l generalizing a with
  | nil => simp
  | cons x l ih =>
    obtain ⟨h1, h2, h3⟩ := ih (max a x)
    simp only [List.foldl_cons]
    refine ⟨le_trans (le_max_left a x) h1, ?_, ?_⟩
    · intro d hd
      rcases List.mem_cons.mp hd with rfl | hd
      · exact le_trans (le_max_right a d) h1
      · exact h2 d hd
    · rcases h3 with h3 | h3
      · rcases max_choice a x with h4 | h4
        · left; rw [h3, h4]
        · right; rw [h3, h4]; simp
      · right; exact List.mem_cons_of_mem _ h3

theorem passTelemetry_spec (menv : MetricsEnv) (vehicle : Vehicle) (first : VisualItem)
    (rest : List VisualItem) (ms : MetricsState) :
    0 ≤ (stateBefore menv vehicle first ms rest).missionMaxTelemetry ∧
    (∀ leg ∈ passLegs menv vehicle first rest ms,
      _calcDistanceToHome menv leg.item first ≤
        (stateBefore menv vehicle first ms rest).missionMaxTelemetry) ∧
    (∀ x ∈ complexLegItems rest,
      menv.greatestDistanceTo x first.exitCoordinate ≤
        (stateBefore menv vehicle first ms rest).missionMaxTelemetry) ∧
    ((stateBefore menv vehicle first ms rest).missionMaxTelemetry = 0 ∨
      (∃ leg ∈ passLegs menv vehicle first rest ms,
        (stateBefore menv vehicle first ms rest).missionMaxTelemetry =
          _calcDistanceToHome menv leg.item first) ∨
      (∃ x ∈ complexLegItems rest,
        (stateBefore menv vehicle first ms rest).missionMaxTelemetry =
          menv.greatestDistanceTo x first.exitCoordinate)) := by
  have h := (rangeLoop_totals menv vehicle first rest
    (rangeLoopStart vehicle first (clearedFirst ms first))).2.2.2.2.2
  have e : (stateBefore menv vehicle first ms rest).missionMaxTelemetry =
      ((complexLegItems rest).map
          (fun x => menv.greatestDistanceTo x first.exitCoordinate)).foldl max
        (((passLegs menv vehicle first rest ms).map
          (fun l => _calcDistanceToHome menv l.item first)).foldl max 0) := by
    unfold stateBefore passLegs
    rw [h]
    rfl
  obtain ⟨a1, a2, a3⟩ := foldl_max_spec
    ((passLegs menv vehicle first rest ms).map
      (fun l => _calcDistanceToHome menv l.item first)) 0
  obtain ⟨b1, b2, b3⟩ := foldl_max_spec
    ((complexLegItems rest).map (fun x => menv.greatestDistanceTo x first.exitCoordinate))
    (((passLegs menv vehicle first rest ms).map
      (fun l => _calcDistanceToHome menv l.item first)).foldl max 0)
  rw [e]
  refine ⟨le_trans a1 b1, ?_, ?_, ?_⟩
  · intro leg hleg
    exact le_trans (a2 _ (List.mem_map.mpr ⟨leg, hleg, rfl⟩)) b1
  · intro x hx
    exact b2 _ (List.mem_map.mpr ⟨x, hx, rfl⟩)
  · rcases b3 with b3 | b3
    · rcases a3 with a3 | a3
      · left; rw [b3, a3]
      · right; left
        obtain ⟨leg, hleg, hl⟩ := List.mem_map.mp a3
        exact ⟨leg, hleg, by rw [b3, ← hl]⟩
    · right; right
      obtain ⟨x, hx, hl⟩ := List.mem_map.mp b3
      exact ⟨x, hx, hl.symm⟩

/-- C30 (amended): on a list that starts with the settings item, `_recalcAltitudeRangeBearing`
returns, and the value it hands to `_setMissionMaxTelemetry` is the greatest of 0, of the
distances from the exit coordinate of the settings item to the entry coordinate of every
item that ends a leg, and of the `greatestDistanceTo` that exit coordinate of every complex
item after the settings item that specifies a coordinate which is not standalone: it is at
least each of these values and equal to one of them, hence 0 when there is neither a leg nor
such a complex item.  `missionMaxTelemetry` becomes that value unless `qFuzzyCompare` finds
it equal to the value held before, which is then kept (a member that held 0 always becomes
that value). -/
theorem missionMaxTelemetry_is_greatest (menv : MetricsEnv) (c : MissionController)
    (first : VisualItem) (rest : List VisualItem) (ms : MetricsState)
    (hv : c.visualItems = some (first :: rest)) (hs : first.isSettingsItem = true) :
    ∃ ms1, _recalcAltitudeRangeBearing menv c ms = some ms1 ∧
      ms1.mission.missionMaxTelemetry = assigned ms.mission.missionMaxTelemetry
        (stateBefore menv c.activeVehicle first ms rest).missionMaxTelemetry ∧
      (ms.mission.missionMaxTelemetry = 0 →
        ms1.mission.missionMaxTelemetry =
          (stateBefore menv c.activeVehicle first ms rest).missionMaxTelemetry) ∧
      0 ≤ (stateBefore menv c.activeVehicle first ms rest).missionMaxTelemetry ∧
      (∀ leg ∈ passLegs menv c.activeVehicle first rest ms,
        _calcDistanceToHome menv leg.item first ≤
          (stateBefore menv c.activeVehicle first ms rest).missionMaxTelemetry) ∧
      (∀ x ∈ complexLegItems rest,
        menv.greatestDistanceTo x first.exitCoordinate ≤
          (stateBefore menv c.activeVehicle first ms rest).missionMaxTelemetry) ∧
      ((stateBefore menv c.activeVehicle first ms rest).missionMaxTelemetry = 0 ∨
        (∃ leg ∈ passLegs menv c.activeVehicle first rest ms,
          (stateBefore menv c.activeVehicle first ms rest).missionMaxTelemetry =
            _calcDistanceToHome menv leg.item first) ∨
        (∃ x ∈ complexLegItems rest,
          (stateBefore menv c.activeVehicle first ms rest).missionMaxTelemetry =
            menv.greatestDistanceTo x first.exitCoordinate)) ∧
      (passLegs menv c.activeVehicle first rest ms = [] → complexLegItems rest = [] →
        (stateBefore menv c.activeVehicle first ms rest).missionMaxTelemetry = 0) := by
  obtain ⟨ms1, r0, r1, _⟩ := recalcAltitudeRangeBearing_result menv c first rest ms hv hs
  obtain ⟨t1, t2, t3, t4⟩ := passTelemetry_spec menv c.activeVehicle first rest ms
  refine ⟨ms1, r0, r1, ?_, t1, t2, t3, t4, ?_⟩
  · intro h0
    rw [r1, h0, assigned_zero]
  · intro hl hx
    rcases t4 with h | ⟨leg, hleg, _⟩ | ⟨x, hx1, _⟩
    · exact h
    · rw [hl] at hleg; simp at hleg
    · rw [hx] at hx1; simp at hx1

set_option maxRecDepth 100000 in
/-- Witness for C30 (amended): on `vtolController`, whose members hold 0, the pass leaves
`missionMaxTelemetry = 10`, the distance from home to the last waypoint. -/
theorem missionMaxTelemetry_is_greatest_witness :
    ∃ ms1, _recalcAltitudeRangeBearing exampleMetricsEnv vtolController zeroMetrics =
        some ms1 ∧ ms1.mission.missionMaxTelemetry = 10 ∧
      (passLegs exampleMetricsEnv vtolVehicle shownHome vtolPlan zeroMetrics).map
        (fun l => _calcDistanceToHome exampleMetricsEnv l.item shownHome) = [1, 3, 6, 10] := by
  obtain ⟨ms1, h1, _, h3, _⟩ :=
    missionMaxTelemetry_is_greatest exampleMetricsEnv vtolController shownHome vtolPlan
      zeroMetrics rfl (by decide)
  refine ⟨ms1, h1, ?_, by decide!⟩
  rw [h3 rfl]
  decide!

set_option maxRecDepth 100000 in
/-- C30 (counterexample): `waypointOnlyController` holds the settings item and one waypoint,
which specifies a coordinate that is not standalone and lies at distance 1 from home; no
takeoff precedes it, so the pass forms no leg, and `missionMaxTelemetry` is 0.  On
`nudgedController`, entered with the metrics of a first run (`missionMaxTelemetry = 1`), the
waypoint is linked and lies at distance `1000000000001 / 1000000000000` from home, but
`qFuzzyCompare` finds that value equal to 1 and `missionMaxTelemetry` stays 1. -/
theorem missionMaxTelemetry_misses_unlinked_item :
    (waypointOnlyController.visualItems.getD []).map
        (fun v => (v.oid, v.specifiesCoordinate, v.isStandaloneCoordinate,
          _calcDistanceToHome exampleMetricsEnv v shownHome)) =
      [(10, true, false, 0), (12, true, false, 1)] ∧
    passLegs exampleMetricsEnv waypointOnlyController.activeVehicle shownHome
      (takeoffThenWaypoint.drop 1) zeroMetrics = [] ∧
    (_recalcAltitudeRangeBearing exampleMetricsEnv waypointOnlyController zeroMetrics).map
        (fun ms => ms.mission.missionMaxTelemetry) = some 0 ∧
    firstRunMetrics.mission.missionMaxTelemetry = 1 ∧
    (passLegs exampleMetricsEnv nudgedController.activeVehicle shownHome nudgedPlan
        firstRunMetrics).map
        (fun l => _calcDistanceToHome exampleMetricsEnv l.item shownHome) =
      [1000000000001 / 1000000000000] ∧
    (_recalcAltitudeRangeBearing exampleMetricsEnv nudgedController firstRunMetrics).map
        (fun ms => ms.mission.missionMaxTelemetry) = some 1 := by
  refine ⟨by decide!, by decide, by decide!, by decide!, by decide!, by decide!⟩

/-! ## Rounding to the nearest double -/

theorem pow2_eq (e : Int) : pow2 e = (2 : Rat) ^ e := by
  unfold pow2
  split_ifs with h
  · obtain ⟨n, rfl⟩ := Int.eq_ofNat_of_zero_le h
    simp
  · push_neg at h
    obtain ⟨n, hn⟩ := Int.eq_ofNat_of_zero_le (by omega : 0 ≤ -e)
    have he : e = -(n : Int) := by omega
    subst he
    simp

theorem pow2_pos (e : Int) : 0 < pow2 e := by
  rw [pow2_eq]; positivity

theorem log2Fuel_bounds (fuel n : Nat) (hf : n ≤ fuel) (hn : n ≠ 0) :
    2 ^ log2Fuel fuel n ≤ n ∧ n < 2 ^ (log2Fuel fuel n + 1) := by
  induction fuel generalizing n with
  | zero => omega
  | succ fuel ih =>
    unfold log2Fuel
    split_ifs with h
    · simp
      omega
    · obtain ⟨i1, i2⟩ := ih (n / 2) (by omega) (by omega)
      rw [pow_succ, pow_succ]
      rw [pow_succ] at i2
      constructor <;> omega

theorem natLog2_bounds (n : Nat) (hn : n ≠ 0) : 2 ^ natLog2 n ≤ n ∧ n < 2 ^ (natLog2 n + 1) :=
  log2Fuel_bounds n n (le_refl n) hn

theorem binadeExponent_bounds (q : Rat) (hq : q ≠ 0) :
    (2 : Rat) ^ binadeExponent q ≤ |q| ∧ |q| < (2 : Rat) ^ (binadeExponent q + 1) := by
  have hnum : q.num.natAbs ≠ 0 := by
    simpa using hq
  obtain ⟨a1, a2⟩ := natLog2_bounds q.num.natAbs hnum
  obtain ⟨b1, b2⟩ := natLog2_bounds q.den q.den_nz
  have habs : |q| = (q.num.natAbs : Rat) / (q.den : Rat) := by
    conv_lhs => rw [← Rat.num_div_den q]
    rw [abs_div, Nat.abs_cast]
    congr 1
    rw [Nat.cast_natAbs, Int.cast_abs]
  have hd : (0 : Rat) < q.den := by exact_mod_cast q.den_pos
  have a1q : (2 : Rat) ^ (natLog2 q.num.natAbs : Int) ≤ (q.num.natAbs : Rat) := by
    rw [zpow_natCast]; exact_mod_cast a1
  have a2q : (q.num.natAbs : Rat) < (2 : Rat) ^ ((natLog2 q.num.natAbs : Int) + 1) := by
    have : ((natLog2 q.num.natAbs : Int) + 1) = ((natLog2 q.num.natAbs + 1 : Nat) : Int) := by
      push_cast; ring
    rw [this, zpow_natCast]; exact_mod_cast a2
  have b1q : (2 : Rat) ^ (natLog2 q.den : Int) ≤ (q.den : Rat) := by
    rw [zpow_natCast]; exact_mod_cast b1
  have b2q : (q.den : Rat) < (2 : Rat) ^ ((natLog2 q.den : Int) + 1) := by
    have : ((natLog2 q.den : Int) + 1) = ((natLog2 q.den + 1 : Nat) : Int) := by
      push_cast; ring
    rw [this, zpow_natCast]; exact_mod_cast b2
  set a : Int := (natLog2 q.num.natAbs : Int) with ha
  set b : Int := (natLog2 q.den : Int) with hb
  have two : (2 : Rat) ≠ 0 := by norm_num
  have upper : |q| < (2 : Rat) ^ (a - b + 1) := by
    rw [habs, div_lt_iff₀ hd]
    have e1 : (2 : Rat) ^ (a - b + 1) * (2 : Rat) ^ b = (2 : Rat) ^ (a + 1) := by
      rw [← zpow_add₀ two]; congr 1; ring
    calc (q.num.natAbs : Rat) < (2 : Rat) ^ (a + 1) := a2q
      _ = (2 : Rat) ^ (a - b + 1) * (2 : Rat) ^ b := e1.symm
      _ ≤ (2 : Rat) ^ (a - b + 1) * q.den := by
          apply mul_le_mul_of_nonneg_left b1q; positivity
  have lower : (2 : Rat) ^ (a - b - 1) < |q| := by
    rw [habs, lt_div_iff₀ hd]
    have e1 : (2 : Rat) ^ (a - b - 1) * (2 : Rat) ^ (b + 1) = (2 : Rat) ^ a := by
      rw [← zpow_add₀ two]; congr 1; ring
    calc (2 : Rat) ^ (a - b - 1) * q.den < (2 : Rat) ^ (a - b - 1) * (2 : Rat) ^ (b + 1) := by
          apply mul_lt_mul_of_pos_left b2q; positivity
      _ = (2 : Rat) ^ a := e1
      _ ≤ q.num.natAbs := a1q
  unfold binadeExponent
  simp only [← ha, ← hb]
  split_ifs with h
  · rw [pow2_eq] at h
    exact ⟨h, upper⟩
  · rw [pow2_eq] at h
    push_neg at h
    refine ⟨le_of_lt lower, ?_⟩
    have : a - b - 1 + 1 = a - b := by ring
    rw [this]; exact h

theorem roundHalfEven_error (q : Rat) : |(roundHalfEven q : Rat) - q| ≤ 1 / 2 := by
  have h1 : ((⌊q⌋ : Int) : Rat) ≤ q := Int.floor_le q
  have h2 : q < ((⌊q⌋ : Int) : Rat) + 1 := Int.lt_floor_add_one q
  unfold roundHalfEven
  simp only []
  rw [abs_le]
  split_ifs with c1 c2 c3
  · constructor <;> linarith
  · push_cast; constructor <;> linarith
  · push_neg at c1 c2
    constructor <;> linarith
  · push_neg at c1 c2
    push_cast; constructor <;> linarith

theorem roundHalfEven_intCast (n : Int) : roundHalfEven (n : Rat) = n := by
  unfold roundHalfEven
  simp

/-- The error of rounding: for `|q| < 2^(k+1)` with `k` not below the least normal exponent,
the double nearest to `q` differs from `q` by at most `2^(k-53)`. -/
theorem roundDouble_error (q : Rat) (k : Int) (hk : -1022 ≤ k) (hq : |q| < (2 : Rat) ^ (k + 1)) :
    |roundDouble q - q| ≤ (2 : Rat) ^ (k - 53) := by
  unfold roundDouble
  split_ifs with h0
  · subst h0; simp; positivity
  · simp only []
    obtain ⟨b1, b2⟩ := binadeExponent_bounds q h0
    set e : Int := max (binadeExponent q) (-1022) with he
    have two : (2 : Rat) ≠ 0 := by norm_num
    have hek : e ≤ k := by
      apply max_le _ hk
      have : (2 : Rat) ^ binadeExponent q < (2 : Rat) ^ (k + 1) := lt_of_le_of_lt b1 hq
      have := (zpow_lt_zpow_iff_right₀ (by norm_num : (1 : Rat) < 2)).mp this
      omega
    rw [pow2_eq]
    have hu : (0 : Rat) < (2 : Rat) ^ (e - 52) := by positivity
    have herr := roundHalfEven_error (q / (2 : Rat) ^ (e - 52))
    have : (roundHalfEven (q / (2 : Rat) ^ (e - 52)) : Rat) * (2 : Rat) ^ (e - 52) - q =
        ((roundHalfEven (q / (2 : Rat) ^ (e - 52)) : Rat) - q / (2 : Rat) ^ (e - 52)) *
          (2 : Rat) ^ (e - 52) := by
      field_simp
    rw [this, abs_mul, abs_of_pos hu]
    have e2 : (2 : Rat) ^ (e - 53) = 1 / 2 * (2 : Rat) ^ (e - 52) := by
      have : e - 52 = (e - 53) + 1 := by ring
      rw [this, zpow_add₀ two, zpow_one]; ring
    calc _ ≤ 1 / 2 * (2 : Rat) ^ (e - 52) := mul_le_mul_of_nonneg_right herr (le_of_lt hu)
      _ = (2 : Rat) ^ (e - 53) := e2.symm
      _ ≤ (2 : Rat) ^ (k - 53) := by
          apply zpow_le_zpow_right₀ (by norm_num) (by omega)

/-- A whole multiple `m * 2^j` with `|m| < 2^53` and `j` not below the exponent of the least
subnormal is a double: rounding leaves it unchanged. -/
theorem roundDouble_exact (m : Int) (j : Int) (hm : |m| < 2 ^ 53) (hj : -1074 ≤ j) :
    roundDouble ((m : Rat) * (2 : Rat) ^ j) = (m : Rat) * (2 : Rat) ^ j := by
  unfold roundDouble
  have two : (2 : Rat) ≠ 0 := by norm_num
  split_ifs with h0
  · rw [h0]
  · simp only []
    obtain ⟨b1, b2⟩ := binadeExponent_bounds _ h0
    set q : Rat := (m : Rat) * (2 : Rat) ^ j with hqdef
    set e : Int := max (binadeExponent q) (-1022) with he
    have hmq : |(m : Rat)| < (2 : Rat) ^ (53 : Int) := by
      rw [← Int.cast_abs]
      have : ((|m| : Int) : Rat) < ((2 ^ 53 : Int) : Rat) := by exact_mod_cast hm
      rw [show ((53 : Int)) = ((53 : Nat) : Int) from rfl, zpow_natCast]
      exact_mod_cast this
    have hq : |q| < (2 : Rat) ^ (53 + j) := by
      rw [hqdef, abs_mul, abs_of_pos (by positivity : (0 : Rat) < (2 : Rat) ^ j), zpow_add₀ two]
      exact mul_lt_mul_of_pos_right hmq (by positivity)
    have hej : e ≤ 52 + j := by
      apply max_le _ (by omega)
      have : (2 : Rat) ^ binadeExponent q < (2 : Rat) ^ (53 + j) := lt_of_le_of_lt b1 hq
      have := (zpow_lt_zpow_iff_right₀ (by norm_num : (1 : Rat) < 2)).mp this
      omega
    obtain ⟨n, hn⟩ := Int.eq_ofNat_of_zero_le (by omega : 0 ≤ j - (e - 52))
    rw [pow2_eq]
    have hdiv : q / (2 : Rat) ^ (e - 52) = ((m * 2 ^ n : Int) : Rat) := by
      rw [hqdef, mul_div_assoc, ← zpow_sub₀ two, hn]
      push_cast
      rw [zpow_natCast]
    rw [hdiv, roundHalfEven_intCast]
    push_cast
    rw [mul_assoc, ← zpow_natCast, ← hn, ← zpow_add₀ two]
    congr 2
    ring

theorem onGrid_iff (k : Nat) (q : Rat) :
    onGrid k q = true ↔ ∃ m : Int, q = (m : Rat) / 2 ^ k := by
  unfold onGrid
  rw [beq_iff_eq, ← Nat.dvd_iff_mod_eq_zero]
  constructor
  · rintro ⟨c, hc⟩
    refine ⟨q.num * c, ?_⟩
    have hd : (q.den : Rat) ≠ 0 := by exact_mod_cast q.den_nz
    have hc0 : (c : Rat) ≠ 0 := by
      intro h
      have : c = 0 := by exact_mod_cast h
      subst this
      simp at hc
    have : ((2 : Rat) ^ k) = (q.den : Rat) * (c : Rat) := by
      exact_mod_cast congrArg (Nat.cast : Nat → Rat) hc
    rw [this]
    push_cast
    conv_lhs => rw [← Rat.num_div_den q]
    field_simp
    ring
  · rintro ⟨m, hm⟩
    have h := Rat.den_dvd m ((2 : Int) ^ k)
    have e : (m : Rat) / 2 ^ k = Rat.divInt m ((2 : Int) ^ k) := by
      rw [Rat.divInt_eq_div]; push_cast; rfl
    rw [hm, e]
    have : (((Rat.divInt m ((2 : Int) ^ k)).den : Nat) : Int) ∣ ((2 ^ k : Nat) : Int) := by
      simpa using h
    exact_mod_cast this

theorem onGrid_add (k : Nat) (a b : Rat) (ha : onGrid k a = true) (hb : onGrid k b = true) :
    onGrid k (a + b) = true := by
  obtain ⟨m, rfl⟩ := (onGrid_iff k a).mp ha
  obtain ⟨n, rfl⟩ := (onGrid_iff k b).mp hb
  exact (onGrid_iff k _).mpr ⟨m + n, by push_cast; ring⟩

theorem onGrid_sub (k : Nat) (a b : Rat) (ha : onGrid k a = true) (hb : onGrid k b = true) :
    onGrid k (a - b) = true := by
  obtain ⟨m, rfl⟩ := (onGrid_iff k a).mp ha
  obtain ⟨n, rfl⟩ := (onGrid_iff k b).mp hb
  exact (onGrid_iff k _).mpr ⟨m - n, by push_cast; ring⟩

theorem onGrid_intCast (k : Nat) (n : Int) : onGrid k (n : Rat) = true :=
  (onGrid_iff k _).mpr ⟨n * 2 ^ k, by push_cast; field_simp⟩

theorem onGrid_half (k : Nat) (a : Rat) (ha : onGrid k a = true) :
    onGrid (k + 1) (a / 2) = true := by
  obtain ⟨m, rfl⟩ := (onGrid_iff k a).mp ha
  exact (onGrid_iff (k + 1) _).mpr ⟨m, by rw [pow_succ]; field_simp⟩

theorem onGrid_succ (k : Nat) (a : Rat) (ha : onGrid k a = true) :
    onGrid (k + 1) a = true := by
  obtain ⟨m, rfl⟩ := (onGrid_iff k a).mp ha
  exact (onGrid_iff (k + 1) _).mpr ⟨m * 2, by rw [pow_succ]; push_cast; field_simp; ring⟩

/-- A whole multiple of `2^-k` whose magnitude is below `2^(53-k)` is a double: rounding
leaves it unchanged. -/
theorem roundDouble_onGrid (k : Nat) (q : Rat) (hk : k ≤ 1074) (hg : onGrid k q = true)
    (hq : |q| * 2 ^ k < 2 ^ 53) : roundDouble q = q := by
  obtain ⟨m, rfl⟩ := (onGrid_iff k q).mp hg
  have hpos : (0 : Rat) < 2 ^ k := by positivity
  have hm : |m| < 2 ^ 53 := by
    have : |((m : Rat) / 2 ^ k)| * 2 ^ k = ((|m| : Int) : Rat) := by
      rw [abs_div, abs_of_pos hpos, Int.cast_abs]
      field_simp
    rw [this] at hq
    exact_mod_cast hq
  have e : (m : Rat) / 2 ^ k = (m : Rat) * (2 : Rat) ^ (-(k : Int)) := by
    rw [zpow_neg, zpow_natCast, div_eq_mul_inv]
  rw [e]
  exact roundDouble_exact m (-(k : Int)) hm (by omega)

theorem roundDouble_error_128 (q : Rat) (hq : |q| < 128) :
    |roundDouble q - q| ≤ 1 / 140737488355328 := by
  have h := roundDouble_error q 6 (by norm_num) (by norm_num; exact hq)
  norm_num at h
  linarith

theorem roundDouble_error_256 (q : Rat) (hq : |q| < 256) :
    |roundDouble q - q| ≤ 1 / 70368744177664 := by
  have h := roundDouble_error q 7 (by norm_num) (by norm_num; exact hq)
  norm_num at h
  linarith

theorem roundDouble_error_512 (q : Rat) (hq : |q| < 512) :
    |roundDouble q - q| ≤ 1 / 35184372088832 := by
  have h := roundDouble_error q 8 (by norm_num) (by norm_num; exact hq)
  norm_num at h
  linarith

theorem roundDouble_error_65536 (q : Rat) (hq : |q| < 65536) :
    |roundDouble q - q| ≤ 1 / 274877906944 := by
  have h := roundDouble_error q 15 (by norm_num) (by norm_num; exact hq)
  norm_num at h
  linarith

/-! ## Altitude difference of a leg -/

set_option maxRecDepth 100000 in
/-- C32 (counterexample): the entry altitude of `lowRelativeWaypoint` and the exit altitude
of `highRelativeWaypoint` are the doubles nearest to 0.1 and 0.3, both relative to home.
With the home altitude 0 the altitude difference is the double -0.19999999999999998; with
the home altitude 500.7 (the double nearest to it) the two sums are rounded and the altitude
difference is the double -0.19999999999998863. -/
theorem calcPrevWaypointValues_altDifference_varies_with_home :
    exampleMetricsEnv.coordinateHasRelativeAltitude lowRelativeWaypoint = true ∧
    exampleMetricsEnv.exitCoordinateHasRelativeAltitude highRelativeWaypoint = true ∧
    lowRelativeWaypoint.coordinate.altitude = roundDouble (1 / 10) ∧
    highRelativeWaypoint.exitCoordinate.altitude = roundDouble (3 / 10) ∧
    roundDouble (5007 / 10) = 8808407552439091 / 17592186044416 ∧
    (_calcPrevWaypointValues exampleMetricsEnv 0 lowRelativeWaypoint
        highRelativeWaypoint).altDifference = -7205759403792793 / 36028797018963968 ∧
    (_calcPrevWaypointValues exampleMetricsEnv (8808407552439091 / 17592186044416)
        lowRelativeWaypoint highRelativeWaypoint).altDifference =
      -3518437208883 / 17592186044416 ∧
    (-7205759403792793 / 36028797018963968 : Rat) ≠ -3518437208883 / 17592186044416 := by
  refine ⟨by decide, by decide, by decide!, by decide!, by decide!, by decide!, by decide!,
    by decide!⟩

/-- C32 (amended): `_calcPrevWaypointValues` returns as `altDifference` the difference, taken
in double arithmetic, of the absolute altitude of the current item's entry coordinate and the
absolute altitude of the previous item's exit coordinate, where an altitude is made absolute
by adding the home altitude, in double arithmetic, exactly when the coordinate is flagged
relative.  When both coordinates are absolute the result is the same for every home
altitude.  When both are relative, with altitudes `a` and `b`, the result is `a - b` up to
the rounding of the two sums and of the difference: it differs from `a - b` by at most
`2^-36` when the home altitude, `a` and `b` are at most 16384 in magnitude, and it is `a - b`,
whatever the home altitude, when the three are whole multiples of `2^-20` of at most
1048576 in magnitude. -/
theorem calcPrevWaypointValues_altDifference (menv : MetricsEnv) (homeAlt : Rat)
    (currentItem prevItem : VisualItem) :
    (_calcPrevWaypointValues menv homeAlt currentItem prevItem).altDifference =
      roundDouble
        (resolveAbsoluteAltitude currentItem.coordinate.altitude
            (menv.coordinateHasRelativeAltitude currentItem) homeAlt -
          resolveAbsoluteAltitude prevItem.exitCoordinate.altitude
            (menv.exitCoordinateHasRelativeAltitude prevItem) homeAlt) ∧
    (menv.coordinateHasRelativeAltitude currentItem = false →
      menv.exitCoordinateHasRelativeAltitude prevItem = false →
      ∀ otherHomeAlt : Rat,
        (_calcPrevWaypointValues menv otherHomeAlt currentItem prevItem).altDifference =
          (_calcPrevWaypointValues menv homeAlt currentItem prevItem).altDifference) ∧
    (menv.coordinateHasRelativeAltitude currentItem = true →
      menv.exitCoordinateHasRelativeAltitude prevItem = true →
      (|homeAlt| ≤ 16384 → |currentItem.coordinate.altitude| ≤ 16384 →
        |prevItem.exitCoordinate.altitude| ≤ 16384 →
        |(_calcPrevWaypointValues menv homeAlt currentItem prevItem).altDifference -
            (currentItem.coordinate.altitude - prevItem.exitCoordinate.altitude)| ≤
          1 / 68719476736) ∧
      (onGrid 20 homeAlt = true → onGrid 20 currentItem.coordinate.altitude = true →
        onGrid 20 prevItem.exitCoordinate.altitude = true →
        |homeAlt| ≤ 1048576 → |currentItem.coordinate.altitude| ≤ 1048576 →
        |prevItem.exitCoordinate.altitude| ≤ 1048576 →
        (_calcPrevWaypointValues menv homeAlt currentItem prevItem).altDifference =
          currentItem.coordinate.altitude - prevItem.exitCoordinate.altitude)) := by
  refine ⟨?_, ?_, ?_⟩
  · unfold _calcPrevWaypointValues resolveAbsoluteAltitude
    cases menv.coordinateHasRelativeAltitude currentItem <;>
      cases menv.exitCoordinateHasRelativeAltitude prevItem <;> simp
  · intro h1 h2 other
    unfold _calcPrevWaypointValues
    simp [h1, h2]
  · intro h1 h2
    have e : (_calcPrevWaypointValues menv homeAlt currentItem prevItem).altDifference =
        roundDouble (roundDouble (homeAlt + currentItem.coordinate.altitude) -
          roundDouble (homeAlt + prevItem.exitCoordinate.altitude)) := by
      unfold _calcPrevWaypointValues
      simp [h1, h2]
    rw [e]
    generalize currentItem.coordinate.altitude = a
    generalize prevItem.exitCoordinate.altitude = b
    refine ⟨fun hh ha hb => ?_, fun gh ga gb hh ha hb => ?_⟩
    · rw [abs_le] at hh ha hb
      have ea := roundDouble_error_65536 (homeAlt + a) (by rw [abs_lt]; constructor <;> linarith)
      have eb := roundDouble_error_65536 (homeAlt + b) (by rw [abs_lt]; constructor <;> linarith)
      rw [abs_le] at ea eb
      have ed := roundDouble_error_65536 (roundDouble (homeAlt + a) - roundDouble (homeAlt + b))
        (by rw [abs_lt]; constructor <;> linarith)
      rw [abs_le] at ed ⊢
      constructor <;> linarith
    · have xa : roundDouble (homeAlt + a) = homeAlt + a := by
        apply roundDouble_onGrid 20 _ (by norm_num) (onGrid_add 20 _ _ gh ga)
        have : |homeAlt + a| ≤ 2097152 := by
          calc |homeAlt + a| ≤ |homeAlt| + |a| := abs_add _ _
            _ ≤ 2097152 := by linarith
        have h0 := abs_nonneg (homeAlt + a)
        nlinarith
      have xb : roundDouble (homeAlt + b) = homeAlt + b := by
        apply roundDouble_onGrid 20 _ (by norm_num) (onGrid_add 20 _ _ gh gb)
        have : |homeAlt + b| ≤ 2097152 := by
          calc |homeAlt + b| ≤ |homeAlt| + |b| := abs_add _ _
            _ ≤ 2097152 := by linarith
        have h0 := abs_nonneg (homeAlt + b)
        nlinarith
      rw [xa, xb]
      have ed : homeAlt + a - (homeAlt + b) = a - b := by ring
      rw [ed]
      apply roundDouble_onGrid 20 _ (by norm_num) (onGrid_sub 20 _ _ ga gb)
      have : |a - b| ≤ 2097152 := by
        calc |a - b| ≤ |a| + |b| := abs_sub _ _
          _ ≤ 2097152 := by linarith
      have h0 := abs_nonneg (a - b)
      nlinarith

set_option maxRecDepth 100000 in
/-- Witness for C32: in `exampleMetricsEnv` the waypoint of `takeoffThenWaypoint` (frame 0,
altitude 50) and `shownHome` (frame 0, altitude 500) are both absolute: the altitude
difference is -450 for the home altitudes 500 and 0 alike.  The waypoints of `relativePair`
are both relative, with the altitudes 50.5 and 20.25: the altitude difference is 30.25 for
the home altitude 500.125. -/
theorem calcPrevWaypointValues_altDifference_witness :
    (_calcPrevWaypointValues exampleMetricsEnv 500 (takeoffThenWaypoint.getD 1 blankItem)
        shownHome).altDifference = -450 ∧
    (_calcPrevWaypointValues exampleMetricsEnv 0 (takeoffThenWaypoint.getD 1 blankItem)
        shownHome).altDifference =
      (_calcPrevWaypointValues exampleMetricsEnv 500 (takeoffThenWaypoint.getD 1 blankItem)
        shownHome).altDifference ∧
    (_calcPrevWaypointValues exampleMetricsEnv (4001 / 8) (relativePair.getD 1 blankItem)
        (relativePair.getD 0 blankItem)).altDifference = 121 / 4 ∧
    |(_calcPrevWaypointValues exampleMetricsEnv (4001 / 8) (relativePair.getD 1 blankItem)
        (relativePair.getD 0 blankItem)).altDifference -
        ((relativePair.getD 1 blankItem).coordinate.altitude -
          (relativePair.getD 0 blankItem).exitCoordinate.altitude)| ≤ 1 / 68719476736 ∧
    (_calcPrevWaypointValues exampleMetricsEnv (4001 / 8) (relativePair.getD 1 blankItem)
        (relativePair.getD 0 blankItem)).altDifference =
      (relativePair.getD 1 blankItem).coordinate.altitude -
        (relativePair.getD 0 blankItem).exitCoordinate.altitude :=
  ⟨by decide!,
   (calcPrevWaypointValues_altDifference exampleMetricsEnv 500
      (takeoffThenWaypoint.getD 1 blankItem) shownHome).2.1 (by decide) (by decide) 0,
   by decide!,
   ((calcPrevWaypointValues_altDifference exampleMetricsEnv (4001 / 8)
      (relativePair.getD 1 blankItem) (relativePair.getD 0 blankItem)).2.2 (by decide)
      (by decide)).1 (by decide!) (by decide!) (by decide!),
   ((calcPrevWaypointValues_altDifference exampleMetricsEnv (4001 / 8)
      (relativePair.getD 1 blankItem) (relativePair.getD 0 blankItem)).2.2 (by decide)
      (by decide)).2 (by decide!) (by decide!) (by decide!) (by decide!) (by decide!)
      (by decide!)⟩

/-! ## Return value and error message of the V2 loader -/

set_option maxRecDepth 100000 in
/-- C40: `_loadJsonMissionFileV2` of `unsupportedComplexDocument`, entered with an empty error
message, meets the item of the unsupported complex item type `corridorScan`, stores the
message `Unsupported complex item type: corridorScan`, goes on to load the waypoint that
follows, and returns true: the return value is true although the error message is not
empty. -/
theorem loadJsonMissionFileV2_true_with_error_message :
    emptyLoadState.errorString = "" ∧
    (_loadJsonMissionFileV2 specEnv offlineVehicle unsupportedComplexDocument
        emptyLoadState).1 = true ∧
    (_loadJsonMissionFileV2 specEnv offlineVehicle unsupportedComplexDocument
        emptyLoadState).2.errorString = "Unsupported complex item type: corridorScan" ∧
    (_loadJsonMissionFileV2 specEnv offlineVehicle unsupportedComplexDocument
        emptyLoadState).2.visualItems.map (fun v => (v.kind, v.sequenceNumber, v.command)) =
      [(ItemKind.settings, 0, 0), (ItemKind.simple, 1, 16)] := by
  refine ⟨by decide, by decide, by decide, by decide⟩

/-! ## Termination of the V1 merge loop -/

theorem mergeLoopV1_stuck (env : Env) (surveyItems : List VisualItem)
    (itemArray : List QJsonValue) (m : MergeLoopState) (st : LoadState)
    (complexItem : VisualItem)
    (hc : surveyItems[m.nextComplexItemIndex]? = some complexItem)
    (hne : complexItem.sequenceNumber ≠ m.nextSequenceNumber)
    (hs : itemArray[m.nextSimpleItemIndex]? = none) (fuel : Nat) :
    mergeLoopV1 env surveyItems itemArray fuel m st = none := by
  induction fuel with
  | zero => rfl
  | succ fuel ih =>
    have hlt : m.nextComplexItemIndex < surveyItems.length := by
      by_contra hcon
      rw [List.getElem?_eq_none (by omega)] at hc
      simp at hc
    unfold mergeLoopV1
    simp only [hc, hne, if_false, hs]
    simp [hlt, ih]

set_option maxRecDepth 100000 in
/-- C36: the merge loop of `_loadJsonMissionFileV1`, entered as the loader enters it with a
single loaded complex item whose sequence number is 5 and no simple item, never ends, in any
environment: the complex item is not injected because the expected sequence number is 1,
there is no simple item to add, and the loop condition stays true, so no bound on the number
of iterations is enough.  The loader itself, run on the V1 document
`lonelySurveyV1Document`, which holds such an item, has not returned after any number of
iterations. -/
theorem loadJsonMissionFileV1_merge_loop_does_not_end (fuel : Nat) :
    (∀ (env : Env) (complexItem : VisualItem) (st : LoadState),
      mergeLoopV1 env [complexItem.setSequenceNumber 5] [] fuel
        { nextSimpleItemIndex := 0, nextComplexItemIndex := 0, nextSequenceNumber := 1 } st =
          none) ∧
    _loadJsonMissionFileV1 specEnv fuel lonelySurveyV1Document emptyLoadState = none := by
  refine ⟨fun env complexItem st =>
    mergeLoopV1_stuck env [complexItem.setSequenceNumber 5] []
      { nextSimpleItemIndex := 0, nextComplexItemIndex := 0, nextSequenceNumber := 1 } st
      (complexItem.setSequenceNumber 5) (by simp)
      (by simp [VisualItem.setSequenceNumber]) (by simp) fuel, ?_⟩
  have hk : specEnv.validateKeys lonelySurveyV1Document rootKeyInfoListV1 = Except.ok () := by
    rfl
  have hi : (lonelySurveyV1Document.get "items").toArray = [] := by rfl
  have hA : (loadComplexItemsV1 specEnv (lonelySurveyV1Document.get "complexItems").toArray []
      emptyLoadState).1.map (fun l => l.map (fun v => v.sequenceNumber)) = some [5] := by
    decide
  unfold _loadJsonMissionFileV1
  rw [hk, hi]
  simp only
  generalize loadComplexItemsV1 specEnv (lonelySurveyV1Document.get "complexItems").toArray []
    emptyLoadState = res at hA
  obtain ⟨o, st1⟩ := res
  cases o with
  | none => simp at hA
  | some l =>
    simp only [Option.map_some', Option.some.injEq] at hA
    cases l with
    | nil => simp at hA
    | cons c r =>
      simp only [List.map_cons, List.cons.injEq] at hA
      simp only
      rw [mergeLoopV1_stuck specEnv (c :: r) []
        { nextSimpleItemIndex := 0, nextComplexItemIndex := 0, nextSequenceNumber := 1 } st1 c (by simp)
        (by rw [hA.1]; decide) (by simp)]

/-! ## The divisors of the metrics pass -/

theorem speedAfter_pos (vehicle : Vehicle) (current : Rat) (item : VisualItem)
    (h : 0 < current) :
    0 < hoverSpeedAfter vehicle current item ∧ 0 < cruiseSpeedAfter vehicle current item := by
  constructor
  · unfold hoverSpeedAfter
    split_ifs with hc
    · simp only [Bool.and_eq_true, decide_eq_true_eq] at hc
      exact hc.1.2
    · exact h
  · unfold cruiseSpeedAfter
    split_ifs with hc
    · simp only [Bool.and_eq_true, decide_eq_true_eq] at hc
      exact hc.1.2
    · exact h

theorem foldl_speedAfter_pos (vehicle : Vehicle) (items : List VisualItem) (current : Rat)
    (h : 0 < current) :
    0 < items.foldl (hoverSpeedAfter vehicle) current ∧
      0 < items.foldl (cruiseSpeedAfter vehicle) current := by
  induction items generalizing current with
  | nil => exact ⟨h, h⟩
  | cons x r ih =>
    simp only [List.foldl_cons]
    exact ⟨(ih _ (speedAfter_pos vehicle current x h).1).1,
      (ih _ (speedAfter_pos vehicle current x h).2).2⟩

theorem speedAfter_ignored (vehicle : Vehicle) (current : Rat) (item : VisualItem)
    (h : item.param2 ≤ 0) :
    hoverSpeedAfter vehicle current item = current ∧
      cruiseSpeedAfter vehicle current item = current := by
  have hn : ¬ item.param2 > 0 := not_lt.mpr h
  constructor
  · unfold hoverSpeedAfter
    simp [hn]
  · unfold cruiseSpeedAfter
    simp [hn]

theorem stateBefore_speeds_pos (menv : MetricsEnv) (vehicle : Vehicle) (first : VisualItem)
    (ms : MetricsState) (pre : List VisualItem)
    (hc : 0 < vehicle.cruiseSpeed) (hh : 0 < vehicle.hoverSpeed) :
    0 < (stateBefore menv vehicle first ms pre).currentHoverSpeed ∧
      0 < (stateBefore menv vehicle first ms pre).currentCruiseSpeed := by
  obtain ⟨-, -, -, h4, h5⟩ := rangeLoop_control menv vehicle first first.showHomePosition
    first.coordinate.altitude pre (rangeLoopStart vehicle first (clearedFirst ms first))
  unfold stateBefore
  rw [h4, h5]
  exact ⟨(foldl_speedAfter_pos vehicle pre _ hh).1, (foldl_speedAfter_pos vehicle pre _ hc).2⟩

/-- C39: if the vehicle's cruise speed and hover speed are positive, then for every item list
and every item `x` of it the values of `currentCruiseSpeed` and `currentHoverSpeed` after the
change-of-speed block for `x`, by which (together with the vehicle's hover speed) the
iteration divides, are positive, as is the speed by which the distance inside a complex item
is divided; a DO_CHANGE_SPEED item with `param2 ≤ 0` leaves both speeds as they were; and the
speed of every leg of the pass is positive. -/
theorem recalcAltitudeRangeBearing_divisors_positive (menv : MetricsEnv) (vehicle : Vehicle)
    (first : VisualItem) (rest : List VisualItem) (ms : MetricsState)
    (hc : 0 < vehicle.cruiseSpeed) (hh : 0 < vehicle.hoverSpeed) :
    (∀ pre x post, rest = pre ++ x :: post →
      0 < (_recalcAltitudeRangeBearingCommand vehicle first.showHomePosition
        (stateBefore menv vehicle first ms pre) x).currentCruiseSpeed ∧
      0 < (_recalcAltitudeRangeBearingCommand vehicle first.showHomePosition
        (stateBefore menv vehicle first ms pre) x).currentHoverSpeed ∧
      0 < complexSpeed vehicle (stateBefore menv vehicle first ms pre).currentHoverSpeed
        (stateBefore menv vehicle first ms pre).currentCruiseSpeed x ∧
      (x.command = MAV_CMD_DO_CHANGE_SPEED → x.param2 ≤ 0 →
        (_recalcAltitudeRangeBearingCommand vehicle first.showHomePosition
          (stateBefore menv vehicle first ms pre) x).currentCruiseSpeed =
            (stateBefore menv vehicle first ms pre).currentCruiseSpeed ∧
        (_recalcAltitudeRangeBearingCommand vehicle first.showHomePosition
          (stateBefore menv vehicle first ms pre) x).currentHoverSpeed =
            (stateBefore menv vehicle first ms pre).currentHoverSpeed)) ∧
    (∀ leg ∈ passLegs menv vehicle first rest ms, 0 < leg.speed vehicle) := by
  constructor
  · intro pre x post _
    obtain ⟨h1, h2⟩ := stateBefore_speeds_pos menv vehicle first ms pre hc hh
    obtain ⟨-, -, -, -, -, -, -, -, -, -, -, -, e1, e2, -, -⟩ :=
      rangeCommand_fields vehicle first.showHomePosition (stateBefore menv vehicle first ms pre) x
    rw [e1, e2]
    refine ⟨(speedAfter_pos vehicle _ x h2).2, (speedAfter_pos vehicle _ x h1).1, ?_, ?_⟩
    · unfold complexSpeed
      split_ifs
      · exact (speedAfter_pos vehicle _ x h1).1
      · exact (speedAfter_pos vehicle _ x h2).2
    · intro _ hp
      exact ⟨(speedAfter_ignored vehicle _ x hp).2, (speedAfter_ignored vehicle _ x hp).1⟩
  · intro leg hleg
    obtain ⟨pre, x, post, -, hl⟩ := (passLegs_mem menv vehicle first rest ms leg).1 hleg
    obtain ⟨h1, h2⟩ := stateBefore_speeds_pos menv vehicle first ms pre hc hh
    obtain ⟨-, -, -, -, -, -, e1, e2⟩ := legOf_some vehicle first first.showHomePosition _ x leg hl
    unfold Leg.speed
    rw [e1, e2]
    split_ifs
    · exact hh
    · exact (speedAfter_pos vehicle _ x h2).2
    · exact (speedAfter_pos vehicle _ x h1).1
    · exact (speedAfter_pos vehicle _ x h2).2

set_option maxRecDepth 100000 in
/-- Witness for C39: for the offline vehicle (cruise speed 15, hover speed 5, multirotor) and
the plan `badSpeedPlan`, whose changes of speed to 0 and to -3 are ignored, the one leg of the
pass is divided by the speed 5. -/
theorem recalcAltitudeRangeBearing_divisors_positive_witness :
    0 < offlineVehicle.cruiseSpeed ∧ 0 < offlineVehicle.hoverSpeed ∧
    (passLegs exampleMetricsEnv offlineVehicle shownHome badSpeedPlan zeroMetrics).map
      (Leg.speed offlineVehicle) = [5] ∧
    ∀ leg ∈ passLegs exampleMetricsEnv offlineVehicle shownHome badSpeedPlan zeroMetrics,
      0 < leg.speed offlineVehicle :=
  ⟨by decide, by decide, by decide,
    (recalcAltitudeRangeBearing_divisors_positive exampleMetricsEnv offlineVehicle shownHome
      badSpeedPlan zeroMetrics (by decide) (by decide)).2⟩

/-! ## Recalculation on a list without the settings item -/

set_option maxRecDepth 100000 in
/-- C34 (counterexample): on the empty list `_recalcSequence` does nothing and
`_recalcAltitudeRangeBearing` returns at once, leaving the metrics of a previous run as they
were; on `headlessItems`, whose first item is a takeoff item and not the settings item,
`_recalcSequence` numbers the items 0 and 1 and `_recalcChildItems` makes the takeoff item the
first parent.  None of these reports an error or fails. -/
theorem recalc_operations_tolerate_missing_settings :
    _recalcSequence [] = [] ∧
    _recalcAltitudeRangeBearing exampleMetricsEnv emptyListController firstRunMetrics =
      some firstRunMetrics ∧
    firstRunMetrics.mission.missionDistance = 1 ∧
    headlessItems.map (fun v => (v.isSettingsItem, v.sequenceNumber)) =
      [(false, 7), (false, 9)] ∧
    (_recalcSequence headlessItems).map (fun v => (v.oid, v.sequenceNumber)) =
      [(11, 0), (12, 1)] ∧
    (_recalcChildItems headlessItems).map (fun l => l.map (fun v => (v.oid, v.childItems))) =
      some [(11, []), (12, [])] :=
  ⟨rfl, rfl, by decide!, by decide, by decide, by decide⟩

/-- C34 (amended): the recalculation operations do not check for the settings item before
they work.  `_recalcSequence` numbers any list, whatever its first item: the empty list stays
empty, and a non-empty list keeps its length and is numbered from 0, each item following the
last sequence number of the one before.  `_recalcChildItems` on any non-empty list takes the
first item as the first parent and returns the list with the child lists set.
`_recalcAltitudeRangeBearing` on an empty list returns at once and leaves the metrics as they
were. -/
theorem recalc_operations_make_no_settings_check (menv : MetricsEnv) (c : MissionController)
    (ms : MetricsState) (first : VisualItem) (rest : List VisualItem) :
    _recalcSequence [] = [] ∧
    (_recalcSequence (first :: rest)).length = (first :: rest).length ∧
    (∃ first1 rest1, _recalcSequence (first :: rest) = first1 :: rest1 ∧
      first1 = first.setSequenceNumber 0 ∧
      rest1 = _recalcSequenceFrom (first1.lastSequenceNumber + 1) rest) ∧
    _recalcChildItems (first :: rest) =
      some ({ first with childItems := childRun rest } :: childPassTail rest) ∧
    _recalcAltitudeRangeBearing menv { c with visualItems := some [] } ms = some ms :=
  ⟨rfl, recalcSequenceFrom_length 0 (first :: rest), ⟨_, _, rfl, rfl, rfl⟩,
    recalcChildItems_eq first rest, rfl⟩

/-! ## Jump targets of legacy text files -/

theorem toInt32_of_range (z : Int) (hlo : -2147483648 ≤ z) (hhi : z ≤ 2147483647) :
    toInt32 z = z := by
  unfold toInt32
  omega

theorem toInt32_range (z : Int) : -2147483648 ≤ toInt32 z ∧ toInt32 z ≤ 2147483647 := by
  unfold toInt32
  omega

theorem shiftDoJump_cases (w : VisualItem) (hs : w.isSimpleItem = true) :
    (w.command = MAV_CMD_DO_JUMP →
      shiftDoJump w =
        { w with param1 := ((toInt32 (toInt32 (doubleToInt w.param1) + 1) : Int) : Rat) } ∧
      (∀ k : Int, w.param1 = (k : Rat) → -2147483648 ≤ k → k < 2147483647 →
        (shiftDoJump w).param1 = w.param1 + 1) ∧
      (shiftDoJump w).param1 ≤ 2147483647) ∧
    (w.command ≠ MAV_CMD_DO_JUMP → shiftDoJump w = w) ∧
    (shiftDoJump w).oid = w.oid := by
  refine ⟨fun hc => ?_, fun hc => ?_, ?_⟩
  · have e : shiftDoJump w =
        { w with param1 := ((toInt32 (toInt32 (doubleToInt w.param1) + 1) : Int) : Rat) } := by
      simp [shiftDoJump, hs, hc]
    refine ⟨e, fun k hk hlo hhi => ?_, ?_⟩
    · rw [e, hk]
      simp only [doubleToInt_intCast]
      rw [toInt32_of_range k hlo (by omega), toInt32_of_range (k + 1) (by omega) (by omega)]
      push_cast
      ring
    · rw [e]
      have h := (toInt32_range (toInt32 (doubleToInt w.param1) + 1)).2
      show ((toInt32 (toInt32 (doubleToInt w.param1) + 1) : Int) : Rat) ≤ 2147483647
      exact_mod_cast h
  · simp [shiftDoJump, hc]
  · unfold shiftDoJump
    split <;> rfl

theorem loaded_isSimpleItem (env : Env) (lines : List String) (ws : List VisualItem)
    (h : List.Forall₂ (fun line w => ∃ oid loaded,
        env.simpleLoadStream (env.allocSimple oid) line = some loaded ∧
          w = loadedInto (env.allocSimple oid) loaded) lines ws) :
    ∀ w ∈ ws, w.isSimpleItem = true := by
  induction h with
  | nil => simp
  | cons hhead _ ih =>
    obtain ⟨oid, loaded, -, hw⟩ := hhead
    intro w hw1
    rcases List.mem_cons.mp hw1 with rfl | hw1
    · subst hw
      simp [VisualItem.isSimpleItem, loadedInto, Env.allocSimple]
    · exact ih w hw1

/-- C35 (counterexample): the lines of `oddJumpLines` hold a waypoint, a DO_JUMP whose
`param1` is 2.5 and a DO_JUMP whose `param1` is 2147483647.  Loaded under the header
`QGC WPL 120`, the first jump has `param1` 3: `(int)2.5` is 2, so the loader has added 0.5
and not 1, as the shift does for every DO_JUMP item whose `param1` is 2.5.  The second jump
does not have `param1` 2147483648 either: `(int)param1 + 1` is a 32-bit `int`, which holds
nothing above 2147483647 (modulo `2^32` the sum is -2147483648). -/
theorem loadTextMissionFile_doJump_shift_not_one :
    (loadTextItems paramEnv oddJumpLines emptyLoadState).2.visualItems.map
        (fun v => (v.oid, v.command, v.param1)) =
      [(1, 16, 0), (2, 177, 5 / 2), (3, 177, 2147483647)] ∧
    (_loadTextMissionFile paramEnv ("QGC WPL 120" :: oddJumpLines)
        emptyLoadState).2.visualItems.map (fun v => (v.oid, v.command, v.param1)) =
      [(4, 0, 0), (1, 16, 0), (2, 177, 3), (3, 177, -2147483648)] ∧
    (3 : Rat) ≠ 5 / 2 + 1 ∧
    (-2147483648 : Rat) ≠ 2147483647 + 1 ∧
    (∀ w : VisualItem, w.isSimpleItem = true → w.command = MAV_CMD_DO_JUMP →
      w.param1 = 5 / 2 → (shiftDoJump w).param1 = 3) ∧
    ∀ w : VisualItem, w.isSimpleItem = true → w.command = MAV_CMD_DO_JUMP →
      w.param1 = 2147483647 → (shiftDoJump w).param1 ≠ w.param1 + 1 := by
  refine ⟨by decide!, by decide!, by decide!, by decide!, ?_, ?_⟩
  · intro w hs hc hp
    rw [((shiftDoJump_cases w hs).1 hc).1, hp]
    show ((toInt32 (toInt32 (doubleToInt (5 / 2)) + 1) : Int) : Rat) = 3
    decide!
  · intro w hs hc hp h
    have hle := ((shiftDoJump_cases w hs).1 hc).2.2
    rw [h, hp] at hle
    norm_num at hle

/-- C35 (amended): for a legacy text file of well-formed item lines loaded into a new list,
let `ws` be the simple items the lines load into, in file order.  With the header
`QGC WPL 120` the loader returns the new settings item followed by the items of `ws`, where
the item at position `i` of the file stands at position `i + 1`: a DO_JUMP item has its `param1` replaced by
`(int)param1 + 1`, computed in 32-bit `int`, which is `param1 + 1` when `param1` is a whole
number from -2147483648 to 2147483646, and is otherwise unchanged; every other item is
unchanged; and a jump whose target is position `k` of the file, `k` below 2147483647, has the
target `k + 1` after the load, the position at which the same item now stands.  With the
header `QGC WPL 110` and at least one item line the list is `ws` itself, so no jump target is
changed. -/
theorem loadTextMissionFile_doJump_shift (env : Env) (lines : List String) (st : LoadState)
    (hlist : st.visualItems = [])
    (hwell : ∀ line ∈ lines, ∀ fresh, (env.simpleLoadStream fresh line).isSome = true) :
    ∃ ws, (loadTextItems env lines st).2.visualItems = ws ∧ ws.length = lines.length ∧
      (∃ st1 settingsItem,
        _loadTextMissionFile env ("QGC WPL 120" :: lines) st = (true, st1) ∧
        settingsItem.isSettingsItem = true ∧
        st1.visualItems = settingsItem :: ws.map shiftDoJump ∧
        (∀ (i : Nat) (w : VisualItem), ws[i]? = some w →
          ∃ w1, st1.visualItems[i + 1]? = some w1 ∧ w1.oid = w.oid ∧
            (w.command = MAV_CMD_DO_JUMP →
              w1 = { w with param1 :=
                ((toInt32 (toInt32 (doubleToInt w.param1) + 1) : Int) : Rat) } ∧
              ∀ k : Int, w.param1 = (k : Rat) → -2147483648 ≤ k → k < 2147483647 →
                w1.param1 = w.param1 + 1) ∧
            (w.command ≠ MAV_CMD_DO_JUMP → w1 = w)) ∧
        (∀ (i k : Nat) (jump target : VisualItem), ws[i]? = some jump →
          jump.command = MAV_CMD_DO_JUMP → jump.param1 = (k : Rat) → k < 2147483647 →
          ws[k]? = some target →
          ∃ jump1 target1, st1.visualItems[i + 1]? = some jump1 ∧
            jump1.param1 = ((k + 1 : Nat) : Rat) ∧
            st1.visualItems[k + 1]? = some target1 ∧ target1.oid = target.oid)) ∧
      (lines ≠ [] → ∃ st1,
        _loadTextMissionFile env ("QGC WPL 110" :: lines) st = (true, st1) ∧
        st1.visualItems = ws) := by
  obtain ⟨ws, hws, hrel⟩ := loadTextItems_wellFormed env lines st hwell
  obtain ⟨s, hs, hset, _⟩ := addMissionSettings_eq env (st.visualItems ++ ws) true
    (st.nextObj + lines.length)
  have hsimple := loaded_isSimpleItem env lines ws hrel
  have hlen : ws.length = lines.length := hrel.length_eq.symm
  have h120 : legacyHeader "QGC WPL 120" = (true, true) := by decide
  have h110 : legacyHeader "QGC WPL 110" = (true, false) := by decide
  have hitem : ∀ (i : Nat) (w : VisualItem), ws[i]? = some w →
      (s :: ws.map shiftDoJump)[i + 1]? = some (shiftDoJump w) := by
    intro i w hw
    simp [List.getElem?_map, hw]
  refine ⟨ws, by rw [hws]; simp [hlist], hlen, ?_, ?_⟩
  · refine ⟨{ st with visualItems := s :: ws.map shiftDoJump
                      nextObj := st.nextObj + lines.length + 1 }, s, ?_, hset, rfl, ?_, ?_⟩
    · unfold _loadTextMissionFile
      simp only [List.headD_cons, List.tail_cons, h120, if_true, hws, Bool.true_or, hs]
      simp [hlist]
    · intro i w hw
      have hmem : w ∈ ws := List.getElem?_mem hw
      obtain ⟨c1, c2, c3⟩ := shiftDoJump_cases w (hsimple w hmem)
      exact ⟨shiftDoJump w, hitem i w hw, c3, fun hc => ⟨(c1 hc).1, (c1 hc).2.1⟩, c2⟩
    · intro i k jump target hj hc hp hk ht
      obtain ⟨c1, -, -⟩ := shiftDoJump_cases jump (hsimple jump (List.getElem?_mem hj))
      obtain ⟨-, -, c3⟩ := shiftDoJump_cases target (hsimple target (List.getElem?_mem ht))
      refine ⟨shiftDoJump jump, shiftDoJump target, hitem i jump hj, ?_, hitem k target ht, c3⟩
      have := (c1 hc).2.1 (k : Int) (by rw [hp]; simp) (by omega) (by omega)
      rw [this, hp]
      push_cast
      ring
  · intro hne
    refine ⟨{ st with visualItems := ws, nextObj := st.nextObj + lines.length }, ?_, rfl⟩
    have hpos : ws.length ≠ 0 := by
      rw [hlen]
      exact fun h => hne (List.length_eq_zero.mp h)
    unfold _loadTextMissionFile
    simp only [List.headD_cons, List.tail_cons, h110, if_true, hws]
    simp [hlist, hpos]

theorem jumpLines_wellFormed :
    ∀ line ∈ jumpLines, ∀ fresh, (paramEnv.simpleLoadStream fresh line).isSome = true := by
  intro line hl fresh
  simp only [jumpLines, List.mem_cons, List.mem_singleton, List.not_mem_nil, or_false] at hl
  rcases hl with rfl | rfl | rfl <;> rfl

set_option maxRecDepth 100000 in
/-- Witness for C35: the lines of `jumpLines` hold two waypoints and a DO_JUMP with target 1,
the second waypoint (object 2).  Loaded under the header `QGC WPL 120` the jump has the target
2, and after the sequence pass the second waypoint has the sequence number 2; under the
header `QGC WPL 110` the jump keeps the target 1. -/
theorem loadTextMissionFile_doJump_shift_witness :
    emptyLoadState.visualItems = [] ∧
    (∀ line ∈ jumpLines, ∀ fresh, (paramEnv.simpleLoadStream fresh line).isSome = true) ∧
    (loadTextItems paramEnv jumpLines emptyLoadState).2.visualItems.map
        (fun v => (v.oid, v.sequenceNumber, v.command, v.param1)) =
      [(1, 0, 16, 0), (2, 1, 16, 0), (3, 2, 177, 1)] ∧
    (_recalcSequence (_loadTextMissionFile paramEnv ("QGC WPL 120" :: jumpLines)
        emptyLoadState).2.visualItems).map
        (fun v => (v.oid, v.sequenceNumber, v.command, v.param1)) =
      [(4, 0, 0, 0), (1, 1, 16, 0), (2, 2, 16, 0), (3, 3, 177, 2)] ∧
    (_loadTextMissionFile paramEnv ("QGC WPL 110" :: jumpLines)
        emptyLoadState).2.visualItems.map
        (fun v => (v.oid, v.sequenceNumber, v.command, v.param1)) =
      [(1, 0, 16, 0), (2, 1, 16, 0), (3, 2, 177, 1)] ∧
    ∃ ws, (loadTextItems paramEnv jumpLines emptyLoadState).2.visualItems = ws ∧
      ws.length = jumpLines.length ∧
      (∃ st1 settingsItem,
        _loadTextMissionFile paramEnv ("QGC WPL 120" :: jumpLines) emptyLoadState =
          (true, st1) ∧
        settingsItem.isSettingsItem = true ∧
        st1.visualItems = settingsItem :: ws.map shiftDoJump ∧
        (∀ (i : Nat) (w : VisualItem), ws[i]? = some w →
          ∃ w1, st1.visualItems[i + 1]? = some w1 ∧ w1.oid = w.oid ∧
            (w.command = MAV_CMD_DO_JUMP →
              w1 = { w with param1 :=
                ((toInt32 (toInt32 (doubleToInt w.param1) + 1) : Int) : Rat) } ∧
              ∀ k : Int, w.param1 = (k : Rat) → -2147483648 ≤ k → k < 2147483647 →
                w1.param1 = w.param1 + 1) ∧
            (w.command ≠ MAV_CMD_DO_JUMP → w1 = w)) ∧
        (∀ (i k : Nat) (jump target : VisualItem), ws[i]? = some jump →
          jump.command = MAV_CMD_DO_JUMP → jump.param1 = (k : Rat) → k < 2147483647 →
          ws[k]? = some target →
          ∃ jump1 target1, st1.visualItems[i + 1]? = some jump1 ∧
            jump1.param1 = ((k + 1 : Nat) : Rat) ∧
            st1.visualItems[k + 1]? = some target1 ∧ target1.oid = target.oid)) ∧
      (jumpLines ≠ [] → ∃ st1,
        _loadTextMissionFile paramEnv ("QGC WPL 110" :: jumpLines) emptyLoadState =
          (true, st1) ∧
        st1.visualItems = ws) :=
  ⟨rfl, jumpLines_wellFormed, by decide, by decide, by decide,
    loadTextMissionFile_doJump_shift paramEnv jumpLines emptyLoadState rfl
      jumpLines_wellFormed⟩

/-! ## The home position at the centre of the items -/

theorem addMissionSettingsStep_other (b : BoundsLoopState) (item : VisualItem)
    (h : item.specifiesCoordinate = false) : _addMissionSettingsStep b item = b := by
  simp [_addMissionSettingsStep, h]

theorem addMissionSettingsStep_first (b : BoundsLoopState) (item : VisualItem)
    (h : item.specifiesCoordinate = true) (hb : b.firstCoordSet = false) :
    (_addMissionSettingsStep b item).Bounds [item] := by
  simp [_addMissionSettingsStep, h, hb, BoundsLoopState.Bounds]

theorem addMissionSettingsStep_next (b : BoundsLoopState) (item : VisualItem)
    (seen : List VisualItem) (h : item.specifiesCoordinate = true) (hb : b.Bounds seen) :
    (_addMissionSettingsStep b item).Bounds (seen ++ [item]) := by
  obtain ⟨h0, ⟨s, hs, es⟩, ls, ⟨n, hn, en⟩, ln, ⟨w, hw, ew⟩, lw, ⟨e, he, ee⟩, le⟩ := hb
  simp only [_addMissionSettingsStep, h, h0, if_true, BoundsLoopState.Bounds, List.mem_append,
    List.mem_singleton, true_and]
  refine ⟨?_, ?_, ?_, ?_, ?_, ?_, ?_, ?_⟩
  · rcases min_choice b.south (_normalizeLat item.coordinate.latitude) with hm | hm
    · exact ⟨s, Or.inl hs, by rw [hm, es]⟩
    · exact ⟨item, Or.inr rfl, hm⟩
  · rintro v (hv | rfl)
    · exact le_trans (min_le_left _ _) (ls v hv)
    · exact min_le_right _ _
  · rcases max_choice b.north (_normalizeLat item.coordinate.latitude) with hm | hm
    · exact ⟨n, Or.inl hn, by rw [hm, en]⟩
    · exact ⟨item, Or.inr rfl, hm⟩
  · rintro v (hv | rfl)
    · exact le_trans (ln v hv) (le_max_left _ _)
    · exact le_max_right _ _
  · rcases min_choice b.west (_normalizeLon item.coordinate.longitude) with hm | hm
    · exact ⟨w, Or.inl hw, by rw [hm, ew]⟩
    · exact ⟨item, Or.inr rfl, hm⟩
  · rintro v (hv | rfl)
    · exact le_trans (min_le_left _ _) (lw v hv)
    · exact min_le_right _ _
  · rcases max_choice b.east (_normalizeLon item.coordinate.longitude) with hm | hm
    · exact ⟨e, Or.inl he, by rw [hm, ee]⟩
    · exact ⟨item, Or.inr rfl, hm⟩
  · rintro v (hv | rfl)
    · exact le_trans (le v hv) (le_max_left _ _)
    · exact le_max_right _ _

theorem foldl_addMissionSettingsStep_bounds (items seen : List VisualItem)
    (b : BoundsLoopState) (hb : b.Bounds seen) :
    (items.foldl _addMissionSettingsStep b).Bounds
      (seen ++ items.filter (fun v => v.specifiesCoordinate)) := by
  induction items generalizing b seen with
  | nil => simpa using hb
  | cons item rest ih =>
    simp only [List.foldl_cons]
    by_cases h : item.specifiesCoordinate = true
    · have := ih (seen ++ [item]) _ (addMissionSettingsStep_next b item seen h hb)
      simpa [List.filter_cons, h] using this
    · have h1 : item.specifiesCoordinate = false := by simpa using h
      rw [addMissionSettingsStep_other b item h1]
      simpa [List.filter_cons, h1] using ih seen b hb

theorem foldl_addMissionSettingsStep_start (items : List VisualItem) (b : BoundsLoopState)
    (hb : b.firstCoordSet = false)
    (hne : items.filter (fun v => v.specifiesCoordinate) ≠ []) :
    (items.foldl _addMissionSettingsStep b).Bounds
      (items.filter (fun v => v.specifiesCoordinate)) := by
  induction items with
  | nil => simp at hne
  | cons item rest ih =>
    simp only [List.foldl_cons]
    by_cases h : item.specifiesCoordinate = true
    · have := foldl_addMissionSettingsStep_bounds rest [item] _
        (addMissionSettingsStep_first b item h hb)
      simpa [List.filter_cons, h] using this
    · have h1 : item.specifiesCoordinate = false := by simpa using h
      rw [addMissionSettingsStep_other b item h1]
      have hne1 : rest.filter (fun v => v.specifiesCoordinate) ≠ [] := by
        simpa [List.filter_cons, h1] using hne
      simpa [List.filter_cons, h1] using ih hne1

theorem exists_least_of_ne_nil (l : List VisualItem) (f : VisualItem → Rat) (hne : l ≠ []) :
    ∃ v ∈ l, ∀ w ∈ l, f v ≤ f w := by
  induction l with
  | nil => exact absurd rfl hne
  | cons a r ih =>
    by_cases hr : r = []
    · subst hr
      exact ⟨a, by simp, by simp⟩
    · obtain ⟨v, hv, hmin⟩ := ih hr
      by_cases hav : f a ≤ f v
      · refine ⟨a, by simp, fun w hw => ?_⟩
        rcases List.mem_cons.mp hw with rfl | hw
        · exact le_refl _
        · exact le_trans hav (hmin w hw)
      · push_neg at hav
        refine ⟨v, List.mem_cons_of_mem _ hv, fun w hw => ?_⟩
        rcases List.mem_cons.mp hw with rfl | hw
        · exact le_of_lt hav
        · exact hmin w hw

theorem exists_greatest_of_ne_nil (l : List VisualItem) (f : VisualItem → Rat) (hne : l ≠ []) :
    ∃ v ∈ l, ∀ w ∈ l, f w ≤ f v := by
  obtain ⟨v, hv, h⟩ := exists_least_of_ne_nil l (fun x => -f x) hne
  exact ⟨v, hv, fun w hw => by have := h w hw; simp only [neg_le_neg_iff] at this; exact this⟩

/-- The centre of the latitudes in double arithmetic: when `south` and `north` are within
`2^-46` of `S` and `N`, values from 0 to 180, the four rounded operations give
`(S + N) / 2 - 90` up to `2^-44`. -/
theorem centre_error_lat (S N south north : Rat) (hS : 0 ≤ S) (hSN : S ≤ N) (hN : N ≤ 180)
    (hs : |south - S| ≤ 1 / 70368744177664) (hn : |north - N| ≤ 1 / 70368744177664) :
    |roundDouble (roundDouble (south + roundDouble (roundDouble (north - south) / 2)) - 90) -
        ((S + N) / 2 - 90)| ≤ 1 / 17592186044416 := by
  rw [abs_le] at hs hn
  have e1 := roundDouble_error_256 (north - south) (by rw [abs_lt]; constructor <;> linarith)
  generalize roundDouble (north - south) = d at e1 ⊢
  rw [abs_le] at e1
  have e2 := roundDouble_error_128 (d / 2) (by rw [abs_lt]; constructor <;> linarith)
  generalize roundDouble (d / 2) = h at e2 ⊢
  rw [abs_le] at e2
  have e3 := roundDouble_error_256 (south + h) (by rw [abs_lt]; constructor <;> linarith)
  generalize roundDouble (south + h) = t at e3 ⊢
  rw [abs_le] at e3
  have e4 := roundDouble_error_128 (t - 90) (by rw [abs_lt]; constructor <;> linarith)
  generalize roundDouble (t - 90) = r at e4 ⊢
  rw [abs_le] at e4 ⊢
  constructor <;> linarith

/-- The centre of the longitudes in double arithmetic: when `west` and `east` are within
`2^-45` of `W` and `E`, values from 0 to 360, the four rounded operations give
`(W + E) / 2 - 180` up to `2^-43`. -/
theorem centre_error_lon (W E west east : Rat) (hW : 0 ≤ W) (hWE : W ≤ E) (hE : E ≤ 360)
    (hw : |west - W| ≤ 1 / 35184372088832) (he : |east - E| ≤ 1 / 35184372088832) :
    |roundDouble (roundDouble (west + roundDouble (roundDouble (east - west) / 2)) - 180) -
        ((W + E) / 2 - 180)| ≤ 1 / 8796093022208 := by
  rw [abs_le] at hw he
  have e1 := roundDouble_error_512 (east - west) (by rw [abs_lt]; constructor <;> linarith)
  generalize roundDouble (east - west) = d at e1 ⊢
  rw [abs_le] at e1
  have e2 := roundDouble_error_256 (d / 2) (by rw [abs_lt]; constructor <;> linarith)
  generalize roundDouble (d / 2) = h at e2 ⊢
  rw [abs_le] at e2
  have e3 := roundDouble_error_512 (west + h) (by rw [abs_lt]; constructor <;> linarith)
  generalize roundDouble (west + h) = t at e3 ⊢
  rw [abs_le] at e3
  have e4 := roundDouble_error_256 (t - 180) (by rw [abs_lt]; constructor <;> linarith)
  generalize roundDouble (t - 180) = r at e4 ⊢
  rw [abs_le] at e4 ⊢
  constructor <;> linarith

theorem roundDouble_onGrid_360 (k : Nat) (q : Rat) (hk : k ≤ 41) (hg : onGrid k q = true)
    (hq : |q| ≤ 360) : roundDouble q = q := by
  apply roundDouble_onGrid k q (by omega) hg
  have h41 : (2 : Rat) ^ k ≤ 2 ^ 41 := pow_le_pow_right₀ (by norm_num) hk
  have h0 := abs_nonneg q
  have hp : (0 : Rat) < 2 ^ k := by positivity
  calc |q| * 2 ^ k ≤ 360 * 2 ^ 41 := mul_le_mul hq h41 (le_of_lt hp) (by norm_num)
    _ < 2 ^ 53 := by norm_num

/-- The centre in double arithmetic is exact on the grid: for whole multiples `south ≤ north`
of `2^-40` from 0 to 360 and a whole shift from 0 to 180 none of the four operations
rounds. -/
theorem centre_exact (south north : Rat) (shift : Int) (h0 : 0 ≤ south) (hsn : south ≤ north)
    (hn : north ≤ 360) (hs0 : 0 ≤ shift) (hs1 : shift ≤ 180)
    (gs : onGrid 40 south = true) (gn : onGrid 40 north = true) :
    roundDouble (roundDouble (south + roundDouble (roundDouble (north - south) / 2)) -
        (shift : Rat)) = (south + north) / 2 - (shift : Rat) := by
  have hs0q : (0 : Rat) ≤ (shift : Rat) := by exact_mod_cast hs0
  have hs1q : (shift : Rat) ≤ 180 := by exact_mod_cast hs1
  have gd := onGrid_sub 40 north south gn gs
  have x1 : roundDouble (north - south) = north - south :=
    roundDouble_onGrid_360 40 _ (by norm_num) gd (by rw [abs_le]; constructor <;> linarith)
  rw [x1]
  have gh := onGrid_half 40 _ gd
  have x2 : roundDouble ((north - south) / 2) = (north - south) / 2 :=
    roundDouble_onGrid_360 41 _ (by norm_num) gh (by rw [abs_le]; constructor <;> linarith)
  rw [x2]
  have gt := onGrid_add 41 _ _ (onGrid_succ 40 south gs) gh
  have x3 : roundDouble (south + (north - south) / 2) = south + (north - south) / 2 :=
    roundDouble_onGrid_360 41 _ (by norm_num) gt (by rw [abs_le]; constructor <;> linarith)
  rw [x3]
  have gr := onGrid_sub 41 _ _ gt (onGrid_intCast 41 shift)
  have x4 : roundDouble (south + (north - south) / 2 - (shift : Rat)) =
      south + (north - south) / 2 - (shift : Rat) :=
    roundDouble_onGrid_360 41 _ (by norm_num) gr (by rw [abs_le]; constructor <;> linarith)
  rw [x4]
  ring

theorem normalizeLat_error (lat : Rat) (h0 : -90 ≤ lat) (h1 : lat ≤ 90) :
    |_normalizeLat lat - (lat + 90)| ≤ 1 / 70368744177664 :=
  roundDouble_error_256 (lat + 90) (by rw [abs_lt]; constructor <;> linarith)

theorem normalizeLon_error (lon : Rat) (h0 : -180 ≤ lon) (h1 : lon ≤ 180) :
    |_normalizeLon lon - (lon + 180)| ≤ 1 / 35184372088832 :=
  roundDouble_error_512 (lon + 180) (by rw [abs_lt]; constructor <;> linarith)

theorem normalizeLat_exact (lat : Rat) (h0 : -90 ≤ lat) (h1 : lat ≤ 90)
    (g : onGrid 40 lat = true) : _normalizeLat lat = lat + 90 :=
  roundDouble_onGrid_360 40 _ (by norm_num)
    (onGrid_add 40 _ _ g (by simpa using onGrid_intCast 40 90))
    (by rw [abs_le]; constructor <;> linarith)

theorem normalizeLon_exact (lon : Rat) (h0 : -180 ≤ lon) (h1 : lon ≤ 180)
    (g : onGrid 40 lon = true) : _normalizeLon lon = lon + 180 :=
  roundDouble_onGrid_360 40 _ (by norm_num)
    (onGrid_add 40 _ _ g (by simpa using onGrid_intCast 40 180))
    (by rw [abs_le]; constructor <;> linarith)

/-- The least of the rounded values against the least of the exact values: when every
`g v` is within `δ` of `f v + c`, the least `g` is within `δ` of the least `f` plus `c`, and
likewise for the greatest. -/
theorem bounds_near (l : List VisualItem) (f g : VisualItem → Rat) (c δ : Rat)
    (hnear : ∀ v ∈ l, |g v - (f v + c)| ≤ δ)
    (lo hi : Rat) (m M s n : VisualItem)
    (hm : m ∈ l) (hmin : ∀ w ∈ l, f m ≤ f w) (hM : M ∈ l) (hmax : ∀ w ∈ l, f w ≤ f M)
    (hs : s ∈ l) (elo : lo = g s) (hlo : ∀ w ∈ l, lo ≤ g w)
    (hn : n ∈ l) (ehi : hi = g n) (hhi : ∀ w ∈ l, g w ≤ hi) :
    |lo - (f m + c)| ≤ δ ∧ |hi - (f M + c)| ≤ δ := by
  have a1 := abs_le.mp (hnear m hm)
  have a2 := abs_le.mp (hnear s hs)
  have a3 := abs_le.mp (hnear M hM)
  have a4 := abs_le.mp (hnear n hn)
  have b1 := hlo m hm
  have b2 := hmin s hs
  have b3 := hhi M hM
  have b4 := hmax n hn
  rw [abs_le, abs_le]
  refine ⟨⟨?_, ?_⟩, ⟨?_, ?_⟩⟩ <;> linarith

set_option maxRecDepth 100000 in
/-- C33 (counterexample): the list holds the single waypoint `tenthWaypoint`, at the
latitude 0.1 (the double nearest to it) and the longitude 8.  The settings item is put at
the latitude 0.09999999999999432: the sum `0.1 + 90.0` is rounded, and subtracting 90 does
not give the latitude back.  The position is south of the only item, so outside the bounding
box of the items, and it differs from the item's position. -/
theorem addMissionSettings_centre_off_item :
    tenthWaypoint.coordinate.latitude = roundDouble (1 / 10) ∧
    [tenthWaypoint].filter (fun v => v.specifiesCoordinate) = [tenthWaypoint] ∧
    _normalizeLat tenthWaypoint.coordinate.latitude = 3170111925203763 / 35184372088832 ∧
    (_addMissionSettings specEnv [tenthWaypoint] true 20).map
        (fun v => (v.oid, v.coordinate.latitude, v.coordinate.longitude,
          v.coordinate.altitude)) =
      [(20, 3518437208883 / 35184372088832, 8, 0),
        (11, 3602879701896397 / 36028797018963968, 8, 50)] ∧
    (3518437208883 / 35184372088832 : Rat) < 3602879701896397 / 36028797018963968 := by
  refine ⟨by decide!, by decide!, by decide!, by decide!, by decide!⟩

/-- C33 (amended): when `_addMissionSettings` is called with `addToCenter` on a list that has
at least one coordinate-specifying item, the new settings item is put in front of the list
with the altitude 0, the latitude `(south + (north - south) / 2) - 90` and the longitude
`(west + (east - west) / 2) - 180`, computed in double arithmetic, where `south`, `north`,
`west`, `east` are the least and greatest of the values `_normalizeLat` and `_normalizeLon`
give for the coordinates of the coordinate-specifying items.  When these coordinates are
latitudes from -90 to 90 and longitudes from -180 to 180, with the least and greatest
`minLat`, `maxLat`, `minLon`, `maxLon`, the latitude differs from `(minLat + maxLat) / 2` by
at most `2^-44` and the longitude from `(minLon + maxLon) / 2` by at most `2^-43`.  When in
addition all of them are whole multiples of `2^-40`, no operation rounds: the latitude is
`(minLat + maxLat) / 2` and the longitude `(minLon + maxLon) / 2`, the position lies inside
the bounding box of the items, and it is the item's position when there is a single
coordinate-specifying item. -/
theorem addMissionSettings_centre (env : Env) (visualItems : List VisualItem) (oid : Nat)
    (hne : visualItems.filter (fun v => v.specifiesCoordinate) ≠ []) :
    ∃ south north west east : Rat,
      (∃ v ∈ visualItems.filter (fun v => v.specifiesCoordinate),
        south = _normalizeLat v.coordinate.latitude) ∧
      (∀ v ∈ visualItems.filter (fun v => v.specifiesCoordinate),
        south ≤ _normalizeLat v.coordinate.latitude) ∧
      (∃ v ∈ visualItems.filter (fun v => v.specifiesCoordinate),
        north = _normalizeLat v.coordinate.latitude) ∧
      (∀ v ∈ visualItems.filter (fun v => v.specifiesCoordinate),
        _normalizeLat v.coordinate.latitude ≤ north) ∧
      (∃ v ∈ visualItems.filter (fun v => v.specifiesCoordinate),
        west = _normalizeLon v.coordinate.longitude) ∧
      (∀ v ∈ visualItems.filter (fun v => v.specifiesCoordinate),
        west ≤ _normalizeLon v.coordinate.longitude) ∧
      (∃ v ∈ visualItems.filter (fun v => v.specifiesCoordinate),
        east = _normalizeLon v.coordinate.longitude) ∧
      (∀ v ∈ visualItems.filter (fun v => v.specifiesCoordinate),
        _normalizeLon v.coordinate.longitude ≤ east) ∧
      ∃ settingsItem, _addMissionSettings env visualItems true oid =
          settingsItem :: visualItems ∧
        settingsItem = (env.allocSettings oid).setCoordinate
          { latitude :=
              roundDouble (roundDouble (south + roundDouble (roundDouble (north - south) / 2))
                - 90)
            longitude :=
              roundDouble (roundDouble (west + roundDouble (roundDouble (east - west) / 2))
                - 180)
            altitude := 0 } ∧
        settingsItem.isSettingsItem = true ∧
        settingsItem.coordinate.altitude = 0 ∧
        ((∀ v ∈ visualItems.filter (fun v => v.specifiesCoordinate),
            -90 ≤ v.coordinate.latitude ∧ v.coordinate.latitude ≤ 90 ∧
            -180 ≤ v.coordinate.longitude ∧ v.coordinate.longitude ≤ 180) →
          ∃ minLat maxLat minLon maxLon : Rat,
            (∃ v ∈ visualItems.filter (fun v => v.specifiesCoordinate),
              v.coordinate.latitude = minLat) ∧
            (∀ v ∈ visualItems.filter (fun v => v.specifiesCoordinate),
              minLat ≤ v.coordinate.latitude) ∧
            (∃ v ∈ visualItems.filter (fun v => v.specifiesCoordinate),
              v.coordinate.latitude = maxLat) ∧
            (∀ v ∈ visualItems.filter (fun v => v.specifiesCoordinate),
              v.coordinate.latitude ≤ maxLat) ∧
            (∃ v ∈ visualItems.filter (fun v => v.specifiesCoordinate),
              v.coordinate.longitude = minLon) ∧
            (∀ v ∈ visualItems.filter (fun v => v.specifiesCoordinate),
              minLon ≤ v.coordinate.longitude) ∧
            (∃ v ∈ visualItems.filter (fun v => v.specifiesCoordinate),
              v.coordinate.longitude = maxLon) ∧
            (∀ v ∈ visualItems.filter (fun v => v.specifiesCoordinate),
              v.coordinate.longitude ≤ maxLon) ∧
            |settingsItem.coordinate.latitude - (minLat + maxLat) / 2| ≤
              1 / 17592186044416 ∧
            |settingsItem.coordinate.longitude - (minLon + maxLon) / 2| ≤
              1 / 8796093022208 ∧
            ((∀ v ∈ visualItems.filter (fun v => v.specifiesCoordinate),
                onGrid 40 v.coordinate.latitude = true ∧
                onGrid 40 v.coordinate.longitude = true) →
              settingsItem.coordinate.latitude = (minLat + maxLat) / 2 ∧
              settingsItem.coordinate.longitude = (minLon + maxLon) / 2 ∧
              minLat ≤ settingsItem.coordinate.latitude ∧
              settingsItem.coordinate.latitude ≤ maxLat ∧
              minLon ≤ settingsItem.coordinate.longitude ∧
              settingsItem.coordinate.longitude ≤ maxLon ∧
              ∀ item, visualItems.filter (fun v => v.specifiesCoordinate) = [item] →
                settingsItem.coordinate.latitude = item.coordinate.latitude ∧
                settingsItem.coordinate.longitude = item.coordinate.longitude)) := by
  have hB := foldl_addMissionSettingsStep_start visualItems
    { north := 0, south := 0, east := 0, west := 0, firstCoordSet := false } rfl hne
  generalize hb : visualItems.foldl _addMissionSettingsStep
    { north := 0, south := 0, east := 0, west := 0, firstCoordSet := false } = b at hB
  obtain ⟨h0, ⟨s, hs, es⟩, ls, ⟨n, hn, en⟩, ln, ⟨w, hw, ew⟩, lw, ⟨e, he, ee⟩, le⟩ := hB
  have hlen : visualItems.length + 1 > 1 := by
    cases visualItems with
    | nil => simp at hne
    | cons a r => simp
  refine ⟨b.south, b.north, b.west, b.east, ⟨s, hs, es⟩, ls, ⟨n, hn, en⟩, ln, ⟨w, hw, ew⟩, lw,
    ⟨e, he, ee⟩, le, _, ?_, rfl, by simp [VisualItem.isSettingsItem, VisualItem.setCoordinate,
      Env.allocSettings], rfl, ?_⟩
  · unfold _addMissionSettings
    simp only [hlen, decide_True, Bool.and_self, if_true, hb, h0]
  intro hrange
  generalize hcoords : visualItems.filter (fun v => v.specifiesCoordinate) = coords at *
  obtain ⟨m, hm, hmin⟩ := exists_least_of_ne_nil coords (fun v => v.coordinate.latitude) hne
  obtain ⟨M, hM, hmax⟩ := exists_greatest_of_ne_nil coords (fun v => v.coordinate.latitude) hne
  obtain ⟨mo, hmo, hmino⟩ :=
    exists_least_of_ne_nil coords (fun v => v.coordinate.longitude) hne
  obtain ⟨Mo, hMo, hmaxo⟩ :=
    exists_greatest_of_ne_nil coords (fun v => v.coordinate.longitude) hne
  have elat : (m.coordinate.latitude + 90 + (M.coordinate.latitude + 90)) / 2 - 90 =
      (m.coordinate.latitude + M.coordinate.latitude) / 2 := by ring
  have elon : (mo.coordinate.longitude + 180 + (Mo.coordinate.longitude + 180)) / 2 - 180 =
      (mo.coordinate.longitude + Mo.coordinate.longitude) / 2 := by ring
  refine ⟨m.coordinate.latitude, M.coordinate.latitude, mo.coordinate.longitude,
    Mo.coordinate.longitude, ⟨m, hm, rfl⟩, hmin, ⟨M, hM, rfl⟩, hmax, ⟨mo, hmo, rfl⟩, hmino,
    ⟨Mo, hMo, rfl⟩, hmaxo, ?_, ?_, ?_⟩
  · obtain ⟨n1, n2⟩ := bounds_near coords (fun v => v.coordinate.latitude)
      (fun v => _normalizeLat v.coordinate.latitude) 90 (1 / 70368744177664)
      (fun v hv => normalizeLat_error _ (hrange v hv).1 (hrange v hv).2.1)
      b.south b.north m M s n hm hmin hM hmax hs es ls hn en ln
    have h := centre_error_lat (m.coordinate.latitude + 90) (M.coordinate.latitude + 90)
      b.south b.north (by linarith [(hrange m hm).1]) (by linarith [hmin M hM])
      (by linarith [(hrange M hM).2.1]) n1 n2
    rw [elat] at h
    exact h
  · obtain ⟨n1, n2⟩ := bounds_near coords (fun v => v.coordinate.longitude)
      (fun v => _normalizeLon v.coordinate.longitude) 180 (1 / 35184372088832)
      (fun v hv => normalizeLon_error _ (hrange v hv).2.2.1 (hrange v hv).2.2.2)
      b.west b.east mo Mo w e hmo hmino hMo hmaxo hw ew lw he ee le
    have h := centre_error_lon (mo.coordinate.longitude + 180) (Mo.coordinate.longitude + 180)
      b.west b.east (by linarith [(hrange mo hmo).2.2.1]) (by linarith [hmino Mo hMo])
      (by linarith [(hrange Mo hMo).2.2.2]) n1 n2
    rw [elon] at h
    exact h
  · intro hgrid
    have xlat : ∀ v ∈ coords, _normalizeLat v.coordinate.latitude = v.coordinate.latitude + 90 :=
      fun v hv => normalizeLat_exact _ (hrange v hv).1 (hrange v hv).2.1 (hgrid v hv).1
    have xlon : ∀ v ∈ coords,
        _normalizeLon v.coordinate.longitude = v.coordinate.longitude + 180 :=
      fun v hv => normalizeLon_exact _ (hrange v hv).2.2.1 (hrange v hv).2.2.2 (hgrid v hv).2
    have esouth : b.south = m.coordinate.latitude + 90 := by
      have h1 := ls m hm
      have h2 := hmin s hs
      rw [xlat m hm] at h1
      rw [es, xlat s hs] at h1 ⊢
      linarith
    have enorth : b.north = M.coordinate.latitude + 90 := by
      have h1 := ln M hM
      have h2 := hmax n hn
      rw [xlat M hM] at h1
      rw [en, xlat n hn] at h1 ⊢
      linarith
    have ewest : b.west = mo.coordinate.longitude + 180 := by
      have h1 := lw mo hmo
      have h2 := hmino w hw
      rw [xlon mo hmo] at h1
      rw [ew, xlon w hw] at h1 ⊢
      linarith
    have eeast : b.east = Mo.coordinate.longitude + 180 := by
      have h1 := le Mo hMo
      have h2 := hmaxo e he
      rw [xlon Mo hMo] at h1
      rw [ee, xlon e he] at h1 ⊢
      linarith
    have gsouth : onGrid 40 b.south = true := by
      rw [esouth]
      exact onGrid_add 40 _ _ (hgrid m hm).1 (by simpa using onGrid_intCast 40 90)
    have gnorth : onGrid 40 b.north = true := by
      rw [enorth]
      exact onGrid_add 40 _ _ (hgrid M hM).1 (by simpa using onGrid_intCast 40 90)
    have gwest : onGrid 40 b.west = true := by
      rw [ewest]
      exact onGrid_add 40 _ _ (hgrid mo hmo).2 (by simpa using onGrid_intCast 40 180)
    have geast : onGrid 40 b.east = true := by
      rw [eeast]
      exact onGrid_add 40 _ _ (hgrid Mo hMo).2 (by simpa using onGrid_intCast 40 180)
    have hmM := hmin M hM
    have hmMo := hmino Mo hMo
    have clat := centre_exact b.south b.north 90
      (by rw [esouth]; linarith [(hrange m hm).1]) (by rw [esouth, enorth]; linarith)
      (by rw [enorth]; linarith [(hrange M hM).2.1]) (by norm_num) (by norm_num) gsouth gnorth
    have clon := centre_exact b.west b.east 180
      (by rw [ewest]; linarith [(hrange mo hmo).2.2.1]) (by rw [ewest, eeast]; linarith)
      (by rw [eeast]; linarith [(hrange Mo hMo).2.2.2]) (by norm_num) (by norm_num) gwest geast
    simp only [Int.cast_ofNat] at clat clon
    rw [esouth, enorth, elat] at clat
    rw [ewest, eeast, elon] at clon
    have rlat : ((env.allocSettings oid).setCoordinate
        { latitude :=
            roundDouble (roundDouble (b.south + roundDouble (roundDouble (b.north - b.south) / 2))
              - 90)
          longitude :=
            roundDouble (roundDouble (b.west + roundDouble (roundDouble (b.east - b.west) / 2))
              - 180)
          altitude := 0 }).coordinate.latitude =
        (m.coordinate.latitude + M.coordinate.latitude) / 2 := by
      rw [← clat, esouth, enorth]
      rfl
    have rlon : ((env.allocSettings oid).setCoordinate
        { latitude :=
            roundDouble (roundDouble (b.south + roundDouble (roundDouble (b.north - b.south) / 2))
              - 90)
          longitude :=
            roundDouble (roundDouble (b.west + roundDouble (roundDouble (b.east - b.west) / 2))
              - 180)
          altitude := 0 }).coordinate.longitude =
        (mo.coordinate.longitude + Mo.coordinate.longitude) / 2 := by
      rw [← clon, ewest, eeast]
      rfl
    rw [rlat, rlon]
    refine ⟨rfl, rfl, by linarith, by linarith, by linarith, by linarith, ?_⟩
    intro item hitem
    rw [hitem] at hm hM hmo hMo
    simp only [List.mem_singleton] at hm hM hmo hMo
    subst hm hM
    rw [hmo, hMo]
    constructor <;> ring

set_option maxRecDepth 100000 in
/-- Witness for C33: the waypoints of `boxItems` at (47, 8), (49, 12) and (45, 10) have
latitudes and longitudes in range that are whole multiples of `2^-40`; the new settings item
is put at latitude 47 and longitude 10 with altitude 0, the centre of the bounding box from
(45, 8) to (49, 12). -/
theorem addMissionSettings_centre_witness :
    boxItems.filter (fun v => v.specifiesCoordinate) ≠ [] ∧
    (∀ v ∈ boxItems.filter (fun v => v.specifiesCoordinate),
      -90 ≤ v.coordinate.latitude ∧ v.coordinate.latitude ≤ 90 ∧
      -180 ≤ v.coordinate.longitude ∧ v.coordinate.longitude ≤ 180) ∧
    (∀ v ∈ boxItems.filter (fun v => v.specifiesCoordinate),
      onGrid 40 v.coordinate.latitude = true ∧ onGrid 40 v.coordinate.longitude = true) ∧
    (_addMissionSettings specEnv boxItems true 20).map
        (fun v => (v.oid, v.coordinate.latitude, v.coordinate.longitude,
          v.coordinate.altitude)) =
      [(20, 47, 10, 0), (11, 47, 8, 50), (12, 80, 80, 0), (13, 49, 12, 60),
        (14, 45, 10, 70)] ∧
    ∃ settingsItem minLat maxLat minLon maxLon,
      _addMissionSettings specEnv boxItems true 20 = settingsItem :: boxItems ∧
      settingsItem.isSettingsItem = true ∧
      settingsItem.coordinate.altitude = 0 ∧
      (∃ v ∈ boxItems.filter (fun v => v.specifiesCoordinate),
        v.coordinate.latitude = minLat) ∧
      (∀ v ∈ boxItems.filter (fun v => v.specifiesCoordinate),
        minLat ≤ v.coordinate.latitude) ∧
      (∃ v ∈ boxItems.filter (fun v => v.specifiesCoordinate),
        v.coordinate.latitude = maxLat) ∧
      (∀ v ∈ boxItems.filter (fun v => v.specifiesCoordinate),
        v.coordinate.latitude ≤ maxLat) ∧
      (∃ v ∈ boxItems.filter (fun v => v.specifiesCoordinate),
        v.coordinate.longitude = minLon) ∧
      (∀ v ∈ boxItems.filter (fun v => v.specifiesCoordinate),
        minLon ≤ v.coordinate.longitude) ∧
      (∃ v ∈ boxItems.filter (fun v => v.specifiesCoordinate),
        v.coordinate.longitude = maxLon) ∧
      (∀ v ∈ boxItems.filter (fun v => v.specifiesCoordinate),
        v.coordinate.longitude ≤ maxLon) ∧
      |settingsItem.coordinate.latitude - (minLat + maxLat) / 2| ≤ 1 / 17592186044416 ∧
      |settingsItem.coordinate.longitude - (minLon + maxLon) / 2| ≤ 1 / 8796093022208 ∧
      settingsItem.coordinate.latitude = (minLat + maxLat) / 2 ∧
      settingsItem.coordinate.longitude = (minLon + maxLon) / 2 ∧
      minLat ≤ settingsItem.coordinate.latitude ∧
      settingsItem.coordinate.latitude ≤ maxLat ∧
      minLon ≤ settingsItem.coordinate.longitude ∧
      settingsItem.coordinate.longitude ≤ maxLon := by
  have hrange : ∀ v ∈ boxItems.filter (fun v => v.specifiesCoordinate),
      -90 ≤ v.coordinate.latitude ∧ v.coordinate.latitude ≤ 90 ∧
      -180 ≤ v.coordinate.longitude ∧ v.coordinate.longitude ≤ 180 := by decide!
  have hgrid : ∀ v ∈ boxItems.filter (fun v => v.specifiesCoordinate),
      onGrid 40 v.coordinate.latitude = true ∧ onGrid 40 v.coordinate.longitude = true := by
    decide!
  obtain ⟨south, north, west, east, -, -, -, -, -, -, -, -, settingsItem, hlist, -, hset, halt,
    himp⟩ := addMissionSettings_centre specEnv boxItems 20 (by decide)
  obtain ⟨minLat, maxLat, minLon, maxLon, b1, b2, b3, b4, b5, b6, b7, b8, e1, e2, hexact⟩ :=
    himp hrange
  obtain ⟨x1, x2, x3, x4, x5, x6, -⟩ := hexact hgrid
  exact ⟨by decide, hrange, hgrid, by decide!, settingsItem, minLat, maxLat, minLon, maxLon,
    hlist, hset, halt, b1, b2, b3, b4, b5, b6, b7, b8, e1, e2, x1, x2, x3, x4, x5, x6⟩

/-! ## Altitude range and altitude percent -/

theorem rangeAltitude_eq (menv : MetricsEnv) (h : Rat) (s : RangeLoopState)
    (item : VisualItem) (hc : item.specifiesCoordinate = true) :
    _recalcAltitudeRangeBearingAltitude menv h s item =
      { s with minAltSeen := (seenAltitudes menv h item).foldl min s.minAltSeen
               maxAltSeen := (seenAltitudes menv h item).foldl max s.maxAltSeen } := by
  unfold _recalcAltitudeRangeBearingAltitude seenAltitudes entryAbsoluteAltitude
    exitAbsoluteAltitude
  simp only [hc, if_true]
  cases menv.exitCoordinateSameAsEntry item <;> simp

theorem rangeStep_minmax (menv : MetricsEnv) (vehicle : Vehicle) (settingsItem : VisualItem)
    (sh : Bool) (h : Rat) (s : RangeLoopState) (item : VisualItem) :
    (_recalcAltitudeRangeBearingStep menv vehicle settingsItem sh h s item).minAltSeen =
      (seenAltitudes menv h item).foldl min s.minAltSeen ∧
    (_recalcAltitudeRangeBearingStep menv vehicle settingsItem sh h s item).maxAltSeen =
      (seenAltitudes menv h item).foldl max s.maxAltSeen := by
  unfold _recalcAltitudeRangeBearingStep
  simp only []
  have hcmd := rangeCommand_eq vehicle sh s item
  generalize _recalcAltitudeRangeBearingCommand vehicle sh s item = s1 at hcmd ⊢
  cases hc : item.specifiesCoordinate
  · subst hcmd
    simp [seenAltitudes, hc]
  · simp only [rangeAltitude_eq menv h s1 item hc, rangeLeg_eq,
      _recalcAltitudeRangeBearingComplex]
    subst hcmd
    cases hs : item.isStandaloneCoordinate
    · cases hx : item.isComplexItem
      · simp only [Bool.not_false, if_true, Bool.false_eq_true, if_false]
        split_ifs <;> simp
      · simp only [Bool.not_false, if_true]
        split_ifs <;> simp
    · simp

theorem rangeLoop_minmax (menv : MetricsEnv) (vehicle : Vehicle) (settingsItem : VisualItem)
    (sh : Bool) (h : Rat) (rest : List VisualItem) (s : RangeLoopState) :
    (rest.foldl (_recalcAltitudeRangeBearingStep menv vehicle settingsItem sh h) s).minAltSeen =
      (rest.flatMap (seenAltitudes menv h)).foldl min s.minAltSeen ∧
    (rest.foldl (_recalcAltitudeRangeBearingStep menv vehicle settingsItem sh h) s).maxAltSeen =
      (rest.flatMap (seenAltitudes menv h)).foldl max s.maxAltSeen := by
  induction rest generalizing s with
  | nil => exact ⟨rfl, rfl⟩
  | cons x rest ih =>
    obtain ⟨h1, h2⟩ := rangeStep_minmax menv vehicle settingsItem sh h s x
    obtain ⟨i1, i2⟩ := ih (_recalcAltitudeRangeBearingStep menv vehicle settingsItem sh h s x)
    simp only [List.foldl_cons, List.flatMap_cons, List.foldl_append]
    rw [i1, i2, h1, h2]
    exact ⟨rfl, rfl⟩

theorem foldl_min_spec (l : List Rat) (a : Rat) :
    l.foldl min a ≤ a ∧ (∀ d ∈ l, l.foldl min a ≤ d) ∧
    (l.foldl min a = a ∨ l.foldl min a ∈ l) := by
  induction l generalizing a with
  | nil => simp
  | cons x l ih =>
    obtain ⟨h1, h2, h3⟩ := ih (min a x)
    simp only [List.foldl_cons]
    refine ⟨le_trans h1 (min_le_left a x), ?_, ?_⟩
    · intro d hd
      rcases List.mem_cons.mp hd with rfl | hd
      · exact le_trans h1 (min_le_right a d)
      · exact h2 d hd
    · rcases h3 with h3 | h3
      · rcases min_choice a x with h4 | h4
        · left; rw [h3, h4]
        · right; rw [h3, h4]; simp
      · right; exact List.mem_cons_of_mem _ h3

theorem rangePercent_other (menv : MetricsEnv) (h lo range : Rat) (t : ItemMetricsTable)
    (item : VisualItem) (o : Nat) (ho : o ≠ item.oid) :
    (_recalcAltitudeRangeBearingPercent menv h lo range t item) o = t o := by
  unfold _recalcAltitudeRangeBearingPercent
  simp only []
  split_ifs <;> simp [setters_apply, ho]

theorem rangePercent_own (menv : MetricsEnv) (h lo range : Rat) (t : ItemMetricsTable)
    (item : VisualItem) (hc : item.specifiesCoordinate = true) :
    ((_recalcAltitudeRangeBearingPercent menv h lo range t item) item.oid).altPercent =
      (if range = 0 then 0 else (entryAbsoluteAltitude menv h item - lo) / range) := by
  unfold _recalcAltitudeRangeBearingPercent entryAbsoluteAltitude
  simp only [hc, if_true]
  split_ifs <;> simp [setters_apply]

theorem rangePercent_foldl_other (menv : MetricsEnv) (h lo range : Rat) (l : List VisualItem)
    (t : ItemMetricsTable) (o : Nat) (ho : ∀ y ∈ l, y.oid ≠ o) :
    (l.foldl (_recalcAltitudeRangeBearingPercent menv h lo range) t) o = t o := by
  induction l generalizing t with
  | nil => rfl
  | cons y l ih =>
    rw [List.foldl_cons, ih _ (fun z hz => ho z (List.mem_cons_of_mem _ hz))]
    exact rangePercent_other menv h lo range t y o (ho y (List.mem_cons_self _ _)).symm

theorem rangePercent_at (menv : MetricsEnv) (h lo range : Rat) (l : List VisualItem)
    (t : ItemMetricsTable) (x : VisualItem) (hx : x ∈ l)
    (hnd : (l.map (fun v => v.oid)).Nodup) (hc : x.specifiesCoordinate = true) :
    ((l.foldl (_recalcAltitudeRangeBearingPercent menv h lo range) t) x.oid).altPercent =
      (if range = 0 then 0 else (entryAbsoluteAltitude menv h x - lo) / range) := by
  induction l generalizing t with
  | nil => simp at hx
  | cons y l ih =>
    simp only [List.map_cons, List.nodup_cons, List.mem_map, not_exists, not_and] at hnd
    rw [List.foldl_cons]
    rcases List.mem_cons.mp hx with rfl | hx
    · rw [rangePercent_foldl_other menv h lo range l _ x.oid (fun z hz => hnd.1 z hz)]
      exact rangePercent_own menv h lo range t x hc
    · exact ih _ hx hnd.2

theorem recalcAltitudeRangeBearing_items (menv : MetricsEnv) (c : MissionController)
    (first : VisualItem) (rest : List VisualItem) (ms : MetricsState)
    (hv : c.visualItems = some (first :: rest)) (hs : first.isSettingsItem = true) :
    ∃ ms1, _recalcAltitudeRangeBearing menv c ms = some ms1 ∧
      ms1.item = (first :: rest).foldl
        (_recalcAltitudeRangeBearingPercent menv first.coordinate.altitude
          (stateBefore menv c.activeVehicle first ms rest).minAltSeen
          ((stateBefore menv c.activeVehicle first ms rest).maxAltSeen -
            (stateBefore menv c.activeVehicle first ms rest).minAltSeen))
        (stateBefore menv c.activeVehicle first ms rest).item := by
  simp only [_recalcAltitudeRangeBearing, hv, hs, if_true]
  exact ⟨_, rfl, rfl⟩

theorem stateBefore_minmax (menv : MetricsEnv) (vehicle : Vehicle) (first : VisualItem)
    (ms : MetricsState) (rest : List VisualItem) :
    (stateBefore menv vehicle first ms rest).minAltSeen =
      (rest.flatMap (seenAltitudes menv first.coordinate.altitude)).foldl min
        first.coordinate.altitude ∧
    (stateBefore menv vehicle first ms rest).maxAltSeen =
      (rest.flatMap (seenAltitudes menv first.coordinate.altitude)).foldl max
        first.coordinate.altitude :=
  rangeLoop_minmax menv vehicle first first.showHomePosition first.coordinate.altitude rest
    (rangeLoopStart vehicle first (clearedFirst ms first))

theorem mem_flatMap_seenAltitudes (menv : MetricsEnv) (h : Rat) (rest : List VisualItem)
    (a : Rat) (ha : a ∈ rest.flatMap (seenAltitudes menv h)) :
    ∃ v ∈ rest, v.specifiesCoordinate = true ∧
      (a = entryAbsoluteAltitude menv h v ∨
        (menv.exitCoordinateSameAsEntry v = false ∧ a = exitAbsoluteAltitude menv h v)) := by
  obtain ⟨v, hv, hav⟩ := List.mem_flatMap.mp ha
  refine ⟨v, hv, ?_⟩
  unfold seenAltitudes at hav
  cases hc : v.specifiesCoordinate
  · simp [hc] at hav
  · cases he : menv.exitCoordinateSameAsEntry v
    · simp only [hc, if_true, he, Bool.not_false, List.mem_cons, List.mem_singleton,
        List.not_mem_nil, or_false] at hav
      rcases hav with hav | hav
      · exact ⟨rfl, Or.inl hav⟩
      · exact ⟨rfl, Or.inr ⟨rfl, hav⟩⟩
    · simp only [hc, if_true, he, Bool.not_true, Bool.false_eq_true, if_false,
        List.mem_singleton] at hav
      exact ⟨rfl, Or.inl hav⟩

theorem entry_mem_seenAltitudes (menv : MetricsEnv) (h : Rat) (rest : List VisualItem)
    (v : VisualItem) (hv : v ∈ rest) (hc : v.specifiesCoordinate = true) :
    entryAbsoluteAltitude menv h v ∈ rest.flatMap (seenAltitudes menv h) ∧
    (menv.exitCoordinateSameAsEntry v = false →
      exitAbsoluteAltitude menv h v ∈ rest.flatMap (seenAltitudes menv h)) := by
  refine ⟨List.mem_flatMap.mpr ⟨v, hv, by simp [seenAltitudes, hc]⟩, fun he =>
    List.mem_flatMap.mpr ⟨v, hv, by simp [seenAltitudes, hc, he]⟩⟩

theorem seen_subset_observed (menv : MetricsEnv) (first : VisualItem)
    (rest : List VisualItem) (a : Rat)
    (ha : a ∈ rest.flatMap (seenAltitudes menv first.coordinate.altitude)) :
    a ∈ observedAltitudes menv first rest := by
  obtain ⟨v, hv, hc, h⟩ := mem_flatMap_seenAltitudes menv _ rest a ha
  unfold observedAltitudes
  refine List.mem_cons_of_mem _ (List.mem_flatMap.mpr ⟨v, List.mem_filter.mpr ⟨hv, by simpa using hc⟩, ?_⟩)
  rcases h with h | ⟨_, h⟩
  · simp [h]
  · simp [h]

theorem observed_subset_seen (menv : MetricsEnv) (first : VisualItem)
    (rest : List VisualItem)
    (hexit : ∀ v ∈ rest, menv.exitCoordinateSameAsEntry v = true →
      exitAbsoluteAltitude menv first.coordinate.altitude v =
        entryAbsoluteAltitude menv first.coordinate.altitude v)
    (a : Rat) (ha : a ∈ observedAltitudes menv first rest) :
    a = first.coordinate.altitude ∨
      a ∈ rest.flatMap (seenAltitudes menv first.coordinate.altitude) := by
  unfold observedAltitudes at ha
  rcases List.mem_cons.mp ha with ha | ha
  · exact Or.inl ha
  · right
    obtain ⟨v, hv, hav⟩ := List.mem_flatMap.mp ha
    obtain ⟨hv1, hc⟩ := List.mem_filter.mp hv
    have hc1 : v.specifiesCoordinate = true := by simpa using hc
    obtain ⟨m1, m2⟩ := entry_mem_seenAltitudes menv first.coordinate.altitude rest v hv1 hc1
    simp only [List.mem_cons, List.mem_singleton, List.not_mem_nil, or_false] at hav
    rcases hav with rfl | rfl
    · exact m1
    · cases he : menv.exitCoordinateSameAsEntry v
      · exact m2 he
      · rw [hexit v hv1 he]
        exact m1

/-- C31: after `_recalcAltitudeRangeBearing` on a list of distinct items with the settings item
`first` in front, let `minAlt` and `maxAlt` be the least and the greatest of the altitudes of
`observedAltitudes`: the home altitude and the absolute entry and exit altitudes of the
coordinate-specifying items after `first`.  Then the altitude percent of every
coordinate-specifying item of the list is `(A - minAlt) / (maxAlt - minAlt)`, where `A` is
the item's absolute entry altitude, and 0 when `maxAlt = minAlt`; and it lies in `[0, 1]`.
The accessors of the item classes are taken to agree with each other: the altitude of the
settings item is not relative to home, and an item whose `exitCoordinateSameAsEntry()` holds
has the same absolute altitude at exit and entry. -/
theorem altPercent_is_normalized (menv : MetricsEnv) (c : MissionController)
    (first : VisualItem) (rest : List VisualItem) (ms : MetricsState)
    (hv : c.visualItems = some (first :: rest)) (hs : first.isSettingsItem = true)
    (hnd : ((first :: rest).map (fun v => v.oid)).Nodup)
    (hhome : menv.coordinateHasRelativeAltitude first = false)
    (hexit : ∀ v ∈ rest, menv.exitCoordinateSameAsEntry v = true →
      exitAbsoluteAltitude menv first.coordinate.altitude v =
        entryAbsoluteAltitude menv first.coordinate.altitude v) :
    ∃ ms1 minAlt maxAlt,
      _recalcAltitudeRangeBearing menv c ms = some ms1 ∧
      minAlt ∈ observedAltitudes menv first rest ∧
      (∀ a ∈ observedAltitudes menv first rest, minAlt ≤ a) ∧
      maxAlt ∈ observedAltitudes menv first rest ∧
      (∀ a ∈ observedAltitudes menv first rest, a ≤ maxAlt) ∧
      ∀ x ∈ first :: rest, x.specifiesCoordinate = true →
        (ms1.item x.oid).altPercent =
          (if maxAlt = minAlt then 0
           else (entryAbsoluteAltitude menv first.coordinate.altitude x - minAlt) /
             (maxAlt - minAlt)) ∧
        0 ≤ (ms1.item x.oid).altPercent ∧ (ms1.item x.oid).altPercent ≤ 1 := by
  obtain ⟨ms1, r0, r1⟩ := recalcAltitudeRangeBearing_items menv c first rest ms hv hs
  obtain ⟨e1, e2⟩ := stateBefore_minmax menv c.activeVehicle first ms rest
  obtain ⟨a1, a2, a3⟩ := foldl_min_spec
    (rest.flatMap (seenAltitudes menv first.coordinate.altitude)) first.coordinate.altitude
  obtain ⟨b1, b2, b3⟩ := foldl_max_spec
    (rest.flatMap (seenAltitudes menv first.coordinate.altitude)) first.coordinate.altitude
  rw [e1, e2] at r1
  generalize (rest.flatMap (seenAltitudes menv first.coordinate.altitude)).foldl min
    first.coordinate.altitude = lo at r1 a1 a2 a3
  generalize (rest.flatMap (seenAltitudes menv first.coordinate.altitude)).foldl max
    first.coordinate.altitude = hi at r1 b1 b2 b3
  have hhomeO : first.coordinate.altitude ∈ observedAltitudes menv first rest := by
    simp [observedAltitudes]
  refine ⟨ms1, lo, hi, r0, ?_, ?_, ?_, ?_, ?_⟩
  · rcases a3 with a3 | a3
    · rw [a3]; exact hhomeO
    · exact seen_subset_observed menv first rest lo a3
  · intro a ha
    rcases observed_subset_seen menv first rest hexit a ha with rfl | ha
    · exact a1
    · exact a2 a ha
  · rcases b3 with b3 | b3
    · rw [b3]; exact hhomeO
    · exact seen_subset_observed menv first rest hi b3
  · intro a ha
    rcases observed_subset_seen menv first rest hexit a ha with rfl | ha
    · exact b1
    · exact b2 a ha
  · intro x hx hc
    have hp := rangePercent_at menv first.coordinate.altitude lo (hi - lo) (first :: rest)
      (stateBefore menv c.activeVehicle first ms rest).item x hx hnd hc
    rw [← r1] at hp
    have hA : lo ≤ entryAbsoluteAltitude menv first.coordinate.altitude x ∧
        entryAbsoluteAltitude menv first.coordinate.altitude x ≤ hi := by
      rcases List.mem_cons.mp hx with rfl | hx
      · have : entryAbsoluteAltitude menv x.coordinate.altitude x = x.coordinate.altitude := by
          simp [entryAbsoluteAltitude, hhome]
        rw [this]
        exact ⟨a1, b1⟩
      · have hm := (entry_mem_seenAltitudes menv first.coordinate.altitude rest x hx hc).1
        exact ⟨a2 _ hm, b2 _ hm⟩
    have hiff : (hi - lo = 0) ↔ (hi = lo) := sub_eq_zero
    by_cases hr : hi = lo
    · have h0 : hi - lo = 0 := hiff.mpr hr
      rw [hp, if_pos h0, if_pos hr]
      exact ⟨rfl, le_refl 0, zero_le_one⟩
    · have h0 : ¬ hi - lo = 0 := fun h => hr (hiff.mp h)
      rw [hp, if_neg h0, if_neg hr]
      have hpos : 0 < hi - lo := by
        rcases lt_or_gt_of_ne hr with h | h
        · exact absurd (le_trans hA.1 hA.2) (not_le.mpr h)
        · linarith
      refine ⟨rfl, div_nonneg (by linarith [hA.1]) (le_of_lt hpos), ?_⟩
      rw [div_le_one hpos]
      linarith [hA.2]

set_option maxRecDepth 100000 in
/-- Witness for C31: for `altitudeController` the altitudes observed are 500 (home), 550, 520,
530 and 600, and the pass leaves the altitude percents 0, 1/2, 1/5 and 3/10. -/
theorem altPercent_is_normalized_witness :
    observedAltitudes exampleMetricsEnv shownHome altitudePlan =
      [500, 550, 550, 520, 520, 530, 600] ∧
    (_recalcAltitudeRangeBearing exampleMetricsEnv altitudeController zeroMetrics).map
        (fun ms => [10, 11, 12, 13].map (fun o => (ms.item o).altPercent)) =
      some [0, 1 / 2, 1 / 5, 3 / 10] ∧
    ∃ ms1 minAlt maxAlt,
      _recalcAltitudeRangeBearing exampleMetricsEnv altitudeController zeroMetrics =
        some ms1 ∧
      minAlt ∈ observedAltitudes exampleMetricsEnv shownHome altitudePlan ∧
      (∀ a ∈ observedAltitudes exampleMetricsEnv shownHome altitudePlan, minAlt ≤ a) ∧
      maxAlt ∈ observedAltitudes exampleMetricsEnv shownHome altitudePlan ∧
      (∀ a ∈ observedAltitudes exampleMetricsEnv shownHome altitudePlan, a ≤ maxAlt) ∧
      ∀ x ∈ shownHome :: altitudePlan, x.specifiesCoordinate = true →
        (ms1.item x.oid).altPercent =
          (if maxAlt = minAlt then 0
           else (entryAbsoluteAltitude exampleMetricsEnv shownHome.coordinate.altitude x -
              minAlt) / (maxAlt - minAlt)) ∧
        0 ≤ (ms1.item x.oid).altPercent ∧ (ms1.item x.oid).altPercent ≤ 1 :=
  ⟨by decide!, by decide!,
    altPercent_is_normalized exampleMetricsEnv altitudeController shownHome altitudePlan
      zeroMetrics rfl (by decide) (by decide) (by decide) (by decide!)⟩

/-! ## Hover and cruise parts of the totals -/

theorem rangeStep_split (menv : MetricsEnv) (vehicle : Vehicle) (settingsItem : VisualItem)
    (sh : Bool) (h : Rat) (s : RangeLoopState) (x : VisualItem)
    (hvtol : vehicle.vtol = true) :
    (∀ leg, legOf vehicle settingsItem sh s x = some leg → leg.vtolInHover = true →
      (_recalcAltitudeRangeBearingStep menv vehicle settingsItem sh h s x).missionDistance =
        s.missionDistance + leg.distance menv h +
          ((complexLegItems [x]).map menv.complexDistance).sum ∧
      (_recalcAltitudeRangeBearingStep menv vehicle settingsItem sh h s x).vtolHoverDistance =
        s.vtolHoverDistance + leg.distance menv h ∧
      (_recalcAltitudeRangeBearingStep menv vehicle settingsItem sh h s x).vtolCruiseDistance =
        s.vtolCruiseDistance ∧
      (_recalcAltitudeRangeBearingStep menv vehicle settingsItem sh h s x).missionTime =
        s.missionTime + leg.distance menv h / vehicle.hoverSpeed +
          ((complexLegItems [x]).map (fun v => menv.complexDistance v /
            complexSpeed vehicle s.currentHoverSpeed s.currentCruiseSpeed v)).sum ∧
      (_recalcAltitudeRangeBearingStep menv vehicle settingsItem sh h s x).vtolHoverTime =
        s.vtolHoverTime + leg.distance menv h / vehicle.hoverSpeed ∧
      (_recalcAltitudeRangeBearingStep menv vehicle settingsItem sh h s x).vtolCruiseTime =
        s.vtolCruiseTime) ∧
    (∀ leg, legOf vehicle settingsItem sh s x = some leg → leg.vtolInHover = false →
      (_recalcAltitudeRangeBearingStep menv vehicle settingsItem sh h s x).missionDistance =
        s.missionDistance + leg.distance menv h +
          ((complexLegItems [x]).map menv.complexDistance).sum ∧
      (_recalcAltitudeRangeBearingStep menv vehicle settingsItem sh h s x).vtolHoverDistance =
        s.vtolHoverDistance ∧
      (_recalcAltitudeRangeBearingStep menv vehicle settingsItem sh h s x).vtolCruiseDistance =
        s.vtolCruiseDistance + leg.distance menv h ∧
      (_recalcAltitudeRangeBearingStep menv vehicle settingsItem sh h s x).missionTime =
        s.missionTime + leg.distance menv h / leg.currentCruiseSpeed +
          ((complexLegItems [x]).map (fun v => menv.complexDistance v /
            complexSpeed vehicle s.currentHoverSpeed s.currentCruiseSpeed v)).sum ∧
      (_recalcAltitudeRangeBearingStep menv vehicle settingsItem sh h s x).vtolHoverTime =
        s.vtolHoverTime ∧
      (_recalcAltitudeRangeBearingStep menv vehicle settingsItem sh h s x).vtolCruiseTime =
        s.vtolCruiseTime + leg.distance menv h / leg.currentCruiseSpeed) ∧
    (legOf vehicle settingsItem sh s x = none →
      (_recalcAltitudeRangeBearingStep menv vehicle settingsItem sh h s x).missionDistance =
        s.missionDistance + ((complexLegItems [x]).map menv.complexDistance).sum ∧
      (_recalcAltitudeRangeBearingStep menv vehicle settingsItem sh h s x).vtolHoverDistance =
        s.vtolHoverDistance ∧
      (_recalcAltitudeRangeBearingStep menv vehicle settingsItem sh h s x).vtolCruiseDistance =
        s.vtolCruiseDistance ∧
      (_recalcAltitudeRangeBearingStep menv vehicle settingsItem sh h s x).missionTime =
        s.missionTime +
          ((complexLegItems [x]).map (fun v => menv.complexDistance v /
            complexSpeed vehicle s.currentHoverSpeed s.currentCruiseSpeed v)).sum ∧
      (_recalcAltitudeRangeBearingStep menv vehicle settingsItem sh h s x).vtolHoverTime =
        s.vtolHoverTime ∧
      (_recalcAltitudeRangeBearingStep menv vehicle settingsItem sh h s x).vtolCruiseTime =
        s.vtolCruiseTime) := by
  obtain ⟨t1, t2, t3, t4, t5, t6, -⟩ := rangeStep_totals menv vehicle settingsItem sh h s x
  rw [t1, t2, t3, t4, t5, t6]
  refine ⟨fun leg hl hh => ?_, fun leg hl hh => ?_, fun hl => ?_⟩
  · rw [hl]
    simp [hvtol, hh, Leg.speed]
  · rw [hl]
    simp [hvtol, hh, Leg.speed]
  · rw [hl]
    simp

theorem stateBefore_snoc (menv : MetricsEnv) (vehicle : Vehicle) (first : VisualItem)
    (ms : MetricsState) (pre : List VisualItem) (x : VisualItem) :
    stateBefore menv vehicle first ms (pre ++ [x]) =
      _recalcAltitudeRangeBearingStep menv vehicle first first.showHomePosition
        first.coordinate.altitude (stateBefore menv vehicle first ms pre) x := by
  simp [stateBefore, List.foldl_append]

set_option maxRecDepth 100000 in
/-- C38 (counterexample): for the VTOL vehicle `vtolVehicle` the pass on `vtolSurveyPlan`,
which ends with a survey, leaves the mission distance 111 and the mission time 113/10, while
hover and cruise distance are 3 and 8 and hover and cruise time 3/5 and 7/10: the distance
and time inside the survey are in the totals alone.  On `vtolNudgedPlan`, a list without
complex items, a second run after the last waypoint has been moved north by `2^-37` of a
degree leaves the hover distance 3 and the cruise distance `7 + 2^-37`, which is assigned,
but `qFuzzyCompare` finds the new total `10 + 2^-37` equal to 10 and `missionDistance` stays
10. -/
theorem vtol_splits_do_not_partition_totals :
    vtolSurveyController.activeVehicle.vtol = true ∧
    (complexLegItems vtolSurveyPlan).map (fun v => v.oid) = [18] ∧
    (_recalcAltitudeRangeBearing exampleMetricsEnv vtolSurveyController zeroMetrics).map
        (fun ms => (ms.mission.missionDistance, ms.mission.missionHoverDistance,
          ms.mission.missionCruiseDistance, ms.mission.missionTime,
          ms.mission.missionHoverTime, ms.mission.missionCruiseTime)) =
      some (111, 3, 8, 113 / 10, 3 / 5, 7 / 10) ∧
    complexLegItems vtolNudgedPlan = [] ∧
    (vtolFirstRunMetrics.mission.missionDistance, vtolFirstRunMetrics.mission.missionHoverDistance,
      vtolFirstRunMetrics.mission.missionCruiseDistance) = (10, 3, 7) ∧
    (stateBefore exampleMetricsEnv vtolVehicle shownHome vtolFirstRunMetrics
        vtolNudgedPlan).missionDistance = 10 + 1 / 137438953472 ∧
    qFuzzyCompare 10 (10 + 1 / 137438953472) = true ∧
    qFuzzyCompare 7 (7 + 1 / 137438953472) = false ∧
    (_recalcAltitudeRangeBearing exampleMetricsEnv vtolNudgedController
        vtolFirstRunMetrics).map
        (fun ms => (ms.mission.missionDistance, ms.mission.missionHoverDistance,
          ms.mission.missionCruiseDistance)) =
      some (10, 3, 7 + 1 / 137438953472) := by
  refine ⟨by decide, by decide, by decide!, by decide, by decide!, by decide!, by decide!,
    by decide!, by decide!⟩

/-- C38 (amended): for a VTOL vehicle and a list that starts with the settings item, every
iteration of the loop of `_recalcAltitudeRangeBearing` that forms a leg adds the distance of
the leg to the mission distance and to exactly one of the hover distance and the cruise
distance, the hover distance when the leg is flown in hover, and leaves the other unchanged;
it adds the time of the leg (the distance divided by the hover speed of the vehicle, or by the
current cruise speed) to the mission time and to the hover time or the cruise time in the
same way.  The distance and the time inside a complex item are added to the mission distance
and the mission time only, and an iteration without a leg changes none of the four parts.
The pass returns and hands the six accumulated values to the setters, each of which assigns
its member unless `qFuzzyCompare` finds the value equal to the one held. -/
theorem vtol_splits_take_every_leg (menv : MetricsEnv) (c : MissionController)
    (first : VisualItem) (rest : List VisualItem) (ms : MetricsState)
    (hv : c.visualItems = some (first :: rest)) (hs : first.isSettingsItem = true)
    (hvtol : c.activeVehicle.vtol = true) :
    (∀ (pre : List VisualItem) (x : VisualItem) (post : List VisualItem),
      rest = pre ++ x :: post →
      (∀ leg, legOf c.activeVehicle first first.showHomePosition
          (stateBefore menv c.activeVehicle first ms pre) x = some leg →
        leg.vtolInHover = true →
        (stateBefore menv c.activeVehicle first ms (pre ++ [x])).missionDistance =
          (stateBefore menv c.activeVehicle first ms pre).missionDistance +
            leg.distance menv first.coordinate.altitude +
            ((complexLegItems [x]).map menv.complexDistance).sum ∧
        (stateBefore menv c.activeVehicle first ms (pre ++ [x])).vtolHoverDistance =
          (stateBefore menv c.activeVehicle first ms pre).vtolHoverDistance +
            leg.distance menv first.coordinate.altitude ∧
        (stateBefore menv c.activeVehicle first ms (pre ++ [x])).vtolCruiseDistance =
          (stateBefore menv c.activeVehicle first ms pre).vtolCruiseDistance ∧
        (stateBefore menv c.activeVehicle first ms (pre ++ [x])).missionTime =
          (stateBefore menv c.activeVehicle first ms pre).missionTime +
            leg.distance menv first.coordinate.altitude / c.activeVehicle.hoverSpeed +
            ((complexLegItems [x]).map (fun v => menv.complexDistance v /
              complexSpeed c.activeVehicle
                (stateBefore menv c.activeVehicle first ms pre).currentHoverSpeed
                (stateBefore menv c.activeVehicle first ms pre).currentCruiseSpeed v)).sum ∧
        (stateBefore menv c.activeVehicle first ms (pre ++ [x])).vtolHoverTime =
          (stateBefore menv c.activeVehicle first ms pre).vtolHoverTime +
            leg.distance menv first.coordinate.altitude / c.activeVehicle.hoverSpeed ∧
        (stateBefore menv c.activeVehicle first ms (pre ++ [x])).vtolCruiseTime =
          (stateBefore menv c.activeVehicle first ms pre).vtolCruiseTime) ∧
      (∀ leg, legOf c.activeVehicle first first.showHomePosition
          (stateBefore menv c.activeVehicle first ms pre) x = some leg →
        leg.vtolInHover = false →
        (stateBefore menv c.activeVehicle first ms (pre ++ [x])).missionDistance =
          (stateBefore menv c.activeVehicle first ms pre).missionDistance +
            leg.distance menv first.coordinate.altitude +
            ((complexLegItems [x]).map menv.complexDistance).sum ∧
        (stateBefore menv c.activeVehicle first ms (pre ++ [x])).vtolHoverDistance =
          (stateBefore menv c.activeVehicle first ms pre).vtolHoverDistance ∧
        (stateBefore menv c.activeVehicle first ms (pre ++ [x])).vtolCruiseDistance =
          (stateBefore menv c.activeVehicle first ms pre).vtolCruiseDistance +
            leg.distance menv first.coordinate.altitude ∧
        (stateBefore menv c.activeVehicle first ms (pre ++ [x])).missionTime =
          (stateBefore menv c.activeVehicle first ms pre).missionTime +
            leg.distance menv first.coordinate.altitude / leg.currentCruiseSpeed +
            ((complexLegItems [x]).map (fun v => menv.complexDistance v /
              complexSpeed c.activeVehicle
                (stateBefore menv c.activeVehicle first ms pre).currentHoverSpeed
                (stateBefore menv c.activeVehicle first ms pre).currentCruiseSpeed v)).sum ∧
        (stateBefore menv c.activeVehicle first ms (pre ++ [x])).vtolHoverTime =
          (stateBefore menv c.activeVehicle first ms pre).vtolHoverTime ∧
        (stateBefore menv c.activeVehicle first ms (pre ++ [x])).vtolCruiseTime =
          (stateBefore menv c.activeVehicle first ms pre).vtolCruiseTime +
            leg.distance menv first.coordinate.altitude / leg.currentCruiseSpeed) ∧
      (legOf c.activeVehicle first first.showHomePosition
          (stateBefore menv c.activeVehicle first ms pre) x = none →
        (stateBefore menv c.activeVehicle first ms (pre ++ [x])).missionDistance =
          (stateBefore menv c.activeVehicle first ms pre).missionDistance +
            ((complexLegItems [x]).map menv.complexDistance).sum ∧
        (stateBefore menv c.activeVehicle first ms (pre ++ [x])).vtolHoverDistance =
          (stateBefore menv c.activeVehicle first ms pre).vtolHoverDistance ∧
        (stateBefore menv c.activeVehicle first ms (pre ++ [x])).vtolCruiseDistance =
          (stateBefore menv c.activeVehicle first ms pre).vtolCruiseDistance ∧
        (stateBefore menv c.activeVehicle first ms (pre ++ [x])).missionTime =
          (stateBefore menv c.activeVehicle first ms pre).missionTime +
            ((complexLegItems [x]).map (fun v => menv.complexDistance v /
              complexSpeed c.activeVehicle
                (stateBefore menv c.activeVehicle first ms pre).currentHoverSpeed
                (stateBefore menv c.activeVehicle first ms pre).currentCruiseSpeed v)).sum ∧
        (stateBefore menv c.activeVehicle first ms (pre ++ [x])).vtolHoverTime =
          (stateBefore menv c.activeVehicle first ms pre).vtolHoverTime ∧
        (stateBefore menv c.activeVehicle first ms (pre ++ [x])).vtolCruiseTime =
          (stateBefore menv c.activeVehicle first ms pre).vtolCruiseTime)) ∧
    ∃ ms1, _recalcAltitudeRangeBearing menv c ms = some ms1 ∧
      ms1.mission.missionDistance = assigned ms.mission.missionDistance
        (stateBefore menv c.activeVehicle first ms rest).missionDistance ∧
      ms1.mission.missionHoverDistance = assigned ms.mission.missionHoverDistance
        (stateBefore menv c.activeVehicle first ms rest).vtolHoverDistance ∧
      ms1.mission.missionCruiseDistance = assigned ms.mission.missionCruiseDistance
        (stateBefore menv c.activeVehicle first ms rest).vtolCruiseDistance ∧
      ms1.mission.missionTime = assigned ms.mission.missionTime
        (stateBefore menv c.activeVehicle first ms rest).missionTime ∧
      ms1.mission.missionHoverTime = assigned ms.mission.missionHoverTime
        (stateBefore menv c.activeVehicle first ms rest).vtolHoverTime ∧
      ms1.mission.missionCruiseTime = assigned ms.mission.missionCruiseTime
        (stateBefore menv c.activeVehicle first ms rest).vtolCruiseTime := by
  obtain ⟨ms1, r0, -, r2, r3, r4, r5, r6, r7, -⟩ :=
    recalcAltitudeRangeBearing_result menv c first rest ms hv hs
  refine ⟨fun pre x post _ => ?_, ms1, r0, r2, r4, r6, r3, r5, r7⟩
  rw [stateBefore_snoc]
  exact rangeStep_split menv c.activeVehicle first first.showHomePosition
    first.coordinate.altitude (stateBefore menv c.activeVehicle first ms pre) x hvtol

set_option maxRecDepth 100000 in
/-- Witness for C38: on `vtolSurveyController` the accumulators after each of the eight
iterations are listed as mission distance, hover distance and cruise distance: the legs of
distance 1, 2 and 4 are flown in cruise and go to the cruise distance, the leg of distance 3
is flown in hover and goes to the hover distance, and the last iteration adds the leg of
distance 1 to the cruise distance and the distance 100 inside the survey to the mission
distance alone. -/
theorem vtol_splits_take_every_leg_witness :
    vtolSurveyController.visualItems = some (shownHome :: vtolSurveyPlan) ∧
    shownHome.isSettingsItem = true ∧
    vtolSurveyController.activeVehicle.vtol = true ∧
    (List.range 9).map (fun n =>
        ((stateBefore exampleMetricsEnv vtolVehicle shownHome zeroMetrics
            (vtolSurveyPlan.take n)).missionDistance,
          (stateBefore exampleMetricsEnv vtolVehicle shownHome zeroMetrics
            (vtolSurveyPlan.take n)).vtolHoverDistance,
          (stateBefore exampleMetricsEnv vtolVehicle shownHome zeroMetrics
            (vtolSurveyPlan.take n)).vtolCruiseDistance)) =
      [(0, 0, 0), (1, 0, 1), (3, 0, 3), (3, 0, 3), (6, 3, 3), (6, 3, 3), (6, 3, 3), (10, 3, 7),
        (111, 3, 8)] ∧
    (List.range 8).map (fun n =>
        (legOf vtolVehicle shownHome true
          (stateBefore exampleMetricsEnv vtolVehicle shownHome zeroMetrics
            (vtolSurveyPlan.take n)) (vtolSurveyPlan.getD n blankItem)).map
          (fun l => (l.prev.oid, l.item.oid, l.vtolInHover, l.distance exampleMetricsEnv 500))) =
      [some (10, 11, false, 1), some (11, 12, false, 2), none, some (12, 14, true, 3), none,
        none, some (14, 17, false, 4), some (17, 18, false, 1)] ∧
    (∀ (pre : List VisualItem) (x : VisualItem) (post : List VisualItem),
      vtolSurveyPlan = pre ++ x :: post →
      (∀ leg, legOf vtolVehicle shownHome shownHome.showHomePosition
          (stateBefore exampleMetricsEnv vtolVehicle shownHome zeroMetrics pre) x = some leg →
        leg.vtolInHover = true →
        (stateBefore exampleMetricsEnv vtolVehicle shownHome zeroMetrics
            (pre ++ [x])).missionDistance =
          (stateBefore exampleMetricsEnv vtolVehicle shownHome zeroMetrics pre).missionDistance +
            leg.distance exampleMetricsEnv shownHome.coordinate.altitude +
            ((complexLegItems [x]).map exampleMetricsEnv.complexDistance).sum ∧
        (stateBefore exampleMetricsEnv vtolVehicle shownHome zeroMetrics
            (pre ++ [x])).vtolHoverDistance =
          (stateBefore exampleMetricsEnv vtolVehicle shownHome zeroMetrics pre).vtolHoverDistance +
            leg.distance exampleMetricsEnv shownHome.coordinate.altitude ∧
        (stateBefore exampleMetricsEnv vtolVehicle shownHome zeroMetrics
            (pre ++ [x])).vtolCruiseDistance =
          (stateBefore exampleMetricsEnv vtolVehicle shownHome zeroMetrics pre).vtolCruiseDistance ∧
        (stateBefore exampleMetricsEnv vtolVehicle shownHome zeroMetrics (pre ++ [x])).missionTime =
          (stateBefore exampleMetricsEnv vtolVehicle shownHome zeroMetrics pre).missionTime +
            leg.distance exampleMetricsEnv shownHome.coordinate.altitude / vtolVehicle.hoverSpeed +
            ((complexLegItems [x]).map (fun v => exampleMetricsEnv.complexDistance v /
              complexSpeed vtolVehicle
                (stateBefore exampleMetricsEnv vtolVehicle shownHome zeroMetrics
                    pre).currentHoverSpeed
                (stateBefore exampleMetricsEnv vtolVehicle shownHome zeroMetrics
                    pre).currentCruiseSpeed v)).sum ∧
        (stateBefore exampleMetricsEnv vtolVehicle shownHome zeroMetrics
            (pre ++ [x])).vtolHoverTime =
          (stateBefore exampleMetricsEnv vtolVehicle shownHome zeroMetrics pre).vtolHoverTime +
            leg.distance exampleMetricsEnv shownHome.coordinate.altitude / vtolVehicle.hoverSpeed ∧
        (stateBefore exampleMetricsEnv vtolVehicle shownHome zeroMetrics
            (pre ++ [x])).vtolCruiseTime =
          (stateBefore exampleMetricsEnv vtolVehicle shownHome zeroMetrics pre).vtolCruiseTime) ∧
      (∀ leg, legOf vtolVehicle shownHome shownHome.showHomePosition
          (stateBefore exampleMetricsEnv vtolVehicle shownHome zeroMetrics pre) x = some leg →
        leg.vtolInHover = false →
        (stateBefore exampleMetricsEnv vtolVehicle shownHome zeroMetrics
            (pre ++ [x])).missionDistance =
          (stateBefore exampleMetricsEnv vtolVehicle shownHome zeroMetrics pre).missionDistance +
            leg.distance exampleMetricsEnv shownHome.coordinate.altitude +
            ((complexLegItems [x]).map exampleMetricsEnv.complexDistance).sum ∧
        (stateBefore exampleMetricsEnv vtolVehicle shownHome zeroMetrics
            (pre ++ [x])).vtolHoverDistance =
          (stateBefore exampleMetricsEnv vtolVehicle shownHome zeroMetrics pre).vtolHoverDistance ∧
        (stateBefore exampleMetricsEnv vtolVehicle shownHome zeroMetrics
            (pre ++ [x])).vtolCruiseDistance =
          (stateBefore exampleMetricsEnv vtolVehicle shownHome zeroMetrics pre).vtolCruiseDistance +
            leg.distance exampleMetricsEnv shownHome.coordinate.altitude ∧
        (stateBefore exampleMetricsEnv vtolVehicle shownHome zeroMetrics (pre ++ [x])).missionTime =
          (stateBefore exampleMetricsEnv vtolVehicle shownHome zeroMetrics pre).missionTime +
            leg.distance exampleMetricsEnv shownHome.coordinate.altitude / leg.currentCruiseSpeed +
            ((complexLegItems [x]).map (fun v => exampleMetricsEnv.complexDistance v /
              complexSpeed vtolVehicle
                (stateBefore exampleMetricsEnv vtolVehicle shownHome zeroMetrics
                    pre).currentHoverSpeed
                (stateBefore exampleMetricsEnv vtolVehicle shownHome zeroMetrics
                    pre).currentCruiseSpeed v)).sum ∧
        (stateBefore exampleMetricsEnv vtolVehicle shownHome zeroMetrics
            (pre ++ [x])).vtolHoverTime =
          (stateBefore exampleMetricsEnv vtolVehicle shownHome zeroMetrics pre).vtolHoverTime ∧
        (stateBefore exampleMetricsEnv vtolVehicle shownHome zeroMetrics
            (pre ++ [x])).vtolCruiseTime =
          (stateBefore exampleMetricsEnv vtolVehicle shownHome zeroMetrics pre).vtolCruiseTime +
            leg.distance exampleMetricsEnv shownHome.coordinate.altitude / leg.currentCruiseSpeed) ∧
      (legOf vtolVehicle shownHome shownHome.showHomePosition
          (stateBefore exampleMetricsEnv vtolVehicle shownHome zeroMetrics pre) x = none →
        (stateBefore exampleMetricsEnv vtolVehicle shownHome zeroMetrics
            (pre ++ [x])).missionDistance =
          (stateBefore exampleMetricsEnv vtolVehicle shownHome zeroMetrics pre).missionDistance +
            ((complexLegItems [x]).map exampleMetricsEnv.complexDistance).sum ∧
        (stateBefore exampleMetricsEnv vtolVehicle shownHome zeroMetrics
            (pre ++ [x])).vtolHoverDistance =
          (stateBefore exampleMetricsEnv vtolVehicle shownHome zeroMetrics pre).vtolHoverDistance ∧
        (stateBefore exampleMetricsEnv vtolVehicle shownHome zeroMetrics
            (pre ++ [x])).vtolCruiseDistance =
          (stateBefore exampleMetricsEnv vtolVehicle shownHome zeroMetrics pre).vtolCruiseDistance ∧
        (stateBefore exampleMetricsEnv vtolVehicle shownHome zeroMetrics (pre ++ [x])).missionTime =
          (stateBefore exampleMetricsEnv vtolVehicle shownHome zeroMetrics pre).missionTime +
            ((complexLegItems [x]).map (fun v => exampleMetricsEnv.complexDistance v /
              complexSpeed vtolVehicle
                (stateBefore exampleMetricsEnv vtolVehicle shownHome zeroMetrics
                    pre).currentHoverSpeed
                (stateBefore exampleMetricsEnv vtolVehicle shownHome zeroMetrics
                    pre).currentCruiseSpeed v)).sum ∧
        (stateBefore exampleMetricsEnv vtolVehicle shownHome zeroMetrics
            (pre ++ [x])).vtolHoverTime =
          (stateBefore exampleMetricsEnv vtolVehicle shownHome zeroMetrics pre).vtolHoverTime ∧
        (stateBefore exampleMetricsEnv vtolVehicle shownHome zeroMetrics
            (pre ++ [x])).vtolCruiseTime =
          (stateBefore exampleMetricsEnv vtolVehicle shownHome zeroMetrics pre).vtolCruiseTime)) ∧
    ∃ ms1, _recalcAltitudeRangeBearing exampleMetricsEnv vtolSurveyController zeroMetrics
        = some ms1 ∧
      ms1.mission.missionDistance = assigned zeroMetrics.mission.missionDistance
        (stateBefore exampleMetricsEnv vtolVehicle shownHome zeroMetrics
            vtolSurveyPlan).missionDistance ∧
      ms1.mission.missionHoverDistance = assigned zeroMetrics.mission.missionHoverDistance
        (stateBefore exampleMetricsEnv vtolVehicle shownHome zeroMetrics
            vtolSurveyPlan).vtolHoverDistance ∧
      ms1.mission.missionCruiseDistance = assigned zeroMetrics.mission.missionCruiseDistance
        (stateBefore exampleMetricsEnv vtolVehicle shownHome zeroMetrics
            vtolSurveyPlan).vtolCruiseDistance ∧
      ms1.mission.missionTime = assigned zeroMetrics.mission.missionTime
        (stateBefore exampleMetricsEnv vtolVehicle shownHome zeroMetrics
            vtolSurveyPlan).missionTime ∧
      ms1.mission.missionHoverTime = assigned zeroMetrics.mission.missionHoverTime
        (stateBefore exampleMetricsEnv vtolVehicle shownHome zeroMetrics
            vtolSurveyPlan).vtolHoverTime ∧
      ms1.mission.missionCruiseTime = assigned zeroMetrics.mission.missionCruiseTime
        (stateBefore exampleMetricsEnv vtolVehicle shownHome zeroMetrics
            vtolSurveyPlan).vtolCruiseTime :=
  ⟨rfl, by decide, by decide, by decide!, by decide!,
    vtol_splits_take_every_leg exampleMetricsEnv vtolSurveyController shownHome vtolSurveyPlan
      zeroMetrics rfl (by decide) (by decide)⟩

/-! ## The pairs of the segment pass and of the metrics pass -/

theorem legOf_pair (vehicle : Vehicle) (settingsItem : VisualItem) (sh : Bool)
    (s : RangeLoopState) (x : VisualItem) :
    (legOf vehicle settingsItem sh s x).map (fun l => (l.prev.oid, l.item.oid)) =
      (if x.specifiesCoordinate && !x.isStandaloneCoordinate &&
          (s.lastCoordinateItem.oid != settingsItem.oid ||
            (s.linkBackToHome || (s.firstCoordinateItem && x.isTakeoff && sh))) then
        some (s.lastCoordinateItem.oid, x.oid)
       else none) := by
  unfold legOf
  simp only [rangeCommand_eq]
  split_ifs <;> rfl

theorem metricsLegs_pairs (menv : MetricsEnv) (vehicle : Vehicle) (first : VisualItem)
    (rest : List VisualItem) (s : RangeLoopState)
    (hlink : s.linkBackToHome = false)
    (hhome : ∀ x ∈ rest, (x.isTakeoff && first.showHomePosition) = false)
    (hstand : ∀ x ∈ rest, x.specifiesCoordinate = true → x.isStandaloneCoordinate = false)
    (hoid : ∀ x ∈ rest, x.oid ≠ first.oid) :
    (metricsLegs menv vehicle first s rest).map (fun l => (l.prev.oid, l.item.oid)) =
      adjacentPairs
        ((if s.lastCoordinateItem.oid != first.oid then [s.lastCoordinateItem] else []) ++
          coordinateItems rest) := by
  induction rest generalizing s with
  | nil =>
    simp only [metricsLegs, List.map_nil, coordinateItems, List.filter_nil, List.append_nil]
    split_ifs <;> rfl
  | cons x rest ih =>
    obtain ⟨c1, c2, -, -, -, -⟩ := rangeStep_control menv vehicle first first.showHomePosition
      first.coordinate.altitude s x
    have hx : (s.firstCoordinateItem && x.isTakeoff && first.showHomePosition) = false := by
      rw [Bool.and_assoc, hhome x (List.mem_cons_self _ _)]
      simp
    have hlink1 : (_recalcAltitudeRangeBearingStep menv vehicle first first.showHomePosition
        first.coordinate.altitude s x).linkBackToHome = false := by
      rw [c1, hlink, hx]
      rfl
    have hi := ih (_recalcAltitudeRangeBearingStep menv vehicle first first.showHomePosition
        first.coordinate.altitude s x) hlink1
      (fun y hy => hhome y (List.mem_cons_of_mem _ hy))
      (fun y hy => hstand y (List.mem_cons_of_mem _ hy))
      (fun y hy => hoid y (List.mem_cons_of_mem _ hy))
    have hp := legOf_pair vehicle first first.showHomePosition s x
    rw [hlink, hx] at hp
    simp only [Bool.or_false] at hp
    simp only [metricsLegs, List.map_append, hi, c2]
    cases hc : x.specifiesCoordinate
    · have hle : x.isLineEnd = false := by simp [VisualItem.isLineEnd, hc]
      have hnone : legOf vehicle first first.showHomePosition s x = none := by
        cases hl : legOf vehicle first first.showHomePosition s x with
        | none => rfl
        | some leg => rw [hl, hc] at hp; simp at hp
      simp [hnone, coordinateItems, List.filter_cons, hle]
    · have hst := hstand x (List.mem_cons_self _ _) hc
      have hle : x.isLineEnd = true := by simp [VisualItem.isLineEnd, hc, hst]
      have hxo : (x.oid != first.oid) = true := by
        simpa using hoid x (List.mem_cons_self _ _)
      rw [hc, hst] at hp
      simp only [Bool.not_false, Bool.and_self, Bool.true_and] at hp
      cases hl : legOf vehicle first first.showHomePosition s x with
      | none =>
        rw [hl] at hp
        have hlast : (s.lastCoordinateItem.oid != first.oid) = false := by
          cases hb : (s.lastCoordinateItem.oid != first.oid)
          · rfl
          · rw [hb] at hp; simp at hp
        simp [hlast, hxo, coordinateItems, List.filter_cons, hle]
      | some leg =>
        rw [hl] at hp
        have hlast : (s.lastCoordinateItem.oid != first.oid) = true := by
          cases hb : (s.lastCoordinateItem.oid != first.oid)
          · rw [hb] at hp; simp at hp
          · rfl
        rw [hlast] at hp
        simp only [Option.map_some', if_true, Option.some.injEq] at hp
        simp [hlast, hxo, coordinateItems, List.filter_cons, hle, adjacentPairs, hp]

set_option maxRecDepth 100000 in
/-- C37: the segment pass and the metrics pass pair items differently.  In
`standaloneController` the settings item (home position not shown) is followed by a waypoint
(identity 11), an item with a standalone coordinate (identity 12) and a waypoint (identity
13).  The segment pass holds the one segment from 11 to 13, while the metrics pass forms the
one leg from 12 to 13 and stores its distance 2 in the second waypoint.  In `homeLinkController`, whose settings item shows the home position before
a takeoff and a waypoint (identity 12), the metrics pass forms the leg from the settings item
(identity 10) to the waypoint, and the segment pass holds no segment. -/
theorem passes_pair_items_differently :
    (hiddenHome :: standalonePlan).map
        (fun v => (v.oid, v.isSettingsItem, v.specifiesCoordinate, v.isStandaloneCoordinate)) =
      [(10, true, true, false), (11, false, true, false), (12, false, true, true),
        (13, false, true, false)] ∧
    (_recalcWaypointLines standaloneController).map (fun c => c.linesTable.keys) =
      some [(11, 13)] ∧
    (passLegs exampleMetricsEnv standaloneController.activeVehicle hiddenHome standalonePlan
        zeroMetrics).map (fun l => (l.prev.oid, l.item.oid)) = [(12, 13)] ∧
    (_recalcAltitudeRangeBearing exampleMetricsEnv standaloneController zeroMetrics).map
        (fun ms => (ms.item 13).distance) = some 2 ∧
    (_recalcWaypointLines homeLinkController).map (fun c => c.linesTable.keys) = some [] ∧
    (passLegs exampleMetricsEnv homeLinkController.activeVehicle shownHome takeoffThenWaypoint
        zeroMetrics).map (fun l => (l.prev.oid, l.item.oid)) = [(10, 12)] := by
  refine ⟨by decide, by decide, by decide, by decide!, by decide, by decide⟩

/-- Where the two passes agree: on a list of distinct items with the settings item `first` in
front, in which no item after `first` has a standalone coordinate and either `first` does not
show the home position or no item is a simple NAV_TAKEOFF, the pairs (predecessor, item) of
the legs of `_recalcAltitudeRangeBearing` are, in the same order, the keys of the segments
that `_recalcWaypointLines` holds; an item has a segment ending at it that starts at `p` exactly
when it has a leg whose predecessor is `p`, and then it holds the distance and azimuth of that
leg; an item at which no segment ends holds the distance and azimuth 0. -/
theorem passes_pair_items_identically (menv : MetricsEnv) (c : MissionController)
    (first : VisualItem) (rest : List VisualItem) (ms : MetricsState)
    (hv : c.visualItems = some (first :: rest)) (hs : first.isSettingsItem = true)
    (hnd : ((first :: rest).map (fun v => v.oid)).Nodup)
    (hhome : ∀ x ∈ rest, (x.isTakeoff && first.showHomePosition) = false)
    (hstand : ∀ x ∈ rest, x.specifiesCoordinate = true → x.isStandaloneCoordinate = false) :
    ∃ c1 ms1, _recalcWaypointLines c = some c1 ∧
      _recalcAltitudeRangeBearing menv c ms = some ms1 ∧
      (passLegs menv c.activeVehicle first rest ms).map (fun l => (l.prev.oid, l.item.oid)) =
        c1.linesTable.keys ∧
      (∀ x ∈ rest, ∀ p : Nat, (p, x.oid) ∈ c1.linesTable.keys ↔
        ∃ leg ∈ passLegs menv c.activeVehicle first rest ms, leg.item = x ∧ leg.prev.oid = p) ∧
      (∀ leg ∈ passLegs menv c.activeVehicle first rest ms,
        leg.item ∈ rest ∧
        (ms1.item leg.item.oid).distance = leg.distance menv first.coordinate.altitude ∧
        (ms1.item leg.item.oid).azimuth = leg.azimuth menv first.coordinate.altitude) ∧
      (∀ x ∈ rest, (∀ p : Nat, (p, x.oid) ∉ c1.linesTable.keys) →
        (ms1.item x.oid).distance = 0 ∧ (ms1.item x.oid).azimuth = 0) := by
  have hnd1 := hnd
  simp only [List.map_cons, List.nodup_cons, List.mem_map, not_exists, not_and] at hnd1
  obtain ⟨c1, k1, k2⟩ := recalcWaypointLines_linesTable_keys c first rest hv hs hnd
  obtain ⟨ms1, r0, -, -, -, -, -, -, -, r8⟩ :=
    recalcAltitudeRangeBearing_result menv c first rest ms hv hs
  obtain ⟨w1, w2⟩ := passLegs_written menv c.activeVehicle first rest ms hnd
  have hpairs : (passLegs menv c.activeVehicle first rest ms).map
      (fun l => (l.prev.oid, l.item.oid)) = c1.linesTable.keys := by
    have := metricsLegs_pairs menv c.activeVehicle first rest
      (rangeLoopStart c.activeVehicle first (clearedFirst ms first)) rfl hhome hstand
      (fun x hx e => hnd1.1 x hx e)
    rw [k2]
    unfold passLegs
    rw [this]
    simp [rangeLoopStart]
  have hiff : ∀ x ∈ rest, ∀ p : Nat, (p, x.oid) ∈ c1.linesTable.keys ↔
      ∃ leg ∈ passLegs menv c.activeVehicle first rest ms, leg.item = x ∧ leg.prev.oid = p := by
    intro x hx p
    rw [← hpairs, List.mem_map]
    constructor
    · rintro ⟨leg, hleg, he⟩
      simp only [Prod.mk.injEq] at he
      exact ⟨leg, hleg, List.inj_on_of_nodup_map hnd1.2 (w1 leg hleg).1 hx he.2, he.1⟩
    · rintro ⟨leg, hleg, rfl, rfl⟩
      exact ⟨leg, hleg, rfl⟩
  refine ⟨c1, ms1, k1, r0, hpairs, hiff, ?_, ?_⟩
  · intro leg hleg
    obtain ⟨m1, m2, m3⟩ := w1 leg hleg
    exact ⟨m1, by rw [(r8 _).1, m2], by rw [(r8 _).2, m3]⟩
  · intro x hx hno
    have hz := w2 x (List.mem_cons_of_mem _ hx) (fun leg hleg e =>
      hno leg.prev.oid ((hiff x hx leg.prev.oid).mpr ⟨leg, hleg, e, rfl⟩))
    exact ⟨by rw [(r8 _).1, hz.1], by rw [(r8 _).2, hz.2]⟩

/-! ## V1 documents without a planned home position -/

theorem specValidateKeys_missing (json : QJsonValue) (infos : List KeyValidateInfo)
    (h : ∃ info ∈ infos, info.required = true ∧ json.contains info.key = false) :
    ∃ e, specValidateKeys json infos = Except.error e := by
  induction infos with
  | nil => obtain ⟨info, hi, _⟩ := h; simp at hi
  | cons a rest ih =>
    obtain ⟨info, hi, hr, hc⟩ := h
    unfold specValidateKeys
    by_cases hca : json.contains a.key = true
    · simp only [hca, if_true]
      by_cases ht : (json.get a.key).type = a.type
      · simp only [ht, if_true]
        rcases List.mem_cons.mp hi with rfl | hi
        · rw [hc] at hca
          exact absurd hca (by decide)
        · exact ih ⟨info, hi, hr, hc⟩
      · simp only [ht, if_false]
        exact ⟨_, rfl⟩
    · simp only [hca, if_false]
      by_cases hra : a.required = true
      · simp only [hra, if_true]
        exact ⟨_, rfl⟩
      · simp only [hra, if_false]
        rcases List.mem_cons.mp hi with rfl | hi
        · exact absurd hr hra
        · exact ih ⟨info, hi, hr, hc⟩

theorem specEnv_rejectsMissingRequiredKey : specEnv.RejectsMissingRequiredKey :=
  fun json infos h => specValidateKeys_missing json infos h

/-- C17 (amended): a V1 object that has no key `plannedHomePosition` does not load.  The root
key list of `_loadJsonMissionFileV1` marks the key as required; with a key validation that
rejects an object lacking a required key, the loader returns false with the message of the
validation, for every bound on the merge loop, leaves the item list as it was, and so never
returns true: no settings item is synthesized. -/
theorem loadJsonMissionFileV1_requires_home (env : Env) (fuel : Nat) (json : QJsonValue)
    (st : LoadState) (hreq : env.RejectsMissingRequiredKey)
    (hmiss : json.contains "plannedHomePosition" = false) :
    (∃ e, env.validateKeys json rootKeyInfoListV1 = Except.error e ∧
      _loadJsonMissionFileV1 env fuel json st = some (false, st.setError e) ∧
      (st.setError e).visualItems = st.visualItems) ∧
    ∀ st1, _loadJsonMissionFileV1 env fuel json st ≠ some (true, st1) := by
  obtain ⟨e, he⟩ := hreq json rootKeyInfoListV1
    ⟨{ key := "plannedHomePosition", type := QJsonType.Object, required := true },
      by simp [rootKeyInfoListV1], rfl, hmiss⟩
  have hl := loadJsonMissionFileV1_of_invalid_keys env fuel json st e he
  refine ⟨⟨e, he, hl, rfl⟩, ?_⟩
  intro st1 h
  rw [hl] at h
  simp at h

set_option maxRecDepth 100000 in
/-- Witness for C17 (amended): the reference key validation rejects an object lacking a
required key, and the document `v1DocumentWithoutHome` has no key `plannedHomePosition`. -/
theorem loadJsonMissionFileV1_requires_home_witness :
    specEnv.RejectsMissingRequiredKey ∧
    v1DocumentWithoutHome.contains "plannedHomePosition" = false ∧
    (∃ e, specEnv.validateKeys v1DocumentWithoutHome rootKeyInfoListV1 = Except.error e ∧
      _loadJsonMissionFileV1 specEnv 10 v1DocumentWithoutHome emptyLoadState =
        some (false, emptyLoadState.setError e) ∧
      (emptyLoadState.setError e).visualItems = emptyLoadState.visualItems) ∧
    ∀ st1, _loadJsonMissionFileV1 specEnv 10 v1DocumentWithoutHome emptyLoadState ≠
      some (true, st1) :=
  ⟨specEnv_rejectsMissingRequiredKey, by decide,
    loadJsonMissionFileV1_requires_home specEnv 10 v1DocumentWithoutHome emptyLoadState
      specEnv_rejectsMissingRequiredKey (by decide)⟩

end QGC
